import Mathlib

/-!
# Swarm pipeline: shallow embedding and verified properties

Source: `Source/Zombiengineering/Swarm` (spatial hash grid, perception, path replan,
follow and integrate processors).

Conventions of the embedding

* The engine's `float`/`double` values are exact rationals (`ℚ`); comparisons, products,
  `floor` and `ceil` are the exact ones.
* `int32`/`int64` values are `Int`.  `HashCoord` multiplies an `int32` by a 27-bit constant
  inside `int64`, which cannot overflow, and the two's-complement xor of two `int64` words is
  `Int.xor`.
* Loops are structural recursions over the array they walk; an early `return` is a `false`
  continue-flag handed back to the enclosing loop.
* Calls into services that are outside the repository (navmesh, physics, the async task queue)
  are parameters of the functions that call them.
-/

namespace Swarm

/-! ## Basic data -/

structure FVector where
  X : ℚ
  Y : ℚ
  Z : ℚ
deriving DecidableEq

structure FIntPoint where
  X : Int
  Y : Int
deriving DecidableEq

structure FVector2D where
  X : ℚ
  Y : ℚ
deriving DecidableEq

structure FIntVector where
  X : Int
  Y : Int
  Z : Int
deriving DecidableEq

/-! ## Engine math (UnrealMathUtility.h, Vector.h)

These functions belong to the engine, not to the repository.  The ones that are exact on
rationals are written out from their engine definitions; square root, inverse square root,
cosine and arc cosine are parameters (`FMathOps`). -/

structure FMathOps where
  Sqrt : ℚ → ℚ
  InvSqrt : ℚ → ℚ
  Cos : ℚ → ℚ
  Acos : ℚ → ℚ

def KINDA_SMALL_NUMBER : ℚ := 1 / 10000

def SMALL_NUMBER : ℚ := 1 / 100000000

/-- `FMath::Clamp(X, Min, Max)`: `Max(Min(X, Max), Min)`. -/
def Clamp {α : Type} [LinearOrder α] (X Min Max : α) : α := max (min X Max) Min

/-- `FMath::Lerp(A, B, Alpha)`: `A + Alpha * (B - A)`. -/
def Lerp (A B Alpha : ℚ) : ℚ := A + Alpha * (B - A)

def Square (A : ℚ) : ℚ := A * A

namespace FVector

def ZeroVector : FVector := { X := 0, Y := 0, Z := 0 }

def add (A B : FVector) : FVector := { X := A.X + B.X, Y := A.Y + B.Y, Z := A.Z + B.Z }

def sub (A B : FVector) : FVector := { X := A.X - B.X, Y := A.Y - B.Y, Z := A.Z - B.Z }

def scale (A : FVector) (k : ℚ) : FVector := { X := A.X * k, Y := A.Y * k, Z := A.Z * k }

def SizeSquared (A : FVector) : ℚ := A.X * A.X + A.Y * A.Y + A.Z * A.Z

def SizeSquared2D (A : FVector) : ℚ := A.X * A.X + A.Y * A.Y

def Size (M : FMathOps) (A : FVector) : ℚ := M.Sqrt A.SizeSquared

def Size2D (M : FMathOps) (A : FVector) : ℚ := M.Sqrt A.SizeSquared2D

def DistSquared (A B : FVector) : ℚ :=
  Square (B.X - A.X) + Square (B.Y - A.Y) + Square (B.Z - A.Z)

def DistSquared2D (A B : FVector) : ℚ := Square (B.X - A.X) + Square (B.Y - A.Y)

def Dist2D (M : FMathOps) (A B : FVector) : ℚ := M.Sqrt (DistSquared2D A B)

def DotProduct (A B : FVector) : ℚ := A.X * B.X + A.Y * B.Y + A.Z * B.Z

/-- `IsNearlyZero(Tolerance = KINDA_SMALL_NUMBER)`. -/
def IsNearlyZero (A : FVector) : Bool :=
  decide (|A.X| ≤ KINDA_SMALL_NUMBER ∧ |A.Y| ≤ KINDA_SMALL_NUMBER ∧ |A.Z| ≤ KINDA_SMALL_NUMBER)

/-- `Equals(V, Tolerance = KINDA_SMALL_NUMBER)`. -/
def Equals (A V : FVector) : Bool :=
  decide (|A.X - V.X| ≤ KINDA_SMALL_NUMBER ∧ |A.Y - V.Y| ≤ KINDA_SMALL_NUMBER ∧
    |A.Z - V.Z| ≤ KINDA_SMALL_NUMBER)

/-- `GetSafeNormal2D(Tolerance = SMALL_NUMBER)`. -/
def GetSafeNormal2D (M : FMathOps) (A : FVector) : FVector :=
  let SquareSum := A.X * A.X + A.Y * A.Y
  if SquareSum = 1 then
    if A.Z = 0 then A else { X := A.X, Y := A.Y, Z := 0 }
  else if SquareSum < SMALL_NUMBER then ZeroVector
  else
    let Scale := M.InvSqrt SquareSum
    { X := A.X * Scale, Y := A.Y * Scale, Z := 0 }

/-- `GetClampedToMaxSize(MaxSize)`. -/
def GetClampedToMaxSize (M : FMathOps) (A : FVector) (MaxSize : ℚ) : FVector :=
  if MaxSize < KINDA_SMALL_NUMBER then ZeroVector
  else
    let VSq := A.SizeSquared
    if VSq > Square MaxSize then
      let Scale := MaxSize * M.InvSqrt VSq
      { X := A.X * Scale, Y := A.Y * Scale, Z := A.Z * Scale }
    else A

end FVector

/-- `FMath::VInterpTo(Current, Target, DeltaTime, InterpSpeed)`. -/
def VInterpTo (Current Target : FVector) (DeltaTime InterpSpeed : ℚ) : FVector :=
  if InterpSpeed ≤ 0 then Target
  else
    let Dist := Target.sub Current
    if Dist.SizeSquared < KINDA_SMALL_NUMBER then Target
    else
      let DeltaMove := Dist.scale (Clamp (DeltaTime * InterpSpeed) 0 1)
      Current.add DeltaMove

/-- The pair stored in a grid cell (`FEntityData`); the entity handle is its number. -/
structure FEntityData where
  Entity : Nat
  Location : FVector
deriving DecidableEq

/-! ## FAgentSpatialHashGrid (AgentSpatialHashGrid.h / .cpp) -/

/-- Modelled from the spec: `TestHashTable::THashTable` (HashTable/HashTable.h) is not part of
the sources; the grid contract requires only a keyed-cell map.  A table is the list of its
key/cell pairs in insertion order, each key at most once. -/
abbrev FCellTable := List (Int × List FEntityData)

structure FAgentSpatialHashGrid where
  CellSize : ℚ
  Grid : FCellTable

/-- The member `InvCellSize(1.f / InCellSize)` set by the constructor. -/
def FAgentSpatialHashGrid.InvCellSize (g : FAgentSpatialHashGrid) : ℚ := 1 / g.CellSize

/-- The constructor `FAgentSpatialHashGrid(InCellSize)`: an empty table. -/
def FAgentSpatialHashGrid.new (InCellSize : ℚ) : FAgentSpatialHashGrid :=
  { CellSize := InCellSize, Grid := [] }

def GetCellCoord2D (g : FAgentSpatialHashGrid) (Location : FVector) : FIntPoint :=
  { X := ⌊Location.X * g.InvCellSize⌋, Y := ⌊Location.Y * g.InvCellSize⌋ }

def HashCoord (Coord : FIntPoint) : Int :=
  Int.xor (Coord.X * 73856093) (Coord.Y * 19349663)

/-- The lookup `Grid.Find(Key)` of the keyed-cell map. -/
def tableFind (Key : Int) : FCellTable → Option (List FEntityData)
  | [] => none
  | (k, cell) :: rest => if k = Key then some cell else tableFind Key rest

/-- The effect of `FindOrAddCell(Key).EntityData.Emplace(E)` on the keyed-cell map: the cell of
`Key` gets `E` appended; a missing cell is created first. -/
def tableEmplace (Key : Int) (E : FEntityData) : FCellTable → FCellTable
  | [] => [(Key, [E])]
  | (k, cell) :: rest =>
    if k = Key then (k, cell ++ [E]) :: rest else (k, cell) :: tableEmplace Key E rest

def FindCell (g : FAgentSpatialHashGrid) (Key : Int) : Option (List FEntityData) :=
  tableFind Key g.Grid

/-- `Reset`: every cell's array is emptied, the cells themselves stay. -/
def Reset (g : FAgentSpatialHashGrid) : FAgentSpatialHashGrid :=
  { g with Grid := g.Grid.map (fun Pair => (Pair.1, [])) }

def InsertEntity (g : FAgentSpatialHashGrid) (Entity : Nat) (Location : FVector) :
    FAgentSpatialHashGrid :=
  let CellKey := HashCoord (GetCellCoord2D g Location)
  { g with Grid := tableEmplace CellKey { Entity := Entity, Location := Location } g.Grid }

/-- The `thread_local FStencil S` of `VisitNearby`. -/
structure FStencil where
  R : Int
  Offsets : List FIntPoint
deriving DecidableEq

/-- The value `S` is initialised with: `R = 0` and no offsets. -/
def FStencil.init : FStencil := { R := 0, Offsets := [] }

/-- One row `for dx = -R .. R` of the stencil loop, for a fixed `dy`. -/
def stencilRow (R dy : Int) : List FIntPoint :=
  (List.range (2 * R + 1).toNat).filterMap fun i =>
    let dx : Int := (i : Int) - R
    if dx * dx + dy * dy ≤ R * R then some { X := dx, Y := dy } else none

/-- The offsets emplaced by the double loop `for dy = -R .. R, for dx = -R .. R`. -/
def stencilOffsets (R : Int) : List FIntPoint :=
  (List.range (2 * R + 1).toNat).flatMap fun j => stencilRow R ((j : Int) - R)

/-- The block `if (S.R != R) { ... }`: rebuild the cached stencil when the radius changed. -/
def FStencil.refresh (S : FStencil) (R : Int) : FStencil :=
  if S.R ≠ R then { R := R, Offsets := stencilOffsets R } else S

/-- The inner loop of `VisitNearby` over one cell's `EntityData`.  The result is
`(continue, Emitted, visitor state)`; `continue = false` is the `return` out of both loops. -/
def scanCell {σ : Type} (Lx Ly ZLo ZHi RadiusSq : ℚ) (MaxResults : Int)
    (Visitor : σ → FEntityData → Bool × σ) :
    List FEntityData → Int → σ → Bool × Int × σ
  | [], Emitted, acc => (true, Emitted, acc)
  | E :: rest, Emitted, acc =>
    if E.Location.Z < ZLo ∨ E.Location.Z > ZHi then
      scanCell Lx Ly ZLo ZHi RadiusSq MaxResults Visitor rest Emitted acc
    else
      let dx := Lx - E.Location.X
      let dy := Ly - E.Location.Y
      if dx * dx + dy * dy ≤ RadiusSq then
        let r := Visitor acc E
        if r.1 = false then (false, Emitted, r.2)
        else if MaxResults > 0 then
          if Emitted + 1 ≥ MaxResults then (false, Emitted + 1, r.2)
          else scanCell Lx Ly ZLo ZHi RadiusSq MaxResults Visitor rest (Emitted + 1) r.2
        else scanCell Lx Ly ZLo ZHi RadiusSq MaxResults Visitor rest Emitted r.2
      else
        scanCell Lx Ly ZLo ZHi RadiusSq MaxResults Visitor rest Emitted acc

/-- The outer loop `for (const FIntPoint& D : S.Offsets)`. -/
def scanOffsets {σ : Type} (g : FAgentSpatialHashGrid) (Center : FIntPoint)
    (Lx Ly ZLo ZHi RadiusSq : ℚ) (MaxResults : Int) (Visitor : σ → FEntityData → Bool × σ) :
    List FIntPoint → Int → σ → Bool × Int × σ
  | [], Emitted, acc => (true, Emitted, acc)
  | D :: Ds, Emitted, acc =>
    let CellKey := HashCoord { X := Center.X + D.X, Y := Center.Y + D.Y }
    match FindCell g CellKey with
    | none => scanOffsets g Center Lx Ly ZLo ZHi RadiusSq MaxResults Visitor Ds Emitted acc
    | some Cell =>
      let r := scanCell Lx Ly ZLo ZHi RadiusSq MaxResults Visitor Cell Emitted acc
      if r.1 then
        scanOffsets g Center Lx Ly ZLo ZHi RadiusSq MaxResults Visitor Ds r.2.1 r.2.2
      else r

/-- `VisitNearby`: the stencil cache after the call and the visitor's state after the call.
The visitor is a state transformer returning the `bool` the C++ visitor returns. -/
def VisitNearby {σ : Type} (g : FAgentSpatialHashGrid) (S : FStencil)
    (Location : FVector) (Radius ZHalfHeight : ℚ) (MaxResults : Int)
    (Visitor : σ → FEntityData → Bool × σ) (acc : σ) : FStencil × σ :=
  let R : Int := ⌈Radius / g.CellSize⌉
  if R ≤ 0 then (S, acc)
  else
    let S1 := S.refresh R
    let Center := GetCellCoord2D g Location
    let Lx := Location.X
    let Ly := Location.Y
    let Lz := Location.Z
    let RadiusSq := Radius * Radius
    let ZLo := Lz - ZHalfHeight
    let ZHi := Lz + ZHalfHeight
    (S1, (scanOffsets g Center Lx Ly ZLo ZHi RadiusSq MaxResults Visitor S1.Offsets 0 acc).2.2)

/-- The visitor of `QueryNearby`: append to `OutEntities`, count, and continue while
`MaxResults <= 0 || Written < MaxResults`.  The state is `(OutEntities, Written)`. -/
def QueryNearbyVisitor (MaxResults : Int) (st : List FEntityData × Int) (E : FEntityData) :
    Bool × (List FEntityData × Int) :=
  let Out := st.1 ++ [E]
  let Written := st.2 + 1
  (decide (MaxResults ≤ 0 ∨ Written < MaxResults), (Out, Written))

def QueryNearby (g : FAgentSpatialHashGrid) (S : FStencil) (Location : FVector)
    (Radius ZHalfHeight : ℚ) (OutEntities : List FEntityData) (MaxResults : Int) :
    FStencil × List FEntityData :=
  let r := VisitNearby g S Location Radius ZHalfHeight MaxResults
    (QueryNearbyVisitor MaxResults) (OutEntities, 0)
  (r.1, r.2.1)

/-- `EstimateCountAt(Location, Radius, ZHalfHeight)`: count the visits of an uncapped query. -/
def EstimateCountAt (g : FAgentSpatialHashGrid) (S : FStencil) (Location : FVector)
    (Radius ZHalfHeight : ℚ) : FStencil × Int :=
  if g.Grid.isEmpty then (S, 0)
  else VisitNearby g S Location Radius ZHalfHeight (-1) (fun Count _ => (true, Count + 1)) 0

/-- `USwarmBuildSpatialGridProcessor::Execute`: `ResetGrid` and then one `InsertEntity` per
entity of every chunk, with its handle and its transform location. -/
def BuildGrid (g : FAgentSpatialHashGrid) (agents : List (Nat × FVector)) :
    FAgentSpatialHashGrid :=
  agents.foldl (fun acc a => InsertEntity acc a.1 a.2) (Reset g)

/-- A visitor that never stops the query and records what it is called with. -/
def collectVisitor (acc : List FEntityData) (E : FEntityData) : Bool × List FEntityData :=
  (true, acc ++ [E])

/-- The entries an uncapped query hands to a visitor that always returns `true`, in order. -/
def visitedBy (g : FAgentSpatialHashGrid) (S : FStencil) (Location : FVector)
    (Radius ZHalfHeight : ℚ) (MaxResults : Int) : List FEntityData :=
  (VisitNearby g S Location Radius ZHalfHeight MaxResults collectVisitor []).2

/-- The query predicate of the contract: inside the disc and inside the z band. -/
def inQueryRange (Location : FVector) (Radius ZHalfHeight : ℚ) (E : FEntityData) : Prop :=
  (E.Location.X - Location.X) ^ 2 + (E.Location.Y - Location.Y) ^ 2 ≤ Radius ^ 2 ∧
    |E.Location.Z - Location.Z| ≤ ZHalfHeight

instance (Location : FVector) (Radius ZHalfHeight : ℚ) (E : FEntityData) :
    Decidable (inQueryRange Location Radius ZHalfHeight E) := by
  unfold inQueryRange; infer_instance

/-- A visitor wrapped so that every call is logged with the `bool` it returned. -/
def logged {σ : Type} (Visitor : σ → FEntityData → Bool × σ)
    (st : σ × List (FEntityData × Bool)) (E : FEntityData) :
    Bool × (σ × List (FEntityData × Bool)) :=
  let r := Visitor st.1 E
  (r.1, (r.2, st.2 ++ [(E, r.1)]))

/-- What the loops of `VisitNearby` maintain about a logged visitor under a cap
`MaxResults > 0`: only the last logged call may have returned `false`, the log is no longer
than the cap, and while the loops go on every call returned `true`, `Emitted` is the number
of calls and it is below the cap. -/
def LogOK {σ : Type} (MaxResults : Int)
    (r : Bool × Int × (σ × List (FEntityData × Bool))) : Prop :=
  (∀ p ∈ r.2.2.2.dropLast, p.2 = true) ∧ (r.2.2.2.length : Int) ≤ MaxResults ∧
    (r.1 = true →
      (∀ p ∈ r.2.2.2, p.2 = true) ∧ r.2.1 = (r.2.2.2.length : Int) ∧ r.2.1 < MaxResults)

/-! ## Fragments (Fragment/SwarmTypes.h) -/

structure FSwarmAgentFragment where
  Velocity : FVector
  LastProjectedLocation : FVector
  LaneSign : ℚ
  LaneMag : ℚ
  bYielding : Bool
  YieldTimeRemaining : ℚ
deriving DecidableEq

/-- `PointsRef` is a shared pointer: `none` is the null pointer. -/
structure FSwarmPathStateFragment where
  PointsRef : Option (List FVector)
  Index : Int
  LastGoal : FVector
  PathAge : ℚ
  RepathCooldown : ℚ
  NoLOSTime : ℚ
  bHasPath : Bool
deriving DecidableEq

def FSwarmPathStateFragment.NumPoints (P : FSwarmPathStateFragment) : Int :=
  match P.PointsRef with
  | some pts => (pts.length : Int)
  | none => 0

/-- `Point(i)` is `(*PointsRef)[i]`; `none` is an access through a null pointer or outside the
array. -/
def FSwarmPathStateFragment.Point (P : FSwarmPathStateFragment) (i : Int) : Option FVector :=
  match P.PointsRef with
  | some pts => if 0 ≤ i then pts.get? i.toNat else none
  | none => none

structure FSwarmSeparationFragment where
  Separation : FVector
  PathDir : FVector
  PathWeight : ℚ
  NeighborCount : Int
  LocalDensity : ℚ
deriving DecidableEq

structure FSwarmProgressFragment where
  LastPos2D : FVector
  DistanceMoved2D : ℚ
  SinceProgressSec : ℚ
  bLikelyStuck : Bool
deriving DecidableEq

structure FSwarmPathWindowFragment where
  P0 : FVector
  P1 : FVector
  P2 : FVector
  Tangent2D : FVector
  Curvature : ℚ
  bValid : Bool
deriving DecidableEq

/-- The fields of the engine's `FMassMoveTargetFragment` that the processors write. -/
structure FMassMoveTargetFragment where
  Center : FVector
  Forward : FVector
  DistanceToGoal : ℚ
deriving DecidableEq

structure FSwarmLOSFragment where
  bHasLOS : Bool
  TimeSinceRefresh : ℚ
deriving DecidableEq

structure FSwarmTargetSenseFragment where
  TargetLocation : FVector
  bLOS : Bool
  bLOSUpdated : Bool
deriving DecidableEq

structure FSwarmBudgetStampFragment where
  bDidLOSRefresh : Bool
  bDidReplan : Bool
deriving DecidableEq

/-- The three masks are `uint8`. -/
structure FSwarmUpdatePolicyFragment where
  DistToPlayer2D_Sq : ℚ
  EstimatedDensity : ℚ
  CooldownScale : ℚ
  SeparationMask : Nat
  FollowMask : Nat
  SenseMask : Nat
deriving DecidableEq

structure FSwarmMovementParamsFragment where
  MaxSpeed : ℚ
  SeparationWeight : ℚ
  PathFollowWeight : ℚ
  NeighborRadius : ℚ
  AgentRadius : ℚ
  MaxNeighbors : Int
  WaypointAcceptanceRadius : ℚ
  EndOfPathRepathRadius : ℚ
  LOSHeightOffset : ℚ
  DirectChaseRange : ℚ
  PathSpreadMaxOffset : ℚ
  PathSpreadMinDistance : ℚ
  PathSpreadMaxDistance : ℚ
  RepathsPerFrameBudget : Int
  LOSChecksPerFrameBudget : Int
  LOSRefreshSeconds : ℚ
deriving DecidableEq

/-- The default member initialisers of `FSwarmMovementParamsFragment`. -/
def FSwarmMovementParamsFragment.default : FSwarmMovementParamsFragment :=
  { MaxSpeed := 330, SeparationWeight := 450, PathFollowWeight := 3,
    NeighborRadius := 80, AgentRadius := 55, MaxNeighbors := 4,
    WaypointAcceptanceRadius := 180, EndOfPathRepathRadius := 700, LOSHeightOffset := 60,
    DirectChaseRange := 1400, PathSpreadMaxOffset := 120, PathSpreadMinDistance := 600,
    PathSpreadMaxDistance := 3000, RepathsPerFrameBudget := 256,
    LOSChecksPerFrameBudget := 64, LOSRefreshSeconds := 35 / 100 }

/-- The counters of `FSwarmProfilerSharedFragment`; the elapsed-time fields `T_*` and the
header flag carry telemetry only and are left out. -/
structure FSwarmProfilerSharedFragment where
  RepathsUsed : Int
  LOSChecksUsed : Int
  DirectChaseCount : Int
  AvgPathAgeAccum : ℚ
  AvgPathAgeNum : Int
deriving DecidableEq

structure FPlayerSharedFragment where
  PlayerLocation : FVector
  PlayerLocation2D : FVector2D
  PlayerNavLocation : FVector
  bIsOnNavMesh : Bool
  LastUpdateSeconds : ℚ
deriving DecidableEq

/-- One entity with its fragments.  `Entity` is the handle's number, `Location` and `Forward`
are the location and the forward vector of the rotation of its `FTransformFragment`, `Radius`
is its `FAgentRadiusFragment`. -/
structure FSwarmEntity where
  Entity : Nat
  Location : FVector
  Forward : FVector
  Radius : ℚ
  Agent : FSwarmAgentFragment
  Path : FSwarmPathStateFragment
  LOS : FSwarmLOSFragment
  Separation : FSwarmSeparationFragment
  Window : FSwarmPathWindowFragment
  Stamp : FSwarmBudgetStampFragment
  Policy : FSwarmUpdatePolicyFragment
  Sense : FSwarmTargetSenseFragment
  Progress : FSwarmProgressFragment
  Move : FMassMoveTargetFragment
deriving DecidableEq

/-- An entity as the spawner leaves it: every swarm fragment at its default member
initialisers (`SwarmTypes.h`), with the transform and the radius the spawner chose.
`DistToPlayer2D_Sq` defaults to `FLT_MAX`. -/
def FSwarmEntity.spawn (Entity : Nat) (Location Forward : FVector) (Radius : ℚ) :
    FSwarmEntity :=
  { Entity := Entity, Location := Location, Forward := Forward, Radius := Radius,
    Agent := { Velocity := FVector.ZeroVector, LastProjectedLocation := FVector.ZeroVector,
               LaneSign := 1, LaneMag := 1, bYielding := false, YieldTimeRemaining := 0 },
    Path := { PointsRef := none, Index := 0, LastGoal := FVector.ZeroVector, PathAge := 0,
              RepathCooldown := 0, NoLOSTime := 0, bHasPath := false },
    LOS := { bHasLOS := false, TimeSinceRefresh := 0 },
    Separation := { Separation := FVector.ZeroVector, PathDir := FVector.ZeroVector,
                    PathWeight := 0, NeighborCount := 0, LocalDensity := 0 },
    Window := { P0 := FVector.ZeroVector, P1 := FVector.ZeroVector, P2 := FVector.ZeroVector,
                Tangent2D := FVector.ZeroVector, Curvature := 0, bValid := false },
    Stamp := { bDidLOSRefresh := false, bDidReplan := false },
    Policy := { DistToPlayer2D_Sq := 340282346638528859811704183484516925440,
                EstimatedDensity := 0, CooldownScale := 1,
                SeparationMask := 0, FollowMask := 0, SenseMask := 0 },
    Sense := { TargetLocation := FVector.ZeroVector, bLOS := false, bLOSUpdated := false },
    Progress := { LastPos2D := FVector.ZeroVector, DistanceMoved2D := 0, SinceProgressSec := 0,
                  bLikelyStuck := false },
    Move := { Center := FVector.ZeroVector, Forward := FVector.ZeroVector,
              DistanceToGoal := 0 } }

/-! ## External services -/

/-- The part of `UNavigationSystemV1` the processors call.
`ProjectPointToNavigation point extent` is the projected location, if any;
`NavigationRaycast from to` is `bBlocked`;
`FindPathToLocationSynchronously start goal` is the `PathPoints` of the returned path, if a
path object is returned. -/
structure NavService where
  ProjectPointToNavigation : FVector → FVector → Option FVector
  NavigationRaycast : FVector → FVector → Bool
  FindPathToLocationSynchronously : FVector → FVector → Option (List FVector)

/-! ## USwarmPerceptionProcessor (Processor/SwarmPerceptionProcessor.cpp) -/

/-- What `Execute` captures before the chunk loop.  `NavSys` may be null (`none`);
`LineTraceSingleByChannel start end` is `none` for no hit and `some actor` for a hit, where
`actor` is the hit actor if there is one; `GetTypeHash` is the hash of an entity handle. -/
structure PerceptionEnv where
  NavSys : Option NavService
  LineTraceSingleByChannel : FVector → FVector → Option (Option Nat)
  PlayerPawn : Nat
  GetTypeHash : Nat → Nat
  FrameIdx : Nat
  Dt : ℚ
  Params : FSwarmMovementParamsFragment
  Player : FPlayerSharedFragment


/-- The lambda `ComputeLOS`.  `none` is the dereference of a null `NavSys`. -/
def ComputeLOS (env : PerceptionEnv) (From : FVector) : Option Bool :=
  let ZOffset : FVector := { X := 0, Y := 0, Z := env.Params.LOSHeightOffset }
  let trace : Bool :=
    let Start : FVector :=
      { X := From.X + ZOffset.X, Y := From.Y + ZOffset.Y, Z := From.Z + ZOffset.Z }
    let End : FVector :=
      { X := env.Player.PlayerLocation.X + ZOffset.X,
        Y := env.Player.PlayerLocation.Y + ZOffset.Y,
        Z := env.Player.PlayerLocation.Z + ZOffset.Z }
    match env.LineTraceSingleByChannel Start End with
    | none => true
    | some actor => decide (actor = some env.PlayerPawn)
  if env.Player.bIsOnNavMesh then
    match env.NavSys with
    | none => none
    | some nav =>
      match nav.ProjectPointToNavigation From { X := 50, Y := 50, Z := 100 } with
      | some FromNav => some (!(nav.NavigationRaycast FromNav env.Player.PlayerNavLocation))
      | none => some trace
  else some trace

/-- The body of `for (int32 i = 0; i < N; ++i)` for one entity, on the shared profiler
fragment.  `none` is a null dereference inside `ComputeLOS`. -/
def PerceptionEntityStep (env : PerceptionEnv) (Prof : FSwarmProfilerSharedFragment)
    (a : FSwarmEntity) : Option (FSwarmProfilerSharedFragment × FSwarmEntity) :=
  let Stamp0 : FSwarmBudgetStampFragment := { bDidReplan := false, bDidLOSRefresh := false }
  let MyLoc := a.Location
  let Sense0 := { a.Sense with TargetLocation := env.Player.PlayerLocation }
  let LOS0 := { a.LOS with TimeSinceRefresh := a.LOS.TimeSinceRefresh + env.Dt }
  let DirectChaseRangeSq := env.Params.DirectChaseRange * env.Params.DirectChaseRange
  let bSenseThisFrame : Bool := decide (env.FrameIdx &&& a.Policy.SenseMask = 0)
  let bInChaseRange : Bool := decide (a.Policy.DistToPlayer2D_Sq ≤ DirectChaseRangeSq)
  if !bSenseThisFrame || !bInChaseRange then
    some (Prof, { a with Stamp := Stamp0, LOS := LOS0,
                         Sense := { Sense0 with bLOS := LOS0.bHasLOS, bLOSUpdated := false } })
  else
    let H := env.GetTypeHash a.Entity
    let Phase : ℚ := ((H &&& 0xFF : Nat) : ℚ) * (env.Params.LOSRefreshSeconds / 256)
    let bDue : Bool := decide (LOS0.TimeSinceRefresh + Phase ≥ env.Params.LOSRefreshSeconds)
    if bDue && decide (Prof.LOSChecksUsed < env.Params.LOSChecksPerFrameBudget) then
      match ComputeLOS env MyLoc with
      | none => none
      | some bLOSNow =>
        some ({ Prof with LOSChecksUsed := Prof.LOSChecksUsed + 1 },
              { a with Stamp := { Stamp0 with bDidLOSRefresh := true },
                       LOS := { bHasLOS := bLOSNow, TimeSinceRefresh := 0 },
                       Sense := { Sense0 with bLOS := bLOSNow, bLOSUpdated := true } })
    else
      some (Prof, { a with Stamp := Stamp0, LOS := LOS0,
                           Sense := { Sense0 with bLOS := LOS0.bHasLOS,
                                                  bLOSUpdated := Stamp0.bDidLOSRefresh } })

/-- The entity loop of one chunk. -/
def PerceptionEntityLoop (env : PerceptionEnv) :
    List FSwarmEntity → FSwarmProfilerSharedFragment →
      Option (FSwarmProfilerSharedFragment × List FSwarmEntity)
  | [], Prof => some (Prof, [])
  | a :: rest, Prof =>
    match PerceptionEntityStep env Prof a with
    | none => none
    | some (Prof1, a1) =>
      match PerceptionEntityLoop env rest Prof1 with
      | none => none
      | some (Prof2, rest1) => some (Prof2, a1 :: rest1)

/-- The processor's state across chunks: the shared profiler fragment and the member
`LastLOSResetFrame`. -/
structure PerceptionState where
  Prof : FSwarmProfilerSharedFragment
  LastLOSResetFrame : Nat
deriving DecidableEq

/-- The budget reset at the head of the chunk lambda. -/
def PerceptionState.resetIfNewFrame (st : PerceptionState) (FrameIdx : Nat) : PerceptionState :=
  if st.LastLOSResetFrame ≠ FrameIdx then
    { Prof := { st.Prof with LOSChecksUsed := 0 }, LastLOSResetFrame := FrameIdx }
  else st

/-- The chunk lambda of `Execute`. -/
def PerceptionChunk (env : PerceptionEnv) (st : PerceptionState) (chunk : List FSwarmEntity) :
    Option (PerceptionState × List FSwarmEntity) :=
  let st1 := st.resetIfNewFrame env.FrameIdx
  match PerceptionEntityLoop env chunk st1.Prof with
  | none => none
  | some (Prof1, chunk1) => some ({ st1 with Prof := Prof1 }, chunk1)

/-- The chunks of `ParallelForEachEntityChunk`, executed one after the other. -/
def PerceptionExecute (env : PerceptionEnv) :
    PerceptionState → List (List FSwarmEntity) →
      Option (PerceptionState × List (List FSwarmEntity))
  | st, [] => some (st, [])
  | st, chunk :: rest =>
    match PerceptionChunk env st chunk with
    | none => none
    | some (st1, chunk1) =>
      match PerceptionExecute env st1 rest with
      | none => none
      | some (st2, rest1) => some (st2, chunk1 :: rest1)

/-- The number of entities of a chunk stamped `bDidLOSRefresh`. -/
def refreshedIn (chunk : List FSwarmEntity) : Int :=
  ((chunk.filter fun a => a.Stamp.bDidLOSRefresh).length : Int)

/-- The number of entities of a pass stamped `bDidLOSRefresh`. -/
def refreshedCount : List (List FSwarmEntity) → Int
  | [] => 0
  | chunk :: rest => refreshedIn chunk + refreshedCount rest

/-- The value of `LOSChecksUsed` from which the pass counts: the reset of the first chunk
applies when there is a chunk at all. -/
def losChecksAtStart (env : PerceptionEnv) (st : PerceptionState)
    (chunks : List (List FSwarmEntity)) : Int :=
  match chunks with
  | [] => st.Prof.LOSChecksUsed
  | _ :: _ => (st.resetIfNewFrame env.FrameIdx).Prof.LOSChecksUsed

/-! ## TMap

A `TMap<K, V>` from which no pair is ever removed is the list of its pairs in iteration order,
each key at most once: `Find` and `FindOrAdd(Key) = Value` / `Add(Key, Value)` (a new key goes
to the end).  `mapRemove` is the list of the pairs under the other keys. -/

def mapFind {κ ν : Type} [DecidableEq κ] (Key : κ) : List (κ × ν) → Option ν
  | [] => none
  | (k, v) :: rest => if k = Key then some v else mapFind Key rest

def mapSet {κ ν : Type} [DecidableEq κ] (Key : κ) (Value : ν) : List (κ × ν) → List (κ × ν)
  | [] => [(Key, Value)]
  | (k, v) :: rest => if k = Key then (k, Value) :: rest else (k, v) :: mapSet Key Value rest

def mapRemove {κ ν : Type} [DecidableEq κ] (Key : κ) (m : List (κ × ν)) : List (κ × ν) :=
  m.filter fun Pair => decide (Pair.1 ≠ Key)

/-! ## TMap with removals

The engine's `TMap` keeps its pairs in the slots of a sparse array (Containers/Map.h, Set.h,
SparseArray.h).  `Remove` frees the slot of the pair and puts it at the head of the free
list; `FindOrAdd` of a new key takes the slot at the head of the free list, the slot freed
last, and a new slot at the end only when no slot is free; iteration goes through the slots
by index.  A free slot carries the order in which it was freed, so the head of the free list
is the free slot of the greatest order. -/

inductive TSlot (κ ν : Type) where
  | pair (Key : κ) (Value : ν)
  | free (Order : Nat)
deriving DecidableEq

/-- The pairs of the map in iteration order. -/
def tmapPairs {κ ν : Type} : List (TSlot κ ν) → List (κ × ν)
  | [] => []
  | TSlot.pair k v :: rest => (k, v) :: tmapPairs rest
  | TSlot.free _ :: rest => tmapPairs rest

/-- `TMap::Find`. -/
def tmapFind {κ ν : Type} [DecidableEq κ] (Key : κ) (m : List (TSlot κ ν)) : Option ν :=
  mapFind Key (tmapPairs m)

/-- `TMap::Num`. -/
def tmapNum {κ ν : Type} (m : List (TSlot κ ν)) : Int := ((tmapPairs m).length : Int)

/-- The order of the slot at the head of the free list, `none` when no slot is free. -/
def tmapFreeHead {κ ν : Type} : List (TSlot κ ν) → Option Nat
  | [] => none
  | TSlot.pair _ _ :: rest => tmapFreeHead rest
  | TSlot.free o :: rest =>
    match tmapFreeHead rest with
    | some o2 => some (max o o2)
    | none => some o

/-- The write through the reference that `FindOrAdd` returns for a key of the map. -/
def tmapAssign {κ ν : Type} [DecidableEq κ] (Key : κ) (Value : ν) :
    List (TSlot κ ν) → List (TSlot κ ν)
  | [] => []
  | TSlot.pair k v :: rest =>
    if k = Key then TSlot.pair k Value :: rest else TSlot.pair k v :: tmapAssign Key Value rest
  | TSlot.free o :: rest => TSlot.free o :: tmapAssign Key Value rest

/-- The new pair goes into the free slot of order `o`. -/
def tmapFill {κ ν : Type} (Key : κ) (Value : ν) (o : Nat) :
    List (TSlot κ ν) → List (TSlot κ ν)
  | [] => [TSlot.pair Key Value]
  | TSlot.pair k v :: rest => TSlot.pair k v :: tmapFill Key Value o rest
  | TSlot.free o2 :: rest =>
    if o2 = o then TSlot.pair Key Value :: rest else TSlot.free o2 :: tmapFill Key Value o rest

/-- `FindOrAdd(Key) = Value`. -/
def tmapSet {κ ν : Type} [DecidableEq κ] (Key : κ) (Value : ν) (m : List (TSlot κ ν)) :
    List (TSlot κ ν) :=
  if (tmapFind Key m).isSome then tmapAssign Key Value m
  else
    match tmapFreeHead m with
    | some o => tmapFill Key Value o m
    | none => m ++ [TSlot.pair Key Value]

/-- The slots of the pairs under `Key` are freed with the order `o`. -/
def tmapFree {κ ν : Type} [DecidableEq κ] (Key : κ) (o : Nat) :
    List (TSlot κ ν) → List (TSlot κ ν)
  | [] => []
  | TSlot.pair k v :: rest =>
    if k = Key then TSlot.free o :: tmapFree Key o rest
    else TSlot.pair k v :: tmapFree Key o rest
  | TSlot.free o2 :: rest => TSlot.free o2 :: tmapFree Key o rest

/-- `TMap::Remove`: the freed slot becomes the head of the free list. -/
def tmapRemove {κ ν : Type} [DecidableEq κ] (Key : κ) (m : List (TSlot κ ν)) :
    List (TSlot κ ν) :=
  match tmapFreeHead m with
  | some o => tmapFree Key (o + 1) m
  | none => tmapFree Key 0 m

/-- `Array[Index] = f(Array[Index])`; an index outside the array changes nothing. -/
def modifyAt {α : Type} (f : α → α) : Nat → List α → List α
  | _, [] => []
  | 0, a :: rest => f a :: rest
  | n + 1, a :: rest => a :: modifyAt f n rest

/-! ## USwarmPathReplanProcessor (Processor/SwarmPathReplanProcessor.cpp) -/

structure FPathKey where
  Start : FIntVector
  Goal : FIntVector
deriving DecidableEq

structure FCachedPathEntry where
  Points : Option (List FVector)
  Time : ℚ
deriving DecidableEq

def GPathCacheCellSize : ℚ := 500

/-- `constexpr float GPathCacheTTL = 0.9f`: the `float` nearest to 0.9, which is
0.89999997615814208984375; the ages it is compared with are `double`. -/
def GPathCacheTTL : ℚ := 7549747 / 8388608

def GKeySolveCooldown : ℚ := 1 / 5

/-- The globals of the anonymous namespace.  `GPathCacheMaxEntries` is a non-const `int32`
initialised to 8192.  `GPathCache` is the one map pairs are removed from, so it is kept with
its slots; nothing is ever removed from `GLastSolveTime`. -/
structure PathGlobals where
  GPathCache : List (TSlot FPathKey FCachedPathEntry)
  GLastSolveTime : List (FPathKey × ℚ)
  GPathCacheMaxEntries : Int
deriving DecidableEq

def PathGlobals.init : PathGlobals :=
  { GPathCache := [], GLastSolveTime := [], GPathCacheMaxEntries := 8192 }

def Q3D (P : FVector) : FIntVector :=
  { X := ⌊P.X / GPathCacheCellSize⌋, Y := ⌊P.Y / GPathCacheCellSize⌋, Z := ⌊P.Z / 200⌋ }

def GPathCache_RefreshOrInsert (Cache : List (TSlot FPathKey FCachedPathEntry))
    (Key : FPathKey) (Points : Option (List FVector)) (Now : ℚ) :
    List (TSlot FPathKey FCachedPathEntry) :=
  tmapSet Key { Points := Points, Time := Now } Cache

/-- The loop of `GPathCache_EvictOldestIfNeeded` over the pairs in iteration order; the
accumulator is `(*MinTimePtr, OldestKey)`, `none` while `MinTimePtr` is null. -/
def findOldest : List (FPathKey × FCachedPathEntry) → Option (ℚ × FPathKey) →
    Option (ℚ × FPathKey)
  | [], best => best
  | It :: rest, none => findOldest rest (some (It.2.Time, It.1))
  | It :: rest, some (MinTime, OldestKey) =>
    if It.2.Time < MinTime then findOldest rest (some (It.2.Time, It.1))
    else findOldest rest (some (MinTime, OldestKey))

def GPathCache_EvictOldestIfNeeded (MaxEntries : Int)
    (Cache : List (TSlot FPathKey FCachedPathEntry)) : List (TSlot FPathKey FCachedPathEntry) :=
  if tmapNum Cache ≤ MaxEntries then Cache
  else
    match findOldest (tmapPairs Cache) none with
    | some (_, OldestKey) => tmapRemove OldestKey Cache
    | none => Cache

/-- `ComputeCooldown(Dist, EntityId)`; `EntityId` is a `uint32` and the seed product wraps. -/
def ComputeCooldown (Dist : ℚ) (EntityId : Nat) : ℚ :=
  let Near : ℚ := 200
  let Far : ℚ := 8000
  let CdNear : ℚ := 1 / 4
  let CdFar : ℚ := 15 / 2
  let BaseCd : ℚ :=
    if Dist ≤ Near then CdNear
    else if Dist ≥ Far then CdFar
    else Lerp CdNear CdFar ((Dist - Near) / (Far - Near))
  let Seed : Nat := (EntityId * 2654435761) % 2 ^ 32
  let J : ℚ := 3 / 4 + 1 / 2 * ((Seed : ℚ) / 4294967295)
  BaseCd * J

/-- `ShouldProcessChunkThisFrame(Exec, N)` (SwarmProcessorCommons.h): the phase of a chunk is
the hash of its first entity.  Chunks handed out by the entity query are never empty; an empty
list is not processed. -/
def ShouldProcessChunkThisFrame (GFrameNumber : Nat) (GetTypeHash : Nat → Nat)
    (chunk : List FSwarmEntity) (N : Nat) : Bool :=
  match chunk with
  | [] => false
  | e :: _ => decide (GFrameNumber % N = GetTypeHash e.Entity % N)

/-- What `USwarmPathReplanProcessor::Execute` captures once `World` and `NavSys` are known to
be non-null. -/
structure PathReplanEnv where
  NavSys : NavService
  M : FMathOps
  GetTypeHash : Nat → Nat
  FrameIdx : Nat
  GFrameNumber : Nat
  Dt : ℚ
  Params : FSwarmMovementParamsFragment
  Player : FPlayerSharedFragment

structure FPendingEntity where
  Index : Nat
  DistSq2D : ℚ
deriving DecidableEq

/-- `Groups.FindOrAdd(Key).Add(PE)`. -/
def groupsAdd (Key : FPathKey) (PE : FPendingEntity) :
    List (FPathKey × List FPendingEntity) → List (FPathKey × List FPendingEntity)
  | [] => [(Key, [PE])]
  | (k, Members) :: rest =>
    if k = Key then (k, Members ++ [PE]) :: rest else (k, Members) :: groupsAdd Key PE rest

def bHaveProjectedGoal (Player : FPlayerSharedFragment) : Bool :=
  Player.bIsOnNavMesh ||
    decide (FVector.DistSquared Player.PlayerNavLocation Player.PlayerLocation > 1)

def FinalGoal (Player : FPlayerSharedFragment) : FVector :=
  if bHaveProjectedGoal Player then Player.PlayerNavLocation else Player.PlayerLocation

/-- The body of the first entity loop of the chunk lambda (timers, needs-replan test, grouping)
for the entity at index `i`. -/
def ReplanGatherStep (env : PathReplanEnv) (i : Nat) (e : FSwarmEntity)
    (Groups : List (FPathKey × List FPendingEntity)) :
    FSwarmEntity × List (FPathKey × List FPendingEntity) :=
  let Goal := FinalGoal env.Player
  let PlayerCell := Q3D Goal
  let SelfPos := e.Location
  let Path1 : FSwarmPathStateFragment :=
    { e.Path with PathAge := e.Path.PathAge + env.Dt,
                  RepathCooldown := max 0 (e.Path.RepathCooldown - env.Dt) }
  if env.FrameIdx &&& e.Policy.FollowMask ≠ 0 ∨ bHaveProjectedGoal env.Player = false then
    ({ e with Path := Path1 }, Groups)
  else
    let bOutOfPath : Bool := !Path1.bHasPath || decide (Path1.Index ≥ Path1.NumPoints)
    let bCooldownElapsed : Bool := decide (Path1.RepathCooldown ≤ 0)
    let bCellUnchanged : Bool := decide (Q3D Path1.LastGoal = PlayerCell)
    let DistSq2D := FVector.DistSquared2D SelfPos Goal
    let bGoalMovedEnough : Bool := !bCellUnchanged &&
      decide (FVector.DistSquared Path1.LastGoal Goal > Square (2 * e.Radius))
    let bOnLastSegment : Bool := Path1.bHasPath &&
      (decide (Path1.NumPoints ≤ 2) || decide (Path1.Index ≥ max 1 (Path1.NumPoints - 2)))
    let bNearEnd : Bool := bOnLastSegment &&
      decide (DistSq2D ≤ Square env.Params.EndOfPathRepathRadius)
    let Path2 : FSwarmPathStateFragment :=
      { Path1 with NoLOSTime := if bNearEnd && !e.Sense.bLOS then Path1.NoLOSTime + env.Dt else 0 }
    let bForceRepathNearEndNoLOS : Bool := bNearEnd && decide (Path2.NoLOSTime > 1 / 4)
    let bIdleStaleness : Bool := decide (Path2.PathAge ≥ 5 / 2)
    if bOutOfPath || (bCooldownElapsed && bGoalMovedEnough) || bForceRepathNearEndNoLOS ||
        bIdleStaleness then
      let Key : FPathKey := { Start := Q3D SelfPos, Goal := PlayerCell }
      ({ e with Path := Path2 }, groupsAdd Key { Index := i, DistSq2D := DistSq2D } Groups)
    else ({ e with Path := Path2 }, Groups)

/-- The first entity loop, from index `i` on. -/
def ReplanGatherLoop (env : PathReplanEnv) :
    Nat → List FSwarmEntity → List (FPathKey × List FPendingEntity) →
      List FSwarmEntity × List (FPathKey × List FPendingEntity)
  | _, [], Groups => ([], Groups)
  | i, e :: rest, Groups =>
    let r := ReplanGatherStep env i e Groups
    let r2 := ReplanGatherLoop env (i + 1) rest r.2
    (r.1 :: r2.1, r2.2)

/-- `Algo::MinElementBy(Members, &FPendingEntity::DistSq2D)`: the first member of least
`DistSq2D`. -/
def MinElementBy : List FPendingEntity → Option FPendingEntity
  | [] => none
  | PE :: rest =>
    match MinElementBy rest with
    | none => some PE
    | some Best => if Best.DistSq2D < PE.DistSq2D then some Best else some PE

/-- The publication of `SharedRef` to one member of a group. -/
def publishPath (env : PathReplanEnv) (SharedRef : List FVector) (PE : FPendingEntity)
    (e : FSwarmEntity) : FSwarmEntity :=
  { e with
    Path := { e.Path with
      PointsRef := some SharedRef, Index := 1, bHasPath := true,
      LastGoal := FinalGoal env.Player,
      RepathCooldown := ComputeCooldown (env.M.Sqrt PE.DistSq2D) (e.Entity % 2 ^ 32),
      PathAge := 0 },
    Stamp := { e.Stamp with bDidReplan := true } }

/-- The loop `for (const FPendingEntity& PE : Members)`. -/
def publishToMembers (env : PathReplanEnv) (SharedRef : List FVector) :
    List FPendingEntity → List FSwarmEntity → List FSwarmEntity
  | [], Entities => Entities
  | PE :: rest, Entities =>
    publishToMembers env SharedRef rest (modifyAt (publishPath env SharedRef PE) PE.Index Entities)

/-- The state the group loop works on: the shared profiler fragment, the globals and the
fragments of the chunk. -/
structure ReplanLoopState where
  Prof : FSwarmProfilerSharedFragment
  G : PathGlobals
  Entities : List FSwarmEntity
deriving DecidableEq

/-- The cache lookup at the head of a group iteration: the reused list, if the entry is fresh
and has at least two points, and the cache with the entry's time refreshed through the pointer
`Found`. -/
def cacheLookup (Now : ℚ) (Key : FPathKey) (Cache : List (TSlot FPathKey FCachedPathEntry)) :
    Option (List FVector) × List (TSlot FPathKey FCachedPathEntry) :=
  match tmapFind Key Cache with
  | some Found =>
    match Found.Points with
    | some Points =>
      if Now - Found.Time ≤ GPathCacheTTL ∧ (Points.length : Int) ≥ 2 then
        (some Points, tmapAssign Key { Found with Time := Now } Cache)
      else (none, Cache)
    | none => (none, Cache)
  | none => (none, Cache)

/-- One iteration of `for (auto& Pair : Groups)` after the budget test at its head. -/
def ReplanGroupStep (env : PathReplanEnv) (Now : ℚ) (st : ReplanLoopState)
    (Pair : FPathKey × List FPendingEntity) : ReplanLoopState :=
  let Key := Pair.1
  let Members := Pair.2
  let look := cacheLookup Now Key st.G.GPathCache
  match look.1 with
  | some SharedRef =>
    { st with G := { st.G with GPathCache := look.2 },
              Entities := publishToMembers env SharedRef Members st.Entities }
  | none =>
    let onCooldown : Bool :=
      match mapFind Key st.G.GLastSolveTime with
      | some LastT => decide (Now - LastT < GKeySolveCooldown)
      | none => false
    if onCooldown then st
    else
      match MinElementBy Members with
      | none => st
      | some Rep =>
        match st.Entities.get? Rep.Index with
        | none => st
        | some RepEntity =>
          let RepStart := RepEntity.Location
          match env.NavSys.FindPathToLocationSynchronously RepStart (FinalGoal env.Player) with
          | none => st
          | some PathPoints =>
            if (PathPoints.length : Int) ≥ 2 ∧
                st.Prof.RepathsUsed < env.Params.RepathsPerFrameBudget then
              let Cache1 := GPathCache_RefreshOrInsert st.G.GPathCache Key (some PathPoints) Now
              let Cache2 := GPathCache_EvictOldestIfNeeded st.G.GPathCacheMaxEntries Cache1
              { Prof := { st.Prof with RepathsUsed := st.Prof.RepathsUsed + 1 },
                G := { st.G with GPathCache := Cache2,
                                 GLastSolveTime := mapSet Key Now st.G.GLastSolveTime },
                Entities := publishToMembers env PathPoints Members st.Entities }
            else st

/-- The loop `for (auto& Pair : Groups)` with its `break` on an exhausted budget. -/
def ReplanGroupLoop (env : PathReplanEnv) (Now : ℚ) :
    List (FPathKey × List FPendingEntity) → ReplanLoopState → ReplanLoopState
  | [], st => st
  | Pair :: rest, st =>
    if st.Prof.RepathsUsed ≥ env.Params.RepathsPerFrameBudget then st
    else ReplanGroupLoop env Now rest (ReplanGroupStep env Now st Pair)

/-- The state of one `Execute` across its chunks: the shared profiler fragment, the globals and
the local `bRepathBudgetReset`. -/
structure PathReplanState where
  Prof : FSwarmProfilerSharedFragment
  G : PathGlobals
  bRepathBudgetReset : Bool
deriving DecidableEq

/-- The chunk lambda of `Execute`; `Now` is the clock reading `T0` of the chunk. -/
def PathReplanChunk (env : PathReplanEnv) (Now : ℚ) (st : PathReplanState)
    (chunk : List FSwarmEntity) : PathReplanState × List FSwarmEntity :=
  if ShouldProcessChunkThisFrame env.GFrameNumber env.GetTypeHash chunk 8 = false then
    (st, chunk)
  else
    let Prof1 : FSwarmProfilerSharedFragment :=
      if st.bRepathBudgetReset = false then { st.Prof with RepathsUsed := 0 } else st.Prof
    let gathered := ReplanGatherLoop env 0 chunk []
    let Groups := gathered.2
    if Groups.length = 0 ∨ Prof1.RepathsUsed ≥ env.Params.RepathsPerFrameBudget then
      ({ st with Prof := Prof1, bRepathBudgetReset := true }, gathered.1)
    else
      let out := ReplanGroupLoop env Now Groups
        { Prof := Prof1, G := st.G, Entities := gathered.1 }
      ({ Prof := out.Prof, G := out.G, bRepathBudgetReset := true }, out.Entities)

/-- The chunk loop of `Execute`; `clock i` is the clock reading `T0` taken in the `i`-th
chunk. -/
def PathReplanChunks (env : PathReplanEnv) (clock : Nat → ℚ) :
    Nat → PathReplanState → List (List FSwarmEntity) → PathReplanState × List (List FSwarmEntity)
  | _, st, [] => (st, [])
  | i, st, chunk :: rest =>
    let r := PathReplanChunk env (clock i) st chunk
    let r2 := PathReplanChunks env clock (i + 1) r.1 rest
    (r2.1, r.2 :: r2.2)

/-- `USwarmPathReplanProcessor::Execute` on a non-null world: nothing happens without a
navigation system. -/
def PathReplanExecute (NavSys : Option NavService) (M : FMathOps) (GetTypeHash : Nat → Nat)
    (FrameIdx GFrameNumber : Nat) (Dt : ℚ) (Params : FSwarmMovementParamsFragment)
    (Player : FPlayerSharedFragment) (clock : Nat → ℚ) (Prof : FSwarmProfilerSharedFragment)
    (G : PathGlobals) (chunks : List (List FSwarmEntity)) :
    FSwarmProfilerSharedFragment × PathGlobals × List (List FSwarmEntity) :=
  match NavSys with
  | none => (Prof, G, chunks)
  | some nav =>
    let env : PathReplanEnv :=
      { NavSys := nav, M := M, GetTypeHash := GetTypeHash, FrameIdx := FrameIdx,
        GFrameNumber := GFrameNumber, Dt := Dt, Params := Params, Player := Player }
    let r := PathReplanChunks env clock 0 { Prof := Prof, G := G, bRepathBudgetReset := false }
      chunks
    (r.1.Prof, r.1.G, r.2)

/-! ## USwarmFollowProcessor (Processor/SwarmFollowProcessor.cpp, .h) -/

/-- `MakeBucketKey(P, Cell)`: `(int64(X) << 32) ^ int64(Y)` for the `int32` cell coordinates. -/
def MakeBucketKey (P : FVector) (Cell : ℚ) : Int :=
  let X : Int := ⌊P.X / Cell⌋
  let Y : Int := ⌊P.Y / Cell⌋
  Int.xor (X * 2 ^ 32) Y

def FLT_MAX : ℚ := 340282346638528859811704183484516925440

/-- The loop of `FindNearestPointIndex2D` from index `k` on. -/
def findNearestLoop (Pos : FVector) : List FVector → Nat → Nat → ℚ → Nat
  | [], _, BestIdx, _ => BestIdx
  | Pt :: rest, k, BestIdx, BestDsq =>
    let D := FVector.DistSquared2D Pt Pos
    if D < BestDsq then findNearestLoop Pos rest (k + 1) k D
    else findNearestLoop Pos rest (k + 1) BestIdx BestDsq

def FindNearestPointIndex2D (Pts : List FVector) (Pos : FVector) : Int :=
  if Pts.length ≤ 1 then 0
  else ((findNearestLoop Pos (Pts.drop 1) 1 1 FLT_MAX : Nat) : Int)

/-- The lambda an `AsyncTask` of `TryRequestReplanBudgeted` captures. -/
structure FReplanTask where
  From : FVector
  Goal : FVector
  BucketKey : Int
  bUseHierarchical : Bool
deriving DecidableEq

/-- The members of `USwarmFollowProcessor`, and the tasks it has queued for the game thread
(`TaskQueue`). -/
structure FollowState where
  ReplanBucketCellSize : ℚ
  ReplanPlayerMoveThreshold : ℚ
  PendingBucketResults_GT : List (Int × List FVector)
  InFlightBuckets_GT : List Int
  BucketResults_RT : List (Int × List FVector)
  LastResultsFrame : Nat
  MaxBucketsPerFrame : Int
  BucketsScheduledThisFrame : Int
  LastBudgetResetFrame : Nat
  TaskQueue : List FReplanTask
deriving DecidableEq

/-- The default member initialisers of the header. -/
def FollowState.init : FollowState :=
  { ReplanBucketCellSize := 2500, ReplanPlayerMoveThreshold := 120,
    PendingBucketResults_GT := [], InFlightBuckets_GT := [], BucketResults_RT := [],
    LastResultsFrame := 0, MaxBucketsPerFrame := 32, BucketsScheduledThisFrame := 0,
    LastBudgetResetFrame := 0, TaskQueue := [] }

/-- `TSet::Add`. -/
def setAdd (Key : Int) (s : List Int) : List Int := if Key ∈ s then s else s ++ [Key]

/-- `TSet::Remove`. -/
def setRemove (Key : Int) (s : List Int) : List Int := s.filter fun k => decide (k ≠ Key)

/-- `TryRequestReplanBudgeted` on a non-null world: the returned `bool` and the members after
the call. -/
def TryRequestReplanBudgeted (F : FollowState) (From Goal : FVector) (BucketKey : Int)
    (bUseHierarchical : Bool) : Bool × FollowState :=
  if (mapFind BucketKey F.PendingBucketResults_GT).isSome ∨ BucketKey ∈ F.InFlightBuckets_GT then
    (true, F)
  else if F.BucketsScheduledThisFrame ≥ F.MaxBucketsPerFrame then (false, F)
  else
    (true, { F with
      BucketsScheduledThisFrame := F.BucketsScheduledThisFrame + 1,
      TaskQueue := F.TaskQueue ++
        [{ From := From, Goal := Goal, BucketKey := BucketKey,
           bUseHierarchical := bUseHierarchical }] })

/-- The delegate passed to `FindPathAsync`, called with the bucket key and the path points of a
successful query with a valid path (`none` otherwise). -/
def FollowPathCallback (F : FollowState) (BucketKey : Int) (Result : Option (List FVector)) :
    FollowState :=
  let pts : List FVector :=
    match Result with
    | some P => if (P.length : Int) ≥ 2 then P else []
    | none => []
  let InFlight := setRemove BucketKey F.InFlightBuckets_GT
  if (pts.length : Int) > 1 then
    { F with InFlightBuckets_GT := InFlight,
             PendingBucketResults_GT := mapSet BucketKey pts F.PendingBucketResults_GT }
  else { F with InFlightBuckets_GT := InFlight }

/-- The frame swap at the head of `Execute`. -/
def FollowFrameSwap (F : FollowState) (FrameIdx : Nat) : FollowState :=
  if F.LastResultsFrame ≠ FrameIdx then
    { F with
      BucketResults_RT :=
        F.PendingBucketResults_GT.foldl (fun RT Pair => mapSet Pair.1 Pair.2 RT) [],
      PendingBucketResults_GT := [],
      LastResultsFrame := FrameIdx }
  else F

/-- The reset of the per-frame bucket counter at the head of `Execute`. -/
def FollowBudgetReset (F : FollowState) (FrameIdx : Nat) : FollowState :=
  if F.LastBudgetResetFrame ≠ FrameIdx then
    { F with LastBudgetResetFrame := FrameIdx, BucketsScheduledThisFrame := 0 }
  else F

structure FollowEnv where
  M : FMathOps
  GetTypeHash : Nat → Nat
  FrameIdx : Nat
  GFrameNumber : Nat
  DeltaTimeSeconds : ℚ
  Params : FSwarmMovementParamsFragment

/-- The lambda `IsPathFresh` (the same text in the follow and the integrate processor). -/
def IsPathFresh (M : FMathOps) (Params : FSwarmMovementParamsFragment)
    (Path : FSwarmPathStateFragment) (Sense : FSwarmTargetSenseFragment) (selfPos : FVector) :
    Bool :=
  let speed := Params.MaxSpeed
  let dist :=
    if Path.bHasPath then FVector.Dist2D M selfPos Path.LastGoal
    else FVector.Dist2D M selfPos Sense.TargetLocation
  let travelMs := (dist / max 1 (speed * (6 / 10))) * 1000
  let maxPathAgeMs := Clamp travelMs 2000 10000
  Path.bHasPath && decide (Path.PathAge * 1000 ≤ maxPathAgeMs) && decide (Path.Index ≥ 0) &&
    decide (Path.Index < Path.NumPoints)

/-- The lambda `AdvanceWaypointIfClose`: the path state and the target after the call; `none`
is a point access outside the array. -/
def AdvanceWaypointIfClose (Params : FSwarmMovementParamsFragment)
    (Path : FSwarmPathStateFragment) (selfPos target : FVector) :
    Option (FSwarmPathStateFragment × FVector) :=
  if FVector.DistSquared2D selfPos target > Square Params.WaypointAcceptanceRadius then
    some (Path, target)
  else
    let Path1 : FSwarmPathStateFragment :=
      { Path with Index := Clamp (Path.Index + 1) 0 (max 0 (Path.NumPoints - 1)), PathAge := 0 }
    if Path1.Index < Path1.NumPoints then
      match Path1.Point Path1.Index with
      | some pt => some (Path1, pt)
      | none => none
    else some (Path1, target)

/-- The lambda `BuildSmallWindowIfAllowed`; `none` is a point access outside the array. -/
def BuildSmallWindowIfAllowed (M : FMathOps) (FrameIdx : Nat)
    (Policy : FSwarmUpdatePolicyFragment) (Path : FSwarmPathStateFragment)
    (Window : FSwarmPathWindowFragment) : Option FSwarmPathWindowFragment :=
  if FrameIdx &&& Policy.FollowMask ≠ 0 then some Window
  else
    let num := Path.NumPoints
    let clampIdx := fun (idx : Int) => Clamp idx 0 (max 0 (num - 1))
    let i0 := clampIdx Path.Index
    let i1 := clampIdx (i0 + 1)
    let i2 := clampIdx (i1 + 1)
    match Path.Point i0, Path.Point i1, Path.Point i2 with
    | some P0, some P1, some P2 =>
      let v01 : FVector2D := { X := P1.X - P0.X, Y := P1.Y - P0.Y }
      let v12 : FVector2D := { X := P2.X - P1.X, Y := P2.Y - P1.Y }
      let l01Sq := v01.X * v01.X + v01.Y * v01.Y
      let l12Sq := v12.X * v12.X + v12.Y * v12.Y
      let invL01 := M.InvSqrt l01Sq
      let t2d : FVector2D :=
        if l01Sq > 1 / 1000000 then { X := v01.X * invL01, Y := v01.Y * invL01 }
        else { X := 0, Y := 0 }
      let curv : ℚ :=
        if l01Sq > 1 / 1000000 ∧ l12Sq > 1 / 1000000 then
          let invL12 := M.InvSqrt l12Sq
          let cross := v01.X * v12.Y - v01.Y * v12.X
          let sinTh := |cross| * invL01 * invL12
          sinTh * invL01
        else 0
      some { P0 := P0, P1 := P1, P2 := P2,
             Tangent2D := { X := t2d.X, Y := t2d.Y, Z := 0 },
             Curvature := curv, bValid := true }
    | _, _, _ => none

/-- What the entity loop of a chunk works on besides the entity: the shared profiler fragment
and the processor's members. -/
structure FollowLoopState where
  Prof : FSwarmProfilerSharedFragment
  F : FollowState
deriving DecidableEq

/-- The tail shared by both exits of the entity loop body: age the path, run down the
cooldown, accumulate the telemetry average. -/
def followTimers (Dt : ℚ) (Prof : FSwarmProfilerSharedFragment)
    (Path : FSwarmPathStateFragment) : FSwarmProfilerSharedFragment × FSwarmPathStateFragment :=
  let Path1 := { Path with PathAge := Path.PathAge + Dt }
  let Path2 :=
    if Path1.RepathCooldown > 0 then
      { Path1 with RepathCooldown := max 0 (Path1.RepathCooldown - Dt) }
    else Path1
  ({ Prof with AvgPathAgeAccum := Prof.AvgPathAgeAccum + Path2.PathAge,
               AvgPathAgeNum := Prof.AvgPathAgeNum + 1 }, Path2)

/-- The first statements of the entity loop body: an exhausted path is cleared. -/
def followClearExhausted (Path : FSwarmPathStateFragment) : FSwarmPathStateFragment :=
  if Path.bHasPath = true ∧ Path.Index ≥ Path.NumPoints then { Path with bHasPath := false }
  else Path

/-- The bucket pickup of a path that is not fresh: the copy of the bucket's points becomes the
entity's list. -/
def followAdoptBucket (bucketPts : List FVector) (selfPos TargetLocation : FVector)
    (Path : FSwarmPathStateFragment) : FSwarmPathStateFragment :=
  let Path1 : FSwarmPathStateFragment := { Path with PointsRef := some bucketPts }
  { Path1 with
    Index := Clamp (FindNearestPointIndex2D bucketPts selfPos) 1 (max 1 (Path1.NumPoints - 1)),
    bHasPath := decide (Path1.NumPoints > 1),
    PathAge := 0,
    LastGoal := TargetLocation }

/-- The head of the entity loop body: clear an exhausted path, test freshness, and pick up the
bucket result of a path that is not fresh.  The result is the path state and `bFresh`. -/
def followPickup (env : FollowEnv) (F : FollowState) (e : FSwarmEntity) :
    FSwarmPathStateFragment × Bool :=
  let selfPos := e.Location
  let Path0 := followClearExhausted e.Path
  let bFresh0 := IsPathFresh env.M env.Params Path0 e.Sense selfPos
  let bucketKey := MakeBucketKey selfPos F.ReplanBucketCellSize
  if bFresh0 = false then
    match mapFind bucketKey F.BucketResults_RT with
    | some bucketPts =>
      let P := followAdoptBucket bucketPts selfPos e.Sense.TargetLocation Path0
      (P, P.bHasPath)
    | none => (Path0, bFresh0)
  else (Path0, bFresh0)

/-- The block `if (!bFresh) { ... continue; }`: the budgeted replan request and the timers. -/
def followStale (env : FollowEnv) (st : FollowLoopState) (e : FSwarmEntity)
    (Path1 : FSwarmPathStateFragment) : FollowLoopState × FSwarmEntity :=
  let Dt := Clamp env.DeltaTimeSeconds 0 (1 / 20)
  let selfPos := e.Location
  let bucketKey := MakeBucketKey selfPos st.F.ReplanBucketCellSize
  let playerMoved2D := FVector.Dist2D env.M e.Sense.TargetLocation Path1.LastGoal
  let bShouldReplan : Bool :=
    !Path1.bHasPath || decide (Path1.Index ≥ Path1.NumPoints) ||
      decide (playerMoved2D ≥ st.F.ReplanPlayerMoveThreshold)
  let req : FollowLoopState × FSwarmPathStateFragment × FSwarmBudgetStampFragment :=
    if bShouldReplan = true ∧ Path1.RepathCooldown ≤ 0 ∧
        env.FrameIdx &&& e.Policy.FollowMask = 0 then
      let distToGoal := FVector.Dist2D env.M selfPos e.Sense.TargetLocation
      let bUseHier : Bool := decide (distToGoal > 3000)
      let r := TryRequestReplanBudgeted st.F selfPos e.Sense.TargetLocation bucketKey bUseHier
      if r.1 = true then
        ({ Prof := { st.Prof with RepathsUsed := st.Prof.RepathsUsed + 1 }, F := r.2 },
          { Path1 with RepathCooldown := 1 / 4 }, { e.Stamp with bDidReplan := true })
      else ({ st with F := r.2 }, Path1, e.Stamp)
    else (st, Path1, e.Stamp)
  let t := followTimers Dt req.1.Prof req.2.1
  ({ req.1 with Prof := t.1 }, { e with Path := t.2, Stamp := req.2.2 })

/-- The direct-chase decision after the waypoint advance: the steering target, the path state,
the window and the profiler fragment, and `bDirect`.  `none` is a point access outside the
array while the window is built. -/
def followChase (env : FollowEnv) (Prof : FSwarmProfilerSharedFragment) (e : FSwarmEntity)
    (Path2 : FSwarmPathStateFragment) (target1 : FVector) :
    Option ((FVector × FSwarmPathStateFragment × FSwarmPathWindowFragment ×
      FSwarmProfilerSharedFragment) × Bool) :=
  let selfPos := e.Location
  let bOnLastSegment : Bool := decide (Path2.NumPoints ≤ 2) ||
    decide (Path2.Index ≥ max 1 (Path2.NumPoints - 2))
  let bClose : Bool := decide (FVector.DistSquared2D selfPos e.Sense.TargetLocation
    ≤ Square env.Params.DirectChaseRange)
  let bDirect : Bool := e.Sense.bLOS && bOnLastSegment && bClose
  if bDirect = true then
    some ((e.Sense.TargetLocation, { Path2 with LastGoal := e.Sense.TargetLocation },
      { e.Window with bValid := false },
      { Prof with DirectChaseCount := Prof.DirectChaseCount + 1 }), bDirect)
  else
    match BuildSmallWindowIfAllowed env.M env.FrameIdx e.Policy Path2 e.Window with
    | some W => some ((target1, Path2, W, Prof), bDirect)
    | none => none

/-- The lane spread: the steering direction towards `target`, offset sideways on a path that
is not a direct chase. -/
def followPathDir (env : FollowEnv) (e : FSwarmEntity) (target : FVector) (bDirect : Bool) :
    FVector :=
  let selfPos := e.Location
  let distToTarget := FVector.Dist2D env.M selfPos target
  let pathDir0 := FVector.GetSafeNormal2D env.M (target.sub selfPos)
  if bDirect = false ∧ distToTarget > env.Params.PathSpreadMinDistance then
    let clamped := min distToTarget env.Params.PathSpreadMaxDistance
    let alpha := (clamped - env.Params.PathSpreadMinDistance) /
      max 1 (env.Params.PathSpreadMaxDistance - env.Params.PathSpreadMinDistance)
    let spread := env.Params.PathSpreadMaxOffset * alpha * e.Agent.LaneMag * e.Agent.LaneSign
    if spread ≠ 0 then
      let invLen := env.M.InvSqrt
        (max (1 / 10000) (pathDir0.X * pathDir0.X + pathDir0.Y * pathDir0.Y))
      let t2d : FVector2D := { X := pathDir0.X * invLen, Y := pathDir0.Y * invLen }
      let right2d : FVector2D := { X := -t2d.Y, Y := t2d.X }
      let right : FVector := { X := right2d.X, Y := right2d.Y, Z := 0 }
      FVector.GetSafeNormal2D env.M ((target.add (right.scale spread)).sub selfPos)
    else pathDir0
  else pathDir0

/-- The rest of the entity loop body for a fresh path: waypoint, direct chase or window, lane
spread, weights and timers.  `none` is a point access outside the array. -/
def followSteer (env : FollowEnv) (st : FollowLoopState) (e : FSwarmEntity)
    (Path1 : FSwarmPathStateFragment) : Option (FollowLoopState × FSwarmEntity) :=
  let Dt := Clamp env.DeltaTimeSeconds 0 (1 / 20)
  let selfPos := e.Location
  match Path1.Point Path1.Index with
  | none => none
  | some target0 =>
    match AdvanceWaypointIfClose env.Params Path1 selfPos target0 with
    | none => none
    | some (Path2, target1) =>
      match followChase env st.Prof e Path2 target1 with
      | none => none
      | some ((target, Path3, Window1, Prof1), bDirect) =>
        let pathDir := followPathDir env e target bDirect
        let dens := e.Separation.LocalDensity
        let deemphasis : ℚ := if dens ≥ 6 then 6 / 10 else if dens ≥ 3 then 8 / 10 else 1
        let Sep1 : FSwarmSeparationFragment :=
          { e.Separation with PathDir := pathDir,
                              PathWeight := env.Params.PathFollowWeight * deemphasis }
        let t := followTimers Dt Prof1 Path3
        some ({ st with Prof := t.1 },
          { e with Path := t.2, Window := Window1, Separation := Sep1 })

/-- The body of `for (int32 i = 0; i < N; ++i)` of the chunk lambda.  `none` is a point access
outside the array. -/
def FollowEntityStep (env : FollowEnv) (st : FollowLoopState) (e : FSwarmEntity) :
    Option (FollowLoopState × FSwarmEntity) :=
  let picked := followPickup env st.F e
  if picked.2 = false then some (followStale env st e picked.1)
  else followSteer env st e picked.1

/-- The entity loop of one chunk. -/
def FollowEntityLoop (env : FollowEnv) :
    List FSwarmEntity → FollowLoopState → Option (FollowLoopState × List FSwarmEntity)
  | [], st => some (st, [])
  | e :: rest, st =>
    match FollowEntityStep env st e with
    | none => none
    | some (st1, e1) =>
      match FollowEntityLoop env rest st1 with
      | none => none
      | some (st2, rest1) => some (st2, e1 :: rest1)

/-- The chunk lambda of `Execute`. -/
def FollowChunk (env : FollowEnv) (st : FollowLoopState) (chunk : List FSwarmEntity) :
    Option (FollowLoopState × List FSwarmEntity) :=
  if ShouldProcessChunkThisFrame env.GFrameNumber env.GetTypeHash chunk 2 = false then
    some (st, chunk)
  else FollowEntityLoop env chunk st

/-- The chunk loop of `Execute`. -/
def FollowChunks (env : FollowEnv) :
    FollowLoopState → List (List FSwarmEntity) →
      Option (FollowLoopState × List (List FSwarmEntity))
  | st, [] => some (st, [])
  | st, chunk :: rest =>
    match FollowChunk env st chunk with
    | none => none
    | some (st1, chunk1) =>
      match FollowChunks env st1 rest with
      | none => none
      | some (st2, rest1) => some (st2, chunk1 :: rest1)

/-- `USwarmFollowProcessor::Execute` on a non-null world: frame swap, budget reset, chunks. -/
def FollowExecute (env : FollowEnv) (st : FollowLoopState) (chunks : List (List FSwarmEntity)) :
    Option (FollowLoopState × List (List FSwarmEntity)) :=
  let F1 := FollowBudgetReset (FollowFrameSwap st.F env.FrameIdx) env.FrameIdx
  FollowChunks env { st with F := F1 } chunks

/-- The body of a queued `AsyncTask` of `TryRequestReplanBudgeted`, up to the call of
`FindPathAsync`: the members after it, and whether the asynchronous query was issued.
`hasNavData` tells whether `GetDefaultNavDataInstance` returned an instance. -/
def FollowRunTask (NavSys : Option NavService) (hasNavData : Bool) (F : FollowState)
    (task : FReplanTask) : FollowState × Bool :=
  match NavSys with
  | none => (F, false)
  | some nav =>
    if hasNavData = false then (F, false)
    else if task.BucketKey ∈ F.InFlightBuckets_GT then (F, false)
    else
      let F1 := { F with InFlightBuckets_GT := setAdd task.BucketKey F.InFlightBuckets_GT }
      match nav.ProjectPointToNavigation task.From { X := 100, Y := 100, Z := 200 },
            nav.ProjectPointToNavigation task.Goal { X := 100, Y := 100, Z := 200 } with
      | some _, some _ => (F1, true)
      | _, _ => ({ F1 with InFlightBuckets_GT := setRemove task.BucketKey F1.InFlightBuckets_GT },
                  false)

/-- The game thread runs the oldest queued task. -/
def FollowRunNextTask (NavSys : Option NavService) (hasNavData : Bool) (F : FollowState) :
    FollowState :=
  match F.TaskQueue with
  | [] => F
  | task :: rest => (FollowRunTask NavSys hasNavData { F with TaskQueue := rest } task).1

/-! ## USwarmIntegrateProcessor (Processor/SwarmIntegrateProcessor.cpp, .h) -/

def UE_PI : ℚ := 31415926535897932 / 10000000000000000

def FVector2D.DistSquared (A B : FVector2D) : ℚ := Square (A.X - B.X) + Square (A.Y - B.Y)

/-- What `Execute` captures before the chunk loop; `NavSys` may be null (`none`). -/
structure IntegrateEnv where
  NavSys : Option NavService
  M : FMathOps
  GetTypeHash : Nat → Nat
  FrameIdx : Nat
  DeltaTimeSeconds : ℚ
  Params : FSwarmMovementParamsFragment
  Player : FPlayerSharedFragment

/-- `const float Dt = FMath::Clamp(Exec.GetDeltaTimeSeconds(), 0.f, 0.05f)`. -/
def IntegrateEnv.Dt (env : IntegrateEnv) : ℚ := Clamp env.DeltaTimeSeconds 0 (1 / 20)

/-- The progress block at the head of the entity loop body. -/
def integrateProgress (Dt : ℚ) (selfPos : FVector) (Prog : FSwarmProgressFragment) :
    FSwarmProgressFragment :=
  let Prog1 := { Prog with SinceProgressSec := Prog.SinceProgressSec + Dt }
  if Prog1.SinceProgressSec ≥ 1 / 4 then
    let d2 := FVector2D.DistSquared { X := selfPos.X, Y := selfPos.Y }
      { X := Prog1.LastPos2D.X, Y := Prog1.LastPos2D.Y }
    if d2 ≥ 400 then
      { LastPos2D := { X := selfPos.X, Y := selfPos.Y, Z := 0 }, DistanceMoved2D := 0,
        bLikelyStuck := false, SinceProgressSec := 0 }
    else { Prog1 with bLikelyStuck := true, SinceProgressSec := 0 }
  else Prog1

/-- The zeroing shared by `Freeze` and the yielding block: separation, path direction and
weight are cleared, and a velocity that is not nearly zero is set to zero. -/
def zeroSteering (e : FSwarmEntity) : FSwarmEntity :=
  { e with
    Separation := { e.Separation with Separation := FVector.ZeroVector,
                                      PathDir := FVector.ZeroVector, PathWeight := 0 },
    Agent := if e.Agent.Velocity.IsNearlyZero = false then
        { e.Agent with Velocity := FVector.ZeroVector }
      else e.Agent }

/-- The lambda `Freeze`. -/
def Freeze (e : FSwarmEntity) (selfPos fwd2D : FVector) : FSwarmEntity :=
  let e1 := zeroSteering e
  { e1 with Move := { Center := selfPos, Forward := fwd2D, DistanceToGoal := 0 } }

def nearPlayer (env : IntegrateEnv) (selfPos : FVector) (Mul : ℚ) : Bool :=
  let ZTol : ℚ := 120
  let dzToPlayer := |selfPos.Z - env.Player.PlayerLocation.Z|
  let r := max 100 env.Params.AgentRadius
  decide (FVector2D.DistSquared { X := selfPos.X, Y := selfPos.Y } env.Player.PlayerLocation2D
    ≤ Square (Mul * r)) && decide (dzToPlayer ≤ ZTol)

/-- `enterYield`: near the target, dense, and slow or pressured. -/
def enterYield (env : IntegrateEnv) (e : FSwarmEntity) : Bool :=
  let DensityFracToStop : ℚ := 6 / 10
  let MinStopSpeed : ℚ := 10
  let SepPressureTh := env.Params.MaxSpeed * (1 / 4)
  let nearEnter := nearPlayer env e.Location 2
  let maxNeigh : Int := max 1 env.Params.MaxNeighbors
  let dense : Bool := decide (e.Separation.NeighborCount ≥ ⌈DensityFracToStop * (maxNeigh : ℚ)⌉)
  let speed2D := e.Agent.Velocity.Size2D env.M
  let sepMag := e.Separation.Separation.Size2D env.M
  let slow : Bool := decide (speed2D ≤ MinStopSpeed)
  let pressured : Bool := decide (sepMag ≥ SepPressureTh) &&
    decide (speed2D ≤ env.Params.MaxSpeed * (2 / 10))
  nearEnter && dense && (slow || pressured)

/-- The exit condition of the yield gate besides the expired hold: `crowdRelaxed || playerFar`. -/
def exitYield (env : IntegrateEnv) (e : FSwarmEntity) : Bool :=
  let maxNeigh : Int := max 1 env.Params.MaxNeighbors
  let crowdRelaxed : Bool := decide (e.Separation.NeighborCount < ⌈(4 / 10 : ℚ) * (maxNeigh : ℚ)⌉)
  let playerFar : Bool := !nearPlayer env e.Location (24 / 10)
  crowdRelaxed || playerFar

/-- The yield gate: the hold runs down by `Dt`, then the entity enters or leaves yielding. -/
def yieldGate (env : IntegrateEnv) (e : FSwarmEntity) : FSwarmAgentFragment :=
  let MinHoldSec : ℚ := 4 / 10
  let Agent1 : FSwarmAgentFragment :=
    { e.Agent with YieldTimeRemaining := max 0 (e.Agent.YieldTimeRemaining - env.Dt) }
  if Agent1.bYielding = false ∧ enterYield env e = true then
    { Agent1 with bYielding := true, YieldTimeRemaining := MinHoldSec }
  else if Agent1.bYielding = true then
    if Agent1.YieldTimeRemaining ≤ 0 ∧ exitYield env e = true then
      { Agent1 with bYielding := false }
    else Agent1
  else Agent1

/-- `Project(Small) || Project(Medium) || Project(Large)`: the first projection that
succeeds. -/
def projectWithFallback (nav : NavService) (P : FVector) : Option FVector :=
  match nav.ProjectPointToNavigation P { X := 100, Y := 100, Z := 200 } with
  | some out => some out
  | none =>
    match nav.ProjectPointToNavigation P { X := 400, Y := 400, Z := 400 } with
    | some out => some out
    | none => nav.ProjectPointToNavigation P { X := 1200, Y := 1200, Z := 800 }

/-- The block `if (Agents[i].bYielding) { ... continue; }`; the navigation system is used only
when it is there. -/
def integrateYielding (env : IntegrateEnv) (e : FSwarmEntity) (fwd2D : FVector) : FSwarmEntity :=
  let e1 := zeroSteering e
  let selfPos := e.Location
  let proj : Option FVector :=
    match env.NavSys with
    | some nav => projectWithFallback nav selfPos
    | none => none
  match proj with
  | some out =>
    { e1 with Agent := { e1.Agent with LastProjectedLocation := out },
              Move := { Center := out, Forward := fwd2D, DistanceToGoal := 0 } }
  | none => { e1 with Move := { Center := selfPos, Forward := fwd2D, DistanceToGoal := 0 } }

def localDensityFrac (Params : FSwarmMovementParamsFragment) (Sep : FSwarmSeparationFragment) :
    ℚ :=
  let neighFrac := Clamp ((Sep.NeighborCount : ℚ) / ((max 1 Params.MaxNeighbors : Int) : ℚ)) 0 1
  if Sep.LocalDensity > 0 then Clamp (Sep.LocalDensity / (5 / 2)) 0 1 else neighFrac

def decimatePeriod (frac : ℚ) : Nat :=
  if frac ≥ 85 / 100 then 4 else if frac ≥ 60 / 100 then 2 else 1

/-- `bDecimate`; the sum is a `uint32`. -/
def bDecimate (env : IntegrateEnv) (e : FSwarmEntity) : Bool :=
  let period := decimatePeriod (localDensityFrac env.Params e.Separation)
  let h := env.GetTypeHash e.Entity
  decide (period > 1) &&
    decide (((env.FrameIdx + (h &&& (period - 1))) % 2 ^ 32) % period ≠ 0)

/-- The two damping exits: the velocity is scaled by 0.90 and the move target stays at the
entity. -/
def integrateDamp (e : FSwarmEntity) (fwd2D : FVector) : FSwarmEntity :=
  { e with Agent := { e.Agent with Velocity := e.Agent.Velocity.scale (9 / 10) },
           Move := { Center := e.Location, Forward := fwd2D, DistanceToGoal := 0 } }

def curvSpeedScale (Window : FSwarmPathWindowFragment) : ℚ :=
  if Window.bValid then Clamp (1 / (1 + 120 * Window.Curvature)) (55 / 100) 1 else 1

def densitySpeedScale (frac : ℚ) : ℚ := Lerp 1 (6 / 10) frac

def maxSpeedThisFrame (env : IntegrateEnv) (e : FSwarmEntity) : ℚ :=
  env.Params.MaxSpeed * curvSpeedScale e.Window *
    densitySpeedScale (localDensityFrac env.Params e.Separation)

/-- `Separation[i].PathWeight *= (1.f - 0.5f * localDensityFrac)`. -/
def scaledPathWeight (env : IntegrateEnv) (e : FSwarmEntity) : ℚ :=
  e.Separation.PathWeight * (1 - (1 / 2) * localDensityFrac env.Params e.Separation)

/-- `desiredVel2D`: the blend of separation and path direction, flattened. -/
def desiredVel2D (env : IntegrateEnv) (e : FSwarmEntity) : FVector :=
  let desiredVel := (e.Separation.Separation.scale env.Params.SeparationWeight).add
    ((e.Separation.PathDir.scale env.Params.MaxSpeed).scale (scaledPathWeight env e))
  { X := desiredVel.X, Y := desiredVel.Y, Z := 0 }

/-- The test `desiredVel2D.Size() * Dt <= 0.5f`. -/
def smallDesired (env : IntegrateEnv) (e : FSwarmEntity) : Bool :=
  decide ((desiredVel2D env e).Size env.M * env.Dt ≤ 1 / 2)

/-- `newVel`: the blend towards the desired velocity, clamped to the speed limit. -/
def steerNewVel (env : IntegrateEnv) (e : FSwarmEntity) : FVector :=
  let currV : FVector := { X := e.Agent.Velocity.X, Y := e.Agent.Velocity.Y, Z := 0 }
  let blendV := VInterpTo currV (desiredVel2D env e) env.Dt 6
  blendV.GetClampedToMaxSize env.M (maxSpeedThisFrame env e)

/-- The velocity after `if (!newVel.Equals(Agents[i].Velocity)) Agents[i].Velocity = newVel`. -/
def steerVelocity (env : IntegrateEnv) (e : FSwarmEntity) : FVector :=
  if (steerNewVel env e).Equals e.Agent.Velocity = false then steerNewVel env e
  else e.Agent.Velocity

/-- The turn-rate cap: the forward vector of the rotation after the steering step. -/
def steerForward (env : IntegrateEnv) (e : FSwarmEntity) (fwd2D Velocity : FVector) : FVector :=
  let turnRateLimitDeg := Lerp 720 180 (localDensityFrac env.Params e.Separation)
  let target2D := if Velocity.IsNearlyZero then fwd2D else Velocity.GetSafeNormal2D env.M
  let turnCapRad := turnRateLimitDeg * (UE_PI / 180) * env.Dt
  let cosCap := env.M.Cos turnCapRad
  let dot := Clamp (FVector.DotProduct fwd2D target2D) (-1) 1
  if dot < cosCap then
    let ang := env.M.Acos dot
    let t := min 1 (turnCapRad / max KINDA_SMALL_NUMBER ang)
    ((fwd2D.scale (1 - t)).add (target2D.scale t)).GetSafeNormal2D env.M
  else e.Forward

/-- The writes at the end of the steering exit: rotation, scaled path weight, velocity, last
projected location and move target. -/
def steerFinish (env : IntegrateEnv) (e : FSwarmEntity) (fwd2D Velocity Forward1 : FVector)
    (Center LastProj : FVector) : FSwarmEntity :=
  { e with
    Forward := Forward1,
    Separation := { e.Separation with PathWeight := scaledPathWeight env e },
    Agent := { e.Agent with Velocity := Velocity, LastProjectedLocation := LastProj },
    Move := { Center := Center,
              Forward := if Velocity.IsNearlyZero then fwd2D
                         else Velocity.GetSafeNormal2D env.M,
              DistanceToGoal := Velocity.Size env.M * env.Dt } }

/-- The steering exit of the entity loop body, from the weight scaling to the move target.
The result carries the member `HCache` after its post-increment; `none` is the dereference of
a null `NavSys` in the reproject block. -/
def integrateSteer (env : IntegrateEnv) (HCache : Nat) (e : FSwarmEntity) (fwd2D : FVector) :
    Option (Nat × FSwarmEntity) :=
  let selfPos := e.Location
  let Velocity := steerVelocity env e
  let Forward1 := steerForward env e fwd2D Velocity
  let desiredPos := selfPos.add (Velocity.scale env.Dt)
  let lastProj := e.Agent.LastProjectedLocation
  let distXYSq := FVector.DistSquared2D selfPos lastProj
  let dZ := |selfPos.Z - lastProj.Z|
  let speed2DNow := Velocity.Size2D env.M
  let xySlack := Clamp (120 - (1 / 2) * speed2DNow) 60 120
  let zSlack := Clamp (20 - (5 / 100) * speed2DNow) 10 20
  let needReproject : Bool := decide (distXYSq > Square xySlack) || decide (dZ > zSlack)
  let haveBudget : Bool := decide (((env.FrameIdx + (HCache &&& 0x3)) % 2 ^ 32) % 4 = 0)
  let HCache1 := (HCache + 1) % 2 ^ 32
  if needReproject && haveBudget then
    match env.NavSys with
    | none => none
    | some nav =>
      match projectWithFallback nav desiredPos with
      | some out => some (HCache1, steerFinish env e fwd2D Velocity Forward1 out out)
      | none => some (HCache1, steerFinish env e fwd2D Velocity Forward1 desiredPos lastProj)
  else some (HCache1, steerFinish env e fwd2D Velocity Forward1 desiredPos lastProj)

/-- The entity after the progress block. -/
def afterProgress (env : IntegrateEnv) (e : FSwarmEntity) : FSwarmEntity :=
  { e with Progress := integrateProgress env.Dt e.Location e.Progress }

/-- The entity after the progress block and the yield gate. -/
def afterGate (env : IntegrateEnv) (e : FSwarmEntity) : FSwarmEntity :=
  { afterProgress env e with Agent := yieldGate env (afterProgress env e) }

/-- The body of `for (int32 i = 0; i < N; ++i)` of the chunk lambda: freeze, yield, decimation
damping, small-desired damping, steering. -/
def IntegrateEntityStep (env : IntegrateEnv) (HCache : Nat) (e : FSwarmEntity) :
    Option (Nat × FSwarmEntity) :=
  let selfPos := e.Location
  let e1 := afterProgress env e
  let fwd2D := e1.Forward.GetSafeNormal2D env.M
  if IsPathFresh env.M env.Params e1.Path e1.Sense selfPos = false then
    some (HCache, Freeze e1 selfPos fwd2D)
  else
    let e2 := afterGate env e
    if e2.Agent.bYielding = true then some (HCache, integrateYielding env e2 fwd2D)
    else if bDecimate env e2 = true then some (HCache, integrateDamp e2 fwd2D)
    else
      let e3 := { e2 with Separation :=
        { e2.Separation with PathWeight := scaledPathWeight env e2 } }
      if smallDesired env e2 = true then some (HCache, integrateDamp e3 fwd2D)
      else integrateSteer env HCache e2 fwd2D

/-- The entity loop of one chunk. -/
def IntegrateEntityLoop (env : IntegrateEnv) :
    List FSwarmEntity → Nat → Option (Nat × List FSwarmEntity)
  | [], HCache => some (HCache, [])
  | e :: rest, HCache =>
    match IntegrateEntityStep env HCache e with
    | none => none
    | some (HCache1, e1) =>
      match IntegrateEntityLoop env rest HCache1 with
      | none => none
      | some (HCache2, rest1) => some (HCache2, e1 :: rest1)

/-- The chunks of `ParallelForEachEntityChunk`, executed one after the other. -/
def IntegrateExecute (env : IntegrateEnv) :
    Nat → List (List FSwarmEntity) → Option (Nat × List (List FSwarmEntity))
  | HCache, [] => some (HCache, [])
  | HCache, chunk :: rest =>
    match IntegrateEntityLoop env chunk HCache with
    | none => none
    | some (HCache1, chunk1) =>
      match IntegrateExecute env HCache1 rest with
      | none => none
      | some (HCache2, rest1) => some (HCache2, chunk1 :: rest1)

/-! ## The shared state of the pipeline and its path-writing operations -/

structure SwarmWorld where
  Chunks : List (List FSwarmEntity)
  Prof : FSwarmProfilerSharedFragment
  G : PathGlobals
  F : FollowState
deriving DecidableEq

/-- A PathReplan pass on a world. -/
def PathReplanWorld (NavSys : Option NavService) (M : FMathOps) (GetTypeHash : Nat → Nat)
    (FrameIdx GFrameNumber : Nat) (Dt : ℚ) (Params : FSwarmMovementParamsFragment)
    (Player : FPlayerSharedFragment) (clock : Nat → ℚ) (w : SwarmWorld) : SwarmWorld :=
  let r := PathReplanExecute NavSys M GetTypeHash FrameIdx GFrameNumber Dt Params Player clock
    w.Prof w.G w.Chunks
  { w with Chunks := r.2.2, Prof := r.1, G := r.2.1 }

/-- A Follow pass on a world; `none` is a point access outside the array. -/
def FollowWorld (env : FollowEnv) (w : SwarmWorld) : Option SwarmWorld :=
  match FollowExecute env { Prof := w.Prof, F := w.F } w.Chunks with
  | none => none
  | some out => some { w with Chunks := out.2, Prof := out.1.Prof, F := out.1.F }

/-- The PathReplan stage followed by the Follow stage of one tick. -/
def PathReplanThenFollow (NavSys : Option NavService) (M : FMathOps) (GetTypeHash : Nat → Nat)
    (FrameIdx GFrameNumber : Nat) (DeltaTimeSeconds : ℚ)
    (Params : FSwarmMovementParamsFragment) (Player : FPlayerSharedFragment)
    (clock : Nat → ℚ) (w : SwarmWorld) : Option SwarmWorld :=
  FollowWorld
    { M := M, GetTypeHash := GetTypeHash, FrameIdx := FrameIdx, GFrameNumber := GFrameNumber,
      DeltaTimeSeconds := DeltaTimeSeconds, Params := Params }
    (PathReplanWorld NavSys M GetTypeHash FrameIdx GFrameNumber DeltaTimeSeconds Params Player
      clock w)

/-- The path-state invariant of one entity: with `bHasPath` the index is inside a list of at
least two points, and a list referenced at all has at least two points. -/
def PathStateOK (P : FSwarmPathStateFragment) : Prop :=
  (P.bHasPath = true → 0 ≤ P.Index ∧ P.Index < P.NumPoints ∧ 2 ≤ P.NumPoints) ∧
    ∀ pts, P.PointsRef = some pts → 2 ≤ pts.length

/-- Every list of a bucket map has at least two points. -/
def BucketsOK (m : List (Int × List FVector)) : Prop := ∀ p ∈ m, 2 ≤ p.2.length

def WorldOK (w : SwarmWorld) : Prop :=
  (∀ chunk ∈ w.Chunks, ∀ e ∈ chunk, PathStateOK e.Path) ∧
    BucketsOK w.F.PendingBucketResults_GT ∧ BucketsOK w.F.BucketResults_RT

/-- The spawn state: no entity has a path or a point list, the cache and the bucket maps are
empty. -/
def IsSpawnWorld (w : SwarmWorld) : Prop :=
  (∀ chunk ∈ w.Chunks, ∀ e ∈ chunk, e.Path.bHasPath = false ∧ e.Path.PointsRef = none) ∧
    w.G = PathGlobals.init ∧ w.F = FollowState.init

/-- The operations that write path state or the bucket maps the paths are taken from:
a PathReplan pass, a Follow pass, the delivery of an asynchronous path result, and the run of a
queued request task. -/
inductive SwarmStep : SwarmWorld → SwarmWorld → Prop
  | pathReplan (w : SwarmWorld) (NavSys : Option NavService) (M : FMathOps)
      (GetTypeHash : Nat → Nat) (FrameIdx GFrameNumber : Nat) (Dt : ℚ)
      (Params : FSwarmMovementParamsFragment) (Player : FPlayerSharedFragment)
      (clock : Nat → ℚ) :
      SwarmStep w
        (PathReplanWorld NavSys M GetTypeHash FrameIdx GFrameNumber Dt Params Player clock w)
  | follow (w w2 : SwarmWorld) (env : FollowEnv) (h : FollowWorld env w = some w2) :
      SwarmStep w w2
  | pathCallback (w : SwarmWorld) (BucketKey : Int) (Result : Option (List FVector)) :
      SwarmStep w { w with F := FollowPathCallback w.F BucketKey Result }
  | runTask (w : SwarmWorld) (NavSys : Option NavService) (hasNavData : Bool) :
      SwarmStep w { w with F := FollowRunNextTask NavSys hasNavData w.F }

/-- The worlds reached from a spawn state by the operations. -/
inductive Reachable : SwarmWorld → Prop
  | spawn (w : SwarmWorld) (h : IsSpawnWorld w) : Reachable w
  | step (w w2 : SwarmWorld) (h : Reachable w) (hs : SwarmStep w w2) : Reachable w2

/-! ## A computable stand-in for the engine's transcendental functions

Used only to evaluate the embedding at concrete inputs; the general theorems hold for every
`FMathOps`. -/

def isqrtIter (n : Nat) : Nat → Nat → Nat
  | 0, x => x
  | k + 1, x =>
    let y := (x + n / x) / 2
    if y < x then isqrtIter n k y else x

/-- The integer square root by Newton's iteration. -/
def isqrt (n : Nat) : Nat := if n = 0 then 0 else isqrtIter n 400 n

/-- A square root rounded down to six decimals. -/
def sampleSqrt (x : ℚ) : ℚ :=
  if x ≤ 0 then 0 else ((isqrt (⌊x * 1000000000000⌋).toNat : Nat) : ℚ) / 1000000

/-- An inverse square root rounded down: one over the square root rounded up to six
decimals. -/
def sampleInvSqrt (x : ℚ) : ℚ :=
  if x ≤ 0 then 0 else 1000000 / (((isqrt (⌊x * 1000000000000⌋).toNat + 1 : Nat) : ℚ))

def sampleMath : FMathOps :=
  { Sqrt := sampleSqrt,
    InvSqrt := sampleInvSqrt,
    Cos := fun x => 1 - x * x / 2 + x * x * x * x / 24,
    Acos := fun x => 355 / 226 - x - x * x * x / 6 }

/-- A navigation system on which every point projects onto itself, no raycast is blocked and
no path is found. -/
def sampleNavNoPath : NavService :=
  { ProjectPointToNavigation := fun p _ => some p,
    NavigationRaycast := fun _ _ => false,
    FindPathToLocationSynchronously := fun _ _ => none }

/-- A navigation system on which every point projects onto itself, no raycast is blocked and
the path between two points is the straight segment. -/
def sampleNavStraight : NavService :=
  { ProjectPointToNavigation := fun p _ => some p,
    NavigationRaycast := fun _ _ => false,
    FindPathToLocationSynchronously := fun a b => some [a, b] }

def sampleProf : FSwarmProfilerSharedFragment :=
  { RepathsUsed := 0, LOSChecksUsed := 0, DirectChaseCount := 0, AvgPathAgeAccum := 0,
    AvgPathAgeNum := 0 }

/-- A target at (5000, 0, 0), on the navmesh. -/
def samplePlayer : FPlayerSharedFragment :=
  { PlayerLocation := { X := 5000, Y := 0, Z := 0 },
    PlayerLocation2D := { X := 5000, Y := 0 },
    PlayerNavLocation := { X := 5000, Y := 0, Z := 0 },
    bIsOnNavMesh := true, LastUpdateSeconds := 0 }

/-- Two freshly spawned entities in one chunk, no path cache, no bucket results. -/
def sampleWorld : SwarmWorld :=
  { Chunks := [[FSwarmEntity.spawn 1 { X := 0, Y := 0, Z := 0 } { X := 1, Y := 0, Z := 0 } 55,
                FSwarmEntity.spawn 2 { X := 10, Y := 0, Z := 0 } { X := 1, Y := 0, Z := 0 } 55]],
    Prof := sampleProf, G := PathGlobals.init, F := FollowState.init }

/-- Every entity of a chunk satisfies the path-state invariant. -/
def AllPathsOK (es : List FSwarmEntity) : Prop := ∀ e ∈ es, PathStateOK e.Path

/-- The sample world after one PathReplan pass with straight-segment paths. -/
def sampleWorldAfterReplan : SwarmWorld :=
  PathReplanWorld (some sampleNavStraight) sampleMath (fun _ => 0) 0 0 (1 / 60)
    FSwarmMovementParamsFragment.default samplePlayer (fun _ => 0) sampleWorld

/-- A perception pass with a LOS budget of 1 on frame 8. -/
def samplePerceptionEnv : PerceptionEnv :=
  { NavSys := some sampleNavStraight,
    LineTraceSingleByChannel := fun _ _ => none,
    PlayerPawn := 0,
    GetTypeHash := fun n => n,
    FrameIdx := 8,
    Dt := 1 / 60,
    Params := { FSwarmMovementParamsFragment.default with LOSChecksPerFrameBudget := 1 },
    Player := samplePlayer }

/-- A spawned entity near the target whose LOS refresh is due. -/
def sampleDueEntity (Entity : Nat) : FSwarmEntity :=
  let e := FSwarmEntity.spawn Entity { X := 4900, Y := 0, Z := 0 } { X := 1, Y := 0, Z := 0 } 55
  { e with Policy := { e.Policy with DistToPlayer2D_Sq := 10000 },
           LOS := { e.LOS with TimeSinceRefresh := 1 } }

def samplePerceptionState : PerceptionState := { Prof := sampleProf, LastLOSResetFrame := 0 }

/-- One insertion step of PathReplan on the path cache: `GPathCache_RefreshOrInsert` followed
by `GPathCache_EvictOldestIfNeeded`. -/
def cacheInsertStep (MaxEntries : Int) (Cache : List (TSlot FPathKey FCachedPathEntry))
    (ins : FPathKey × Option (List FVector) × ℚ) : List (TSlot FPathKey FCachedPathEntry) :=
  GPathCache_EvictOldestIfNeeded MaxEntries
    (GPathCache_RefreshOrInsert Cache ins.1 ins.2.1 ins.2.2)

/-- One Integrate pass over an entity within a run of frames: the pass's environment and
`HCache`, and what the other stages did to the entity since the previous pass. -/
structure IntegrateFrame where
  env : IntegrateEnv
  HCache : Nat
  between : FSwarmEntity → FSwarmEntity

/-- The other stages leave the yield flag and the hold timer alone (only Integrate writes
them). -/
def KeepsYield (f : FSwarmEntity → FSwarmEntity) : Prop :=
  ∀ e, (f e).Agent.bYielding = e.Agent.bYielding ∧
    (f e).Agent.YieldTimeRemaining = e.Agent.YieldTimeRemaining

/-- The entity after a run of frames. -/
def IntegrateFrames : List IntegrateFrame → FSwarmEntity → Option FSwarmEntity
  | [], e => some e
  | f :: rest, e =>
    match IntegrateEntityStep f.env f.HCache (f.between e) with
    | none => none
    | some out => IntegrateFrames rest out.2

/-- The clamped `Dt` accumulated over the passes of a run that reach the yield gate (the
passes that do not freeze the entity). -/
def yieldElapsed : List IntegrateFrame → FSwarmEntity → ℚ
  | [], _ => 0
  | f :: rest, e =>
    let e0 := f.between e
    (if IsPathFresh f.env.M f.env.Params e0.Path e0.Sense e0.Location = true then f.env.Dt
     else 0) +
      match IntegrateEntityStep f.env f.HCache e0 with
      | none => 0
      | some out => yieldElapsed rest out.2

/-- An Integrate pass with a raw frame time of 0.1 s (clamped to 0.05 s), a navigation system
and the default parameters, the target at (5000, 0, 0). -/
def sampleIntegrateEnv : IntegrateEnv :=
  { NavSys := some sampleNavStraight, M := sampleMath, GetTypeHash := fun n => n,
    FrameIdx := 8, DeltaTimeSeconds := 1 / 10,
    Params := FSwarmMovementParamsFragment.default, Player := samplePlayer }

/-- An entity near the target with a fresh two-point path, yielding with the full hold of
0.40 s, and no neighbours. -/
def sampleYieldingEntity : FSwarmEntity :=
  let e := FSwarmEntity.spawn 1 { X := 4900, Y := 0, Z := 0 } { X := 1, Y := 0, Z := 0 } 55
  { e with
    Path := { e.Path with PointsRef := some [{ X := 4000, Y := 0, Z := 0 },
                                              { X := 5000, Y := 0, Z := 0 }],
                          Index := 1, bHasPath := true,
                          LastGoal := { X := 5000, Y := 0, Z := 0 } },
    Sense := { e.Sense with TargetLocation := { X := 5000, Y := 0, Z := 0 } },
    Agent := { e.Agent with bYielding := true, YieldTimeRemaining := 4 / 10 } }

def sampleFrame : IntegrateFrame :=
  { env := sampleIntegrateEnv, HCache := 0, between := fun e => e }

/-- The entity takes the steering exit of the Integrate loop body: its path is fresh, it is
not yielding after the gate, it is not decimated this frame and its desired velocity is not
small. -/
def onSteeringBranch (env : IntegrateEnv) (e : FSwarmEntity) : Prop :=
  IsPathFresh env.M env.Params e.Path e.Sense e.Location = true ∧
    (yieldGate env e).bYielding = false ∧ bDecimate env e = false ∧ smallDesired env e = false

instance (env : IntegrateEnv) (e : FSwarmEntity) : Decidable (onSteeringBranch env e) := by
  unfold onSteeringBranch; infer_instance

/-- An entity far from the target on the steering exit: fresh two-point path, path direction
(1, 0, 0) with weight 3, no neighbours, and a velocity of 330.00005 along x, just above the
default `MaxSpeed` of 330. -/
def sampleOverspeedEntity : FSwarmEntity :=
  let e := FSwarmEntity.spawn 1 { X := 0, Y := 0, Z := 0 } { X := 1, Y := 0, Z := 0 } 55
  { e with
    Path := { e.Path with PointsRef := some [{ X := -100, Y := 0, Z := 0 },
                                              { X := 5000, Y := 0, Z := 0 }],
                          Index := 1, bHasPath := true,
                          LastGoal := { X := 5000, Y := 0, Z := 0 } },
    Sense := { e.Sense with TargetLocation := { X := 5000, Y := 0, Z := 0 } },
    Separation := { e.Separation with PathDir := { X := 1, Y := 0, Z := 0 }, PathWeight := 3 },
    Agent := { e.Agent with Velocity := { X := 330 + 1 / 20000, Y := 0, Z := 0 } } }

/-- The same entity moving at 200 along x. -/
def sampleSteeringEntity : FSwarmEntity :=
  { sampleOverspeedEntity with
    Agent := { sampleOverspeedEntity.Agent with Velocity := { X := 200, Y := 0, Z := 0 } } }

/-! ## USwarmCachePlayerProcessor (Processor/SwarmCachePlayerProcessor.cpp) -/

/-- The navmesh projection of the raw pawn location before the chunk loop: `Projected` and
`bIsOnNavMesh`.  `Nav = none` is a world without a navigation system. -/
def CachePlayerProject (Nav : Option NavService) (RawLoc : FVector) : FVector × Bool :=
  let NavProjectExtent : FVector := { X := 3000, Y := 3000, Z := 10000 }
  let XYNavMeshTolerance : ℚ := 5
  let ZNavMeshTolerance : ℚ := 50
  match Nav with
  | none => (RawLoc, false)
  | some nav =>
    match nav.ProjectPointToNavigation RawLoc NavProjectExtent with
    | none => (RawLoc, false)
    | some Projected =>
      let XYDistSq := FVector.DistSquared2D RawLoc Projected
      let ZDist := |RawLoc.Z - Projected.Z|
      (Projected,
        decide (XYDistSq ≤ Square XYNavMeshTolerance) && decide (ZDist ≤ ZNavMeshTolerance))

/-- The chunk lambda of `Execute` on the shared target fragment; the profiler time it adds is
telemetry and left out. -/
def CachePlayerChunk (RawLoc Projected : FVector) (bIsOnNavMesh : Bool) (Now : ℚ)
    (Shared : FPlayerSharedFragment) : FPlayerSharedFragment :=
  if Shared.LastUpdateSeconds = Now then Shared
  else
    { PlayerLocation := RawLoc,
      PlayerLocation2D := { X := RawLoc.X, Y := RawLoc.Y },
      PlayerNavLocation := Projected,
      bIsOnNavMesh := bIsOnNavMesh,
      LastUpdateSeconds := Now }

/-- The loop `Query.ForEachEntityChunk` over `numChunks` chunks that share the fragment. -/
def CachePlayerChunks (RawLoc Projected : FVector) (bIsOnNavMesh : Bool) (Now : ℚ) :
    Nat → FPlayerSharedFragment → FPlayerSharedFragment
  | 0, Shared => Shared
  | n + 1, Shared =>
    CachePlayerChunks RawLoc Projected bIsOnNavMesh Now n
      (CachePlayerChunk RawLoc Projected bIsOnNavMesh Now Shared)

/-- `USwarmCachePlayerProcessor::Execute` on a non-null world.  `PlayerPawn` is the actor
location of the player pawn, `none` without a pawn; `Now` is `World->GetTimeSeconds()`. -/
def CachePlayerExecute (PlayerPawn : Option FVector) (Nav : Option NavService) (Now : ℚ)
    (numChunks : Nat) (Shared : FPlayerSharedFragment) : FPlayerSharedFragment :=
  match PlayerPawn with
  | none => Shared
  | some RawLoc =>
    let p := CachePlayerProject Nav RawLoc
    CachePlayerChunks RawLoc p.1 p.2 Now numChunks Shared

/-- A navigation system that projects every point onto the plane z = 0. -/
def sampleNavFlat : NavService :=
  { ProjectPointToNavigation := fun p _ => some { X := p.X, Y := p.Y, Z := 0 },
    NavigationRaycast := fun _ _ => false,
    FindPathToLocationSynchronously := fun a b => some [a, b] }

/-! ## USwarmLocalSeparationProcessor (Processor/SwarmLocalSeparationProcessor.cpp) -/

/-- What `Execute` captures before the chunk loop, with the grid of the grid subsystem. -/
structure SeparationEnv where
  Grid : FAgentSpatialHashGrid
  M : FMathOps
  GetTypeHash : Nat → Nat
  FrameIdx : Nat
  GFrameNumber : Nat
  Params : FSwarmMovementParamsFragment

/-- The lambda `ShouldSkip`; the sums are `uint32`. -/
def ShouldSkip (env : SeparationEnv) (e : FSwarmEntity) : Bool :=
  let Mid2 : ℚ := Square 1500
  let Far2 : ℚ := Square 3000
  let H := env.GetTypeHash e.Entity
  let d2 := e.Policy.DistToPlayer2D_Sq
  let band : Bool :=
    if d2 > Far2 then decide (((env.FrameIdx + (H &&& 3)) % 2 ^ 32) &&& 3 ≠ 0)
    else if d2 > Mid2 then decide (((env.FrameIdx + (H &&& 1)) % 2 ^ 32) &&& 1 ≠ 0)
    else false
  if band then true
  else
    let Mask := e.Policy.SeparationMask
    decide (Mask ≠ 0) && decide (((env.FrameIdx + (H &&& Mask)) % 2 ^ 32) &&& Mask ≠ 0)

/-- The lambda `LocalCapFromDensity`. -/
def LocalCapFromDensity (Params : FSwarmMovementParamsFragment) (estDensity : ℚ) : Int :=
  if estDensity ≥ 6 then max 4 ⌊(Params.MaxNeighbors : ℚ) * (1 / 2)⌋
  else if estDensity ≥ 3 then max 4 ⌊(Params.MaxNeighbors : ℚ) * (3 / 4)⌋
  else Params.MaxNeighbors

/-- The lambda `AccumulateNeighbor` on its captured `Sep` and `Count`. -/
def AccumulateNeighbor (env : SeparationEnv) (SelfE : Nat) (SelfPos : FVector)
    (st : FVector × Int) (O : FEntityData) : Bool × (FVector × Int) :=
  let Skin : ℚ := 10
  if O.Entity = SelfE then (true, st)
  else
    let sumR := 2 * env.Params.AgentRadius + Skin
    let sumRSq := sumR * sumR
    let dx := O.Location.X - SelfPos.X
    let dy := O.Location.Y - SelfPos.Y
    let ds2 := dx * dx + dy * dy
    let Sep1 : FVector :=
      if ds2 > KINDA_SMALL_NUMBER ∧ ds2 < sumRSq then
        let d := env.M.Sqrt ds2
        let invd := 1 / (d + KINDA_SMALL_NUMBER)
        let nx := -dx * invd
        let ny := -dy * invd
        let over := sumR - d
        let strength := 1 - d / sumR
        { st.1 with X := st.1.X + nx * (over * 8 + strength * 25),
                    Y := st.1.Y + ny * (over * 8 + strength * 25) }
      else st.1
    (true, (Sep1, st.2 + 1))

/-- The body of `for (int32 i = 0; i < N; ++i)` of the chunk lambda, with the cached stencil
of the thread. -/
def SeparationEntityStep (env : SeparationEnv) (S : FStencil) (e : FSwarmEntity) :
    FStencil × FSwarmEntity :=
  let ZHalfHeight : ℚ := 120
  let QueryR := env.Params.NeighborRadius
  let QueryAreaM2 : ℚ := max (1 / 1000000) (UE_PI * (QueryR * QueryR) * (1 / 10000))
  if ShouldSkip env e = true then (S, e)
  else
    let SelfPos := e.Location
    let EstDensity := e.Policy.EstimatedDensity
    let MaxNbr := LocalCapFromDensity env.Params EstDensity
    if MaxNbr ≤ 0 then
      (S, { e with Separation := { e.Separation with NeighborCount := 0, LocalDensity := 0 } })
    else
      let r := VisitNearby env.Grid S SelfPos QueryR ZHalfHeight MaxNbr
        (AccumulateNeighbor env e.Entity SelfPos) (FVector.ZeroVector, 0)
      let Sep := r.2.1
      let Count := r.2.2
      let Density : ℚ := if Count > 0 then (Count : ℚ) / QueryAreaM2 else EstDensity
      (r.1, { e with Separation := { e.Separation with Separation := Sep,
                                                       NeighborCount := Count,
                                                       LocalDensity := Density } })

/-- The entity loop of one chunk. -/
def SeparationEntityLoop (env : SeparationEnv) :
    List FSwarmEntity → FStencil → FStencil × List FSwarmEntity
  | [], S => (S, [])
  | e :: rest, S =>
    let r := SeparationEntityStep env S e
    let r2 := SeparationEntityLoop env rest r.1
    (r2.1, r.2 :: r2.2)

/-- The chunk lambda of `Execute`. -/
def SeparationChunk (env : SeparationEnv) (S : FStencil) (chunk : List FSwarmEntity) :
    FStencil × List FSwarmEntity :=
  if ShouldProcessChunkThisFrame env.GFrameNumber env.GetTypeHash chunk 3 = false then
    (S, chunk)
  else SeparationEntityLoop env chunk S

/-- The chunks of `ParallelForEachEntityChunk`, executed one after the other on one thread. -/
def SeparationExecute (env : SeparationEnv) :
    FStencil → List (List FSwarmEntity) → FStencil × List (List FSwarmEntity)
  | S, [] => (S, [])
  | S, chunk :: rest =>
    let r := SeparationChunk env S chunk
    let r2 := SeparationExecute env r.1 rest
    (r2.1, r.2 :: r2.2)

/-- A separation pass on frame 0 with `MaxNeighbors = 0`; the grid holds entity 1 at the
origin and entity 2 at (30, 40, 0), 50 units away. -/
def sampleSeparationEnv : SeparationEnv :=
  { Grid := BuildGrid (FAgentSpatialHashGrid.new 200)
      [(1, { X := 0, Y := 0, Z := 0 }), (2, { X := 30, Y := 40, Z := 0 })],
    M := sampleMath, GetTypeHash := fun _ => 0, FrameIdx := 0, GFrameNumber := 0,
    Params := { FSwarmMovementParamsFragment.default with MaxNeighbors := 0 } }

/-- Entity 1 of the sample grid with the policy estimates given. -/
def sampleSeparationEntity (EstimatedDensity : ℚ) : FSwarmEntity :=
  { FSwarmEntity.spawn 1 { X := 0, Y := 0, Z := 0 } { X := 1, Y := 0, Z := 0 } 55 with
    Policy := { DistToPlayer2D_Sq := 0, EstimatedDensity := EstimatedDensity,
                CooldownScale := 1, SeparationMask := 0, FollowMask := 0, SenseMask := 0 } }

/-- The yielding sample entity with a valid window of curvature 0.02. -/
def sampleCurvedEntity : FSwarmEntity :=
  { sampleYieldingEntity with
    Window := { sampleYieldingEntity.Window with Curvature := 1 / 50, bValid := true } }

/-! ## USwarmUpdatePolicyProcessor (Processor/SwarmUpdatePolicyProcessor.cpp) -/

/-- What `Execute` captures before the chunk loop.  `Grid` is the grid owned by the grid
subsystem (`none` for a null pointer) and `CellSize` the subsystem's own property. -/
structure PolicyEnv where
  Grid : Option FAgentSpatialHashGrid
  CellSize : ℚ
  GetTypeHash : Nat → Nat
  GFrameNumber : Nat
  Player : FPlayerSharedFragment

/-- `CountInArea`: zero on an empty grid, otherwise `EstimateCountAt(P, CountRadius, 120)`. -/
def PolicyCountInArea (env : PolicyEnv) (S : FStencil) (P : FVector) : FStencil × Int :=
  let CountRadius : ℚ := (6 / 10) * env.CellSize
  let ZHalfHeight : ℚ := 120
  match env.Grid with
  | none => (S, 0)
  | some g => if g.Grid.isEmpty then (S, 0) else EstimateCountAt g S P CountRadius ZHalfHeight

/-- The body of `for (int32 i = 0; i < N; ++i)` of the chunk lambda, with the cached stencil
of the thread. -/
def PolicyEntityStep (env : PolicyEnv) (S : FStencil) (e : FSwarmEntity) :
    FStencil × FSwarmEntity :=
  let AreaM2PerCell : ℚ := max (1 / 1000) ((env.CellSize * env.CellSize) * (1 / 10000))
  let NearSq : ℚ := Square 1500
  let FarSq : ℚ := Square 4000
  let Dense : ℚ := 3
  let VeryDense : ℚ := 6
  let P := e.Location
  let d2 := FVector.DistSquared2D P env.Player.PlayerLocation
  let c := PolicyCountInArea env S P
  let CountInArea := c.2
  let Density : ℚ := if CountInArea > 0 then (CountInArea : ℚ) / AreaM2PerCell else 0
  let FlockMask : Nat := if Density ≥ VeryDense then 0x3 else if Density ≥ Dense then 0x1 else 0
  let FollowMask : Nat := if d2 ≥ FarSq then 0x3 else if d2 ≥ NearSq then 0x1 else 0
  let SenseMask : Nat := if d2 ≥ FarSq then 0x7 else if d2 ≥ NearSq then 0x1 else 0
  let CooldownScale0 : ℚ := if d2 ≥ NearSq then 1 * (if d2 ≥ FarSq then 2 else 3 / 2) else 1
  let CooldownScale : ℚ := if Density ≥ VeryDense then CooldownScale0 * (3 / 2) else CooldownScale0
  (c.1, { e with Policy := { DistToPlayer2D_Sq := d2, EstimatedDensity := Density,
                             CooldownScale := CooldownScale, SeparationMask := FlockMask,
                             FollowMask := FollowMask, SenseMask := SenseMask } })

/-- The entity loop of one chunk. -/
def PolicyEntityLoop (env : PolicyEnv) :
    List FSwarmEntity → FStencil → FStencil × List FSwarmEntity
  | [], S => (S, [])
  | e :: rest, S =>
    let r := PolicyEntityStep env S e
    let r2 := PolicyEntityLoop env rest r.1
    (r2.1, r.2 :: r2.2)

/-- The chunk lambda of `Execute`. -/
def PolicyChunk (env : PolicyEnv) (S : FStencil) (chunk : List FSwarmEntity) :
    FStencil × List FSwarmEntity :=
  if ShouldProcessChunkThisFrame env.GFrameNumber env.GetTypeHash chunk 30 = false then
    (S, chunk)
  else PolicyEntityLoop env chunk S

/-- The chunks of `ParallelForEachEntityChunk`, executed one after the other on one thread. -/
def PolicyExecute (env : PolicyEnv) :
    FStencil → List (List FSwarmEntity) → FStencil × List (List FSwarmEntity)
  | S, [] => (S, [])
  | S, chunk :: rest =>
    let r := PolicyChunk env S chunk
    let r2 := PolicyExecute env r.1 rest
    (r2.1, r.2 :: r2.2)

/-- The path key of an entity in the cell of (600, 0, 0) with the sample target. -/
def sampleCacheKey : FPathKey :=
  { Start := { X := 1, Y := 0, Z := 0 }, Goal := { X := 10, Y := 0, Z := 0 } }

def sampleCachedPoints : List FVector :=
  [{ X := 600, Y := 0, Z := 0 }, { X := 5000, Y := 0, Z := 0 }]

/-- Two freshly spawned entities in one chunk, in different path cells; the path cache holds
an entry inserted at time 0 for the key of the second entity. -/
def sampleCacheWorld : SwarmWorld :=
  { Chunks := [[FSwarmEntity.spawn 1 { X := 0, Y := 0, Z := 0 } { X := 1, Y := 0, Z := 0 } 55,
                FSwarmEntity.spawn 2 { X := 600, Y := 0, Z := 0 } { X := 1, Y := 0, Z := 0 } 55]],
    Prof := sampleProf,
    G := { PathGlobals.init with
           GPathCache :=
             [TSlot.pair sampleCacheKey { Points := some sampleCachedPoints, Time := 0 }] },
    F := FollowState.init }

/-- A PathReplan pass on the world of the cached key at the clock time and with the repath
budget given. -/
def sampleCachePassAt (Now : ℚ) (Budget : Int) : SwarmWorld :=
  PathReplanWorld (some sampleNavStraight) sampleMath (fun _ => 0) 0 0 (1 / 60)
    { FSwarmMovementParamsFragment.default with RepathsPerFrameBudget := Budget }
    samplePlayer (fun _ => Now) sampleCacheWorld

/-- A PathReplan pass on the world of the cached key at clock time 0.5 with the repath budget
given. -/
def sampleCachePass (Budget : Int) : SwarmWorld :=
  PathReplanWorld (some sampleNavStraight) sampleMath (fun _ => 0) 0 0 (1 / 60)
    { FSwarmMovementParamsFragment.default with RepathsPerFrameBudget := Budget }
    samplePlayer (fun _ => 1 / 2) sampleCacheWorld

/-- What a published path leaves in a member's fragments. -/
def Published (env : PathReplanEnv) (SharedRef : List FVector) (e : FSwarmEntity) : Prop :=
  e.Path.PointsRef = some SharedRef ∧ e.Path.Index = 1 ∧ e.Path.bHasPath = true ∧
    e.Path.LastGoal = FinalGoal env.Player ∧ e.Path.PathAge = 0 ∧ e.Stamp.bDidReplan = true

/-- The environment of a PathReplan chunk with straight-segment paths and a repath budget
of 2. -/
def sampleReplanEnv : PathReplanEnv :=
  { NavSys := sampleNavStraight, M := sampleMath, GetTypeHash := fun _ => 0, FrameIdx := 0,
    GFrameNumber := 0, Dt := 1 / 60,
    Params := { FSwarmMovementParamsFragment.default with RepathsPerFrameBudget := 2 },
    Player := samplePlayer }

/-- The group loop's state when it reaches the group of the cached key: one repath used. -/
def sampleReplanLoopState : ReplanLoopState :=
  { Prof := { sampleProf with RepathsUsed := 1 }, G := sampleCacheWorld.G,
    Entities := [FSwarmEntity.spawn 1 { X := 0, Y := 0, Z := 0 } { X := 1, Y := 0, Z := 0 } 55,
                 FSwarmEntity.spawn 2 { X := 600, Y := 0, Z := 0 } { X := 1, Y := 0, Z := 0 } 55] }

/-- The group of the cached key: the entity at index 1. -/
def sampleReplanGroup : FPathKey × List FPendingEntity :=
  (sampleCacheKey, [{ Index := 1, DistSq2D := 19360000 }])

/-- A Follow pass on frame 60 with the default parameters. -/
def sampleFollowEnv : FollowEnv :=
  { M := sampleMath, GetTypeHash := fun _ => 0, FrameIdx := 60, GFrameNumber := 60,
    DeltaTimeSeconds := 1 / 60, Params := FSwarmMovementParamsFragment.default }

/-- One pass of Follow and then Integrate over one entity: the loop body of the follow
processor and then the loop body of the integrate processor.  `none` is a point access
outside the array or the dereference of a null `NavSys`. -/
def FollowThenIntegrateEntity (fenv : FollowEnv) (ienv : IntegrateEnv) (st : FollowLoopState)
    (HCache : Nat) (e : FSwarmEntity) : Option FSwarmEntity :=
  match FollowEntityStep fenv st e with
  | none => none
  | some (_, e1) =>
    match IntegrateEntityStep ienv HCache e1 with
    | none => none
    | some (_, e2) => some e2

/-- A Follow pass on frame 60 with `dt = 0`. -/
def sampleFollowEnvDtZero : FollowEnv := { sampleFollowEnv with DeltaTimeSeconds := 0 }

/-- An Integrate pass on frame 60 with `dt = 0`, on a navmesh in the plane z = 0. -/
def sampleIntegrateEnvDtZero : IntegrateEnv :=
  { NavSys := some sampleNavFlat, M := sampleMath, GetTypeHash := fun n => n, FrameIdx := 60,
    DeltaTimeSeconds := 0, Params := FSwarmMovementParamsFragment.default,
    Player := samplePlayer }

/-- An agent 100 units from the target, 40 above the navmesh, moving at 50 units/s, pushed by
three neighbours, on a fresh path whose current waypoint is 50 units away. -/
def samplePressedEntity : FSwarmEntity :=
  let e := FSwarmEntity.spawn 1 { X := 4900, Y := 0, Z := 40 } { X := 1, Y := 0, Z := 0 } 55
  { e with
    Path := { e.Path with PointsRef := some [{ X := 4000, Y := 0, Z := 0 },
                                              { X := 4950, Y := 0, Z := 0 },
                                              { X := 5000, Y := 0, Z := 0 }],
                          Index := 1, bHasPath := true,
                          LastGoal := { X := 5000, Y := 0, Z := 0 } },
    Sense := { e.Sense with TargetLocation := { X := 5000, Y := 0, Z := 0 } },
    Separation := { e.Separation with Separation := { X := -100, Y := 0, Z := 0 },
                                      NeighborCount := 3, LocalDensity := 3 / 2 },
    Agent := { e.Agent with Velocity := { X := 50, Y := 0, Z := 0 } } }

/-- A resting agent far from the target on a fresh path whose current waypoint is 1000 units
away. -/
def sampleRestingEntity : FSwarmEntity :=
  let e := FSwarmEntity.spawn 1 { X := 0, Y := 0, Z := 0 } { X := 1, Y := 0, Z := 0 } 55
  { e with
    Path := { e.Path with PointsRef := some [{ X := 0, Y := 0, Z := 0 },
                                              { X := 1000, Y := 0, Z := 0 },
                                              { X := 5000, Y := 0, Z := 0 }],
                          Index := 1, bHasPath := true,
                          LastGoal := { X := 5000, Y := 0, Z := 0 } },
    Sense := { e.Sense with TargetLocation := { X := 5000, Y := 0, Z := 0 } } }

/-- A policy pass over a grid of cell size 200 that holds 24 entities at the origin, with the
sample target 5000 units away. -/
def samplePolicyEnv : PolicyEnv :=
  { Grid := some (BuildGrid (FAgentSpatialHashGrid.new 200)
      ((List.range 24).map fun i => (i, { X := 0, Y := 0, Z := 0 }))),
    CellSize := 200, GetTypeHash := fun _ => 0, GFrameNumber := 0, Player := samplePlayer }

/-- The first two statements of PathReplan's entity loop body: the path ages by `Dt` and the
repath cooldown runs down. -/
def replanTimers (Dt : ℚ) (e : FSwarmEntity) : FSwarmEntity :=
  { e with Path := { e.Path with PathAge := e.Path.PathAge + Dt,
                                 RepathCooldown := max 0 (e.Path.RepathCooldown - Dt) } }

/-- The target cache after a TargetCache run at world time 2 that reads the target at
(5000, 0, 60) over a navmesh in the plane z = 0: the projection is stored, outside the z
tolerance. -/
def samplePlayerOffMesh : FPlayerSharedFragment :=
  CachePlayerExecute (some { X := 5000, Y := 0, Z := 60 }) (some sampleNavFlat) 2 1 samplePlayer

/-- The target cache after a TargetCache run at world time 2 without a navigation system. -/
def samplePlayerNoNav : FPlayerSharedFragment :=
  CachePlayerExecute (some { X := 5000, Y := 0, Z := 60 }) none 2 1 samplePlayer

/-- The pressed sample agent with line of sight to the target. -/
def sampleChasingEntity : FSwarmEntity :=
  { samplePressedEntity with
    Sense := { TargetLocation := { X := 5000, Y := 0, Z := 0 }, bLOS := true,
               bLOSUpdated := true } }


/-- A stand-in for the engine's functions whose inverse square root is exact at the squared
length 25. -/
def sampleMathExact25 : FMathOps :=
  { sampleMath with InvSqrt := fun x => if x = 25 then 1 / 5 else sampleInvSqrt x }

/-- A path of three points whose two segments both have length 5 in the plane:
(0,0,0), (3,4,0), (7,7,0). -/
def sampleBentPath : FSwarmPathStateFragment :=
  { sampleYieldingEntity.Path with
    PointsRef := some [{ X := 0, Y := 0, Z := 0 }, { X := 3, Y := 4, Z := 0 },
      { X := 7, Y := 7, Z := 0 }],
    Index := 0, bHasPath := true }

/-- The window of the bent path: tangent (3/5, 4/5) and curvature 7/125, which is
|cross| / (|v01|^2 |v12|) with cross = 3 * 3 - 4 * 4. -/
def sampleBentWindow : FSwarmPathWindowFragment :=
  { P0 := { X := 0, Y := 0, Z := 0 }, P1 := { X := 3, Y := 4, Z := 0 },
    P2 := { X := 7, Y := 7, Z := 0 }, Tangent2D := { X := 3 / 5, Y := 4 / 5, Z := 0 },
    Curvature := 7 / 125, bValid := true }


/-- The Integrate pass of `sampleIntegrateEnv` in a world without a navigation system. -/
def sampleIntegrateEnvNoNav : IntegrateEnv := { sampleIntegrateEnv with NavSys := none }

/-- The steering sample agent at (1000, 0, 0), never projected since its spawn:
`LastProjectedLocation` is still the fragment's default, the zero vector. -/
def sampleUnprojectedEntity : FSwarmEntity :=
  { sampleSteeringEntity with Location := { X := 1000, Y := 0, Z := 0 } }


/-- The yielding sample agent with 100 neighbours and its hold run out. -/
def sampleCrowdedEntity : FSwarmEntity :=
  { sampleYieldingEntity with
    Separation := { sampleYieldingEntity.Separation with NeighborCount := 100 },
    Agent := { sampleYieldingEntity.Agent with YieldTimeRemaining := 0 } }


/-- What a `TMap` guarantees of its pairs: no key occurs twice. -/
def UniqueKeys {κ ν : Type} (m : List (κ × ν)) : Prop := (m.map Prod.fst).Nodup

instance {κ ν : Type} [DecidableEq κ] (m : List (κ × ν)) : Decidable (UniqueKeys m) := by
  unfold UniqueKeys; infer_instance

/-- The delegate calls that reach the processor between two passes, in their order. -/
def FollowDeliver (F : FollowState) : List (Int × Option (List FVector)) → FollowState
  | [] => F
  | d :: rest => FollowDeliver (FollowPathCallback F d.1 d.2) rest

/-- The processor after the delivery of a two-point path for bucket 7, before any pass. -/
def sampleFollowDelivered : FollowState :=
  FollowPathCallback FollowState.init 7 (some sampleCachedPoints)


/-- A second cache key, for the cell next to the one of `sampleCacheKey`. -/
def sampleCacheKeyB : FPathKey :=
  { Start := { X := 2, Y := 0, Z := 0 }, Goal := { X := 10, Y := 0, Z := 0 } }

/-- A third cache key. -/
def sampleCacheKeyC : FPathKey :=
  { Start := { X := 3, Y := 0, Z := 0 }, Goal := { X := 10, Y := 0, Z := 0 } }

/-- A fourth cache key. -/
def sampleCacheKeyD : FPathKey :=
  { Start := { X := 4, Y := 0, Z := 0 }, Goal := { X := 10, Y := 0, Z := 0 } }

/-- The path cache with a bound of 2 after the solves of the first three keys, all at clock
reading 1: the insert of the third key evicted the first, whose slot is free. -/
def sampleFullCache : List (TSlot FPathKey FCachedPathEntry) :=
  [(sampleCacheKey, some sampleCachedPoints, (1 : ℚ)),
   (sampleCacheKeyB, some sampleCachedPoints, (1 : ℚ)),
   (sampleCacheKeyC, some sampleCachedPoints, (1 : ℚ))].foldl (cacheInsertStep 2) []


/-- The states of the path cache and the solve stamps that PathReplan reaches from the empty
ones by group iterations whose clock readings never decrease; the index is the latest clock
reading, from which the clock goes on. -/
inductive ReplanReach : ℚ → PathGlobals → Prop
  | init (T : ℚ) (MaxEntries : Int) :
      ReplanReach T { PathGlobals.init with GPathCacheMaxEntries := MaxEntries }
  | later (T T2 : ℚ) (G : PathGlobals) (h : ReplanReach T G) (hT : T ≤ T2) : ReplanReach T2 G
  | step (T : ℚ) (env : PathReplanEnv) (Now : ℚ) (st : ReplanLoopState)
      (Pair : FPathKey × List FPendingEntity) (h : ReplanReach T st.G) (hT : T ≤ Now) :
      ReplanReach Now (ReplanGroupStep env Now st Pair).G

/-- What holds of the path cache and the solve stamps at clock reading `T`: no stamp and no
entry is later than `T`, every entry holds a list of at least two points, and the entry of a
stamped key is not older than the stamp. -/
def CacheInv (T : ℚ) (G : PathGlobals) : Prop :=
  (∀ Key LastT, mapFind Key G.GLastSolveTime = some LastT → LastT ≤ T) ∧
  (∀ p ∈ tmapPairs G.GPathCache,
    p.2.Time ≤ T ∧ ∃ pts, p.2.Points = some pts ∧ 2 ≤ pts.length) ∧
  (∀ Key entry LastT, tmapFind Key G.GPathCache = some entry →
    mapFind Key G.GLastSolveTime = some LastT → LastT ≤ entry.Time)

/-- The group iteration is skipped by the per-key solve cooldown: the cache lookup gives no
list and the key was solved less than `GKeySolveCooldown` ago. -/
def skippedByCooldown (Now : ℚ) (G : PathGlobals) (Key : FPathKey) : Prop :=
  (cacheLookup Now Key G.GPathCache).1 = none ∧
    ∃ LastT, mapFind Key G.GLastSolveTime = some LastT ∧ Now - LastT < GKeySolveCooldown

/-- The group loop's state at the start of the first pass: empty cache, no stamps, no repath
used. -/
def sampleReplanStart : ReplanLoopState :=
  { sampleReplanLoopState with Prof := sampleProf, G := PathGlobals.init }

/-- The globals after the group of `sampleCacheKey` was solved at clock reading 1. -/
def sampleSolvedGlobals : PathGlobals :=
  (ReplanGroupStep sampleReplanEnv 1 sampleReplanStart sampleReplanGroup).G

/-- The group of the entity at index 0, in the cell next to the one of `sampleCacheKey`. -/
def sampleReplanGroupB : FPathKey × List FPendingEntity :=
  ({ Start := { X := 0, Y := 0, Z := 0 }, Goal := { X := 10, Y := 0, Z := 0 } },
   [{ Index := 0, DistSq2D := 25000000 }])

/-- The group loop's state after two solves at clock reading 1 with a cache bound of 1: first
the group of `sampleCacheKey`, then the group of the other cell, whose insert evicts the
first entry. -/
def sampleEvictedState : ReplanLoopState :=
  ReplanGroupStep sampleReplanEnv 1
    (ReplanGroupStep sampleReplanEnv 1
      { sampleReplanStart with G := { PathGlobals.init with GPathCacheMaxEntries := 1 } }
      sampleReplanGroup)
    sampleReplanGroupB

/-- The crowded sample agent before it yields: not yielding, no hold. -/
def sampleEnteringEntity : FSwarmEntity :=
  { sampleCrowdedEntity with
    Agent := { sampleCrowdedEntity.Agent with bYielding := false, YieldTimeRemaining := 0 } }

/-- `InvSqrt(x)^2 * x`, the square of `InvSqrt(x) * sqrt(x)`: 1 where the engine's inverse
square root is exact, above 1 where it overestimates, below 1 where it underestimates. -/
def invSqrtFactor (M : FMathOps) (x : ℚ) : ℚ := M.InvSqrt x * M.InvSqrt x * x

/-- `blendV`: the velocity blended towards the desired velocity, before the clamp. -/
def steerBlend (env : IntegrateEnv) (e : FSwarmEntity) : FVector :=
  VInterpTo { X := e.Agent.Velocity.X, Y := e.Agent.Velocity.Y, Z := 0 } (desiredVel2D env e)
    env.Dt 6

/-- The branch of `GetClampedToMaxSize` that rescales the vector is taken. -/
def clampActive (v : FVector) (MaxSize : ℚ) : Prop :=
  KINDA_SMALL_NUMBER ≤ MaxSize ∧ v.SizeSquared > Square MaxSize

instance (v : FVector) (MaxSize : ℚ) : Decidable (clampActive v MaxSize) := by
  unfold clampActive; infer_instance

/-- A stand-in for the engine's functions whose inverse square root at 250000 is the `double`
nearest to 1/500, 0.00200000000000000004163..., which lies above 1/500. -/
def sampleMathRounded : FMathOps :=
  { sampleMath with
    InvSqrt := fun x =>
      if x = 250000 then 1152921504606847 / 576460752303423488 else sampleInvSqrt x }

/-- The Integrate pass of `sampleIntegrateEnv` with the rounded inverse square root. -/
def sampleIntegrateEnvRounded : IntegrateEnv := { sampleIntegrateEnv with M := sampleMathRounded }

/-- The steering sample entity moving at 290 along x; its blend towards (990, 0, 0) is
(500, 0, 0). -/
def sampleBlendEntity : FSwarmEntity :=
  { sampleOverspeedEntity with
    Agent := { sampleOverspeedEntity.Agent with Velocity := { X := 290, Y := 0, Z := 0 } } }

/-- The squared length of the first segment of a window, `v01.SquaredLength()`. -/
def windowL01Sq (W : FSwarmPathWindowFragment) : ℚ :=
  (W.P1.X - W.P0.X) * (W.P1.X - W.P0.X) + (W.P1.Y - W.P0.Y) * (W.P1.Y - W.P0.Y)

/-- The squared length of the second segment of a window, `v12.SquaredLength()`. -/
def windowL12Sq (W : FSwarmPathWindowFragment) : ℚ :=
  (W.P2.X - W.P1.X) * (W.P2.X - W.P1.X) + (W.P2.Y - W.P1.Y) * (W.P2.Y - W.P1.Y)

/-- The cross product of the two segments of a window, `v01.X * v12.Y - v01.Y * v12.X`. -/
def windowCross (W : FSwarmPathWindowFragment) : ℚ :=
  (W.P1.X - W.P0.X) * (W.P2.Y - W.P1.Y) - (W.P1.Y - W.P0.Y) * (W.P2.X - W.P1.X)

/-- A stand-in for the engine's functions whose inverse square root at 25 is the `float`
nearest to 1/5, 0.20000000298023224, which lies above 1/5. -/
def sampleMathFloat25 : FMathOps :=
  { sampleMath with InvSqrt := fun x => if x = 25 then 13421773 / 67108864 else sampleInvSqrt x }

/-- A path with a right angle whose two segments both have length 5 in the plane:
(0,0,0), (3,4,0), (-1,7,0). -/
def sampleRightAnglePath : FSwarmPathStateFragment :=
  { sampleYieldingEntity.Path with
    PointsRef := some [{ X := 0, Y := 0, Z := 0 }, { X := 3, Y := 4, Z := 0 },
      { X := -1, Y := 7, Z := 0 }],
    Index := 0, bHasPath := true }

/-- A path with a right angle whose two segments both have the squared length 2:
(0,0,0), (1,1,0), (2,0,0). -/
def sampleDiagonalPath : FSwarmPathStateFragment :=
  { sampleYieldingEntity.Path with
    PointsRef := some [{ X := 0, Y := 0, Z := 0 }, { X := 1, Y := 1, Z := 0 },
      { X := 2, Y := 0, Z := 0 }],
    Index := 0, bHasPath := true }

/-! ## (definitions continue) -/

end Swarm

namespace Swarm

/-! ## Keyed maps: lookups after writes -/

theorem mapSet_forall {κ ν : Type} [DecidableEq κ] (P : ν → Prop) (Key : κ) (Value : ν)
    (m : List (κ × ν)) (hm : ∀ p ∈ m, P p.2) (hv : P Value) :
    ∀ p ∈ mapSet Key Value m, P p.2 := by
  induction m with
  | nil =>
    intro p hp
    simp only [mapSet, List.mem_singleton] at hp
    rw [hp]; exact hv
  | cons q rest ih =>
    obtain ⟨k, v⟩ := q
    intro p hp
    simp only [mapSet] at hp
    split_ifs at hp with hk
    · simp only [List.mem_cons] at hp
      rcases hp with hp | hp
      · rw [hp]; exact hv
      · exact hm p (List.mem_cons_of_mem _ hp)
    · simp only [List.mem_cons] at hp
      rcases hp with hp | hp
      · rw [hp]; exact hm (k, v) (List.mem_cons_self _ _)
      · exact ih (fun x hx => hm x (List.mem_cons_of_mem _ hx)) p hp

theorem mapFind_mem {κ ν : Type} [DecidableEq κ] (Key : κ) (m : List (κ × ν)) (v : ν)
    (h : mapFind Key m = some v) : (Key, v) ∈ m := by
  induction m with
  | nil => simp [mapFind] at h
  | cons q rest ih =>
    obtain ⟨k, w⟩ := q
    simp only [mapFind] at h
    split_ifs at h with hk
    · simp only [Option.some.injEq] at h
      rw [hk, h]; exact List.mem_cons_self _ _
    · exact List.mem_cons_of_mem _ (ih h)

theorem mapSet_length_le {κ ν : Type} [DecidableEq κ] (Key : κ) (Value : ν) (m : List (κ × ν)) :
    (mapSet Key Value m).length ≤ m.length + 1 := by
  induction m with
  | nil => simp [mapSet]
  | cons q rest ih =>
    obtain ⟨k, v⟩ := q
    simp only [mapSet]
    split_ifs
    · simp
    · simp only [List.length_cons]; omega

theorem mapSet_length_of_find {κ ν : Type} [DecidableEq κ] (Key : κ) (Value v : ν)
    (m : List (κ × ν)) (h : mapFind Key m = some v) :
    (mapSet Key Value m).length = m.length := by
  induction m with
  | nil => simp [mapFind] at h
  | cons q rest ih =>
    obtain ⟨k, w⟩ := q
    simp only [mapFind] at h
    simp only [mapSet]
    split_ifs at h ⊢ with hk
    · simp
    · simp only [List.length_cons]; rw [ih h]

theorem mapRemove_length_lt {κ ν : Type} [DecidableEq κ] (Key : κ) (m : List (κ × ν))
    (h : ∃ p ∈ m, p.1 = Key) : (mapRemove Key m).length < m.length := by
  unfold mapRemove
  apply List.length_filter_lt_length_iff_exists.mpr
  obtain ⟨p, hp, hk⟩ := h
  exact ⟨p, hp, by simp [hk]⟩

theorem mapFind_mapSet_self {κ ν : Type} [DecidableEq κ] (Key : κ) (Value : ν)
    (m : List (κ × ν)) : mapFind Key (mapSet Key Value m) = some Value := by
  induction m with
  | nil => simp [mapSet, mapFind]
  | cons p rest ih =>
    obtain ⟨k, v⟩ := p
    by_cases hk : k = Key
    · simp [mapSet, mapFind, hk]
    · simp [mapSet, mapFind, hk, ih]

theorem mapFind_eq_none_iff {κ ν : Type} [DecidableEq κ] (Key : κ) (m : List (κ × ν)) :
    mapFind Key m = none ↔ Key ∉ m.map Prod.fst := by
  induction m with
  | nil => simp [mapFind]
  | cons p rest ih =>
    obtain ⟨k, v⟩ := p
    unfold mapFind
    by_cases hk : k = Key
    · simp [hk]
    · simp only [hk, ↓reduceIte, ih, List.map_cons, List.mem_cons, not_or]
      exact ⟨fun h => ⟨fun e => hk e.symm, h⟩, fun h => h.2⟩

theorem mapSet_of_find_none {κ ν : Type} [DecidableEq κ] (Key : κ) (Value : ν)
    (m : List (κ × ν)) (h : mapFind Key m = none) : mapSet Key Value m = m ++ [(Key, Value)] := by
  induction m with
  | nil => rfl
  | cons p rest ih =>
    obtain ⟨k, v⟩ := p
    unfold mapFind at h
    by_cases hk : k = Key
    · simp [hk] at h
    · simp only [hk, ↓reduceIte] at h
      unfold mapSet
      simp only [hk, ↓reduceIte, ih h, List.cons_append]

theorem mapFind_mapSet_other {κ ν : Type} [DecidableEq κ] (Key Key2 : κ) (Value : ν)
    (m : List (κ × ν)) (hne : Key2 ≠ Key) :
    mapFind Key2 (mapSet Key Value m) = mapFind Key2 m := by
  have hne2 : ¬ Key = Key2 := fun e => hne e.symm
  induction m with
  | nil => simp [mapSet, mapFind, hne2]
  | cons p rest ih =>
    obtain ⟨k, v⟩ := p
    by_cases hk : k = Key
    · subst hk
      simp [mapSet, mapFind, hne2]
    · by_cases hk2 : k = Key2
      · subst hk2
        simp [mapSet, mapFind, hk]
      · simp [mapSet, mapFind, hk, hk2, ih]

theorem mapSet_keys {κ ν : Type} [DecidableEq κ] (Key : κ) (Value : ν) (m : List (κ × ν)) :
    (mapSet Key Value m).map Prod.fst
      = if Key ∈ m.map Prod.fst then m.map Prod.fst else m.map Prod.fst ++ [Key] := by
  induction m with
  | nil => simp [mapSet]
  | cons p rest ih =>
    obtain ⟨k, v⟩ := p
    unfold mapSet
    by_cases hk : k = Key
    · simp [hk]
    · have hk2 : ¬ Key = k := fun e => hk e.symm
      simp only [hk, ↓reduceIte, List.map_cons, ih, List.mem_cons, hk2, false_or]
      split_ifs <;> simp

theorem mapSet_UniqueKeys {κ ν : Type} [DecidableEq κ] (Key : κ) (Value : ν)
    (m : List (κ × ν)) (h : UniqueKeys m) : UniqueKeys (mapSet Key Value m) := by
  unfold UniqueKeys at h ⊢
  rw [mapSet_keys]
  split_ifs with hin
  · exact h
  · rw [List.nodup_append]
    refine ⟨h, List.nodup_singleton _, ?_⟩
    intro a ha hb
    rw [List.mem_singleton] at hb
    exact hin (hb ▸ ha)

/-- Copying the pairs of a map into an empty map, pair by pair, gives the same pairs. -/
theorem foldl_mapSet_append {κ ν : Type} [DecidableEq κ] (l acc : List (κ × ν))
    (h : UniqueKeys (acc ++ l)) :
    l.foldl (fun RT Pair => mapSet Pair.1 Pair.2 RT) acc = acc ++ l := by
  induction l generalizing acc with
  | nil => simp
  | cons p rest ih =>
    have hnone : mapFind p.1 acc = none := by
      rw [mapFind_eq_none_iff]
      unfold UniqueKeys at h
      rw [List.map_append, List.nodup_append] at h
      intro hin
      exact h.2.2 hin (by simp)
    simp only [List.foldl_cons]
    rw [mapSet_of_find_none _ _ _ hnone]
    have h2 : UniqueKeys ((acc ++ [(p.1, p.2)]) ++ rest) := by
      simpa using h
    rw [ih _ h2]
    simp

theorem mapFind_mapRemove_other {κ ν : Type} [DecidableEq κ] (Key Key2 : κ)
    (m : List (κ × ν)) (hne : Key2 ≠ Key) :
    mapFind Key2 (mapRemove Key m) = mapFind Key2 m := by
  have hne2 : ¬ Key = Key2 := fun e => hne e.symm
  induction m with
  | nil => rfl
  | cons p rest ih =>
    obtain ⟨k, v⟩ := p
    unfold mapRemove at ih ⊢
    simp only [ne_eq, decide_not] at ih ⊢
    by_cases hk : k = Key
    · subst hk
      simp only [List.filter_cons, decide_True, Bool.not_true, Bool.false_eq_true, ↓reduceIte,
        mapFind, hne2]
      exact ih
    · by_cases hk2 : k = Key2
      · subst hk2
        simp only [List.filter_cons, hk, decide_False, Bool.not_false, ↓reduceIte, mapFind]
      · simp only [List.filter_cons, hk, decide_False, Bool.not_false, ↓reduceIte, mapFind, hk2]
        exact ih

theorem mapFind_mapRemove_self {κ ν : Type} [DecidableEq κ] (Key : κ) (m : List (κ × ν)) :
    mapFind Key (mapRemove Key m) = none := by
  rw [mapFind_eq_none_iff]
  unfold mapRemove
  intro h
  obtain ⟨p, hp, hk⟩ := List.mem_map.mp h
  have := (List.mem_filter.mp hp).2
  simp [hk] at this

theorem mapRemove_subset {κ ν : Type} [DecidableEq κ] (Key : κ) (m : List (κ × ν)) :
    ∀ p ∈ mapRemove Key m, p ∈ m := by
  intro p hp
  unfold mapRemove at hp
  exact (List.mem_filter.mp hp).1

theorem mapFind_mapRemove_some {κ ν : Type} [DecidableEq κ] (Key Key2 : κ) (v : ν)
    (m : List (κ × ν)) (h : mapFind Key2 (mapRemove Key m) = some v) :
    mapFind Key2 m = some v := by
  by_cases hk : Key2 = Key
  · rw [hk, mapFind_mapRemove_self] at h
    exact Option.noConfusion h
  · rw [mapFind_mapRemove_other _ _ _ hk] at h
    exact h

/-! ## The sparse-array map: pairs after writes -/

theorem mapFind_append {κ ν : Type} [DecidableEq κ] (Key : κ) (l1 l2 : List (κ × ν)) :
    mapFind Key (l1 ++ l2)
      = match mapFind Key l1 with
        | some v => some v
        | none => mapFind Key l2 := by
  induction l1 with
  | nil => rfl
  | cons p rest ih =>
    obtain ⟨k, v⟩ := p
    by_cases hk : k = Key
    · simp [mapFind, hk]
    · simp [mapFind, hk, ih]

theorem tmapPairs_append {κ ν : Type} (m1 m2 : List (TSlot κ ν)) :
    tmapPairs (m1 ++ m2) = tmapPairs m1 ++ tmapPairs m2 := by
  induction m1 with
  | nil => rfl
  | cons s rest ih =>
    cases s with
    | pair k v => simp [tmapPairs, ih]
    | free o => simp [tmapPairs, ih]

theorem tmapFree_pairs {κ ν : Type} [DecidableEq κ] (Key : κ) (o : Nat) (m : List (TSlot κ ν)) :
    tmapPairs (tmapFree Key o m) = mapRemove Key (tmapPairs m) := by
  induction m with
  | nil => rfl
  | cons s rest ih =>
    cases s with
    | pair k v =>
      unfold mapRemove at ih ⊢
      by_cases hk : k = Key
      · simp [tmapFree, tmapPairs, hk, ih, List.filter_cons]
      · simp [tmapFree, tmapPairs, hk, ih, List.filter_cons]
    | free o2 => simpa [tmapFree, tmapPairs] using ih

/-- The pairs after `Remove` are the pairs under the other keys, in their order. -/
theorem tmapRemove_pairs {κ ν : Type} [DecidableEq κ] (Key : κ) (m : List (TSlot κ ν)) :
    tmapPairs (tmapRemove Key m) = mapRemove Key (tmapPairs m) := by
  unfold tmapRemove
  cases tmapFreeHead m <;> exact tmapFree_pairs _ _ _

theorem tmapAssign_pairs {κ ν : Type} [DecidableEq κ] (Key : κ) (Value v : ν)
    (m : List (TSlot κ ν)) (h : mapFind Key (tmapPairs m) = some v) :
    tmapPairs (tmapAssign Key Value m) = mapSet Key Value (tmapPairs m) := by
  induction m with
  | nil => exact Option.noConfusion h
  | cons s rest ih =>
    cases s with
    | pair k w =>
      by_cases hk : k = Key
      · simp [tmapAssign, tmapPairs, mapSet, hk]
      · simp only [tmapPairs, mapFind, hk, ↓reduceIte] at h
        simp [tmapAssign, tmapPairs, mapSet, hk, ih h]
    | free o =>
      simp only [tmapPairs] at h
      simp [tmapAssign, tmapPairs, ih h]

theorem tmapFill_pairs {κ ν : Type} (Key : κ) (Value : ν) (o : Nat) (m : List (TSlot κ ν)) :
    ∃ l1 l2, tmapPairs m = l1 ++ l2 ∧
      tmapPairs (tmapFill Key Value o m) = l1 ++ (Key, Value) :: l2 := by
  induction m with
  | nil => exact ⟨[], [], rfl, rfl⟩
  | cons s rest ih =>
    obtain ⟨l1, l2, h1, h2⟩ := ih
    cases s with
    | pair k v =>
      refine ⟨(k, v) :: l1, l2, ?_, ?_⟩
      · simp [tmapPairs, h1]
      · simp [tmapFill, tmapPairs, h2]
    | free o2 =>
      by_cases ho : o2 = o
      · refine ⟨[], tmapPairs rest, ?_, ?_⟩
        · simp [tmapPairs]
        · simp [tmapFill, tmapPairs, ho]
      · refine ⟨l1, l2, ?_, ?_⟩
        · simp [tmapPairs, h1]
        · simp [tmapFill, tmapPairs, ho, h2]

/-- The pairs after `FindOrAdd(Key) = Value`: the pair of a key of the map is overwritten in
its place, and the pair of a new key is put somewhere among the others. -/
theorem tmapSet_pairs {κ ν : Type} [DecidableEq κ] (Key : κ) (Value : ν)
    (m : List (TSlot κ ν)) :
    ((∃ v, tmapFind Key m = some v) ∧
        tmapPairs (tmapSet Key Value m) = mapSet Key Value (tmapPairs m)) ∨
      (tmapFind Key m = none ∧ ∃ l1 l2, tmapPairs m = l1 ++ l2 ∧
        tmapPairs (tmapSet Key Value m) = l1 ++ (Key, Value) :: l2) := by
  unfold tmapSet
  cases hf : tmapFind Key m with
  | some v =>
    left
    refine ⟨⟨v, rfl⟩, ?_⟩
    simp only [Option.isSome_some, ↓reduceIte]
    exact tmapAssign_pairs Key Value v m hf
  | none =>
    right
    refine ⟨rfl, ?_⟩
    simp only [Option.isSome_none, Bool.false_eq_true, ↓reduceIte]
    cases tmapFreeHead m with
    | some o => exact tmapFill_pairs Key Value o m
    | none => exact ⟨tmapPairs m, [], by simp, by simp [tmapPairs_append, tmapPairs]⟩

/-- The write through a pointer to the pair of a key is `FindOrAdd(Key) = Value`. -/
theorem tmapAssign_eq_tmapSet {κ ν : Type} [DecidableEq κ] (Key : κ) (Value v : ν)
    (m : List (TSlot κ ν)) (h : tmapFind Key m = some v) :
    tmapAssign Key Value m = tmapSet Key Value m := by
  unfold tmapSet
  rw [h]
  rfl

theorem tmapFind_tmapSet_self {κ ν : Type} [DecidableEq κ] (Key : κ) (Value : ν)
    (m : List (TSlot κ ν)) : tmapFind Key (tmapSet Key Value m) = some Value := by
  rcases tmapSet_pairs Key Value m with ⟨_, h⟩ | ⟨hn, l1, l2, h1, h2⟩
  · unfold tmapFind
    rw [h]
    exact mapFind_mapSet_self _ _ _
  · unfold tmapFind at hn ⊢
    rw [h1, mapFind_append] at hn
    rw [h2, mapFind_append]
    cases hl : mapFind Key l1 with
    | some v => simp [hl] at hn
    | none => simp [mapFind]

theorem tmapFind_tmapSet_other {κ ν : Type} [DecidableEq κ] (Key Key2 : κ) (Value : ν)
    (m : List (TSlot κ ν)) (hne : Key2 ≠ Key) :
    tmapFind Key2 (tmapSet Key Value m) = tmapFind Key2 m := by
  have hne2 : ¬ Key = Key2 := fun e => hne e.symm
  rcases tmapSet_pairs Key Value m with ⟨_, h⟩ | ⟨_, l1, l2, h1, h2⟩
  · unfold tmapFind
    rw [h]
    exact mapFind_mapSet_other _ _ _ _ hne
  · unfold tmapFind
    rw [h1, h2, mapFind_append, mapFind_append]
    simp [mapFind, hne2]

theorem tmapSet_forall {κ ν : Type} [DecidableEq κ] (P : ν → Prop) (Key : κ) (Value : ν)
    (m : List (TSlot κ ν)) (hm : ∀ p ∈ tmapPairs m, P p.2) (hv : P Value) :
    ∀ p ∈ tmapPairs (tmapSet Key Value m), P p.2 := by
  rcases tmapSet_pairs Key Value m with ⟨_, h⟩ | ⟨_, l1, l2, h1, h2⟩
  · rw [h]
    exact mapSet_forall P Key Value _ hm hv
  · rw [h2]
    rw [h1] at hm
    intro p hp
    rcases List.mem_append.mp hp with hp | hp
    · exact hm p (List.mem_append_left _ hp)
    · rcases List.mem_cons.mp hp with hp | hp
      · rw [hp]
        exact hv
      · exact hm p (List.mem_append_right _ hp)

theorem tmapSet_num_le {κ ν : Type} [DecidableEq κ] (Key : κ) (Value : ν)
    (m : List (TSlot κ ν)) : tmapNum (tmapSet Key Value m) ≤ tmapNum m + 1 := by
  unfold tmapNum
  rcases tmapSet_pairs Key Value m with ⟨_, h⟩ | ⟨_, l1, l2, h1, h2⟩
  · rw [h]
    have := mapSet_length_le Key Value (tmapPairs m)
    omega
  · rw [h1, h2]
    simp only [List.length_append, List.length_cons]
    omega

theorem tmapSet_num_of_find {κ ν : Type} [DecidableEq κ] (Key : κ) (Value v : ν)
    (m : List (TSlot κ ν)) (h : tmapFind Key m = some v) :
    tmapNum (tmapSet Key Value m) = tmapNum m := by
  unfold tmapNum
  rcases tmapSet_pairs Key Value m with ⟨_, h2⟩ | ⟨hn, _⟩
  · rw [h2, mapSet_length_of_find Key Value v _ h]
  · rw [hn] at h
    exact Option.noConfusion h

theorem tmapFind_tmapRemove_other {κ ν : Type} [DecidableEq κ] (Key Key2 : κ)
    (m : List (TSlot κ ν)) (hne : Key2 ≠ Key) :
    tmapFind Key2 (tmapRemove Key m) = tmapFind Key2 m := by
  unfold tmapFind
  rw [tmapRemove_pairs]
  exact mapFind_mapRemove_other _ _ _ hne

theorem tmapFind_tmapRemove_self {κ ν : Type} [DecidableEq κ] (Key : κ)
    (m : List (TSlot κ ν)) : tmapFind Key (tmapRemove Key m) = none := by
  unfold tmapFind
  rw [tmapRemove_pairs]
  exact mapFind_mapRemove_self _ _

/-! ## Grid: keyed-cell map lemmas -/

theorem tableFind_tableEmplace_self (Key : Int) (E : FEntityData) (t : FCellTable) :
    tableFind Key (tableEmplace Key E t) = some ((tableFind Key t).getD [] ++ [E]) := by
  induction t with
  | nil => simp [tableEmplace, tableFind]
  | cons p rest ih =>
    obtain ⟨k, cell⟩ := p
    by_cases hk : k = Key
    · simp [tableEmplace, tableFind, hk]
    · simp [tableEmplace, tableFind, hk, ih]

theorem tableFind_tableEmplace_of_ne (Key Key2 : Int) (E : FEntityData) (t : FCellTable)
    (hne : Key ≠ Key2) : tableFind Key2 (tableEmplace Key E t) = tableFind Key2 t := by
  induction t with
  | nil => simp [tableEmplace, tableFind, hne]
  | cons p rest ih =>
    obtain ⟨k, cell⟩ := p
    by_cases hk : k = Key
    · subst hk
      simp [tableEmplace, tableFind, hne]
    · by_cases hk2 : k = Key2
      · subst hk2
        simp [tableEmplace, tableFind, hk]
      · simp [tableEmplace, tableFind, hk, hk2, ih]

/-- An entry found in a cell stays in that cell under every later emplace. -/
theorem tableFind_mem_tableEmplace (Key Key2 : Int) (E E2 : FEntityData) (t : FCellTable)
    (h : ∃ cell, tableFind Key2 t = some cell ∧ E2 ∈ cell) :
    ∃ cell, tableFind Key2 (tableEmplace Key E t) = some cell ∧ E2 ∈ cell := by
  obtain ⟨cell, hf, hm⟩ := h
  by_cases hk : Key = Key2
  · subst hk
    refine ⟨cell ++ [E], ?_, List.mem_append_left _ hm⟩
    simp [tableFind_tableEmplace_self, hf]
  · exact ⟨cell, by rw [tableFind_tableEmplace_of_ne _ _ _ _ hk]; exact hf, hm⟩

theorem InsertEntity_CellSize (g : FAgentSpatialHashGrid) (Entity : Nat) (Location : FVector) :
    (InsertEntity g Entity Location).CellSize = g.CellSize := rfl

theorem foldl_InsertEntity_CellSize (agents : List (Nat × FVector)) (g : FAgentSpatialHashGrid) :
    (agents.foldl (fun acc a => InsertEntity acc a.1 a.2) g).CellSize = g.CellSize := by
  induction agents generalizing g with
  | nil => rfl
  | cons a rest ih => simp [List.foldl_cons, ih, InsertEntity_CellSize]

theorem GetCellCoord2D_congr (g g2 : FAgentSpatialHashGrid) (h : g.CellSize = g2.CellSize)
    (Location : FVector) : GetCellCoord2D g Location = GetCellCoord2D g2 Location := by
  simp [GetCellCoord2D, FAgentSpatialHashGrid.InvCellSize, h]

/-- Later insertions keep an entry in the cell it was found in. -/
theorem foldl_InsertEntity_keeps (agents : List (Nat × FVector)) (g : FAgentSpatialHashGrid)
    (Key : Int) (E : FEntityData)
    (h : ∃ cell, FindCell g Key = some cell ∧ E ∈ cell) :
    ∃ cell, FindCell (agents.foldl (fun acc a => InsertEntity acc a.1 a.2) g) Key = some cell ∧
      E ∈ cell := by
  induction agents generalizing g with
  | nil => simpa using h
  | cons a rest ih =>
    rw [List.foldl_cons]
    apply ih
    exact tableFind_mem_tableEmplace _ _ _ _ _ h

/-- Each inserted agent is found in the cell of its own key, whatever follows. -/
theorem foldl_InsertEntity_contains (agents : List (Nat × FVector)) (g : FAgentSpatialHashGrid)
    (a : Nat × FVector) (ha : a ∈ agents) :
    ∃ cell, FindCell (agents.foldl (fun acc a => InsertEntity acc a.1 a.2) g)
        (HashCoord (GetCellCoord2D g a.2)) = some cell ∧
      ({ Entity := a.1, Location := a.2 } : FEntityData) ∈ cell := by
  induction agents generalizing g with
  | nil => simp at ha
  | cons b rest ih =>
    rw [List.foldl_cons]
    rcases List.mem_cons.mp ha with hab | hin
    · subst hab
      apply foldl_InsertEntity_keeps
      refine ⟨_, tableFind_tableEmplace_self _ _ _, ?_⟩
      simp
    · have h2 := ih (InsertEntity g b.1 b.2) hin
      rw [GetCellCoord2D_congr (InsertEntity g b.1 b.2) g (InsertEntity_CellSize _ _ _)] at h2
      exact h2

/-! ## Grid: the early-exit discipline of `VisitNearby` -/

theorem LogOK_of_continue {σ : Type} (MaxResults : Int) (Emitted : Int)
    (st : σ × List (FEntityData × Bool))
    (hall : ∀ p ∈ st.2, p.2 = true) (hE : Emitted = (st.2.length : Int))
    (hlt : Emitted < MaxResults) : LogOK MaxResults (true, Emitted, st) := by
  refine ⟨fun p hp => hall p (List.mem_of_mem_dropLast hp), ?_, fun _ => ⟨hall, hE, hlt⟩⟩
  show (st.2.length : Int) ≤ MaxResults
  omega

theorem scanCell_logged_ok {σ : Type} (Lx Ly ZLo ZHi RadiusSq : ℚ) (MaxResults : Int)
    (Visitor : σ → FEntityData → Bool × σ) (hMax : 0 < MaxResults)
    (Cell : List FEntityData) (Emitted : Int) (st : σ × List (FEntityData × Bool))
    (hall : ∀ p ∈ st.2, p.2 = true) (hE : Emitted = (st.2.length : Int))
    (hlt : Emitted < MaxResults) :
    LogOK MaxResults
      (scanCell Lx Ly ZLo ZHi RadiusSq MaxResults (logged Visitor) Cell Emitted st) := by
  induction Cell generalizing Emitted st with
  | nil => exact LogOK_of_continue MaxResults Emitted st hall hE hlt
  | cons E rest ih =>
    have hlog2 : (logged Visitor st E).2.2 = st.2 ++ [(E, (Visitor st.1 E).1)] := rfl
    have hlog1 : (logged Visitor st E).1 = (Visitor st.1 E).1 := rfl
    by_cases hz : E.Location.Z < ZLo ∨ E.Location.Z > ZHi
    · simp only [scanCell, hz, ↓reduceIte]
      exact ih Emitted st hall hE hlt
    · by_cases hr : (Lx - E.Location.X) * (Lx - E.Location.X) +
          (Ly - E.Location.Y) * (Ly - E.Location.Y) ≤ RadiusSq
      · by_cases hv : (logged Visitor st E).1 = false
        · -- the visitor returned false: the call is logged and the loops end
          simp only [scanCell, hz, hr, hv, ↓reduceIte]
          refine ⟨?_, ?_, ?_⟩
          · intro p hp
            simp only [hlog2, List.dropLast_concat] at hp
            exact hall p hp
          · simp only [hlog2, List.length_append, List.length_singleton]
            push_cast
            omega
          · intro h; exact absurd h (by simp)
        · have hv1 : (Visitor st.1 E).1 = true := by
            rw [hlog1] at hv
            simpa using hv
          by_cases hcap : Emitted + 1 ≥ MaxResults
          · -- the cap is reached with this call
            simp only [scanCell, hz, hr, hv, hcap, hMax, gt_iff_lt, Bool.true_eq_false, ↓reduceIte]
            refine ⟨?_, ?_, ?_⟩
            · intro p hp
              simp only [hlog2, List.dropLast_concat] at hp
              exact hall p hp
            · simp only [hlog2, List.length_append, List.length_singleton]
              push_cast
              omega
            · intro h; exact absurd h (by simp)
          · -- the visitor returned true and the cap is not reached
            simp only [scanCell, hz, hr, hv, hcap, hMax, gt_iff_lt, Bool.true_eq_false, ↓reduceIte]
            apply ih
            · intro p hp
              simp only [hlog2, List.mem_append, List.mem_singleton] at hp
              rcases hp with hp | hp
              · exact hall p hp
              · rw [hp]; exact hv1
            · simp only [hlog2, List.length_append, List.length_singleton]
              push_cast
              omega
            · omega
      · simp only [scanCell, hz, hr, ↓reduceIte]
        exact ih Emitted st hall hE hlt

theorem scanOffsets_logged_ok {σ : Type} (g : FAgentSpatialHashGrid) (Center : FIntPoint)
    (Lx Ly ZLo ZHi RadiusSq : ℚ) (MaxResults : Int)
    (Visitor : σ → FEntityData → Bool × σ) (hMax : 0 < MaxResults)
    (Ds : List FIntPoint) (Emitted : Int) (st : σ × List (FEntityData × Bool))
    (hall : ∀ p ∈ st.2, p.2 = true) (hE : Emitted = (st.2.length : Int))
    (hlt : Emitted < MaxResults) :
    LogOK MaxResults
      (scanOffsets g Center Lx Ly ZLo ZHi RadiusSq MaxResults (logged Visitor) Ds Emitted st) := by
  induction Ds generalizing Emitted st with
  | nil => exact LogOK_of_continue MaxResults Emitted st hall hE hlt
  | cons D rest ih =>
    unfold scanOffsets
    simp only
    split
    · exact ih Emitted st hall hE hlt
    · rename_i Cell _
      have hc := scanCell_logged_ok Lx Ly ZLo ZHi RadiusSq MaxResults Visitor hMax Cell
        Emitted st hall hE hlt
      split_ifs with hcont
      · obtain ⟨-, -, h3⟩ := hc
        obtain ⟨a, b, c⟩ := h3 hcont
        exact ih _ _ a b c
      · exact hc


/-! ## Grid: claims C1 to C4 -/

/-- C1, evaluated on the code at an input where the claim fails: cell size 200, one entity
inserted at (201, 201, 0), an uncapped query at (199, 199, 0) with radius 10 and z half-height
120.  The entity is inside the disc (squared distance 8) and inside the z band, but it lies in
cell (1, 1), which the circular stencil for R = 1 leaves out: the visitor is never called. -/
theorem VisitNearby_misses_corner_cell :
    inQueryRange ⟨199, 199, 0⟩ 10 120 ⟨7, ⟨201, 201, 0⟩⟩ ∧
      visitedBy (BuildGrid (FAgentSpatialHashGrid.new 200) [(7, ⟨201, 201, 0⟩)])
        FStencil.init ⟨199, 199, 0⟩ 10 120 (-1) = [] := by
  decide!

/-- C2, evaluated on the code at an input where the claim fails: the stencil for R = 2 holds
the offsets (-1, -1) and (1, 1), whose cells around the centre cell (0, 0) have the same
`HashCoord` key; an entity inserted once at (250, 250, 0) is handed to the visitor twice by an
uncapped query at (100, 100, 0) with radius 250. -/
theorem VisitNearby_visits_twice_on_key_collision :
    HashCoord ⟨-1, -1⟩ = HashCoord ⟨1, 1⟩ ∧
      (⟨-1, -1⟩ : FIntPoint) ∈ stencilOffsets 2 ∧ (⟨1, 1⟩ : FIntPoint) ∈ stencilOffsets 2 ∧
      visitedBy (BuildGrid (FAgentSpatialHashGrid.new 200) [(7, ⟨250, 250, 0⟩)])
        FStencil.init ⟨100, 100, 0⟩ 250 120 (-1)
        = [⟨7, ⟨250, 250, 0⟩⟩, ⟨7, ⟨250, 250, 0⟩⟩] := by
  decide!

/-- C3: after BuildGrid (Reset, then InsertEntity for every agent), the cell stored under the
key HashCoord(GetCellCoord2D(a.pos)) exists and contains the entry (a, a.pos), for every agent
a of the population and whatever the grid held before. -/
theorem BuildGrid_cell_contains_agent (g : FAgentSpatialHashGrid)
    (agents : List (Nat × FVector)) (a : Nat × FVector) (ha : a ∈ agents) :
    ∃ cell, FindCell (BuildGrid g agents)
        (HashCoord (GetCellCoord2D (BuildGrid g agents) a.2)) = some cell ∧
      ({ Entity := a.1, Location := a.2 } : FEntityData) ∈ cell := by
  have h := foldl_InsertEntity_contains agents (Reset g) a ha
  have hcs : (BuildGrid g agents).CellSize = (Reset g).CellSize :=
    foldl_InsertEntity_CellSize agents (Reset g)
  rw [GetCellCoord2D_congr (BuildGrid g agents) (Reset g) hcs]
  exact h

theorem BuildGrid_cell_contains_agent_witness :
    ((2, (⟨250, 250, 0⟩ : FVector)) ∈ [(1, (⟨10, 20, 0⟩ : FVector)), (2, ⟨250, 250, 0⟩)]) ∧
    ∃ cell, FindCell (BuildGrid (FAgentSpatialHashGrid.new 200) [(1, ⟨10, 20, 0⟩), (2, ⟨250, 250, 0⟩)])
        (HashCoord (GetCellCoord2D
          (BuildGrid (FAgentSpatialHashGrid.new 200) [(1, ⟨10, 20, 0⟩), (2, ⟨250, 250, 0⟩)])
          ⟨250, 250, 0⟩)) = some cell ∧
      ({ Entity := 2, Location := ⟨250, 250, 0⟩ } : FEntityData) ∈ cell :=
  ⟨by simp, BuildGrid_cell_contains_agent (FAgentSpatialHashGrid.new 200)
    [(1, ⟨10, 20, 0⟩), (2, ⟨250, 250, 0⟩)] (2, ⟨250, 250, 0⟩) (by simp)⟩

/-- C4: for every grid, stencil cache, origin, radius, z half-height and visitor, and every
MaxResults > 0, VisitNearby calls the visitor at most MaxResults times, and every call except
the last one returned true: the visitor is never called again after it returned false. -/
theorem VisitNearby_cap_and_stop {σ : Type} (g : FAgentSpatialHashGrid) (S : FStencil)
    (Location : FVector) (Radius ZHalfHeight : ℚ) (MaxResults : Int)
    (Visitor : σ → FEntityData → Bool × σ) (acc : σ) (hMax : 0 < MaxResults) :
    ((VisitNearby g S Location Radius ZHalfHeight MaxResults (logged Visitor)
        (acc, [])).2.2.length : Int) ≤ MaxResults ∧
      ∀ p ∈ (VisitNearby g S Location Radius ZHalfHeight MaxResults (logged Visitor)
        (acc, [])).2.2.dropLast, p.2 = true := by
  unfold VisitNearby
  simp only
  split_ifs with hR
  · refine ⟨?_, ?_⟩
    · simp only [List.length_nil]; omega
    · intro p hp; simp at hp
  · have h := scanOffsets_logged_ok g (GetCellCoord2D g Location) Location.X Location.Y
      (Location.Z - ZHalfHeight) (Location.Z + ZHalfHeight) (Radius * Radius) MaxResults
      Visitor hMax (S.refresh ⌈Radius / g.CellSize⌉).Offsets 0 (acc, [])
      (by intro p hp; simp at hp) (by simp) hMax
    exact ⟨h.2.1, h.1⟩

theorem VisitNearby_cap_and_stop_witness :
    (0 : Int) < 2 ∧
    (((VisitNearby
        (BuildGrid (FAgentSpatialHashGrid.new 200)
          [(1, ⟨10, 20, 0⟩), (2, ⟨30, 40, 0⟩), (3, ⟨50, 60, 0⟩)])
        FStencil.init ⟨20, 20, 0⟩ 150 120 2 (logged collectVisitor)
        ([], [])).2.2.length : Int) ≤ 2 ∧
      ∀ p ∈ (VisitNearby
        (BuildGrid (FAgentSpatialHashGrid.new 200)
          [(1, ⟨10, 20, 0⟩), (2, ⟨30, 40, 0⟩), (3, ⟨50, 60, 0⟩)])
        FStencil.init ⟨20, 20, 0⟩ 150 120 2 (logged collectVisitor)
        ([], [])).2.2.dropLast, p.2 = true) :=
  ⟨by decide, VisitNearby_cap_and_stop
    (BuildGrid (FAgentSpatialHashGrid.new 200)
      [(1, ⟨10, 20, 0⟩), (2, ⟨30, 40, 0⟩), (3, ⟨50, 60, 0⟩)])
    FStencil.init ⟨20, 20, 0⟩ 150 120 2 collectVisitor [] (by decide)⟩

/-- At the input of the C4 witness the cap cuts the query short: three entities are in range
and the visitor is called on the first two only. -/
theorem VisitNearby_cap_example :
    (VisitNearby
        (BuildGrid (FAgentSpatialHashGrid.new 200)
          [(1, ⟨10, 20, 0⟩), (2, ⟨30, 40, 0⟩), (3, ⟨50, 60, 0⟩)])
        FStencil.init ⟨20, 20, 0⟩ 150 120 2 (logged collectVisitor) ([], [])).2.2
      = [(⟨1, ⟨10, 20, 0⟩⟩, true), (⟨2, ⟨30, 40, 0⟩⟩, true)] := by
  decide!

/-! ## Perception: the LOS budget (claim C5) -/

theorem ComputeLOS_isSome_of_nav (env : PerceptionEnv) (From : FVector)
    (hnav : env.NavSys.isSome = true) : (ComputeLOS env From).isSome = true := by
  unfold ComputeLOS
  cases hn : env.NavSys with
  | none => simp [hn] at hnav
  | some nav =>
    simp only
    split_ifs
    · cases nav.ProjectPointToNavigation From { X := 50, Y := 50, Z := 100 } <;> simp
    · simp

/-- One entity: the counter grows by one exactly when the entity is stamped refreshed, and it
stays within the budget. -/
theorem PerceptionEntityStep_counts (env : PerceptionEnv) (Prof Prof1 : FSwarmProfilerSharedFragment)
    (a a1 : FSwarmEntity) (h : PerceptionEntityStep env Prof a = some (Prof1, a1)) :
    Prof1.LOSChecksUsed = Prof.LOSChecksUsed + (if a1.Stamp.bDidLOSRefresh then 1 else 0) ∧
      (Prof.LOSChecksUsed ≤ env.Params.LOSChecksPerFrameBudget →
        Prof1.LOSChecksUsed ≤ env.Params.LOSChecksPerFrameBudget) := by
  unfold PerceptionEntityStep at h
  simp only at h
  split_ifs at h with hgate hdue
  · simp only [Option.some.injEq, Prod.mk.injEq] at h
    obtain ⟨h1, h2⟩ := h
    subst h1; subst h2
    simp
  · cases hc : ComputeLOS env a.Location with
    | none => simp [hc] at h
    | some b =>
      simp only [hc, Option.some.injEq, Prod.mk.injEq] at h
      obtain ⟨h1, h2⟩ := h
      subst h1; subst h2
      simp only [Bool.and_eq_true, decide_eq_true_eq] at hdue
      refine ⟨by simp, fun _ => ?_⟩
      show Prof.LOSChecksUsed + 1 ≤ env.Params.LOSChecksPerFrameBudget
      omega
  · simp only [Option.some.injEq, Prod.mk.injEq] at h
    obtain ⟨h1, h2⟩ := h
    subst h1; subst h2
    simp

theorem PerceptionEntityStep_isSome_of_nav (env : PerceptionEnv)
    (Prof : FSwarmProfilerSharedFragment) (a : FSwarmEntity)
    (hnav : env.NavSys.isSome = true) : (PerceptionEntityStep env Prof a).isSome = true := by
  unfold PerceptionEntityStep
  simp only
  split_ifs
  · simp
  · have hc := ComputeLOS_isSome_of_nav env a.Location hnav
    cases hcl : ComputeLOS env a.Location with
    | none => simp [hcl] at hc
    | some b => simp
  · simp

theorem PerceptionEntityLoop_counts (env : PerceptionEnv) (chunk chunk1 : List FSwarmEntity)
    (Prof Prof1 : FSwarmProfilerSharedFragment)
    (h : PerceptionEntityLoop env chunk Prof = some (Prof1, chunk1)) :
    Prof1.LOSChecksUsed = Prof.LOSChecksUsed + refreshedIn chunk1 ∧
      (Prof.LOSChecksUsed ≤ env.Params.LOSChecksPerFrameBudget →
        Prof1.LOSChecksUsed ≤ env.Params.LOSChecksPerFrameBudget) := by
  induction chunk generalizing Prof Prof1 chunk1 with
  | nil =>
    simp only [PerceptionEntityLoop, Option.some.injEq, Prod.mk.injEq] at h
    obtain ⟨h1, h2⟩ := h
    subst h1; subst h2
    simp [refreshedIn]
  | cons a rest ih =>
    unfold PerceptionEntityLoop at h
    cases hs : PerceptionEntityStep env Prof a with
    | none => simp [hs] at h
    | some r =>
      obtain ⟨ProfA, a1⟩ := r
      cases hl : PerceptionEntityLoop env rest ProfA with
      | none => simp [hs, hl] at h
      | some r2 =>
        obtain ⟨ProfB, rest1⟩ := r2
        simp only [hs, hl, Option.some.injEq, Prod.mk.injEq] at h
        obtain ⟨h1, h2⟩ := h
        subst h1; subst h2
        obtain ⟨hA, hA2⟩ := PerceptionEntityStep_counts env Prof ProfA a a1 hs
        obtain ⟨hB, hB2⟩ := ih _ _ _ hl
        refine ⟨?_, fun hle => hB2 (hA2 hle)⟩
        rw [hB, hA]
        by_cases hr : a1.Stamp.bDidLOSRefresh = true
        · simp [refreshedIn, List.filter_cons, hr]; ring
        · simp [refreshedIn, List.filter_cons, hr]

theorem PerceptionEntityLoop_isSome_of_nav (env : PerceptionEnv) (chunk : List FSwarmEntity)
    (Prof : FSwarmProfilerSharedFragment) (hnav : env.NavSys.isSome = true) :
    (PerceptionEntityLoop env chunk Prof).isSome = true := by
  induction chunk generalizing Prof with
  | nil => simp [PerceptionEntityLoop]
  | cons a rest ih =>
    unfold PerceptionEntityLoop
    have h1 := PerceptionEntityStep_isSome_of_nav env Prof a hnav
    cases hs : PerceptionEntityStep env Prof a with
    | none => simp [hs] at h1
    | some r =>
      obtain ⟨ProfA, a1⟩ := r
      have h2 := ih ProfA
      cases hl : PerceptionEntityLoop env rest ProfA with
      | none => simp [hl] at h2
      | some r2 => simp [hs, hl]

theorem resetIfNewFrame_frame (st : PerceptionState) (FrameIdx : Nat) :
    (st.resetIfNewFrame FrameIdx).LastLOSResetFrame = FrameIdx := by
  unfold PerceptionState.resetIfNewFrame
  split_ifs with h
  · rfl
  · exact not_not.mp h

theorem resetIfNewFrame_of_eq (st : PerceptionState) (FrameIdx : Nat)
    (h : st.LastLOSResetFrame = FrameIdx) : st.resetIfNewFrame FrameIdx = st := by
  simp [PerceptionState.resetIfNewFrame, h]

theorem resetIfNewFrame_le (st : PerceptionState) (FrameIdx : Nat) (B : Int) (hB : 0 ≤ B)
    (h : st.Prof.LOSChecksUsed ≤ B) : (st.resetIfNewFrame FrameIdx).Prof.LOSChecksUsed ≤ B := by
  unfold PerceptionState.resetIfNewFrame
  split_ifs
  · exact hB
  · exact h

/-- The pass from a state whose reset for this frame has been done. -/
theorem PerceptionExecute_counts_aux (env : PerceptionEnv) (chunks : List (List FSwarmEntity))
    (st : PerceptionState) (out : PerceptionState × List (List FSwarmEntity))
    (hframe : st.LastLOSResetFrame = env.FrameIdx)
    (h : PerceptionExecute env st chunks = some out) :
    out.1.Prof.LOSChecksUsed = st.Prof.LOSChecksUsed + refreshedCount out.2 ∧
      (st.Prof.LOSChecksUsed ≤ env.Params.LOSChecksPerFrameBudget →
        out.1.Prof.LOSChecksUsed ≤ env.Params.LOSChecksPerFrameBudget) := by
  induction chunks generalizing st out with
  | nil =>
    simp only [PerceptionExecute, Option.some.injEq] at h
    subst h
    simp [refreshedCount]
  | cons chunk rest ih =>
    unfold PerceptionExecute at h
    unfold PerceptionChunk at h
    rw [resetIfNewFrame_of_eq st env.FrameIdx hframe] at h
    cases hl : PerceptionEntityLoop env chunk st.Prof with
    | none => simp [hl] at h
    | some r =>
      obtain ⟨Prof1, chunk1⟩ := r
      simp only [hl] at h
      cases he : PerceptionExecute env { st with Prof := Prof1 } rest with
      | none => simp [he] at h
      | some r2 =>
        obtain ⟨st2, rest1⟩ := r2
        simp only [he, Option.some.injEq] at h
        subst h
        obtain ⟨hA, hA2⟩ := PerceptionEntityLoop_counts env chunk chunk1 st.Prof Prof1 hl
        obtain ⟨hB, hB2⟩ := ih { st with Prof := Prof1 } (st2, rest1) hframe he
        refine ⟨?_, fun hle => hB2 (hA2 hle)⟩
        show st2.Prof.LOSChecksUsed =
          st.Prof.LOSChecksUsed + (refreshedIn chunk1 + refreshedCount rest1)
        have hB3 : st2.Prof.LOSChecksUsed = Prof1.LOSChecksUsed + refreshedCount rest1 := hB
        rw [hB3, hA]
        ring

theorem PerceptionExecute_reset_head (env : PerceptionEnv) (st : PerceptionState)
    (chunk : List FSwarmEntity) (rest : List (List FSwarmEntity)) :
    PerceptionExecute env st (chunk :: rest) =
      PerceptionExecute env (st.resetIfNewFrame env.FrameIdx) (chunk :: rest) := by
  have hidem : (st.resetIfNewFrame env.FrameIdx).resetIfNewFrame env.FrameIdx =
      st.resetIfNewFrame env.FrameIdx :=
    resetIfNewFrame_of_eq _ _ (resetIfNewFrame_frame st env.FrameIdx)
  simp only [PerceptionExecute, PerceptionChunk, hidem]

theorem PerceptionExecute_isSome_of_nav (env : PerceptionEnv)
    (chunks : List (List FSwarmEntity)) (st : PerceptionState)
    (hnav : env.NavSys.isSome = true) : (PerceptionExecute env st chunks).isSome = true := by
  induction chunks generalizing st with
  | nil => simp [PerceptionExecute]
  | cons chunk rest ih =>
    obtain ⟨⟨Prof1, chunk1⟩, hl⟩ := Option.isSome_iff_exists.mp
      (PerceptionEntityLoop_isSome_of_nav env chunk (st.resetIfNewFrame env.FrameIdx).Prof hnav)
    obtain ⟨r2, he⟩ := Option.isSome_iff_exists.mp
      (ih { st.resetIfNewFrame env.FrameIdx with Prof := Prof1 })
    simp only [PerceptionExecute, PerceptionChunk, hl, he]
    rfl

/-- C5: in a sequential execution of the Perception chunks, with a budget >= 0 and
losChecksUsed <= budget on entry, a pass that has a navigation system completes, and every
completed pass ends with losChecksUsed <= losChecksPerFrameBudget, the counter having been
incremented exactly once for each entity stamped didLOSRefresh = true (counted from its value
after the reset of the first chunk). -/
theorem Perception_LOS_budget (env : PerceptionEnv) (st : PerceptionState)
    (chunks : List (List FSwarmEntity))
    (hB : 0 ≤ env.Params.LOSChecksPerFrameBudget)
    (hentry : st.Prof.LOSChecksUsed ≤ env.Params.LOSChecksPerFrameBudget) :
    (env.NavSys.isSome = true → (PerceptionExecute env st chunks).isSome = true) ∧
      ∀ out, PerceptionExecute env st chunks = some out →
        out.1.Prof.LOSChecksUsed ≤ env.Params.LOSChecksPerFrameBudget ∧
          out.1.Prof.LOSChecksUsed = losChecksAtStart env st chunks + refreshedCount out.2 := by
  refine ⟨PerceptionExecute_isSome_of_nav env chunks st, ?_⟩
  intro out hrun
  cases chunks with
  | nil =>
    simp only [PerceptionExecute, Option.some.injEq] at hrun
    subst hrun
    simpa [losChecksAtStart, refreshedCount] using hentry
  | cons chunk rest =>
    rw [PerceptionExecute_reset_head] at hrun
    obtain ⟨h1, h2⟩ := PerceptionExecute_counts_aux env (chunk :: rest)
      (st.resetIfNewFrame env.FrameIdx) out (resetIfNewFrame_frame st env.FrameIdx) hrun
    exact ⟨h2 (resetIfNewFrame_le st env.FrameIdx _ hB hentry), h1⟩

/-! ## The repath budget over PathReplan and Follow (claim C6) -/

/-- C6, evaluated on the code at an input where the claim fails: repathsPerFrameBudget = 1, two
spawned entities in one chunk, a target on the navmesh for which the synchronous query finds no
path.  PathReplan resets repathsUsed to 0 and publishes nothing; Follow then counts one request
for each of the two entities, with no test against the budget: after both stages
repathsUsed = 2 > 1. -/
theorem Follow_exceeds_repath_budget :
    (0 : Int) ≤ 1 ∧
      (PathReplanThenFollow (some sampleNavNoPath) sampleMath (fun _ => 0) 0 0 (1 / 60)
          { FSwarmMovementParamsFragment.default with RepathsPerFrameBudget := 1 }
          samplePlayer (fun _ => 0) sampleWorld).map (fun w => w.Prof.RepathsUsed)
        = some 2 := by
  decide!

/-! ## The path-state invariant (claim C7) -/

theorem PathStateOK_of_core (P Q : FSwarmPathStateFragment)
    (h1 : P.PointsRef = Q.PointsRef) (h2 : P.Index = Q.Index) (h3 : P.bHasPath = Q.bHasPath)
    (hQ : PathStateOK Q) : PathStateOK P := by
  unfold PathStateOK FSwarmPathStateFragment.NumPoints at *
  rw [h1, h2, h3]
  exact hQ

theorem PathStateOK_of_no_path (P : FSwarmPathStateFragment)
    (h1 : P.bHasPath = false) (h2 : P.PointsRef = none) : PathStateOK P := by
  refine ⟨fun h => ?_, fun pts h => ?_⟩
  · rw [h1] at h; exact absurd h (by simp)
  · rw [h2] at h; exact absurd h (by simp)

theorem modifyAt_forall {α : Type} (P : α → Prop) (f : α → α) (hf : ∀ a, P (f a))
    (n : Nat) (l : List α) (hl : ∀ a ∈ l, P a) : ∀ a ∈ modifyAt f n l, P a := by
  induction l generalizing n with
  | nil => intro a ha; simp [modifyAt] at ha
  | cons b rest ih =>
    cases n with
    | zero =>
      intro a ha
      simp only [modifyAt, List.mem_cons] at ha
      rcases ha with ha | ha
      · rw [ha]; exact hf b
      · exact hl a (List.mem_cons_of_mem _ ha)
    | succ m =>
      intro a ha
      simp only [modifyAt, List.mem_cons] at ha
      rcases ha with ha | ha
      · rw [ha]; exact hl b (List.mem_cons_self _ _)
      · exact ih m (fun x hx => hl x (List.mem_cons_of_mem _ hx)) a ha

theorem ite_fst_prop {α β : Type} (P : α → Prop) (c : Prop) [Decidable c] (x y : α × β)
    (hx : P x.1) (hy : P y.1) : P (if c then x else y).1 := by
  split <;> assumption

/-- The fields of a path state the invariant speaks about. -/
theorem ReplanGatherStep_path_core (env : PathReplanEnv) (i : Nat) (e : FSwarmEntity)
    (Groups : List (FPathKey × List FPendingEntity)) :
    (ReplanGatherStep env i e Groups).1.Path.PointsRef = e.Path.PointsRef ∧
      (ReplanGatherStep env i e Groups).1.Path.Index = e.Path.Index ∧
      (ReplanGatherStep env i e Groups).1.Path.bHasPath = e.Path.bHasPath := by
  unfold ReplanGatherStep
  simp only
  apply ite_fst_prop (fun r : FSwarmEntity => r.Path.PointsRef = e.Path.PointsRef ∧
    r.Path.Index = e.Path.Index ∧ r.Path.bHasPath = e.Path.bHasPath)
  · exact ⟨rfl, rfl, rfl⟩
  · apply ite_fst_prop (fun r : FSwarmEntity => r.Path.PointsRef = e.Path.PointsRef ∧
      r.Path.Index = e.Path.Index ∧ r.Path.bHasPath = e.Path.bHasPath)
    · exact ⟨rfl, rfl, rfl⟩
    · exact ⟨rfl, rfl, rfl⟩

theorem ReplanGatherLoop_ok (env : PathReplanEnv) (chunk : List FSwarmEntity) (i : Nat)
    (Groups : List (FPathKey × List FPendingEntity)) (h : AllPathsOK chunk) :
    AllPathsOK (ReplanGatherLoop env i chunk Groups).1 := by
  induction chunk generalizing i Groups with
  | nil => intro e he; simp [ReplanGatherLoop] at he
  | cons a rest ih =>
    intro e he
    simp only [ReplanGatherLoop, List.mem_cons] at he
    rcases he with he | he
    · obtain ⟨h1, h2, h3⟩ := ReplanGatherStep_path_core env i a Groups
      rw [he]
      exact PathStateOK_of_core _ _ h1 h2 h3 (h a (List.mem_cons_self _ _))
    · exact ih (i + 1) _ (fun x hx => h x (List.mem_cons_of_mem _ hx)) e he

theorem publishPath_ok (env : PathReplanEnv) (SharedRef : List FVector) (PE : FPendingEntity)
    (e : FSwarmEntity) (hlen : 2 ≤ SharedRef.length) :
    PathStateOK (publishPath env SharedRef PE e).Path := by
  refine ⟨fun _ => ?_, fun pts h => ?_⟩
  · simp only [publishPath, FSwarmPathStateFragment.NumPoints]
    refine ⟨by norm_num, ?_, ?_⟩ <;> omega
  · simp only [publishPath, Option.some.injEq] at h
    rw [← h]; exact hlen

theorem publishToMembers_ok (env : PathReplanEnv) (SharedRef : List FVector)
    (Members : List FPendingEntity) (Entities : List FSwarmEntity)
    (hlen : 2 ≤ SharedRef.length) (h : AllPathsOK Entities) :
    AllPathsOK (publishToMembers env SharedRef Members Entities) := by
  induction Members generalizing Entities with
  | nil => exact h
  | cons PE rest ih =>
    simp only [publishToMembers]
    apply ih
    intro e he
    exact modifyAt_forall (fun x : FSwarmEntity => PathStateOK x.Path)
      (publishPath env SharedRef PE) (fun a => publishPath_ok env SharedRef PE a hlen)
      PE.Index Entities (fun a ha => h a ha) e he

theorem cacheLookup_length (Now : ℚ) (Key : FPathKey)
    (Cache : List (TSlot FPathKey FCachedPathEntry)) (pts : List FVector)
    (h : (cacheLookup Now Key Cache).1 = some pts) : 2 ≤ pts.length := by
  unfold cacheLookup at h
  split at h
  · split at h
    · split_ifs at h with hc
      simp only [Option.some.injEq] at h
      rw [← h]
      have := hc.2
      omega
    · simp at h
  · simp at h

theorem ReplanGroupStep_ok (env : PathReplanEnv) (Now : ℚ) (st : ReplanLoopState)
    (Pair : FPathKey × List FPendingEntity) (h : AllPathsOK st.Entities) :
    AllPathsOK (ReplanGroupStep env Now st Pair).Entities := by
  unfold ReplanGroupStep
  simp only
  split
  · rename_i SharedRef hlook
    exact publishToMembers_ok env SharedRef Pair.2 st.Entities
      (cacheLookup_length Now Pair.1 st.G.GPathCache SharedRef hlook) h
  · repeat' split
    all_goals first
      | exact h
      | (apply publishToMembers_ok _ _ _ _ _ h; omega)

theorem ReplanGroupLoop_ok (env : PathReplanEnv) (Now : ℚ)
    (Groups : List (FPathKey × List FPendingEntity)) (st : ReplanLoopState)
    (h : AllPathsOK st.Entities) : AllPathsOK (ReplanGroupLoop env Now Groups st).Entities := by
  induction Groups generalizing st with
  | nil => exact h
  | cons Pair rest ih =>
    simp only [ReplanGroupLoop]
    split_ifs
    · exact h
    · exact ih _ (ReplanGroupStep_ok env Now st Pair h)

theorem PathReplanChunk_ok (env : PathReplanEnv) (Now : ℚ) (st : PathReplanState)
    (chunk : List FSwarmEntity) (h : AllPathsOK chunk) :
    AllPathsOK (PathReplanChunk env Now st chunk).2 := by
  unfold PathReplanChunk
  simp only
  split_ifs
  all_goals first
    | exact h
    | exact ReplanGatherLoop_ok env chunk 0 [] h
    | exact ReplanGroupLoop_ok env Now _ _ (ReplanGatherLoop_ok env chunk 0 [] h)

theorem PathReplanChunks_ok (env : PathReplanEnv) (clock : Nat → ℚ)
    (chunks : List (List FSwarmEntity)) (i : Nat) (st : PathReplanState)
    (h : ∀ chunk ∈ chunks, AllPathsOK chunk) :
    ∀ chunk ∈ (PathReplanChunks env clock i st chunks).2, AllPathsOK chunk := by
  induction chunks generalizing i st with
  | nil => intro c hc; simp [PathReplanChunks] at hc
  | cons chunk rest ih =>
    intro c hc
    simp only [PathReplanChunks, List.mem_cons] at hc
    rcases hc with hc | hc
    · rw [hc]
      exact PathReplanChunk_ok env (clock i) st chunk (h chunk (List.mem_cons_self _ _))
    · exact ih (i + 1) _ (fun x hx => h x (List.mem_cons_of_mem _ hx)) c hc

theorem PathReplanWorld_ok (NavSys : Option NavService) (M : FMathOps)
    (GetTypeHash : Nat → Nat) (FrameIdx GFrameNumber : Nat) (Dt : ℚ)
    (Params : FSwarmMovementParamsFragment) (Player : FPlayerSharedFragment)
    (clock : Nat → ℚ) (w : SwarmWorld) (h : WorldOK w) :
    WorldOK (PathReplanWorld NavSys M GetTypeHash FrameIdx GFrameNumber Dt Params Player
      clock w) := by
  obtain ⟨h1, h2, h3⟩ := h
  refine ⟨?_, h2, h3⟩
  unfold PathReplanWorld PathReplanExecute
  cases NavSys with
  | none => exact h1
  | some nav => exact PathReplanChunks_ok _ clock w.Chunks 0 _ h1

theorem foldl_mapSet_BucketsOK (Pending : List (Int × List FVector))
    (RT : List (Int × List FVector)) (hP : BucketsOK Pending) (hR : BucketsOK RT) :
    BucketsOK (Pending.foldl (fun RT Pair => mapSet Pair.1 Pair.2 RT) RT) := by
  induction Pending generalizing RT with
  | nil => exact hR
  | cons q rest ih =>
    simp only [List.foldl_cons]
    apply ih
    · intro p hp; exact hP p (List.mem_cons_of_mem _ hp)
    · exact mapSet_forall (fun l : List FVector => 2 ≤ l.length) q.1 q.2 RT hR
        (hP q (List.mem_cons_self _ _))

theorem FollowFrameSwap_ok (F : FollowState) (FrameIdx : Nat)
    (hP : BucketsOK F.PendingBucketResults_GT) (hR : BucketsOK F.BucketResults_RT) :
    BucketsOK (FollowFrameSwap F FrameIdx).PendingBucketResults_GT ∧
      BucketsOK (FollowFrameSwap F FrameIdx).BucketResults_RT := by
  unfold FollowFrameSwap
  split_ifs
  · refine ⟨?_, ?_⟩
    · intro p hp; simp at hp
    · exact foldl_mapSet_BucketsOK _ [] hP (by intro p hp; simp at hp)
  · exact ⟨hP, hR⟩

theorem FollowBudgetReset_maps (F : FollowState) (FrameIdx : Nat) :
    (FollowBudgetReset F FrameIdx).PendingBucketResults_GT = F.PendingBucketResults_GT ∧
      (FollowBudgetReset F FrameIdx).BucketResults_RT = F.BucketResults_RT := by
  unfold FollowBudgetReset
  split_ifs <;> exact ⟨rfl, rfl⟩

theorem TryRequestReplanBudgeted_maps (F : FollowState) (From Goal : FVector) (BucketKey : Int)
    (bUseHierarchical : Bool) :
    (TryRequestReplanBudgeted F From Goal BucketKey bUseHierarchical).2.PendingBucketResults_GT
        = F.PendingBucketResults_GT ∧
      (TryRequestReplanBudgeted F From Goal BucketKey bUseHierarchical).2.BucketResults_RT
        = F.BucketResults_RT := by
  unfold TryRequestReplanBudgeted
  split_ifs <;> exact ⟨rfl, rfl⟩

theorem FollowPathCallback_ok (F : FollowState) (BucketKey : Int)
    (Result : Option (List FVector))
    (hP : BucketsOK F.PendingBucketResults_GT) (hR : BucketsOK F.BucketResults_RT) :
    BucketsOK (FollowPathCallback F BucketKey Result).PendingBucketResults_GT ∧
      BucketsOK (FollowPathCallback F BucketKey Result).BucketResults_RT := by
  unfold FollowPathCallback
  simp only
  split_ifs with hlen
  · refine ⟨?_, hR⟩
    exact mapSet_forall (fun l : List FVector => 2 ≤ l.length) _ _ _ hP (by omega)
  · exact ⟨hP, hR⟩

theorem FollowRunTask_maps (NavSys : Option NavService) (hasNavData : Bool) (F : FollowState)
    (task : FReplanTask) :
    (FollowRunTask NavSys hasNavData F task).1.PendingBucketResults_GT
        = F.PendingBucketResults_GT ∧
      (FollowRunTask NavSys hasNavData F task).1.BucketResults_RT = F.BucketResults_RT := by
  unfold FollowRunTask
  repeat' split
  all_goals exact ⟨rfl, rfl⟩

theorem FollowRunNextTask_maps (NavSys : Option NavService) (hasNavData : Bool)
    (F : FollowState) :
    (FollowRunNextTask NavSys hasNavData F).PendingBucketResults_GT
        = F.PendingBucketResults_GT ∧
      (FollowRunNextTask NavSys hasNavData F).BucketResults_RT = F.BucketResults_RT := by
  unfold FollowRunNextTask
  split
  · exact ⟨rfl, rfl⟩
  · rename_i task rest _
    exact FollowRunTask_maps NavSys hasNavData { F with TaskQueue := rest } task

theorem followClearExhausted_ok (P : FSwarmPathStateFragment) (h : PathStateOK P) :
    PathStateOK (followClearExhausted P) := by
  unfold followClearExhausted
  split_ifs
  · refine ⟨fun hh => absurd hh (by simp), h.2⟩
  · exact h

theorem Clamp_bounds (x lo hi : Int) (h : lo ≤ hi) : lo ≤ Clamp x lo hi ∧ Clamp x lo hi ≤ hi := by
  unfold Clamp
  constructor
  · exact le_max_right _ _
  · exact max_le (min_le_right _ _) h

theorem followAdoptBucket_ok (bucketPts : List FVector) (selfPos TargetLocation : FVector)
    (Path : FSwarmPathStateFragment) (hlen : 2 ≤ bucketPts.length) :
    PathStateOK (followAdoptBucket bucketPts selfPos TargetLocation Path) := by
  have hb := Clamp_bounds (FindNearestPointIndex2D bucketPts selfPos) 1
    (max 1 ((bucketPts.length : Int) - 1)) (le_max_left _ _)
  have hmax : max 1 ((bucketPts.length : Int) - 1) = (bucketPts.length : Int) - 1 := by
    apply max_eq_right; omega
  rw [hmax] at hb
  refine ⟨fun _ => ?_, fun pts h => ?_⟩
  · simp only [followAdoptBucket, FSwarmPathStateFragment.NumPoints]
    rw [hmax]
    refine ⟨by omega, by omega, by omega⟩
  · simp only [followAdoptBucket, Option.some.injEq] at h
    rw [← h]; exact hlen

theorem IsPathFresh_range (M : FMathOps) (Params : FSwarmMovementParamsFragment)
    (Path : FSwarmPathStateFragment) (Sense : FSwarmTargetSenseFragment) (selfPos : FVector)
    (h : IsPathFresh M Params Path Sense selfPos = true) :
    Path.bHasPath = true ∧ 0 ≤ Path.Index ∧ Path.Index < Path.NumPoints := by
  unfold IsPathFresh at h
  simp only [Bool.and_eq_true, decide_eq_true_eq] at h
  exact ⟨h.1.1.1, h.1.2, h.2⟩

/-- After the pickup the path state satisfies the invariant, and a fresh path has its index in
range. -/
theorem followPickup_ok (env : FollowEnv) (F : FollowState) (e : FSwarmEntity)
    (hP : PathStateOK e.Path) (hR : BucketsOK F.BucketResults_RT) :
    PathStateOK (followPickup env F e).1 ∧
      ((followPickup env F e).2 = true →
        (followPickup env F e).1.bHasPath = true ∧ 0 ≤ (followPickup env F e).1.Index ∧
          (followPickup env F e).1.Index < (followPickup env F e).1.NumPoints) := by
  have h0 := followClearExhausted_ok e.Path hP
  unfold followPickup
  simp only
  split_ifs with hf
  · split
    · rename_i bucketPts hfind
      have hlen : 2 ≤ bucketPts.length := hR _ (mapFind_mem _ _ _ hfind)
      have hok := followAdoptBucket_ok bucketPts e.Location e.Sense.TargetLocation
        (followClearExhausted e.Path) hlen
      refine ⟨hok, fun hb => ?_⟩
      have := hok.1 hb
      exact ⟨hb, this.1, this.2.1⟩
    · refine ⟨h0, fun hb => ?_⟩
      simp only at hb
      rw [hf] at hb
      exact absurd hb (by simp)
  · refine ⟨h0, fun hb => ?_⟩
    exact IsPathFresh_range _ _ _ _ _ hb

theorem followTimers_core (Dt : ℚ) (Prof : FSwarmProfilerSharedFragment)
    (Path : FSwarmPathStateFragment) :
    (followTimers Dt Prof Path).2.PointsRef = Path.PointsRef ∧
      (followTimers Dt Prof Path).2.Index = Path.Index ∧
      (followTimers Dt Prof Path).2.bHasPath = Path.bHasPath := by
  unfold followTimers
  simp only
  split_ifs <;> exact ⟨rfl, rfl, rfl⟩

theorem followStale_ok (env : FollowEnv) (st : FollowLoopState) (e : FSwarmEntity)
    (Path1 : FSwarmPathStateFragment) (h : PathStateOK Path1) :
    PathStateOK (followStale env st e Path1).2.Path ∧
      (followStale env st e Path1).1.F.PendingBucketResults_GT = st.F.PendingBucketResults_GT ∧
      (followStale env st e Path1).1.F.BucketResults_RT = st.F.BucketResults_RT := by
  unfold followStale
  simp only
  have hreq := TryRequestReplanBudgeted_maps st.F e.Location e.Sense.TargetLocation
    (MakeBucketKey e.Location st.F.ReplanBucketCellSize)
    (decide (FVector.Dist2D env.M e.Location e.Sense.TargetLocation > 3000))
  split_ifs
  · refine ⟨?_, hreq.1, hreq.2⟩
    obtain ⟨a, b, c⟩ := followTimers_core (Clamp env.DeltaTimeSeconds 0 (1 / 20))
      { st.Prof with RepathsUsed := st.Prof.RepathsUsed + 1 }
      { Path1 with RepathCooldown := 1 / 4 }
    exact PathStateOK_of_core _ Path1 a b c h
  · refine ⟨?_, hreq.1, hreq.2⟩
    obtain ⟨a, b, c⟩ := followTimers_core (Clamp env.DeltaTimeSeconds 0 (1 / 20)) st.Prof Path1
    exact PathStateOK_of_core _ Path1 a b c h
  · refine ⟨?_, rfl, rfl⟩
    obtain ⟨a, b, c⟩ := followTimers_core (Clamp env.DeltaTimeSeconds 0 (1 / 20)) st.Prof Path1
    exact PathStateOK_of_core _ Path1 a b c h

/-- The waypoint advance keeps the invariant: the new index is clamped into the list. -/
theorem AdvanceWaypointIfClose_ok (Params : FSwarmMovementParamsFragment)
    (Path Path2 : FSwarmPathStateFragment) (selfPos target target2 : FVector)
    (hP : PathStateOK Path) (hhas : Path.bHasPath = true)
    (h : AdvanceWaypointIfClose Params Path selfPos target = some (Path2, target2)) :
    PathStateOK Path2 := by
  have hn := (hP.1 hhas).2.2
  have hb := Clamp_bounds (Path.Index + 1) 0 (max 0 (Path.NumPoints - 1)) (le_max_left _ _)
  have hmax : max 0 (Path.NumPoints - 1) = Path.NumPoints - 1 := by
    apply max_eq_right; omega
  rw [hmax] at hb
  have hadv : PathStateOK
      { Path with Index := Clamp (Path.Index + 1) 0 (max 0 (Path.NumPoints - 1)),
                  PathAge := 0 } := by
    refine ⟨fun _ => ?_, hP.2⟩
    show 0 ≤ Clamp (Path.Index + 1) 0 (max 0 (Path.NumPoints - 1)) ∧
      Clamp (Path.Index + 1) 0 (max 0 (Path.NumPoints - 1)) < Path.NumPoints ∧
      2 ≤ Path.NumPoints
    rw [hmax]
    exact ⟨hb.1, by omega, hn⟩
  unfold AdvanceWaypointIfClose at h
  simp only at h
  split_ifs at h with hfar hin
  · simp only [Option.some.injEq, Prod.mk.injEq] at h
    rw [← h.1]; exact hP
  · split at h
    · simp only [Option.some.injEq, Prod.mk.injEq] at h
      rw [← h.1]; exact hadv
    · simp at h
  · simp only [Option.some.injEq, Prod.mk.injEq] at h
    rw [← h.1]; exact hadv

theorem followChase_core (env : FollowEnv) (Prof : FSwarmProfilerSharedFragment)
    (e : FSwarmEntity) (Path2 : FSwarmPathStateFragment) (target1 : FVector)
    (r : (FVector × FSwarmPathStateFragment × FSwarmPathWindowFragment ×
      FSwarmProfilerSharedFragment) × Bool)
    (h : followChase env Prof e Path2 target1 = some r) :
    r.1.2.1.PointsRef = Path2.PointsRef ∧ r.1.2.1.Index = Path2.Index ∧
      r.1.2.1.bHasPath = Path2.bHasPath := by
  unfold followChase at h
  simp only at h
  split_ifs at h
  · simp only [Option.some.injEq] at h
    rw [← h]; exact ⟨rfl, rfl, rfl⟩
  · split at h
    · simp only [Option.some.injEq] at h
      rw [← h]; exact ⟨rfl, rfl, rfl⟩
    · simp at h

theorem followSteer_ok (env : FollowEnv) (st st1 : FollowLoopState) (e e1 : FSwarmEntity)
    (Path1 : FSwarmPathStateFragment) (hP : PathStateOK Path1) (hhas : Path1.bHasPath = true)
    (h : followSteer env st e Path1 = some (st1, e1)) :
    PathStateOK e1.Path ∧ st1.F = st.F := by
  unfold followSteer at h
  simp only at h
  split at h
  · simp at h
  · rename_i target0 _
    split at h
    · simp at h
    · rename_i Path2 target1 hadv
      have h2 := AdvanceWaypointIfClose_ok env.Params Path1 Path2 e.Location target0 target1
        hP hhas hadv
      split at h
      · simp at h
      · rename_i target Path3 Window1 Prof1 bDirect hch
        obtain ⟨a, b, c⟩ := followChase_core env st.Prof e Path2 target1 _ hch
        simp only [Option.some.injEq, Prod.mk.injEq] at h
        obtain ⟨hs, he⟩ := h
        rw [← hs, ← he]
        refine ⟨?_, rfl⟩
        obtain ⟨a2, b2, c2⟩ := followTimers_core (Clamp env.DeltaTimeSeconds 0 (1 / 20))
          Prof1 Path3
        exact PathStateOK_of_core _ Path2 (a2.trans a) (b2.trans b) (c2.trans c) h2

theorem FollowEntityStep_ok (env : FollowEnv) (st st1 : FollowLoopState) (e e1 : FSwarmEntity)
    (hP : PathStateOK e.Path) (hR : BucketsOK st.F.BucketResults_RT)
    (h : FollowEntityStep env st e = some (st1, e1)) :
    PathStateOK e1.Path ∧
      st1.F.PendingBucketResults_GT = st.F.PendingBucketResults_GT ∧
      st1.F.BucketResults_RT = st.F.BucketResults_RT := by
  obtain ⟨hok, hfresh⟩ := followPickup_ok env st.F e hP hR
  unfold FollowEntityStep at h
  simp only at h
  split_ifs at h with hf
  · simp only [Option.some.injEq] at h
    have := followStale_ok env st e (followPickup env st.F e).1 hok
    rw [h] at this
    exact this
  · have hf2 : (followPickup env st.F e).2 = true := by
      simpa using hf
    obtain ⟨h1, h2⟩ := followSteer_ok env st st1 e e1 _ hok (hfresh hf2).1 h
    exact ⟨h1, by rw [h2], by rw [h2]⟩

theorem FollowEntityLoop_ok (env : FollowEnv) (chunk chunk1 : List FSwarmEntity)
    (st st1 : FollowLoopState) (hP : AllPathsOK chunk) (hR : BucketsOK st.F.BucketResults_RT)
    (h : FollowEntityLoop env chunk st = some (st1, chunk1)) :
    AllPathsOK chunk1 ∧
      st1.F.PendingBucketResults_GT = st.F.PendingBucketResults_GT ∧
      st1.F.BucketResults_RT = st.F.BucketResults_RT := by
  induction chunk generalizing st st1 chunk1 with
  | nil =>
    simp only [FollowEntityLoop, Option.some.injEq, Prod.mk.injEq] at h
    rw [← h.1, ← h.2]
    exact ⟨fun e he => by simp at he, rfl, rfl⟩
  | cons a rest ih =>
    unfold FollowEntityLoop at h
    cases hs : FollowEntityStep env st a with
    | none => simp [hs] at h
    | some r =>
      obtain ⟨stA, a1⟩ := r
      obtain ⟨hA1, hA2, hA3⟩ := FollowEntityStep_ok env st stA a a1
        (hP a (List.mem_cons_self _ _)) hR hs
      cases hl : FollowEntityLoop env rest stA with
      | none => simp [hs, hl] at h
      | some r2 =>
        obtain ⟨stB, rest1⟩ := r2
        simp only [hs, hl, Option.some.injEq, Prod.mk.injEq] at h
        obtain ⟨hB1, hB2, hB3⟩ := ih _ _ _ (fun x hx => hP x (List.mem_cons_of_mem _ hx))
          (by rw [hA3]; exact hR) hl
        rw [← h.1, ← h.2]
        refine ⟨?_, hB2.trans hA2, hB3.trans hA3⟩
        intro x hx
        rcases List.mem_cons.mp hx with hx | hx
        · rw [hx]; exact hA1
        · exact hB1 x hx

theorem FollowChunks_ok (env : FollowEnv) (chunks chunks1 : List (List FSwarmEntity))
    (st st1 : FollowLoopState) (hP : ∀ chunk ∈ chunks, AllPathsOK chunk)
    (hR : BucketsOK st.F.BucketResults_RT)
    (h : FollowChunks env st chunks = some (st1, chunks1)) :
    (∀ chunk ∈ chunks1, AllPathsOK chunk) ∧
      st1.F.PendingBucketResults_GT = st.F.PendingBucketResults_GT ∧
      st1.F.BucketResults_RT = st.F.BucketResults_RT := by
  induction chunks generalizing st st1 chunks1 with
  | nil =>
    simp only [FollowChunks, Option.some.injEq, Prod.mk.injEq] at h
    rw [← h.1, ← h.2]
    exact ⟨fun c hc => by simp at hc, rfl, rfl⟩
  | cons chunk rest ih =>
    unfold FollowChunks at h
    cases hs : FollowChunk env st chunk with
    | none => simp [hs] at h
    | some r =>
      obtain ⟨stA, chunkA⟩ := r
      have hA : AllPathsOK chunkA ∧
          stA.F.PendingBucketResults_GT = st.F.PendingBucketResults_GT ∧
          stA.F.BucketResults_RT = st.F.BucketResults_RT := by
        unfold FollowChunk at hs
        split_ifs at hs
        · simp only [Option.some.injEq, Prod.mk.injEq] at hs
          rw [← hs.1, ← hs.2]
          exact ⟨hP chunk (List.mem_cons_self _ _), rfl, rfl⟩
        · exact FollowEntityLoop_ok env chunk chunkA st stA
            (hP chunk (List.mem_cons_self _ _)) hR hs
      obtain ⟨hA1, hA2, hA3⟩ := hA
      cases hl : FollowChunks env stA rest with
      | none => simp [hs, hl] at h
      | some r2 =>
        obtain ⟨stB, rest1⟩ := r2
        simp only [hs, hl, Option.some.injEq, Prod.mk.injEq] at h
        obtain ⟨hB1, hB2, hB3⟩ := ih _ _ _ (fun x hx => hP x (List.mem_cons_of_mem _ hx))
          (by rw [hA3]; exact hR) hl
        rw [← h.1, ← h.2]
        refine ⟨?_, hB2.trans hA2, hB3.trans hA3⟩
        intro x hx
        rcases List.mem_cons.mp hx with hx | hx
        · rw [hx]; exact hA1
        · exact hB1 x hx

theorem FollowWorld_ok (env : FollowEnv) (w w2 : SwarmWorld) (hw : WorldOK w)
    (h : FollowWorld env w = some w2) : WorldOK w2 := by
  obtain ⟨h1, h2, h3⟩ := hw
  unfold FollowWorld at h
  cases hx : FollowExecute env { Prof := w.Prof, F := w.F } w.Chunks with
  | none => simp [hx] at h
  | some out =>
    simp only [hx, Option.some.injEq] at h
    unfold FollowExecute at hx
    simp only at hx
    obtain ⟨hs1, hs2⟩ := FollowFrameSwap_ok w.F env.FrameIdx h2 h3
    obtain ⟨hb1, hb2⟩ := FollowBudgetReset_maps (FollowFrameSwap w.F env.FrameIdx) env.FrameIdx
    obtain ⟨hc1, hc2, hc3⟩ := FollowChunks_ok env w.Chunks out.2 _ out.1 h1
      (by show BucketsOK (FollowBudgetReset (FollowFrameSwap w.F env.FrameIdx)
            env.FrameIdx).BucketResults_RT
          rw [hb2]; exact hs2) hx
    rw [← h]
    refine ⟨hc1, ?_, ?_⟩
    · show BucketsOK out.1.F.PendingBucketResults_GT
      rw [hc2]
      show BucketsOK (FollowBudgetReset (FollowFrameSwap w.F env.FrameIdx)
        env.FrameIdx).PendingBucketResults_GT
      rw [hb1]; exact hs1
    · show BucketsOK out.1.F.BucketResults_RT
      rw [hc3]
      show BucketsOK (FollowBudgetReset (FollowFrameSwap w.F env.FrameIdx)
        env.FrameIdx).BucketResults_RT
      rw [hb2]; exact hs2

theorem IsSpawnWorld_ok (w : SwarmWorld) (h : IsSpawnWorld w) : WorldOK w := by
  obtain ⟨h1, -, h3⟩ := h
  refine ⟨fun chunk hc e he => ?_, ?_, ?_⟩
  · exact PathStateOK_of_no_path _ (h1 chunk hc e he).1 (h1 chunk hc e he).2
  · rw [h3]; intro p hp; simp [FollowState.init] at hp
  · rw [h3]; intro p hp; simp [FollowState.init] at hp

theorem SwarmStep_ok (w w2 : SwarmWorld) (hs : SwarmStep w w2) (hw : WorldOK w) : WorldOK w2 := by
  induction hs with
  | pathReplan NavSys M GetTypeHash FrameIdx GFrameNumber Dt Params Player clock =>
    exact PathReplanWorld_ok _ _ _ _ _ _ _ _ _ w hw
  | follow w2 env h => exact FollowWorld_ok env w w2 hw h
  | pathCallback BucketKey Result =>
    obtain ⟨h1, h2, h3⟩ := hw
    exact ⟨h1, FollowPathCallback_ok w.F BucketKey Result h2 h3⟩
  | runTask NavSys hasNavData =>
    obtain ⟨h1, h2, h3⟩ := hw
    obtain ⟨a, b⟩ := FollowRunNextTask_maps NavSys hasNavData w.F
    refine ⟨h1, ?_, ?_⟩
    · show BucketsOK (FollowRunNextTask NavSys hasNavData w.F).PendingBucketResults_GT
      rw [a]; exact h2
    · show BucketsOK (FollowRunNextTask NavSys hasNavData w.F).BucketResults_RT
      rw [b]; exact h3

theorem Reachable_ok (w : SwarmWorld) (h : Reachable w) : WorldOK w := by
  induction h with
  | spawn w hsp => exact IsSpawnWorld_ok w hsp
  | step w w2 _ hs ih => exact SwarmStep_ok w w2 hs ih

/-- C7: in every world reached from the spawn state (hasPath = false, no point list) by
PathReplan passes, Follow passes, deliveries of asynchronous path results and runs of queued
request tasks, every entity with hasPath = true has 0 <= index < pointsRef.len and
pointsRef.len >= 2, and every point list referenced by an entity has at least 2 points. -/
theorem PathState_invariant (w : SwarmWorld) (hreach : Reachable w) :
    ∀ chunk ∈ w.Chunks, ∀ e ∈ chunk,
      (e.Path.bHasPath = true →
        0 ≤ e.Path.Index ∧ e.Path.Index < e.Path.NumPoints ∧ 2 ≤ e.Path.NumPoints) ∧
      ∀ pts, e.Path.PointsRef = some pts → 2 ≤ pts.length :=
  fun chunk hc e he => (Reachable_ok w hreach).1 chunk hc e he

theorem PathState_invariant_witness :
    Reachable sampleWorldAfterReplan ∧
      ∀ chunk ∈ sampleWorldAfterReplan.Chunks, ∀ e ∈ chunk,
        (e.Path.bHasPath = true →
          0 ≤ e.Path.Index ∧ e.Path.Index < e.Path.NumPoints ∧ 2 ≤ e.Path.NumPoints) ∧
        ∀ pts, e.Path.PointsRef = some pts → 2 ≤ pts.length :=
  have hreach : Reachable sampleWorldAfterReplan :=
    Reachable.step sampleWorld sampleWorldAfterReplan
      (Reachable.spawn sampleWorld
        ⟨by simp [sampleWorld, FSwarmEntity.spawn], rfl, rfl⟩)
      (SwarmStep.pathReplan sampleWorld (some sampleNavStraight) sampleMath (fun _ => 0) 0 0
        (1 / 60) FSwarmMovementParamsFragment.default samplePlayer (fun _ => 0))
  ⟨hreach, PathState_invariant sampleWorldAfterReplan hreach⟩

/-- In the world of the C7 witness both entities have been given the two-point path, at
index 1. -/
theorem sampleWorldAfterReplan_paths :
    sampleWorldAfterReplan.Chunks.map
        (fun chunk => chunk.map fun e => (e.Path.bHasPath, e.Path.Index, e.Path.NumPoints))
      = [[(true, 1, 2), (true, 1, 2)]] := by
  decide!

/-! ## Perception: witness of claim C5 -/

theorem Perception_LOS_budget_witness :
    (0 ≤ samplePerceptionEnv.Params.LOSChecksPerFrameBudget) ∧
    (samplePerceptionState.Prof.LOSChecksUsed ≤
      samplePerceptionEnv.Params.LOSChecksPerFrameBudget) ∧
    ((samplePerceptionEnv.NavSys.isSome = true →
        (PerceptionExecute samplePerceptionEnv samplePerceptionState
          [[sampleDueEntity 1, sampleDueEntity 2], [sampleDueEntity 3]]).isSome = true) ∧
      ∀ out, PerceptionExecute samplePerceptionEnv samplePerceptionState
          [[sampleDueEntity 1, sampleDueEntity 2], [sampleDueEntity 3]] = some out →
        out.1.Prof.LOSChecksUsed ≤ samplePerceptionEnv.Params.LOSChecksPerFrameBudget ∧
          out.1.Prof.LOSChecksUsed =
            losChecksAtStart samplePerceptionEnv samplePerceptionState
              [[sampleDueEntity 1, sampleDueEntity 2], [sampleDueEntity 3]] +
            refreshedCount out.2) :=
  ⟨by decide, by decide,
    Perception_LOS_budget samplePerceptionEnv samplePerceptionState
      [[sampleDueEntity 1, sampleDueEntity 2], [sampleDueEntity 3]] (by decide) (by decide)⟩

/-- At the input of the C5 witness three refreshes are due and the budget of 1 lets the first
entity refresh only. -/
theorem Perception_budget_example :
    (PerceptionExecute samplePerceptionEnv samplePerceptionState
        [[sampleDueEntity 1, sampleDueEntity 2], [sampleDueEntity 3]]).map
      (fun out => (out.1.Prof.LOSChecksUsed,
        out.2.map fun chunk => chunk.map fun e => (e.Stamp.bDidLOSRefresh, e.Sense.bLOS)))
      = some (1, [[(true, true), (false, false)], [(false, false)]]) := by
  decide!

/-! ## The path cache bound (claim C10) -/

/-- The key the eviction loop ends with is the accumulator's key or a key of the cache. -/
theorem findOldest_key (Cache : List (FPathKey × FCachedPathEntry))
    (best : Option (ℚ × FPathKey)) (t : ℚ) (k : FPathKey)
    (h : findOldest Cache best = some (t, k)) :
    best = some (t, k) ∨ ∃ p ∈ Cache, p.1 = k := by
  induction Cache generalizing best with
  | nil => left; simpa [findOldest] using h
  | cons It rest ih =>
    cases best with
    | none =>
      simp only [findOldest] at h
      rcases ih _ h with h1 | ⟨p, hp, hk⟩
      · simp only [Option.some.injEq, Prod.mk.injEq] at h1
        exact Or.inr ⟨It, List.mem_cons_self _ _, h1.2⟩
      · exact Or.inr ⟨p, List.mem_cons_of_mem _ hp, hk⟩
    | some b =>
      obtain ⟨MinTime, OldestKey⟩ := b
      simp only [findOldest] at h
      split_ifs at h
      · rcases ih _ h with h1 | ⟨p, hp, hk⟩
        · simp only [Option.some.injEq, Prod.mk.injEq] at h1
          exact Or.inr ⟨It, List.mem_cons_self _ _, h1.2⟩
        · exact Or.inr ⟨p, List.mem_cons_of_mem _ hp, hk⟩
      · rcases ih _ h with h1 | ⟨p, hp, hk⟩
        · exact Or.inl h1
        · exact Or.inr ⟨p, List.mem_cons_of_mem _ hp, hk⟩

theorem findOldest_isSome (Cache : List (FPathKey × FCachedPathEntry))
    (best : Option (ℚ × FPathKey)) (h : Cache ≠ [] ∨ best.isSome = true) :
    (findOldest Cache best).isSome = true := by
  induction Cache generalizing best with
  | nil =>
    rcases h with h | h
    · exact absurd rfl h
    · simpa [findOldest] using h
  | cons It rest ih =>
    cases best with
    | none => simp only [findOldest]; exact ih _ (Or.inr rfl)
    | some b =>
      obtain ⟨MinTime, OldestKey⟩ := b
      simp only [findOldest]
      split_ifs <;> exact ih _ (Or.inr rfl)

/-- The eviction leaves at most `MaxEntries` entries in a cache that was at most one over. -/
theorem GPathCache_EvictOldestIfNeeded_length (MaxEntries : Int)
    (Cache : List (TSlot FPathKey FCachedPathEntry))
    (h : tmapNum Cache ≤ MaxEntries + 1) (hMax : 0 ≤ MaxEntries) :
    tmapNum (GPathCache_EvictOldestIfNeeded MaxEntries Cache) ≤ MaxEntries := by
  unfold GPathCache_EvictOldestIfNeeded
  split_ifs with hle
  · exact hle
  · have hne : tmapPairs Cache ≠ [] := by
      intro hnil
      unfold tmapNum at hle
      rw [hnil] at hle
      simp at hle
      omega
    have hsome := findOldest_isSome (tmapPairs Cache) none (Or.inl hne)
    cases hf : findOldest (tmapPairs Cache) none with
    | none => simp [hf] at hsome
    | some b =>
      obtain ⟨t, k⟩ := b
      simp only
      rcases findOldest_key (tmapPairs Cache) none t k hf with h1 | h1
      · simp at h1
      · have := mapRemove_length_lt k (tmapPairs Cache) h1
        unfold tmapNum at h hle ⊢
        rw [tmapRemove_pairs]
        omega

theorem cacheInsertStep_length (MaxEntries : Int)
    (Cache : List (TSlot FPathKey FCachedPathEntry))
    (ins : FPathKey × Option (List FVector) × ℚ) (hMax : 0 ≤ MaxEntries)
    (h : tmapNum Cache ≤ MaxEntries) :
    tmapNum (cacheInsertStep MaxEntries Cache ins) ≤ MaxEntries := by
  unfold cacheInsertStep GPathCache_RefreshOrInsert
  apply GPathCache_EvictOldestIfNeeded_length _ _ _ hMax
  have := tmapSet_num_le ins.1 ({ Points := ins.2.1, Time := ins.2.2 } : FCachedPathEntry) Cache
  omega

theorem foldl_cacheInsertStep_length (MaxEntries : Int)
    (steps : List (FPathKey × Option (List FVector) × ℚ))
    (Cache : List (TSlot FPathKey FCachedPathEntry)) (hMax : 0 ≤ MaxEntries)
    (h : tmapNum Cache ≤ MaxEntries) :
    tmapNum (steps.foldl (cacheInsertStep MaxEntries) Cache) ≤ MaxEntries := by
  induction steps generalizing Cache with
  | nil => exact h
  | cons ins rest ih =>
    simp only [List.foldl_cons]
    exact ih _ (cacheInsertStep_length MaxEntries Cache ins hMax h)

/-- C10: starting from the empty path cache, after every sequence of insertion steps of
PathReplan (`GPathCache_RefreshOrInsert` followed by `GPathCache_EvictOldestIfNeeded`, with
pathCacheMaxEntries = 8192 as initialised), whatever the keys, point lists and timestamps, the
path cache holds at most 8192 entries. -/
theorem GPathCache_size_bounded (steps : List (FPathKey × Option (List FVector) × ℚ)) :
    tmapNum (steps.foldl (cacheInsertStep PathGlobals.init.GPathCacheMaxEntries)
        PathGlobals.init.GPathCache) ≤ 8192 := by
  have := foldl_cacheInsertStep_length 8192 steps [] (by norm_num) (by decide)
  simpa [PathGlobals.init] using this

/-! ## Integrate: the yield hold (claim C9) -/

theorem Clamp_nonneg_of (x hi : ℚ) : 0 ≤ Clamp x 0 hi := by
  unfold Clamp
  exact le_max_right _ _

theorem IntegrateEnv.Dt_nonneg (env : IntegrateEnv) : 0 ≤ env.Dt :=
  Clamp_nonneg_of _ _

/-- Leaving the yielding state at the gate happens with an expired hold only. -/
theorem yieldGate_exit (env : IntegrateEnv) (e : FSwarmEntity)
    (hy : e.Agent.bYielding = true) (hout : (yieldGate env e).bYielding = false) :
    (yieldGate env e).YieldTimeRemaining = 0 := by
  unfold yieldGate at hout ⊢
  simp only at hout ⊢
  rw [if_neg (by simp [hy]), if_pos hy] at hout ⊢
  by_cases hc : max 0 (e.Agent.YieldTimeRemaining - env.Dt) ≤ 0 ∧ exitYield env e = true
  · rw [if_pos hc]
    exact le_antisymm hc.1 (le_max_left _ _)
  · rw [if_neg hc] at hout
    rw [hy] at hout
    exact absurd hout (by simp)

/-- While the hold has more than `Dt` left, a yielding entity stays yielding at the gate and
the hold loses exactly `Dt`. -/
theorem yieldGate_hold (env : IntegrateEnv) (e : FSwarmEntity)
    (hy : e.Agent.bYielding = true) (hlt : env.Dt < e.Agent.YieldTimeRemaining) :
    (yieldGate env e).bYielding = true ∧
      (yieldGate env e).YieldTimeRemaining = e.Agent.YieldTimeRemaining - env.Dt := by
  have hpos : 0 < e.Agent.YieldTimeRemaining - env.Dt := by linarith
  have hmax : max 0 (e.Agent.YieldTimeRemaining - env.Dt) =
      e.Agent.YieldTimeRemaining - env.Dt := max_eq_right hpos.le
  have hc : ¬(max 0 (e.Agent.YieldTimeRemaining - env.Dt) ≤ 0 ∧ exitYield env e = true) := by
    rw [hmax]
    intro h
    exact absurd h.1 (not_le.mpr hpos)
  unfold yieldGate
  simp only
  rw [if_neg (by simp [hy]), if_pos hy, if_neg hc]
  exact ⟨hy, hmax⟩

theorem zeroSteering_yield (e : FSwarmEntity) :
    (zeroSteering e).Agent.bYielding = e.Agent.bYielding ∧
      (zeroSteering e).Agent.YieldTimeRemaining = e.Agent.YieldTimeRemaining := by
  unfold zeroSteering
  simp only
  split_ifs <;> exact ⟨rfl, rfl⟩

theorem integrateYielding_yield (env : IntegrateEnv) (e : FSwarmEntity) (fwd2D : FVector) :
    (integrateYielding env e fwd2D).Agent.bYielding = e.Agent.bYielding ∧
      (integrateYielding env e fwd2D).Agent.YieldTimeRemaining
        = e.Agent.YieldTimeRemaining := by
  unfold integrateYielding
  simp only
  split <;> exact zeroSteering_yield e

theorem integrateSteer_yield (env : IntegrateEnv) (HCache : Nat) (e : FSwarmEntity)
    (fwd2D : FVector) (out : Nat × FSwarmEntity)
    (h : integrateSteer env HCache e fwd2D = some out) :
    out.2.Agent.bYielding = e.Agent.bYielding ∧
      out.2.Agent.YieldTimeRemaining = e.Agent.YieldTimeRemaining := by
  unfold integrateSteer at h
  simp only at h
  split at h
  · split at h
    · simp at h
    · split at h <;>
      · simp only [Option.some.injEq] at h
        rw [← h]; exact ⟨rfl, rfl⟩
  · simp only [Option.some.injEq] at h
    rw [← h]; exact ⟨rfl, rfl⟩

/-- The yield flag and the hold after one pass: those of the entity when it is frozen, those
the gate computes otherwise. -/
theorem IntegrateEntityStep_yield (env : IntegrateEnv) (HCache : Nat) (e : FSwarmEntity)
    (out : Nat × FSwarmEntity) (h : IntegrateEntityStep env HCache e = some out) :
    (IsPathFresh env.M env.Params e.Path e.Sense e.Location = false ∧
        out.2.Agent.bYielding = e.Agent.bYielding ∧
        out.2.Agent.YieldTimeRemaining = e.Agent.YieldTimeRemaining) ∨
      (IsPathFresh env.M env.Params e.Path e.Sense e.Location = true ∧
        out.2.Agent.bYielding = (yieldGate env e).bYielding ∧
        out.2.Agent.YieldTimeRemaining = (yieldGate env e).YieldTimeRemaining) := by
  have hgate : (afterGate env e).Agent = yieldGate env e := rfl
  have hP : (afterProgress env e).Path = e.Path := rfl
  have hS : (afterProgress env e).Sense = e.Sense := rfl
  unfold IntegrateEntityStep at h
  simp only at h
  rw [hgate, hP, hS] at h
  split_ifs at h with hfresh hyield hdec hsmall
  · left
    simp only [Option.some.injEq] at h
    rw [← h]
    refine ⟨hfresh, ?_⟩
    exact zeroSteering_yield _
  · right
    simp only [Option.some.injEq] at h
    rw [← h]
    refine ⟨by simpa using hfresh, ?_⟩
    exact integrateYielding_yield env _ _
  · right
    simp only [Option.some.injEq] at h
    rw [← h]
    exact ⟨by simpa using hfresh, rfl, rfl⟩
  · right
    simp only [Option.some.injEq] at h
    rw [← h]
    exact ⟨by simpa using hfresh, rfl, rfl⟩
  · right
    refine ⟨by simpa using hfresh, ?_⟩
    exact integrateSteer_yield env HCache _ _ out h

theorem yieldElapsed_nonneg (frames : List IntegrateFrame) (e : FSwarmEntity) :
    0 ≤ yieldElapsed frames e := by
  induction frames generalizing e with
  | nil => simp [yieldElapsed]
  | cons f rest ih =>
    unfold yieldElapsed
    simp only
    have h1 : 0 ≤ (if IsPathFresh f.env.M f.env.Params (f.between e).Path (f.between e).Sense
        (f.between e).Location = true then f.env.Dt else 0) := by
      split_ifs
      · exact f.env.Dt_nonneg
      · exact le_refl _
    have h2 : 0 ≤ (match IntegrateEntityStep f.env f.HCache (f.between e) with
        | none => 0
        | some out => yieldElapsed rest out.2) := by
      split
      · exact le_refl _
      · exact ih _
    linarith

/-- A yielding entity that is frozen, or whose hold has more than `Dt` left, is taken through
the pass without any use of the navigation system being required. -/
theorem IntegrateEntityStep_yielding_isSome (env : IntegrateEnv) (HCache : Nat)
    (e : FSwarmEntity) (hy : e.Agent.bYielding = true)
    (h : IsPathFresh env.M env.Params e.Path e.Sense e.Location = false ∨
      env.Dt < e.Agent.YieldTimeRemaining) :
    ∃ out, IntegrateEntityStep env HCache e = some out := by
  have hgate : (afterGate env e).Agent = yieldGate env e := rfl
  have hP : (afterProgress env e).Path = e.Path := rfl
  have hS : (afterProgress env e).Sense = e.Sense := rfl
  unfold IntegrateEntityStep
  simp only
  rw [hgate, hP, hS]
  by_cases hfresh : IsPathFresh env.M env.Params e.Path e.Sense e.Location = false
  · rw [if_pos hfresh]
    exact ⟨_, rfl⟩
  · rw [if_neg hfresh]
    rcases h with h | h
    · exact absurd h hfresh
    · rw [if_pos (yieldGate_hold env e hy h).1]
      exact ⟨_, rfl⟩

/-- The hold over a run of frames: while the accumulated clamped `Dt` of the passes that reach
the gate stays below the hold, the run completes and the entity is still yielding. -/
theorem IntegrateFrames_hold (frames : List IntegrateFrame) (e : FSwarmEntity)
    (hkeep : ∀ f ∈ frames, KeepsYield f.between)
    (hy : e.Agent.bYielding = true)
    (hel : yieldElapsed frames e < e.Agent.YieldTimeRemaining) :
    ∃ final, IntegrateFrames frames e = some final ∧ final.Agent.bYielding = true := by
  induction frames generalizing e with
  | nil => exact ⟨e, rfl, hy⟩
  | cons f rest ih =>
    obtain ⟨hk1, hk2⟩ := hkeep f (List.mem_cons_self _ _) e
    have hy0 : (f.between e).Agent.bYielding = true := by rw [hk1]; exact hy
    unfold yieldElapsed at hel
    simp only at hel
    have hrestnn : 0 ≤ (match IntegrateEntityStep f.env f.HCache (f.between e) with
        | none => 0
        | some out => yieldElapsed rest out.2) := by
      split
      · exact le_refl _
      · exact yieldElapsed_nonneg _ _
    have hcase : IsPathFresh f.env.M f.env.Params (f.between e).Path (f.between e).Sense
          (f.between e).Location = false ∨
        f.env.Dt < (f.between e).Agent.YieldTimeRemaining := by
      by_cases hfresh : IsPathFresh f.env.M f.env.Params (f.between e).Path (f.between e).Sense
          (f.between e).Location = true
      · right
        rw [if_pos hfresh] at hel
        rw [hk2]
        linarith
      · left
        simpa using hfresh
    obtain ⟨out, hout⟩ := IntegrateEntityStep_yielding_isSome f.env f.HCache (f.between e)
      hy0 hcase
    rw [hout] at hel
    simp only at hel
    unfold IntegrateFrames
    rw [hout]
    simp only
    apply ih out.2 (fun g hg => hkeep g (List.mem_cons_of_mem _ hg))
    · rcases IntegrateEntityStep_yield f.env f.HCache (f.between e) out hout with
        ⟨_, hb, _⟩ | ⟨hfr, hb, _⟩
      · rw [hb]; exact hy0
      · rw [if_pos hfr] at hel
        have hlt : f.env.Dt < (f.between e).Agent.YieldTimeRemaining := by
          rw [hk2]
          have := yieldElapsed_nonneg rest out.2
          linarith
        rw [hb]; exact (yieldGate_hold f.env (f.between e) hy0 hlt).1
    · rcases IntegrateEntityStep_yield f.env f.HCache (f.between e) out hout with
        ⟨hfr, _, ht⟩ | ⟨hfr, _, ht⟩
      · rw [hfr] at hel
        simp only [Bool.false_eq_true, if_false, zero_add] at hel
        rw [ht, hk2]; exact hel
      · rw [if_pos hfr] at hel
        have hlt : f.env.Dt < (f.between e).Agent.YieldTimeRemaining := by
          rw [hk2]
          have := yieldElapsed_nonneg rest out.2
          linarith
        rw [ht, (yieldGate_hold f.env (f.between e) hy0 hlt).2, hk2]
        linarith

/-- Entering the yielding state at the gate sets the hold to 0.40 s. -/
theorem yieldGate_enter (env : IntegrateEnv) (e : FSwarmEntity)
    (hno : e.Agent.bYielding = false) (henter : enterYield env e = true) :
    (yieldGate env e).bYielding = true ∧ (yieldGate env e).YieldTimeRemaining = 4 / 10 := by
  unfold yieldGate
  simp only
  rw [if_pos ⟨hno, henter⟩]
  exact ⟨rfl, rfl⟩

/-- A pass over an entity with a fresh path that is not yielding and meets the enter condition
returns it yielding with the hold of 0.40 s. -/
theorem IntegrateEntityStep_enter (env : IntegrateEnv) (HCache : Nat) (e : FSwarmEntity)
    (hfresh : IsPathFresh env.M env.Params e.Path e.Sense e.Location = true)
    (hno : e.Agent.bYielding = false) (henter : enterYield env e = true) :
    ∃ out, IntegrateEntityStep env HCache e = some out ∧ out.2.Agent.bYielding = true ∧
      out.2.Agent.YieldTimeRemaining = 4 / 10 := by
  have hgate : (afterGate env e).Agent = yieldGate env e := rfl
  have hP : (afterProgress env e).Path = e.Path := rfl
  have hS : (afterProgress env e).Sense = e.Sense := rfl
  obtain ⟨hb, ht⟩ := yieldGate_enter env e hno henter
  have hstep : IntegrateEntityStep env HCache e
      = some (HCache, integrateYielding env (afterGate env e)
          ((afterProgress env e).Forward.GetSafeNormal2D env.M)) := by
    unfold IntegrateEntityStep
    simp only
    rw [hgate, hP, hS, if_neg (by simp [hfresh]), if_pos hb]
  refine ⟨_, hstep, ?_, ?_⟩
  · rw [(integrateYielding_yield env _ _).1, hgate]
    exact hb
  · rw [(integrateYielding_yield env _ _).2, hgate]
    exact ht

/-- The entering agent of the C9 witness: one pass takes it into yielding with 0.40 s, three
more passes leave 0.25 s, and the accumulated Dt of those three passes is 0.15 s; the sample
agent that yields with no neighbours leaves the yielding state after eight passes. -/
theorem Yield_hold_example :
    (IntegrateFrames [sampleFrame] sampleEnteringEntity).map
        (fun e => (e.Agent.bYielding, e.Agent.YieldTimeRemaining)) = some (true, 4 / 10) ∧
    (IntegrateFrames [sampleFrame, sampleFrame, sampleFrame, sampleFrame]
        sampleEnteringEntity).map
        (fun e => (e.Agent.bYielding, e.Agent.YieldTimeRemaining)) = some (true, 1 / 4) ∧
    (IntegrateFrames [sampleFrame] sampleEnteringEntity).map
        (fun e => yieldElapsed [sampleFrame, sampleFrame, sampleFrame] e) = some (3 / 20) ∧
    (IntegrateFrames [sampleFrame, sampleFrame, sampleFrame] sampleYieldingEntity).map
        (fun e => (e.Agent.bYielding, e.Agent.YieldTimeRemaining)) = some (true, 1 / 4) ∧
    (IntegrateFrames (List.replicate 8 sampleFrame) sampleYieldingEntity).map
        (fun e => (e.Agent.bYielding, e.Agent.YieldTimeRemaining)) = some (false, 0) := by
  decide!

/-! ## Integrate: the speed bound (claim C8) -/

theorem FVector.SizeSquared_nonneg (v : FVector) : 0 ≤ v.SizeSquared := by
  unfold FVector.SizeSquared
  nlinarith [mul_self_nonneg v.X, mul_self_nonneg v.Y, mul_self_nonneg v.Z]

theorem FVector.SizeSquared_scale (v : FVector) (k : ℚ) :
    (v.scale k).SizeSquared = k * k * v.SizeSquared := by
  simp only [FVector.scale, FVector.SizeSquared]
  ring

theorem FVector.SizeSquared_zero : FVector.ZeroVector.SizeSquared = 0 := by
  simp [FVector.ZeroVector, FVector.SizeSquared]

theorem Clamp_between (x lo hi : ℚ) (h : lo ≤ hi) : lo ≤ Clamp x lo hi ∧ Clamp x lo hi ≤ hi := by
  unfold Clamp
  exact ⟨le_max_right _ _, max_le (min_le_right _ _) h⟩

theorem localDensityFrac_bounds (Params : FSwarmMovementParamsFragment)
    (Sep : FSwarmSeparationFragment) :
    0 ≤ localDensityFrac Params Sep ∧ localDensityFrac Params Sep ≤ 1 := by
  unfold localDensityFrac
  simp only
  split_ifs <;> exact Clamp_between _ 0 1 (by norm_num)

theorem curvSpeedScale_bounds (Window : FSwarmPathWindowFragment) :
    55 / 100 ≤ curvSpeedScale Window ∧ curvSpeedScale Window ≤ 1 := by
  unfold curvSpeedScale
  split_ifs
  · exact Clamp_between _ _ _ (by norm_num)
  · norm_num

theorem densitySpeedScale_bounds (frac : ℚ) (h0 : 0 ≤ frac) (h1 : frac ≤ 1) :
    6 / 10 ≤ densitySpeedScale frac ∧ densitySpeedScale frac ≤ 1 := by
  unfold densitySpeedScale Lerp
  constructor <;> nlinarith

/-- The speed limit of the frame lies between 0 and `MaxSpeed`. -/
theorem maxSpeedThisFrame_bounds (env : IntegrateEnv) (e : FSwarmEntity)
    (hMax : 0 ≤ env.Params.MaxSpeed) :
    0 ≤ maxSpeedThisFrame env e ∧ maxSpeedThisFrame env e ≤ env.Params.MaxSpeed := by
  obtain ⟨hf0, hf1⟩ := localDensityFrac_bounds env.Params e.Separation
  obtain ⟨hc0, hc1⟩ := curvSpeedScale_bounds e.Window
  obtain ⟨hd0, hd1⟩ := densitySpeedScale_bounds _ hf0 hf1
  unfold maxSpeedThisFrame
  have hc0' : 0 ≤ curvSpeedScale e.Window := by linarith
  have hd0' : 0 ≤ densitySpeedScale (localDensityFrac env.Params e.Separation) := by linarith
  have h1 : 0 ≤ env.Params.MaxSpeed * curvSpeedScale e.Window := mul_nonneg hMax hc0'
  have h2 : env.Params.MaxSpeed * curvSpeedScale e.Window ≤ env.Params.MaxSpeed := by
    nlinarith
  constructor
  · exact mul_nonneg h1 hd0'
  · nlinarith

/-- With an inverse square root that does not overestimate, a clamped vector is no longer than
the limit. -/
theorem GetClampedToMaxSize_bound (M : FMathOps)
    (hInv : ∀ x, 0 < x → M.InvSqrt x * M.InvSqrt x * x ≤ 1)
    (v : FVector) (MaxSize : ℚ) (h0 : 0 ≤ MaxSize) :
    (v.GetClampedToMaxSize M MaxSize).SizeSquared ≤ MaxSize * MaxSize := by
  unfold FVector.GetClampedToMaxSize
  simp only
  split_ifs with hsmall hbig
  · rw [FVector.SizeSquared_zero]; exact mul_nonneg h0 h0
  · have hpos : 0 < v.SizeSquared := by
      have : 0 ≤ Square MaxSize := mul_nonneg h0 h0
      linarith
    have hI := hInv _ hpos
    have hsc : ({ X := v.X * (MaxSize * M.InvSqrt v.SizeSquared),
                  Y := v.Y * (MaxSize * M.InvSqrt v.SizeSquared),
                  Z := v.Z * (MaxSize * M.InvSqrt v.SizeSquared) } : FVector).SizeSquared
        = MaxSize * MaxSize * (M.InvSqrt v.SizeSquared * M.InvSqrt v.SizeSquared * v.SizeSquared) := by
      simp only [FVector.SizeSquared]
      ring
    rw [hsc]
    have hmm : 0 ≤ MaxSize * MaxSize := mul_nonneg h0 h0
    nlinarith
  · have : v.SizeSquared ≤ Square MaxSize := not_lt.mp hbig
    exact this

theorem yieldGate_Velocity (env : IntegrateEnv) (e : FSwarmEntity) :
    (yieldGate env e).Velocity = e.Agent.Velocity := by
  unfold yieldGate
  simp only
  split_ifs <;> rfl

theorem steerNewVel_afterGate (env : IntegrateEnv) (e : FSwarmEntity) :
    steerNewVel env (afterGate env e) = steerNewVel env e := by
  have hv : (afterGate env e).Agent.Velocity = e.Agent.Velocity := yieldGate_Velocity env e
  unfold steerNewVel
  simp only
  rw [hv]
  rfl

theorem steerVelocity_afterGate (env : IntegrateEnv) (e : FSwarmEntity) :
    steerVelocity env (afterGate env e) = steerVelocity env e := by
  have hv : (afterGate env e).Agent.Velocity = e.Agent.Velocity := yieldGate_Velocity env e
  unfold steerVelocity
  rw [steerNewVel_afterGate, hv]

theorem zeroSteering_Velocity (e : FSwarmEntity) :
    (zeroSteering e).Agent.Velocity = e.Agent.Velocity ∨
      (zeroSteering e).Agent.Velocity = FVector.ZeroVector := by
  unfold zeroSteering
  simp only
  split_ifs
  · right; rfl
  · left; rfl

theorem integrateYielding_Velocity (env : IntegrateEnv) (e : FSwarmEntity) (fwd2D : FVector) :
    (integrateYielding env e fwd2D).Agent.Velocity = (zeroSteering e).Agent.Velocity := by
  unfold integrateYielding
  simp only
  split <;> rfl

theorem integrateSteer_Velocity (env : IntegrateEnv) (HCache : Nat) (e : FSwarmEntity)
    (fwd2D : FVector) (out : Nat × FSwarmEntity)
    (h : integrateSteer env HCache e fwd2D = some out) :
    out.2.Agent.Velocity = steerVelocity env e := by
  unfold integrateSteer at h
  simp only at h
  split at h
  · split at h
    · simp at h
    · split at h <;>
      · simp only [Option.some.injEq] at h
        rw [← h]; rfl
  · simp only [Option.some.injEq] at h
    rw [← h]; rfl

/-- The velocity after one pass, by exit: unchanged or zero (freeze, yield), scaled by 0.90
(the two damping exits), or the steering velocity on the steering exit. -/
theorem IntegrateEntityStep_Velocity (env : IntegrateEnv) (HCache : Nat) (e : FSwarmEntity)
    (out : Nat × FSwarmEntity) (h : IntegrateEntityStep env HCache e = some out) :
    (¬onSteeringBranch env e ∧
        (out.2.Agent.Velocity = e.Agent.Velocity ∨
          out.2.Agent.Velocity = FVector.ZeroVector ∨
          out.2.Agent.Velocity = e.Agent.Velocity.scale (9 / 10))) ∨
      (onSteeringBranch env e ∧ out.2.Agent.Velocity = steerVelocity env e) := by
  have hgate : (afterGate env e).Agent = yieldGate env e := rfl
  have hP : (afterProgress env e).Path = e.Path := rfl
  have hS : (afterProgress env e).Sense = e.Sense := rfl
  have hD : bDecimate env (afterGate env e) = bDecimate env e := rfl
  have hSm : smallDesired env (afterGate env e) = smallDesired env e := rfl
  have hv : (yieldGate env e).Velocity = e.Agent.Velocity := yieldGate_Velocity env e
  unfold IntegrateEntityStep at h
  simp only at h
  rw [hgate, hP, hS, hD, hSm] at h
  unfold onSteeringBranch
  split_ifs at h with hfresh hyield hdec hsmall
  · left
    simp only [Option.some.injEq] at h
    rw [← h]
    refine ⟨fun hc => by rw [hfresh] at hc; exact absurd hc.1 (by simp), ?_⟩
    rcases zeroSteering_Velocity (afterProgress env e) with hz | hz
    · left; exact hz
    · right; left; exact hz
  · left
    simp only [Option.some.injEq] at h
    rw [← h]
    refine ⟨fun hc => by rw [hyield] at hc; exact absurd hc.2.1 (by simp), ?_⟩
    rw [integrateYielding_Velocity]
    rcases zeroSteering_Velocity (afterGate env e) with hz | hz
    · left; rw [hz]; exact hv
    · right; left; exact hz
  · left
    simp only [Option.some.injEq] at h
    rw [← h]
    refine ⟨fun hc => by rw [hdec] at hc; exact absurd hc.2.2.1 (by simp), ?_⟩
    right; right
    show (yieldGate env e).Velocity.scale (9 / 10) = e.Agent.Velocity.scale (9 / 10)
    rw [hv]
  · left
    simp only [Option.some.injEq] at h
    rw [← h]
    refine ⟨fun hc => by rw [hsmall] at hc; exact absurd hc.2.2.2 (by simp), ?_⟩
    right; right
    show (yieldGate env e).Velocity.scale (9 / 10) = e.Agent.Velocity.scale (9 / 10)
    rw [hv]
  · right
    refine ⟨⟨by simpa using hfresh, by simpa using hyield, by simpa using hdec,
      by simpa using hsmall⟩, ?_⟩
    rw [integrateSteer_Velocity env HCache _ _ out h]
    exact steerVelocity_afterGate env e

theorem newton_step_bound (n x : Nat) (hx : 1 ≤ x) :
    n < ((x + n / x) / 2 + 1) * ((x + n / x) / 2 + 1) := by
  have h1 : n < x * (n / x + 1) := Nat.lt_mul_div_succ n hx
  generalize n / x = q at h1 ⊢
  have h2 : x + q ≤ 2 * ((x + q) / 2) + 1 := by omega
  generalize (x + q) / 2 = y at h2 ⊢
  zify at h1 h2 ⊢
  nlinarith [sq_nonneg ((x : ℤ) - q - 1)]

theorem isqrtIter_bound (n : Nat) (hn : 1 ≤ n) (k x : Nat) (hx : 1 ≤ x)
    (h : n < (x + 1) * (x + 1)) :
    n < (isqrtIter n k x + 1) * (isqrtIter n k x + 1) := by
  induction k generalizing x with
  | zero => exact h
  | succ k ih =>
    simp only [isqrtIter]
    split_ifs with hlt
    · have hb := newton_step_bound n x hx
      apply ih _ _ hb
      by_contra hc
      have h0 : (x + n / x) / 2 = 0 := Nat.lt_one_iff.mp (not_le.mp hc)
      rw [h0] at hb
      omega
    · exact h

/-- Newton's iteration never ends below the integer square root. -/
theorem isqrt_bound (n : Nat) : n < (isqrt n + 1) * (isqrt n + 1) := by
  unfold isqrt
  split_ifs with h0
  · omega
  · apply isqrtIter_bound n (by omega) 400 n (by omega)
    nlinarith

/-- The stand-in inverse square root does not overestimate. -/
theorem sampleInvSqrt_le (x : ℚ) (hx : 0 < x) : sampleInvSqrt x * sampleInvSqrt x * x ≤ 1 := by
  unfold sampleInvSqrt
  rw [if_neg (not_le.mpr hx)]
  set n := (⌊x * 1000000000000⌋).toNat with hn
  have hfl : (0 : ℤ) ≤ ⌊x * 1000000000000⌋ := Int.floor_nonneg.mpr (by positivity)
  have hcast : ((n : ℤ) : ℚ) = ((⌊x * 1000000000000⌋ : ℤ) : ℚ) := by
    rw [hn, Int.toNat_of_nonneg hfl]
  have hlt : x * 1000000000000 < (n : ℚ) + 1 := by
    have := Int.lt_floor_add_one (x * 1000000000000)
    have h2 : ((n : ℕ) : ℚ) = ((⌊x * 1000000000000⌋ : ℤ) : ℚ) := by
      rw [← hcast]; simp
    rw [h2]; exact this
  have hb := isqrt_bound n
  have hb2 : ((n : ℚ) + 1) ≤ ((isqrt n + 1 : ℕ) : ℚ) * ((isqrt n + 1 : ℕ) : ℚ) := by
    have : n + 1 ≤ (isqrt n + 1) * (isqrt n + 1) := hb
    exact_mod_cast this
  have hs : (0 : ℚ) < ((isqrt n + 1 : ℕ) : ℚ) := by positivity
  rw [div_mul_div_comm, div_mul_eq_mul_div, div_le_one (by positivity)]
  nlinarith

theorem integrateSteer_isSome_of_nav (env : IntegrateEnv) (HCache : Nat) (e : FSwarmEntity)
    (fwd2D : FVector) (hnav : env.NavSys.isSome = true) :
    ∃ out, integrateSteer env HCache e fwd2D = some out := by
  unfold integrateSteer
  simp only
  cases hn : env.NavSys with
  | none => simp [hn] at hnav
  | some nav =>
    simp only
    split
    · split <;> exact ⟨_, rfl⟩
    · exact ⟨_, rfl⟩

/-- With a navigation system every entity is taken through the pass. -/
theorem IntegrateEntityStep_isSome_of_nav (env : IntegrateEnv) (HCache : Nat)
    (e : FSwarmEntity) (hnav : env.NavSys.isSome = true) :
    ∃ out, IntegrateEntityStep env HCache e = some out := by
  unfold IntegrateEntityStep
  simp only
  split_ifs
  · exact ⟨_, rfl⟩
  · exact ⟨_, rfl⟩
  · exact ⟨_, rfl⟩
  · exact ⟨_, rfl⟩
  · exact integrateSteer_isSome_of_nav env HCache _ _ hnav

theorem steerNewVel_eq (env : IntegrateEnv) (e : FSwarmEntity) :
    steerNewVel env e
      = (steerBlend env e).GetClampedToMaxSize env.M (maxSpeedThisFrame env e) := rfl

/-- The squared length of a clamped vector: that of the vector when it is within the limit,
and the squared limit times the factor of the inverse square root when the clamp rescales. -/
theorem GetClampedToMaxSize_size (M : FMathOps) (v : FVector) (MaxSize : ℚ)
    (h0 : 0 ≤ MaxSize) :
    (clampActive v MaxSize →
      (v.GetClampedToMaxSize M MaxSize).SizeSquared
        = MaxSize * MaxSize * invSqrtFactor M v.SizeSquared) ∧
    (¬ clampActive v MaxSize →
      (v.GetClampedToMaxSize M MaxSize).SizeSquared ≤ MaxSize * MaxSize) := by
  unfold clampActive FVector.GetClampedToMaxSize invSqrtFactor
  simp only
  constructor
  · rintro ⟨hk, hbig⟩
    rw [if_neg (not_lt.mpr hk), if_pos hbig]
    simp only [FVector.SizeSquared]
    ring
  · intro hna
    split_ifs with hsmall hbig
    · rw [FVector.SizeSquared_zero]
      exact mul_nonneg h0 h0
    · exact absurd ⟨not_lt.mp hsmall, hbig⟩ hna
    · exact not_lt.mp hbig

/-- At the input of the C8 witness the entity is on the steering exit, its velocity of 200
is blended towards (990, 0, 0) to (437, 0, 0) and clamped to a length within the limit of
330. -/
theorem Integrate_steering_example :
    onSteeringBranch sampleIntegrateEnv sampleSteeringEntity ∧
      (IntegrateEntityStep sampleIntegrateEnv 0 sampleSteeringEntity).map
          (fun out => decide (out.2.Agent.Velocity.SizeSquared ≤ 330 ^ 2 ∧
            329 ^ 2 ≤ out.2.Agent.Velocity.SizeSquared ∧
            out.2.Move.Center.X > 0)) = some true := by
  decide!

/-! ## Follow never reads outside a point list -/

theorem Point_isSome (P : FSwarmPathStateFragment) (i : Int) (h0 : 0 ≤ i)
    (h1 : i < P.NumPoints) : ∃ pt, P.Point i = some pt := by
  unfold FSwarmPathStateFragment.NumPoints at h1
  unfold FSwarmPathStateFragment.Point
  cases hp : P.PointsRef with
  | none => rw [hp] at h1; simp at h1; omega
  | some pts =>
    rw [hp] at h1
    simp only at h1 ⊢
    rw [if_pos h0]
    have hlt : i.toNat < pts.length := by omega
    refine ⟨pts[i.toNat], ?_⟩
    rw [List.get?_eq_getElem?]
    exact List.getElem?_eq_getElem hlt

/-- A path that is fresh after the pickup has its index inside its point list. -/
theorem followPickup_fresh_range (env : FollowEnv) (F : FollowState) (e : FSwarmEntity)
    (h : (followPickup env F e).2 = true) :
    0 ≤ (followPickup env F e).1.Index ∧
      (followPickup env F e).1.Index < (followPickup env F e).1.NumPoints := by
  unfold followPickup at h ⊢
  simp only at h ⊢
  by_cases hf : IsPathFresh env.M env.Params (followClearExhausted e.Path) e.Sense e.Location
      = false
  · rw [if_pos hf] at h ⊢
    cases hm : mapFind (MakeBucketKey e.Location F.ReplanBucketCellSize) F.BucketResults_RT with
    | none =>
      rw [hm] at h
      simp only at h
      rw [hf] at h
      exact absurd h (by simp)
    | some bucketPts =>
      rw [hm] at h
      simp only [followAdoptBucket, decide_eq_true_eq, FSwarmPathStateFragment.NumPoints]
        at h ⊢
      have hb := Clamp_bounds (FindNearestPointIndex2D bucketPts e.Location) 1
        (max 1 ((bucketPts.length : Int) - 1)) (le_max_left _ _)
      have hmax : max 1 ((bucketPts.length : Int) - 1) = (bucketPts.length : Int) - 1 := by
        apply max_eq_right; omega
      rw [hmax] at hb ⊢
      constructor <;> omega
  · rw [if_neg hf] at h ⊢
    have := IsPathFresh_range _ _ _ _ _ h
    exact ⟨this.2.1, this.2.2⟩

theorem AdvanceWaypointIfClose_isSome (Params : FSwarmMovementParamsFragment)
    (Path : FSwarmPathStateFragment) (selfPos target : FVector)
    (h0 : 0 ≤ Path.Index) (h1 : Path.Index < Path.NumPoints) :
    ∃ r, AdvanceWaypointIfClose Params Path selfPos target = some r ∧
      0 ≤ r.1.Index ∧ r.1.Index < r.1.NumPoints := by
  have hb := Clamp_bounds (Path.Index + 1) 0 (max 0 (Path.NumPoints - 1)) (le_max_left _ _)
  have hmax : max 0 (Path.NumPoints - 1) = Path.NumPoints - 1 := by
    apply max_eq_right; omega
  rw [hmax] at hb
  unfold AdvanceWaypointIfClose
  simp only
  split_ifs with hfar hin
  · exact ⟨_, rfl, h0, h1⟩
  · obtain ⟨pt, hpt⟩ := Point_isSome _ _ (by rw [hmax]; exact hb.1) hin
    rw [hpt]
    refine ⟨_, rfl, ?_, ?_⟩
    · show 0 ≤ Clamp (Path.Index + 1) 0 (max 0 (Path.NumPoints - 1))
      rw [hmax]; exact hb.1
    · show Clamp (Path.Index + 1) 0 (max 0 (Path.NumPoints - 1)) < Path.NumPoints
      rw [hmax]; omega
  · refine ⟨_, rfl, ?_, ?_⟩
    · show 0 ≤ Clamp (Path.Index + 1) 0 (max 0 (Path.NumPoints - 1))
      rw [hmax]; exact hb.1
    · show Clamp (Path.Index + 1) 0 (max 0 (Path.NumPoints - 1)) < Path.NumPoints
      rw [hmax]; omega

/-- The three window indices are inside a list that has a point at all. -/
theorem BuildSmallWindowIfAllowed_isSome (M : FMathOps) (FrameIdx : Nat)
    (Policy : FSwarmUpdatePolicyFragment) (Path : FSwarmPathStateFragment)
    (Window : FSwarmPathWindowFragment) (hnum : 1 ≤ Path.NumPoints) :
    ∃ W, BuildSmallWindowIfAllowed M FrameIdx Policy Path Window = some W := by
  have hmax : max 0 (Path.NumPoints - 1) = Path.NumPoints - 1 := by
    apply max_eq_right; omega
  have hidx : ∀ idx : Int, 0 ≤ Clamp idx 0 (max 0 (Path.NumPoints - 1)) ∧
      Clamp idx 0 (max 0 (Path.NumPoints - 1)) < Path.NumPoints := by
    intro idx
    have hb := Clamp_bounds idx 0 (max 0 (Path.NumPoints - 1)) (le_max_left _ _)
    rw [hmax] at hb ⊢
    constructor <;> omega
  unfold BuildSmallWindowIfAllowed
  simp only
  split_ifs
  · exact ⟨_, rfl⟩
  · obtain ⟨p0, hp0⟩ := Point_isSome Path _ (hidx Path.Index).1 (hidx Path.Index).2
    obtain ⟨p1, hp1⟩ := Point_isSome Path _
      (hidx (Clamp Path.Index 0 (max 0 (Path.NumPoints - 1)) + 1)).1
      (hidx (Clamp Path.Index 0 (max 0 (Path.NumPoints - 1)) + 1)).2
    obtain ⟨p2, hp2⟩ := Point_isSome Path _
      (hidx (Clamp (Clamp Path.Index 0 (max 0 (Path.NumPoints - 1)) + 1) 0
        (max 0 (Path.NumPoints - 1)) + 1)).1
      (hidx (Clamp (Clamp Path.Index 0 (max 0 (Path.NumPoints - 1)) + 1) 0
        (max 0 (Path.NumPoints - 1)) + 1)).2
    rw [hp0, hp1, hp2]
    exact ⟨_, rfl⟩

theorem followChase_isSome (env : FollowEnv) (Prof : FSwarmProfilerSharedFragment)
    (e : FSwarmEntity) (Path2 : FSwarmPathStateFragment) (target1 : FVector)
    (hnum : 1 ≤ Path2.NumPoints) : ∃ r, followChase env Prof e Path2 target1 = some r := by
  unfold followChase
  simp only
  split_ifs
  · exact ⟨_, rfl⟩
  · obtain ⟨W, hW⟩ := BuildSmallWindowIfAllowed_isSome env.M env.FrameIdx e.Policy Path2
      e.Window hnum
    rw [hW]
    exact ⟨_, rfl⟩

theorem followSteer_isSome (env : FollowEnv) (st : FollowLoopState) (e : FSwarmEntity)
    (Path1 : FSwarmPathStateFragment) (h0 : 0 ≤ Path1.Index)
    (h1 : Path1.Index < Path1.NumPoints) : ∃ r, followSteer env st e Path1 = some r := by
  obtain ⟨target0, ht⟩ := Point_isSome Path1 Path1.Index h0 h1
  obtain ⟨⟨Path2, target1⟩, ha, ha0, ha1⟩ := AdvanceWaypointIfClose_isSome env.Params Path1
    e.Location target0 h0 h1
  obtain ⟨⟨⟨target, Path3, Window1, Prof1⟩, bDirect⟩, hc⟩ := followChase_isSome env st.Prof e
    Path2 target1 (by simp only at ha0 ha1; omega)
  unfold followSteer
  simp only
  rw [ht]
  simp only
  rw [ha]
  simp only
  rw [hc]
  exact ⟨_, rfl⟩

/-- The entity loop body of Follow reads no point outside a list, whatever the entity. -/
theorem FollowEntityStep_isSome (env : FollowEnv) (st : FollowLoopState) (e : FSwarmEntity) :
    ∃ r, FollowEntityStep env st e = some r := by
  unfold FollowEntityStep
  simp only
  split_ifs with hf
  · exact ⟨_, rfl⟩
  · have hf2 : (followPickup env st.F e).2 = true := by simpa using hf
    obtain ⟨h0, h1⟩ := followPickup_fresh_range env st.F e hf2
    exact followSteer_isSome env st e _ h0 h1

theorem FollowEntityLoop_isSome (env : FollowEnv) (chunk : List FSwarmEntity)
    (st : FollowLoopState) : ∃ r, FollowEntityLoop env chunk st = some r := by
  induction chunk generalizing st with
  | nil => exact ⟨_, rfl⟩
  | cons a rest ih =>
    obtain ⟨⟨stA, a1⟩, hs⟩ := FollowEntityStep_isSome env st a
    obtain ⟨⟨stB, rest1⟩, hl⟩ := ih stA
    unfold FollowEntityLoop
    rw [hs]
    simp only
    rw [hl]
    exact ⟨_, rfl⟩

theorem FollowChunks_isSome (env : FollowEnv) (chunks : List (List FSwarmEntity))
    (st : FollowLoopState) : ∃ r, FollowChunks env st chunks = some r := by
  induction chunks generalizing st with
  | nil => exact ⟨_, rfl⟩
  | cons chunk rest ih =>
    have hc : ∃ r, FollowChunk env st chunk = some r := by
      unfold FollowChunk
      split_ifs
      · exact ⟨_, rfl⟩
      · exact FollowEntityLoop_isSome env chunk st
    obtain ⟨⟨stA, chunkA⟩, hs⟩ := hc
    obtain ⟨⟨stB, rest1⟩, hl⟩ := ih stA
    unfold FollowChunks
    rw [hs]
    simp only
    rw [hl]
    exact ⟨_, rfl⟩

/-- A Follow pass completes on every world. -/
theorem FollowWorld_isSome (env : FollowEnv) (w : SwarmWorld) :
    ∃ w2, FollowWorld env w = some w2 := by
  obtain ⟨out, ho⟩ := FollowChunks_isSome env w.Chunks
    { Prof := w.Prof, F := FollowBudgetReset (FollowFrameSwap w.F env.FrameIdx) env.FrameIdx }
  unfold FollowWorld FollowExecute
  simp only
  rw [ho]
  exact ⟨_, rfl⟩

/-! ## The repath budget inside PathReplan

The path replan processor tests the budget before each increment of `RepathsUsed`, so one pass
of it never takes the counter above the budget once it has reset it. -/

theorem ReplanGroupStep_budget (env : PathReplanEnv) (Now : ℚ) (st : ReplanLoopState)
    (Pair : FPathKey × List FPendingEntity)
    (h : st.Prof.RepathsUsed ≤ max 0 env.Params.RepathsPerFrameBudget) :
    (ReplanGroupStep env Now st Pair).Prof.RepathsUsed
      ≤ max 0 env.Params.RepathsPerFrameBudget := by
  unfold ReplanGroupStep
  simp only
  repeat' split
  all_goals first
    | exact h
    | (rename_i hb
       show st.Prof.RepathsUsed + 1 ≤ max 0 env.Params.RepathsPerFrameBudget
       have := hb.2
       have := le_max_right 0 env.Params.RepathsPerFrameBudget
       omega)

theorem ReplanGroupLoop_budget (env : PathReplanEnv) (Now : ℚ)
    (Groups : List (FPathKey × List FPendingEntity)) (st : ReplanLoopState)
    (h : st.Prof.RepathsUsed ≤ max 0 env.Params.RepathsPerFrameBudget) :
    (ReplanGroupLoop env Now Groups st).Prof.RepathsUsed
      ≤ max 0 env.Params.RepathsPerFrameBudget := by
  induction Groups generalizing st with
  | nil => exact h
  | cons Pair rest ih =>
    simp only [ReplanGroupLoop]
    split_ifs
    · exact h
    · exact ih _ (ReplanGroupStep_budget env Now st Pair h)

/-- A chunk lambda keeps the counter within the budget once the reset has happened, and a
chunk that is skipped leaves the state alone. -/
theorem PathReplanChunk_budget (env : PathReplanEnv) (Now : ℚ) (st : PathReplanState)
    (chunk : List FSwarmEntity)
    (h : st.bRepathBudgetReset = true →
      st.Prof.RepathsUsed ≤ max 0 env.Params.RepathsPerFrameBudget) :
    ((PathReplanChunk env Now st chunk).1.bRepathBudgetReset = true →
      (PathReplanChunk env Now st chunk).1.Prof.RepathsUsed
        ≤ max 0 env.Params.RepathsPerFrameBudget) ∧
    ((PathReplanChunk env Now st chunk).1.bRepathBudgetReset = false →
      (PathReplanChunk env Now st chunk).1 = st) := by
  unfold PathReplanChunk
  simp only
  split_ifs
  all_goals first
    | exact ⟨h, fun _ => rfl⟩
    | refine ⟨fun _ => ?_, fun hf => absurd hf (by simp)⟩
  all_goals first
    | exact le_max_left _ _
    | exact ReplanGroupLoop_budget env Now _ _ (le_max_left _ _)
    | exact h (by simpa using ‹¬ st.bRepathBudgetReset = false›)
    | exact ReplanGroupLoop_budget env Now _ _
        (h (by simpa using ‹¬ st.bRepathBudgetReset = false›))

theorem PathReplanChunks_budget (env : PathReplanEnv) (clock : Nat → ℚ)
    (chunks : List (List FSwarmEntity)) (i : Nat) (st : PathReplanState)
    (h : st.bRepathBudgetReset = true →
      st.Prof.RepathsUsed ≤ max 0 env.Params.RepathsPerFrameBudget) :
    ((PathReplanChunks env clock i st chunks).1.bRepathBudgetReset = true →
      (PathReplanChunks env clock i st chunks).1.Prof.RepathsUsed
        ≤ max 0 env.Params.RepathsPerFrameBudget) ∧
    ((PathReplanChunks env clock i st chunks).1.bRepathBudgetReset = false →
      (PathReplanChunks env clock i st chunks).1 = st) := by
  induction chunks generalizing i st with
  | nil => exact ⟨h, fun _ => rfl⟩
  | cons chunk rest ih =>
    have hc := PathReplanChunk_budget env (clock i) st chunk h
    have hr := ih (i + 1) (PathReplanChunk env (clock i) st chunk).1 hc.1
    simp only [PathReplanChunks]
    refine ⟨hr.1, fun hf => ?_⟩
    have h1 := hr.2 hf
    rw [h1] at hf ⊢
    exact hc.2 hf

/-- One pass of the path replan processor either leaves the profiler fragment as it found it
(no navigation system, or every chunk skipped by the frame stride) or leaves `RepathsUsed`
within the budget. -/
theorem PathReplanExecute_budget (NavSys : Option NavService) (M : FMathOps)
    (GetTypeHash : Nat → Nat) (FrameIdx GFrameNumber : Nat) (Dt : ℚ)
    (Params : FSwarmMovementParamsFragment) (Player : FPlayerSharedFragment) (clock : Nat → ℚ)
    (Prof : FSwarmProfilerSharedFragment) (G : PathGlobals)
    (chunks : List (List FSwarmEntity)) :
    (PathReplanExecute NavSys M GetTypeHash FrameIdx GFrameNumber Dt Params Player clock Prof G
        chunks).1 = Prof ∨
    (PathReplanExecute NavSys M GetTypeHash FrameIdx GFrameNumber Dt Params Player clock Prof G
        chunks).1.RepathsUsed ≤ max 0 Params.RepathsPerFrameBudget := by
  cases NavSys with
  | none => exact Or.inl rfl
  | some nav =>
    have hb := PathReplanChunks_budget
      { NavSys := nav, M := M, GetTypeHash := GetTypeHash, FrameIdx := FrameIdx,
        GFrameNumber := GFrameNumber, Dt := Dt, Params := Params, Player := Player }
      clock chunks 0 { Prof := Prof, G := G, bRepathBudgetReset := false }
      (fun hf => absurd hf (by simp))
    simp only [PathReplanExecute]
    cases hflag : (PathReplanChunks
      { NavSys := nav, M := M, GetTypeHash := GetTypeHash, FrameIdx := FrameIdx,
        GFrameNumber := GFrameNumber, Dt := Dt, Params := Params, Player := Player }
      clock 0 { Prof := Prof, G := G, bRepathBudgetReset := false } chunks).1.bRepathBudgetReset
      with
    | false =>
      left
      rw [hb.2 hflag]
    | true => exact Or.inr (hb.1 hflag)

/-! ## What a query does deliver

Every entry a query hands to its visitor is stored in a cell of the grid and lies inside the
disc and the z band of the query: the filter of the scan is the query predicate itself. -/

theorem scanCell_collect_forall (Q : FEntityData → Prop) (Lx Ly ZLo ZHi RadiusSq : ℚ)
    (MaxResults : Int) (Cell : List FEntityData) (Emitted : Int) (acc : List FEntityData)
    (hacc : ∀ E ∈ acc, Q E)
    (hcell : ∀ E ∈ Cell, ¬ (E.Location.Z < ZLo ∨ E.Location.Z > ZHi) →
      (Lx - E.Location.X) * (Lx - E.Location.X) + (Ly - E.Location.Y) * (Ly - E.Location.Y)
        ≤ RadiusSq → Q E) :
    ∀ E ∈ (scanCell Lx Ly ZLo ZHi RadiusSq MaxResults collectVisitor Cell Emitted acc).2.2,
      Q E := by
  induction Cell generalizing Emitted acc with
  | nil => exact hacc
  | cons E rest ih =>
    have hrest : ∀ E2 ∈ rest, ¬ (E2.Location.Z < ZLo ∨ E2.Location.Z > ZHi) →
        (Lx - E2.Location.X) * (Lx - E2.Location.X) +
          (Ly - E2.Location.Y) * (Ly - E2.Location.Y) ≤ RadiusSq → Q E2 :=
      fun E2 h2 => hcell E2 (List.mem_cons_of_mem _ h2)
    by_cases hz : E.Location.Z < ZLo ∨ E.Location.Z > ZHi
    · simp only [scanCell, hz, ↓reduceIte]
      exact ih Emitted acc hacc hrest
    · by_cases hr : (Lx - E.Location.X) * (Lx - E.Location.X) +
          (Ly - E.Location.Y) * (Ly - E.Location.Y) ≤ RadiusSq
      · have hacc2 : ∀ E2 ∈ acc ++ [E], Q E2 := by
          intro E2 h2
          simp only [List.mem_append, List.mem_singleton] at h2
          rcases h2 with h2 | h2
          · exact hacc E2 h2
          · rw [h2]; exact hcell E (List.mem_cons_self _ _) hz hr
        by_cases hMax : MaxResults > 0
        · by_cases hcap : Emitted + 1 ≥ MaxResults
          · simp only [scanCell, hz, hr, hcap, hMax, collectVisitor, Bool.true_eq_false,
              ↓reduceIte]
            exact hacc2
          · simp only [scanCell, hz, hr, hcap, hMax, collectVisitor, Bool.true_eq_false,
              ↓reduceIte]
            exact ih _ _ hacc2 hrest
        · simp only [scanCell, hz, hr, hMax, collectVisitor, Bool.true_eq_false, ↓reduceIte]
          exact ih _ _ hacc2 hrest
      · simp only [scanCell, hz, hr, ↓reduceIte]
        exact ih Emitted acc hacc hrest

theorem scanOffsets_collect_forall (Q : FEntityData → Prop) (g : FAgentSpatialHashGrid)
    (Center : FIntPoint) (Lx Ly ZLo ZHi RadiusSq : ℚ) (MaxResults : Int)
    (Ds : List FIntPoint) (Emitted : Int) (acc : List FEntityData)
    (hacc : ∀ E ∈ acc, Q E)
    (hcell : ∀ Key Cell, FindCell g Key = some Cell → ∀ E ∈ Cell,
      ¬ (E.Location.Z < ZLo ∨ E.Location.Z > ZHi) →
      (Lx - E.Location.X) * (Lx - E.Location.X) + (Ly - E.Location.Y) * (Ly - E.Location.Y)
        ≤ RadiusSq → Q E) :
    ∀ E ∈ (scanOffsets g Center Lx Ly ZLo ZHi RadiusSq MaxResults collectVisitor Ds Emitted
      acc).2.2, Q E := by
  induction Ds generalizing Emitted acc with
  | nil => exact hacc
  | cons D rest ih =>
    unfold scanOffsets
    simp only
    split
    · exact ih Emitted acc hacc
    · rename_i Cell hfind
      have hc := scanCell_collect_forall Q Lx Ly ZLo ZHi RadiusSq MaxResults Cell Emitted acc
        hacc (hcell _ Cell hfind)
      split_ifs
      · exact ih _ _ hc
      · exact hc

/-- Every entry a query visits is stored in a cell of the grid and is inside the query's disc
and z band, for every grid, stencil cache, query and cap. -/
theorem VisitNearby_visits_only_in_range (g : FAgentSpatialHashGrid) (S : FStencil)
    (Location : FVector) (Radius ZHalfHeight : ℚ) (MaxResults : Int) :
    ∀ E ∈ visitedBy g S Location Radius ZHalfHeight MaxResults,
      inQueryRange Location Radius ZHalfHeight E ∧
        ∃ Key Cell, FindCell g Key = some Cell ∧ E ∈ Cell := by
  unfold visitedBy VisitNearby
  simp only
  split_ifs
  · intro E hE
    simp at hE
  · apply scanOffsets_collect_forall
    · intro E hE
      simp at hE
    · intro Key Cell hfind E hE hz hr
      refine ⟨⟨?_, ?_⟩, Key, Cell, hfind, hE⟩
      · have heq : (E.Location.X - Location.X) ^ 2 + (E.Location.Y - Location.Y) ^ 2 =
            (Location.X - E.Location.X) * (Location.X - E.Location.X) +
              (Location.Y - E.Location.Y) * (Location.Y - E.Location.Y) := by ring
        rw [heq, pow_two]
        exact hr
      · rw [abs_le]
        push_neg at hz
        constructor <;> linarith [hz.1, hz.2]

/-! ## TargetCache: claim C11 -/

theorem CachePlayerChunk_of_eq (RawLoc Projected : FVector) (bIsOnNavMesh : Bool) (Now : ℚ)
    (Shared : FPlayerSharedFragment) (h : Shared.LastUpdateSeconds = Now) :
    CachePlayerChunk RawLoc Projected bIsOnNavMesh Now Shared = Shared := by
  unfold CachePlayerChunk
  rw [if_pos h]

theorem CachePlayerChunk_time (RawLoc Projected : FVector) (bIsOnNavMesh : Bool) (Now : ℚ)
    (Shared : FPlayerSharedFragment) :
    (CachePlayerChunk RawLoc Projected bIsOnNavMesh Now Shared).LastUpdateSeconds = Now := by
  unfold CachePlayerChunk
  split_ifs with h
  · exact h
  · rfl

theorem CachePlayerChunks_of_eq (RawLoc Projected : FVector) (bIsOnNavMesh : Bool) (Now : ℚ)
    (n : Nat) (Shared : FPlayerSharedFragment) (h : Shared.LastUpdateSeconds = Now) :
    CachePlayerChunks RawLoc Projected bIsOnNavMesh Now n Shared = Shared := by
  induction n with
  | zero => rfl
  | succ n ih =>
    simp only [CachePlayerChunks]
    rw [CachePlayerChunk_of_eq _ _ _ _ _ h]
    exact ih

theorem CachePlayerChunks_time (RawLoc Projected : FVector) (bIsOnNavMesh : Bool) (Now : ℚ)
    (n : Nat) (hn : 0 < n) (Shared : FPlayerSharedFragment) :
    (CachePlayerChunks RawLoc Projected bIsOnNavMesh Now n Shared).LastUpdateSeconds = Now := by
  cases n with
  | zero => omega
  | succ n =>
    simp only [CachePlayerChunks]
    rw [CachePlayerChunks_of_eq _ _ _ _ _ _ (CachePlayerChunk_time _ _ _ _ _)]
    exact CachePlayerChunk_time _ _ _ _ _

/-- A pass on a shared fragment already stamped with the pass's world time changes nothing,
whatever pawn, navigation system and chunk count the pass sees. -/
theorem CachePlayerExecute_of_eq (PlayerPawn : Option FVector) (Nav : Option NavService)
    (Now : ℚ) (n : Nat) (Shared : FPlayerSharedFragment)
    (h : Shared.LastUpdateSeconds = Now) :
    CachePlayerExecute PlayerPawn Nav Now n Shared = Shared := by
  cases PlayerPawn with
  | none => rfl
  | some RawLoc => exact CachePlayerChunks_of_eq _ _ _ _ _ _ h

/-- C11: TargetCache is idempotent within one world time.  After a first run that reads a
target position `RawLoc1` and visits at least one chunk at world time `Now`, a second run at the
same `Now` leaves the whole shared target cache (target position, 2D position, navmesh
projection, isOnNavMesh, lastUpdateSeconds) equal to what the first run left, whatever raw
target position, navmesh answer and chunk count the second run sees. -/
theorem TargetCache_idempotent (RawLoc1 : FVector) (Nav1 : Option NavService)
    (PlayerPawn2 : Option FVector) (Nav2 : Option NavService) (Now : ℚ) (n1 n2 : Nat)
    (Shared : FPlayerSharedFragment) (hn : 0 < n1) :
    CachePlayerExecute PlayerPawn2 Nav2 Now n2
        (CachePlayerExecute (some RawLoc1) Nav1 Now n1 Shared)
      = CachePlayerExecute (some RawLoc1) Nav1 Now n1 Shared := by
  apply CachePlayerExecute_of_eq
  exact CachePlayerChunks_time _ _ _ _ n1 hn Shared

/-- At the input of C11: the first run stores the target at (100, 0, 40) with its projection
onto z = 0 at world time 2, and the second run, which reads (900, 0, 40), keeps it. -/
theorem TargetCache_idempotent_witness :
    0 < 1 ∧
    CachePlayerExecute (some { X := 900, Y := 0, Z := 40 }) (some sampleNavNoPath) 2 3
        (CachePlayerExecute (some { X := 100, Y := 0, Z := 40 }) (some sampleNavFlat) 2 1
          samplePlayer)
      = CachePlayerExecute (some { X := 100, Y := 0, Z := 40 }) (some sampleNavFlat) 2 1
          samplePlayer ∧
    CachePlayerExecute (some { X := 100, Y := 0, Z := 40 }) (some sampleNavFlat) 2 1
        samplePlayer
      = { PlayerLocation := { X := 100, Y := 0, Z := 40 },
          PlayerLocation2D := { X := 100, Y := 0 },
          PlayerNavLocation := { X := 100, Y := 0, Z := 0 },
          bIsOnNavMesh := true, LastUpdateSeconds := 2 } :=
  ⟨by decide,
   TargetCache_idempotent { X := 100, Y := 0, Z := 40 } (some sampleNavFlat)
     (some { X := 900, Y := 0, Z := 40 }) (some sampleNavNoPath) 2 1 3 samplePlayer (by decide),
   by decide!⟩

/-! ## Separation: claims C12 and C20 -/

/-- C12 as stated fails: with `MaxNeighbors = 0` and an estimated density of 3 the agent is
processed, the cap is 4, and Separation writes `NeighborCount = 1` and a non-zero separation
vector for the neighbour 50 units away. -/
theorem Separation_counts_with_zero_MaxNeighbors :
    sampleSeparationEnv.Params.MaxNeighbors = 0 ∧
    ShouldSkip sampleSeparationEnv (sampleSeparationEntity 3) = false ∧
    (SeparationEntityStep sampleSeparationEnv FStencil.init
      (sampleSeparationEntity 3)).2.Separation.NeighborCount = 1 ∧
    (SeparationEntityStep sampleSeparationEnv FStencil.init
      (sampleSeparationEntity 3)).2.Separation.Separation ≠ FVector.ZeroVector := by
  decide!

/-- C12, amended: with `MaxNeighbors = 0`, an agent that Separation processes gets
`NeighborCount = 0` and `LocalDensity = 0` whenever its estimated density is below 3, whatever
the grid holds; at an estimated density of 3 or more the cap is 4 and the agent gets the count
and the separation of the capped grid query. -/
theorem Separation_zero_MaxNeighbors (env : SeparationEnv) (S : FStencil) (e : FSwarmEntity)
    (hM : env.Params.MaxNeighbors = 0) (hs : ShouldSkip env e = false) :
    (e.Policy.EstimatedDensity < 3 →
      (SeparationEntityStep env S e).2.Separation.NeighborCount = 0 ∧
      (SeparationEntityStep env S e).2.Separation.LocalDensity = 0) ∧
    (3 ≤ e.Policy.EstimatedDensity →
      LocalCapFromDensity env.Params e.Policy.EstimatedDensity = 4 ∧
      (SeparationEntityStep env S e).2.Separation.NeighborCount =
        (VisitNearby env.Grid S e.Location env.Params.NeighborRadius 120 4
          (AccumulateNeighbor env e.Entity e.Location) (FVector.ZeroVector, 0)).2.2 ∧
      (SeparationEntityStep env S e).2.Separation.Separation =
        (VisitNearby env.Grid S e.Location env.Params.NeighborRadius 120 4
          (AccumulateNeighbor env e.Entity e.Location) (FVector.ZeroVector, 0)).2.1) := by
  constructor
  · intro hd
    have hcap : LocalCapFromDensity env.Params e.Policy.EstimatedDensity = 0 := by
      unfold LocalCapFromDensity
      rw [if_neg (by linarith), if_neg (by linarith), hM]
    unfold SeparationEntityStep
    simp only [hs, hcap, Bool.false_eq_true, ↓reduceIte, le_refl, and_self]
  · intro hd
    have hcap : LocalCapFromDensity env.Params e.Policy.EstimatedDensity = 4 := by
      unfold LocalCapFromDensity
      rw [hM]
      split_ifs <;> simp
    refine ⟨hcap, ?_, ?_⟩
    · unfold SeparationEntityStep
      simp only [hs, hcap, Bool.false_eq_true, ↓reduceIte]
      rfl
    · unfold SeparationEntityStep
      simp only [hs, hcap, Bool.false_eq_true, ↓reduceIte]
      rfl

/-- At the input of C12: the sample agent at an estimated density of 2. -/
theorem Separation_zero_MaxNeighbors_witness :
    sampleSeparationEnv.Params.MaxNeighbors = 0 ∧
    ShouldSkip sampleSeparationEnv (sampleSeparationEntity 2) = false ∧
    (SeparationEntityStep sampleSeparationEnv FStencil.init
      (sampleSeparationEntity 2)).2.Separation.NeighborCount = 0 ∧
    (SeparationEntityStep sampleSeparationEnv FStencil.init
      (sampleSeparationEntity 2)).2.Separation.LocalDensity = 0 :=
  ⟨by decide!, by decide!,
   (Separation_zero_MaxNeighbors sampleSeparationEnv FStencil.init (sampleSeparationEntity 2)
     (by decide!) (by decide!)).1 (by decide!)⟩

/-- C20 as stated fails: with `MaxNeighbors = 3` the cap at density 3 is 4, larger than the
cap 3 at density 0; the floor of 4 lifts the higher tiers above a small `MaxNeighbors`. -/
theorem LocalCapFromDensity_not_monotone_below_four :
    LocalCapFromDensity { FSwarmMovementParamsFragment.default with MaxNeighbors := 3 } 0 = 3 ∧
    LocalCapFromDensity { FSwarmMovementParamsFragment.default with MaxNeighbors := 3 } 3 = 4 ∧
    ¬ (LocalCapFromDensity { FSwarmMovementParamsFragment.default with MaxNeighbors := 3 } 3
      ≤ LocalCapFromDensity { FSwarmMovementParamsFragment.default with MaxNeighbors := 3 } 0) := by
  decide!

theorem floor_half_le_floor_three_quarters (m : Int) (hm : 0 ≤ m) :
    ⌊(m : ℚ) * (1 / 2)⌋ ≤ ⌊(m : ℚ) * (3 / 4)⌋ := by
  apply Int.floor_le_floor
  have : (0 : ℚ) ≤ (m : ℚ) := by exact_mod_cast hm
  linarith

theorem floor_three_quarters_le (m : Int) (hm : 0 ≤ m) : ⌊(m : ℚ) * (3 / 4)⌋ ≤ m := by
  have h : ⌊(m : ℚ) * (3 / 4)⌋ ≤ ⌊(m : ℚ)⌋ := by
    apply Int.floor_le_floor
    have : (0 : ℚ) ≤ (m : ℚ) := by exact_mod_cast hm
    linarith
  rwa [Int.floor_intCast] at h

/-- C20, amended: the cap is `MaxNeighbors` at a density below 3, `0.75 * MaxNeighbors` rounded
down and not below 4 at a density in [3, 6), and `0.5 * MaxNeighbors` rounded down and not below
4 at a density of 6 or more; a positive cap is the `MaxResults` of the agent's grid query; and
for `MaxNeighbors >= 4` the cap at a higher density is never larger than at a lower one. -/
theorem LocalCapFromDensity_tiers (env : SeparationEnv) (S : FStencil) (e : FSwarmEntity)
    (d1 d2 : ℚ) :
    (d1 < 3 → LocalCapFromDensity env.Params d1 = env.Params.MaxNeighbors) ∧
    (3 ≤ d1 → d1 < 6 →
      LocalCapFromDensity env.Params d1 = max 4 ⌊(env.Params.MaxNeighbors : ℚ) * (3 / 4)⌋) ∧
    (6 ≤ d1 →
      LocalCapFromDensity env.Params d1 = max 4 ⌊(env.Params.MaxNeighbors : ℚ) * (1 / 2)⌋) ∧
    (ShouldSkip env e = false →
      0 < LocalCapFromDensity env.Params e.Policy.EstimatedDensity →
      (SeparationEntityStep env S e).2.Separation.NeighborCount =
        (VisitNearby env.Grid S e.Location env.Params.NeighborRadius 120
          (LocalCapFromDensity env.Params e.Policy.EstimatedDensity)
          (AccumulateNeighbor env e.Entity e.Location) (FVector.ZeroVector, 0)).2.2) ∧
    (4 ≤ env.Params.MaxNeighbors → d1 ≤ d2 →
      LocalCapFromDensity env.Params d2 ≤ LocalCapFromDensity env.Params d1) := by
  refine ⟨?_, ?_, ?_, ?_, ?_⟩
  · intro h
    unfold LocalCapFromDensity
    rw [if_neg (by linarith), if_neg (by linarith)]
  · intro h3 h6
    unfold LocalCapFromDensity
    rw [if_neg (by linarith), if_pos h3]
  · intro h6
    unfold LocalCapFromDensity
    rw [if_pos h6]
  · intro hs hcap
    unfold SeparationEntityStep
    simp only [hs, not_le.mpr hcap, Bool.false_eq_true, ↓reduceIte]
  · intro hm hd
    have h0 : (0 : Int) ≤ env.Params.MaxNeighbors := by omega
    have ha := floor_half_le_floor_three_quarters env.Params.MaxNeighbors h0
    have hb := floor_three_quarters_le env.Params.MaxNeighbors h0
    unfold LocalCapFromDensity
    split_ifs <;> first
      | exact le_refl _
      | (exfalso; linarith)
      | (apply max_le_max (le_refl _); exact ha)
      | (apply max_le hm; exact hb)
      | (apply max_le hm; exact le_trans ha hb)

/-! ## Perception: claim C16 -/

/-- C16: an agent that Perception does not refresh in a pass, because
`(FrameIdx & SenseMask) != 0`, or `DistToPlayer2D_Sq > DirectChaseRange^2`, or the refresh is
not due, or `LOSChecksUsed` has reached the budget, keeps its stored `bHasLOS`, reports that
previous `bHasLOS` as `bLOS`, has `bLOSUpdated = false` and `bDidLOSRefresh = false`, and the
shared profiler fragment (with `LOSChecksUsed`) is returned as it was. -/
theorem Perception_no_refresh (env : PerceptionEnv) (Prof : FSwarmProfilerSharedFragment)
    (a : FSwarmEntity)
    (h : env.FrameIdx &&& a.Policy.SenseMask ≠ 0 ∨
      a.Policy.DistToPlayer2D_Sq > env.Params.DirectChaseRange * env.Params.DirectChaseRange ∨
      a.LOS.TimeSinceRefresh + env.Dt +
          ((env.GetTypeHash a.Entity &&& 0xFF : Nat) : ℚ) * (env.Params.LOSRefreshSeconds / 256)
        < env.Params.LOSRefreshSeconds ∨
      env.Params.LOSChecksPerFrameBudget ≤ Prof.LOSChecksUsed) :
    ∃ a1, PerceptionEntityStep env Prof a = some (Prof, a1) ∧
      a1.LOS.bHasLOS = a.LOS.bHasLOS ∧
      a1.Sense.bLOS = a.LOS.bHasLOS ∧
      a1.Sense.bLOSUpdated = false ∧
      a1.Stamp.bDidLOSRefresh = false := by
  unfold PerceptionEntityStep
  simp only
  split_ifs with hgate hdue
  · exact ⟨_, rfl, rfl, rfl, rfl, rfl⟩
  · exfalso
    simp only [Bool.or_eq_true, Bool.not_eq_true', decide_eq_false_iff_not, not_or,
      Decidable.not_not, not_lt] at hgate
    simp only [Bool.and_eq_true, decide_eq_true_eq] at hdue
    rcases h with h | h | h | h
    · exact h hgate.1
    · exact absurd hgate.2 (not_le.mpr h)
    · exact absurd hdue.1 (not_le.mpr h)
    · exact absurd hdue.2 (not_lt.mpr h)
  · exact ⟨_, rfl, rfl, rfl, rfl, rfl⟩

/-- At the input of C16: on frame 8 the agent is in chase range and its refresh is due, but
the budget of 1 is already used, and it keeps the `bHasLOS = true` it had. -/
theorem Perception_no_refresh_witness :
    ∃ a1, PerceptionEntityStep samplePerceptionEnv { sampleProf with LOSChecksUsed := 1 }
        { sampleDueEntity 3 with LOS := { bHasLOS := true, TimeSinceRefresh := 1 } }
        = some ({ sampleProf with LOSChecksUsed := 1 }, a1) ∧
      a1.LOS.bHasLOS = true ∧ a1.Sense.bLOS = true ∧ a1.Sense.bLOSUpdated = false ∧
      a1.Stamp.bDidLOSRefresh = false :=
  Perception_no_refresh samplePerceptionEnv { sampleProf with LOSChecksUsed := 1 }
    { sampleDueEntity 3 with LOS := { bHasLOS := true, TimeSinceRefresh := 1 } }
    (Or.inr (Or.inr (Or.inr (by decide!))))

/-! ## Integrate: claim C17 -/

/-- C17: for a valid window with curvature `c >= 0` the curvature scale of Integrate is
`clamp(1 / (1 + 120 c), 0.55, 1)`, of an unclamped value not above 1, and lies in
[0.55, 1]; the density scale is
`lerp(1, 0.6, densityFrac)` and lies in [0.6, 1]; the speed limit that clamps the blended
velocity is `MaxSpeed * curvScale * densityScale`; and for `c = 0.02` the unclamped value is
1/3.4, the curvature scale is 0.55 and the speed limit is `MaxSpeed * 0.55 * densityScale`,
which is `330 * 0.55 * densityScale` at `MaxSpeed = 330`. -/
theorem Integrate_curvature_speed_clamp (env : IntegrateEnv) (e : FSwarmEntity)
    (hv : e.Window.bValid = true) (hc : 0 ≤ e.Window.Curvature) :
    curvSpeedScale e.Window = Clamp (1 / (1 + 120 * e.Window.Curvature)) (55 / 100) 1 ∧
    1 / (1 + 120 * e.Window.Curvature) ≤ 1 ∧
    55 / 100 ≤ curvSpeedScale e.Window ∧ curvSpeedScale e.Window ≤ 1 ∧
    densitySpeedScale (localDensityFrac env.Params e.Separation)
      = Lerp 1 (6 / 10) (localDensityFrac env.Params e.Separation) ∧
    6 / 10 ≤ densitySpeedScale (localDensityFrac env.Params e.Separation) ∧
    densitySpeedScale (localDensityFrac env.Params e.Separation) ≤ 1 ∧
    maxSpeedThisFrame env e = env.Params.MaxSpeed * curvSpeedScale e.Window *
      densitySpeedScale (localDensityFrac env.Params e.Separation) ∧
    steerNewVel env e = (VInterpTo { X := e.Agent.Velocity.X, Y := e.Agent.Velocity.Y, Z := 0 }
      (desiredVel2D env e) env.Dt 6).GetClampedToMaxSize env.M (maxSpeedThisFrame env e) ∧
    (e.Window.Curvature = 1 / 50 →
      1 / (1 + 120 * e.Window.Curvature) = 1 / (34 / 10) ∧
      curvSpeedScale e.Window = 55 / 100 ∧
      maxSpeedThisFrame env e = env.Params.MaxSpeed * (55 / 100) *
        densitySpeedScale (localDensityFrac env.Params e.Separation) ∧
      (env.Params.MaxSpeed = 330 →
        maxSpeedThisFrame env e = 330 * (55 / 100) *
          densitySpeedScale (localDensityFrac env.Params e.Separation))) := by
  obtain ⟨hf0, hf1⟩ := localDensityFrac_bounds env.Params e.Separation
  obtain ⟨hc0, hc1⟩ := curvSpeedScale_bounds e.Window
  obtain ⟨hd0, hd1⟩ := densitySpeedScale_bounds _ hf0 hf1
  have hcurv : curvSpeedScale e.Window
      = Clamp (1 / (1 + 120 * e.Window.Curvature)) (55 / 100) 1 := by
    unfold curvSpeedScale
    rw [if_pos hv]
  have hle : 1 / (1 + 120 * e.Window.Curvature) ≤ 1 := by
    rw [div_le_one (by linarith)]
    linarith
  refine ⟨hcurv, hle, hc0, hc1, rfl, hd0, hd1, rfl, rfl, ?_⟩
  intro h50
  have h55 : curvSpeedScale e.Window = 55 / 100 := by
    rw [hcurv, h50]
    unfold Clamp
    norm_num
  refine ⟨by rw [h50]; norm_num, h55, ?_, ?_⟩
  · unfold maxSpeedThisFrame
    rw [h55]
  · intro h330
    unfold maxSpeedThisFrame
    rw [h55, h330]

/-- At the input of C17: a window of curvature 0.02 at the default `MaxSpeed = 330` and no
neighbours, where the density scale is 1 and the speed limit is 181.5. -/
theorem Integrate_curvature_speed_clamp_witness :
    curvSpeedScale sampleCurvedEntity.Window = 55 / 100 ∧
    maxSpeedThisFrame sampleIntegrateEnv sampleCurvedEntity = 330 * (55 / 100) *
      densitySpeedScale (localDensityFrac sampleIntegrateEnv.Params
        sampleCurvedEntity.Separation) ∧
    maxSpeedThisFrame sampleIntegrateEnv sampleCurvedEntity = 363 / 2 :=
  ⟨((Integrate_curvature_speed_clamp sampleIntegrateEnv sampleCurvedEntity rfl
      (by decide!)).2.2.2.2.2.2.2.2.2 (by decide!)).2.1,
   ((Integrate_curvature_speed_clamp sampleIntegrateEnv sampleCurvedEntity rfl
      (by decide!)).2.2.2.2.2.2.2.2.2 (by decide!)).2.2.2 (by decide!),
   by decide!⟩

/-! ## PathReplan: claim C19 -/

/-- The jitter seed is a `uint32`, so its quotient by `MAX_uint32` lies in [0, 1]. -/
theorem cooldown_seed_ratio (EntityId : Nat) :
    0 ≤ (((EntityId * 2654435761) % 2 ^ 32 : Nat) : ℚ) / 4294967295 ∧
    (((EntityId * 2654435761) % 2 ^ 32 : Nat) : ℚ) / 4294967295 ≤ 1 := by
  have hlt : (EntityId * 2654435761) % 2 ^ 32 < 2 ^ 32 := Nat.mod_lt _ (by norm_num)
  have hle : (EntityId * 2654435761) % 2 ^ 32 ≤ 4294967295 := by omega
  have hq : (((EntityId * 2654435761) % 2 ^ 32 : Nat) : ℚ) ≤ 4294967295 := by
    exact_mod_cast hle
  constructor
  · positivity
  · rw [div_le_one (by norm_num)]
    exact hq

/-- The base cooldown: 0.25 up to 200, 7.5 from 8000, linear in between. -/
theorem cooldown_base_mono (d1 d2 : ℚ) (h : d1 ≤ d2) :
    (if d1 ≤ 200 then (1 / 4 : ℚ) else if d1 ≥ 8000 then 15 / 2
      else 1 / 4 + (d1 - 200) / 7800 * (29 / 4))
    ≤ (if d2 ≤ 200 then (1 / 4 : ℚ) else if d2 ≥ 8000 then 15 / 2
      else 1 / 4 + (d2 - 200) / 7800 * (29 / 4)) := by
  split_ifs <;> linarith

theorem cooldown_base_bounds (d : ℚ) :
    1 / 4 ≤ (if d ≤ 200 then (1 / 4 : ℚ) else if d ≥ 8000 then 15 / 2
        else 1 / 4 + (d - 200) / 7800 * (29 / 4)) ∧
      (if d ≤ 200 then (1 / 4 : ℚ) else if d ≥ 8000 then 15 / 2
        else 1 / 4 + (d - 200) / 7800 * (29 / 4)) ≤ 15 / 2 := by
  split_ifs with h1 h2
  · norm_num
  · norm_num
  · push_neg at h1 h2
    constructor <;> linarith

/-- C19: `ComputeCooldown(dist, id) = base(dist) * J(id)` with `base` equal to 0.25 for
`dist <= 200`, 7.5 for `dist >= 8000` and `0.25 + (dist - 200) / 7800 * 7.25` in between, and
`J(id) = 0.75 + 0.5 * ((id * 2654435761 mod 2^32) / (2^32 - 1))` in [0.75, 1.25]; the result
lies in [0.1875, 9.375] and is non-decreasing in `dist` for a fixed `id`. -/
theorem ComputeCooldown_formula (Dist : ℚ) (EntityId : Nat) :
    ComputeCooldown Dist EntityId
      = (if Dist ≤ 200 then (1 / 4 : ℚ) else if Dist ≥ 8000 then 15 / 2
          else 1 / 4 + (Dist - 200) / 7800 * (29 / 4))
        * (3 / 4 + 1 / 2 * ((((EntityId * 2654435761) % 2 ^ 32 : Nat) : ℚ) / (2 ^ 32 - 1))) ∧
    3 / 4 ≤ 3 / 4 + 1 / 2 * ((((EntityId * 2654435761) % 2 ^ 32 : Nat) : ℚ) / (2 ^ 32 - 1)) ∧
    3 / 4 + 1 / 2 * ((((EntityId * 2654435761) % 2 ^ 32 : Nat) : ℚ) / (2 ^ 32 - 1)) ≤ 5 / 4 ∧
    3 / 16 ≤ ComputeCooldown Dist EntityId ∧
    ComputeCooldown Dist EntityId ≤ 75 / 8 ∧
    ∀ Dist2 : ℚ, Dist ≤ Dist2 → ComputeCooldown Dist EntityId ≤ ComputeCooldown Dist2 EntityId := by
  have hden : ((2 : ℚ) ^ 32 - 1) = 4294967295 := by norm_num
  rw [hden]
  obtain ⟨hs0, hs1⟩ := cooldown_seed_ratio EntityId
  have hform : ∀ d : ℚ, ComputeCooldown d EntityId
      = (if d ≤ 200 then (1 / 4 : ℚ) else if d ≥ 8000 then 15 / 2
          else 1 / 4 + (d - 200) / 7800 * (29 / 4))
        * (3 / 4 + 1 / 2 * ((((EntityId * 2654435761) % 2 ^ 32 : Nat) : ℚ) / 4294967295)) := by
    intro d
    unfold ComputeCooldown Lerp
    simp only
    congr 1
    split_ifs <;> norm_num
  have hJ0 : (3 / 4 : ℚ)
      ≤ 3 / 4 + 1 / 2 * ((((EntityId * 2654435761) % 2 ^ 32 : Nat) : ℚ) / 4294967295) := by
    linarith
  have hJ1 : 3 / 4 + 1 / 2 * ((((EntityId * 2654435761) % 2 ^ 32 : Nat) : ℚ) / 4294967295)
      ≤ (5 / 4 : ℚ) := by
    linarith
  obtain ⟨hb0, hb1⟩ := cooldown_base_bounds Dist
  refine ⟨hform Dist, hJ0, hJ1, ?_, ?_, ?_⟩
  · rw [hform Dist]
    nlinarith
  · rw [hform Dist]
    nlinarith
  · intro Dist2 hd
    rw [hform Dist, hform Dist2]
    exact mul_le_mul_of_nonneg_right (cooldown_base_mono Dist Dist2 hd) (by linarith)

/-! ## Policy: claim C18 -/

/-- A two-tier mask with top value `2^k - 1` and middle value 1 is of the form `2^j - 1`. -/
theorem tier_mask_form (top k : Nat) (htop : top = 2 ^ k - 1) (p q : Prop) [Decidable p]
    [Decidable q] : ∃ j : Nat, (if p then top else if q then 0x1 else 0) = 2 ^ j - 1 := by
  split_ifs
  · exact ⟨k, htop⟩
  · exact ⟨1, rfl⟩
  · exact ⟨0, rfl⟩

/-- C14 as stated fails in two ways.  With a repath budget of 1 the group of entity 1 is solved
first and uses the budget, the group loop breaks, and the group of entity 2 is not served
although its cache entry holds two points and is 0.5 s old; with a budget of 2 it is served
from the cache and `RepathsUsed` stays at 1.  And with the entry 0.89999998 s old, which is
within 0.9 s but beyond the `float` constant `0.9f`, the group of entity 2 is reached with the
budget of 2 open and is not served from the cache either: a second synchronous query is issued
and the key is stamped as solved. -/
theorem PathReplan_skips_cached_group_on_spent_budget :
    tmapFind sampleCacheKey sampleCacheWorld.G.GPathCache
      = some { Points := some sampleCachedPoints, Time := 0 } ∧
    (sampleCachePass 1).Chunks.map (fun c => c.map (fun e => e.Path.PointsRef))
      = [[some [{ X := 0, Y := 0, Z := 0 }, { X := 5000, Y := 0, Z := 0 }], none]] ∧
    (sampleCachePass 1).Prof.RepathsUsed = 1 ∧
    tmapFind sampleCacheKey (sampleCachePass 1).G.GPathCache
      = some { Points := some sampleCachedPoints, Time := 0 } ∧
    (sampleCachePass 2).Chunks.map (fun c => c.map (fun e => e.Path.PointsRef))
      = [[some [{ X := 0, Y := 0, Z := 0 }, { X := 5000, Y := 0, Z := 0 }],
          some sampleCachedPoints]] ∧
    (sampleCachePass 2).Prof.RepathsUsed = 1 ∧
    (0 : ℚ) + GPathCacheTTL < 89999998 / 100000000 ∧ (89999998 / 100000000 : ℚ) ≤ 0 + 9 / 10 ∧
    (sampleCachePassAt (89999998 / 100000000) 2).Prof.RepathsUsed = 2 ∧
    mapFind sampleCacheKey (sampleCachePassAt (89999998 / 100000000) 2).G.GLastSolveTime
      = some (89999998 / 100000000) := by
  decide!

theorem cacheLookup_fresh (Now : ℚ) (Key : FPathKey)
    (Cache : List (TSlot FPathKey FCachedPathEntry)) (Found : FCachedPathEntry)
    (Points : List FVector) (hfind : tmapFind Key Cache = some Found)
    (hpts : Found.Points = some Points) (hlen : 2 ≤ Points.length)
    (hfresh : Now - Found.Time ≤ GPathCacheTTL) :
    cacheLookup Now Key Cache
      = (some Points, tmapAssign Key { Found with Time := Now } Cache) := by
  unfold cacheLookup
  rw [hfind]
  simp only [hpts]
  have hlen2 : (Points.length : Int) ≥ 2 := by omega
  rw [if_pos ⟨hfresh, hlen2⟩]

theorem cacheLookup_stale (Now : ℚ) (Key : FPathKey)
    (Cache : List (TSlot FPathKey FCachedPathEntry)) (Found : FCachedPathEntry)
    (hfind : tmapFind Key Cache = some Found) (hstale : Now - Found.Time > GPathCacheTTL) :
    cacheLookup Now Key Cache = (none, Cache) := by
  unfold cacheLookup
  rw [hfind]
  simp only
  split
  · rw [if_neg]
    intro hc
    have := hc.1
    linarith
  · rfl

theorem modifyAt_get {α : Type} (f : α → α) (n i : Nat) (l : List α) (a1 : α)
    (h : (modifyAt f n l).get? i = some a1) :
    (i = n ∧ ∃ a0, l.get? i = some a0 ∧ a1 = f a0) ∨ (i ≠ n ∧ l.get? i = some a1) := by
  induction l generalizing n i with
  | nil => simp [modifyAt] at h
  | cons b rest ih =>
    cases n with
    | zero =>
      cases i with
      | zero =>
        simp only [modifyAt, List.get?_cons_zero, Option.some.injEq] at h
        exact Or.inl ⟨rfl, b, rfl, h.symm⟩
      | succ j =>
        simp only [modifyAt, List.get?_cons_succ] at h
        exact Or.inr ⟨by omega, by simpa using h⟩
    | succ m =>
      cases i with
      | zero =>
        simp only [modifyAt, List.get?_cons_zero, Option.some.injEq] at h
        exact Or.inr ⟨by omega, by simpa using h⟩
      | succ j =>
        simp only [modifyAt, List.get?_cons_succ] at h
        rcases ih m j h with ⟨hj, a0, ha0, ha1⟩ | ⟨hj, ha⟩
        · exact Or.inl ⟨by omega, a0, by simpa using ha0, ha1⟩
        · exact Or.inr ⟨by omega, by simpa using ha⟩

theorem publishPath_Published (env : PathReplanEnv) (SharedRef : List FVector)
    (PE : FPendingEntity) (e : FSwarmEntity) :
    Published env SharedRef (publishPath env SharedRef PE e) :=
  ⟨rfl, rfl, rfl, rfl, rfl, rfl⟩

/-- An index whose entity is published stays published through the member loop. -/
theorem publishToMembers_keeps (env : PathReplanEnv) (SharedRef : List FVector)
    (Members : List FPendingEntity) (Entities : List FSwarmEntity) (i : Nat)
    (h : ∀ e0, Entities.get? i = some e0 → Published env SharedRef e0) :
    ∀ e1, (publishToMembers env SharedRef Members Entities).get? i = some e1 →
      Published env SharedRef e1 := by
  induction Members generalizing Entities with
  | nil => exact h
  | cons PE rest ih =>
    simp only [publishToMembers]
    apply ih
    intro e0 he0
    rcases modifyAt_get _ _ _ _ _ he0 with ⟨_, a0, _, ha⟩ | ⟨_, ha⟩
    · rw [ha]; exact publishPath_Published env SharedRef PE a0
    · exact h e0 ha

/-- Every member of the group is published to. -/
theorem publishToMembers_member (env : PathReplanEnv) (SharedRef : List FVector)
    (Members : List FPendingEntity) (Entities : List FSwarmEntity) :
    ∀ PE ∈ Members, ∀ e1,
      (publishToMembers env SharedRef Members Entities).get? PE.Index = some e1 →
        Published env SharedRef e1 := by
  induction Members generalizing Entities with
  | nil => intro PE hPE; simp at hPE
  | cons M rest ih =>
    intro PE hPE
    simp only [List.mem_cons] at hPE
    simp only [publishToMembers]
    rcases hPE with hPE | hPE
    · rw [hPE]
      apply publishToMembers_keeps
      intro e0 he0
      rcases modifyAt_get _ _ _ _ _ he0 with ⟨_, a0, _, ha⟩ | ⟨hne, _⟩
      · rw [ha]; exact publishPath_Published env SharedRef M a0
      · exact absurd rfl hne
    · exact ih _ PE hPE

theorem modifyAt_length {α : Type} (f : α → α) (n : Nat) (l : List α) :
    (modifyAt f n l).length = l.length := by
  induction l generalizing n with
  | nil => cases n <;> rfl
  | cons b rest ih =>
    cases n with
    | zero => rfl
    | succ m => simp [modifyAt, ih]

theorem publishToMembers_length (env : PathReplanEnv) (SharedRef : List FVector)
    (Members : List FPendingEntity) (Entities : List FSwarmEntity) :
    (publishToMembers env SharedRef Members Entities).length = Entities.length := by
  induction Members generalizing Entities with
  | nil => rfl
  | cons PE rest ih =>
    simp only [publishToMembers]
    rw [ih, modifyAt_length]

/-- The member loop does not consult the navigation system. -/
theorem publishToMembers_nav (env : PathReplanEnv) (nav2 : NavService)
    (SharedRef : List FVector) (Members : List FPendingEntity) (Entities : List FSwarmEntity) :
    publishToMembers { env with NavSys := nav2 } SharedRef Members Entities
      = publishToMembers env SharedRef Members Entities := by
  induction Members generalizing Entities with
  | nil => rfl
  | cons PE rest ih =>
    simp only [publishToMembers]
    rw [ih]
    rfl

/-- A group iteration that finds a fresh cache entry of at least two points. -/
theorem ReplanGroupStep_fresh (env : PathReplanEnv) (Now : ℚ) (st : ReplanLoopState)
    (Pair : FPathKey × List FPendingEntity) (Found : FCachedPathEntry) (Points : List FVector)
    (hfind : tmapFind Pair.1 st.G.GPathCache = some Found)
    (hpts : Found.Points = some Points) (hlen : 2 ≤ Points.length)
    (hfresh : Now - Found.Time ≤ GPathCacheTTL) :
    ReplanGroupStep env Now st Pair
      = { st with
          G := { st.G with
                 GPathCache := tmapAssign Pair.1 { Found with Time := Now } st.G.GPathCache },
          Entities := publishToMembers env Points Pair.2 st.Entities } := by
  unfold ReplanGroupStep
  simp only
  rw [cacheLookup_fresh Now Pair.1 st.G.GPathCache Found Points hfind hpts hlen hfresh]

/-- C14, amended: in a group iteration that the group loop reaches with
`RepathsUsed < RepathsPerFrameBudget`, a cache entry for the group key that holds a list of at
least 2 points and has `Now - Time <= GPathCacheTTL`, the `float` constant `0.9f`
= 0.89999997615814208984375, serves the group: the iteration does not depend on the navigation
system (no synchronous query), leaves the profiler fragment with `RepathsUsed` unchanged,
publishes the cached list to every member of the group, and sets the entry's time to `Now`;
with `Now - Time > GPathCacheTTL` the lookup returns no list and leaves the cache as it is, and
the group is left alone or gets the list of a new synchronous query. -/
theorem PathReplan_serves_from_cache (env : PathReplanEnv) (Now : ℚ) (st : ReplanLoopState)
    (Pair : FPathKey × List FPendingEntity) (rest : List (FPathKey × List FPendingEntity))
    (Found : FCachedPathEntry) (Points : List FVector)
    (hbudget : st.Prof.RepathsUsed < env.Params.RepathsPerFrameBudget)
    (hfind : tmapFind Pair.1 st.G.GPathCache = some Found)
    (hpts : Found.Points = some Points) (hlen : 2 ≤ Points.length) :
    GPathCacheTTL = 7549747 / 8388608 ∧
    (Now - Found.Time ≤ GPathCacheTTL →
      ReplanGroupLoop env Now (Pair :: rest) st
        = ReplanGroupLoop env Now rest (ReplanGroupStep env Now st Pair) ∧
      (∀ nav2 : NavService,
        ReplanGroupStep { env with NavSys := nav2 } Now st Pair
          = ReplanGroupStep env Now st Pair) ∧
      (ReplanGroupStep env Now st Pair).Prof = st.Prof ∧
      (ReplanGroupStep env Now st Pair).Entities
        = publishToMembers env Points Pair.2 st.Entities ∧
      (∀ PE ∈ Pair.2, ∀ e1,
        (ReplanGroupStep env Now st Pair).Entities.get? PE.Index = some e1 →
          Published env Points e1) ∧
      tmapFind Pair.1 (ReplanGroupStep env Now st Pair).G.GPathCache
        = some { Points := some Points, Time := Now } ∧
      (ReplanGroupStep env Now st Pair).G.GLastSolveTime = st.G.GLastSolveTime) ∧
    (Now - Found.Time > GPathCacheTTL →
      cacheLookup Now Pair.1 st.G.GPathCache = (none, st.G.GPathCache) ∧
      (ReplanGroupStep env Now st Pair = st ∨
        ∃ Rep RepEntity PathPoints,
          MinElementBy Pair.2 = some Rep ∧ st.Entities.get? Rep.Index = some RepEntity ∧
          env.NavSys.FindPathToLocationSynchronously RepEntity.Location
            (FinalGoal env.Player) = some PathPoints ∧
          (ReplanGroupStep env Now st Pair).Entities
            = publishToMembers env PathPoints Pair.2 st.Entities ∧
          (ReplanGroupStep env Now st Pair).Prof.RepathsUsed = st.Prof.RepathsUsed + 1)) := by
  refine ⟨rfl, ?_⟩
  constructor
  · intro hfresh
    have hstep := ReplanGroupStep_fresh env Now st Pair Found Points hfind hpts hlen hfresh
    refine ⟨?_, ?_, ?_, ?_, ?_, ?_, ?_⟩
    · simp only [ReplanGroupLoop]
      rw [if_neg (not_le.mpr hbudget)]
    · intro nav2
      rw [hstep, ReplanGroupStep_fresh { env with NavSys := nav2 } Now st Pair Found Points
        hfind hpts hlen hfresh, publishToMembers_nav]
    · rw [hstep]
    · rw [hstep]
    · intro PE hPE e1 he1
      rw [hstep] at he1
      exact publishToMembers_member env Points Pair.2 st.Entities PE hPE e1 he1
    · rw [hstep]
      simp only
      rw [tmapAssign_eq_tmapSet _ _ Found _ hfind, tmapFind_tmapSet_self, ← hpts]
    · rw [hstep]
  · intro hstale
    have hlook := cacheLookup_stale Now Pair.1 st.G.GPathCache Found hfind hstale
    refine ⟨hlook, ?_⟩
    unfold ReplanGroupStep
    simp only [hlook]
    split_ifs with hcool
    · exact Or.inl rfl
    · cases hmin : MinElementBy Pair.2 with
      | none => exact Or.inl rfl
      | some Rep =>
        dsimp only
        cases hget : st.Entities.get? Rep.Index with
        | none => exact Or.inl rfl
        | some RepEntity =>
          dsimp only
          cases hnav : env.NavSys.FindPathToLocationSynchronously RepEntity.Location
              (FinalGoal env.Player) with
          | none => exact Or.inl rfl
          | some PathPoints =>
            dsimp only
            split_ifs with hok
            · exact Or.inr ⟨Rep, RepEntity, PathPoints, rfl, hget, hnav, rfl, rfl⟩
            · exact Or.inl rfl

/-- At the input of C14: the group of the cached key at clock time 0.5, reached with one of
two repaths used. -/
theorem PathReplan_serves_from_cache_witness :
    sampleReplanLoopState.Prof.RepathsUsed < sampleReplanEnv.Params.RepathsPerFrameBudget ∧
    (ReplanGroupStep sampleReplanEnv (1 / 2) sampleReplanLoopState sampleReplanGroup).Prof
      = sampleReplanLoopState.Prof ∧
    tmapFind sampleReplanGroup.1
        (ReplanGroupStep sampleReplanEnv (1 / 2) sampleReplanLoopState
          sampleReplanGroup).G.GPathCache
      = some { Points := some sampleCachedPoints, Time := 1 / 2 } ∧
    ((ReplanGroupStep sampleReplanEnv (1 / 2) sampleReplanLoopState
        sampleReplanGroup).Entities.map (fun e => e.Path.PointsRef))
      = [none, some sampleCachedPoints] :=
  ⟨by decide!,
   ((PathReplan_serves_from_cache sampleReplanEnv (1 / 2) sampleReplanLoopState
      sampleReplanGroup [] { Points := some sampleCachedPoints, Time := 0 } sampleCachedPoints
      (by decide!) (by decide!) rfl (by decide)).2.1 (by decide!)).2.2.1,
   ((PathReplan_serves_from_cache sampleReplanEnv (1 / 2) sampleReplanLoopState
      sampleReplanGroup [] { Points := some sampleCachedPoints, Time := 0 } sampleCachedPoints
      (by decide!) (by decide!) rfl (by decide)).2.1 (by decide!)).2.2.2.2.2.1,
   by decide!⟩

/-! ## Follow: claim C15 -/

/-- C15, evaluated on the code at an input where the claim fails: two spawned entities without
a path in the same bucket, nothing pending and nothing in flight.  In one Follow pass each of
them passes the gate of `TryRequestReplanBudgeted`, because the bucket key enters
`InFlightBuckets_GT` only when a queued task runs: two tasks with the same bucket key are
queued and two slots of `BucketsScheduledThisFrame` are used. -/
theorem Follow_schedules_same_bucket_twice :
    sampleWorld.Chunks.map (fun c => c.map
        (fun e => MakeBucketKey e.Location sampleWorld.F.ReplanBucketCellSize)) = [[0, 0]] ∧
    sampleWorld.F.PendingBucketResults_GT = [] ∧
    sampleWorld.F.InFlightBuckets_GT = [] ∧
    sampleWorld.F.TaskQueue = [] ∧
    (FollowWorld sampleFollowEnv sampleWorld).map
        (fun w => (w.F.BucketsScheduledThisFrame, w.F.TaskQueue.map (fun t => t.BucketKey),
          w.F.InFlightBuckets_GT))
      = some (2, [0, 0], []) := by
  decide!

/-! ## Follow and Integrate at dt = 0: claim C13 -/

/-- C13 as stated fails: at `dt = 0` the agent at (4900, 0, 40) with velocity (50, 0, 0) and
path index 1 ends one pass of Follow and Integrate with path index 2 (Follow advances past the
waypoint 50 units away), velocity zero and a move target at (4900, 0, 0) (Integrate makes it
yield and publishes the navmesh projection). -/
theorem FollowIntegrate_dt_zero_changes_state :
    sampleFollowEnvDtZero.DeltaTimeSeconds = 0 ∧
    sampleIntegrateEnvDtZero.DeltaTimeSeconds = 0 ∧
    (samplePressedEntity.Path.Index, samplePressedEntity.Agent.Velocity,
        samplePressedEntity.Location)
      = (1, { X := 50, Y := 0, Z := 0 }, { X := 4900, Y := 0, Z := 40 }) ∧
    (FollowThenIntegrateEntity sampleFollowEnvDtZero sampleIntegrateEnvDtZero
        { Prof := sampleProf, F := FollowState.init } 0 samplePressedEntity).map
        (fun e => (e.Path.Index, e.Agent.Velocity, e.Move.Center, e.Agent.bYielding))
      = some (2, { X := 0, Y := 0, Z := 0 }, { X := 4900, Y := 0, Z := 0 }, true) := by
  decide!

theorem followClearExhausted_Index (P : FSwarmPathStateFragment) :
    (followClearExhausted P).Index = P.Index ∧
      (followClearExhausted P).PointsRef = P.PointsRef := by
  unfold followClearExhausted
  split_ifs <;> exact ⟨rfl, rfl⟩

/-- Clearing an exhausted path does not change the freshness test. -/
theorem IsPathFresh_clearExhausted (M : FMathOps) (Params : FSwarmMovementParamsFragment)
    (P : FSwarmPathStateFragment) (Sense : FSwarmTargetSenseFragment) (selfPos : FVector) :
    IsPathFresh M Params (followClearExhausted P) Sense selfPos
      = IsPathFresh M Params P Sense selfPos := by
  unfold followClearExhausted
  split_ifs with hc
  · have hnum : ({ P with bHasPath := false } : FSwarmPathStateFragment).NumPoints
        = P.NumPoints := rfl
    have hlt : ¬ P.Index < P.NumPoints := not_lt.mpr hc.2
    unfold IsPathFresh
    simp [hlt]
  · rfl

theorem followPickup_Index (env : FollowEnv) (F : FollowState) (e : FSwarmEntity)
    (h : IsPathFresh env.M env.Params e.Path e.Sense e.Location = true ∨
      mapFind (MakeBucketKey e.Location F.ReplanBucketCellSize) F.BucketResults_RT = none) :
    (followPickup env F e).1 = followClearExhausted e.Path ∧
      (followPickup env F e).2 = IsPathFresh env.M env.Params e.Path e.Sense e.Location := by
  unfold followPickup
  simp only
  rw [IsPathFresh_clearExhausted]
  rcases h with h | h
  · rw [h]
    simp
  · rw [h]
    split_ifs <;> exact ⟨rfl, rfl⟩

theorem followStale_frame (env : FollowEnv) (st : FollowLoopState) (e : FSwarmEntity)
    (Path1 : FSwarmPathStateFragment) :
    (followStale env st e Path1).2.Location = e.Location ∧
      (followStale env st e Path1).2.Agent = e.Agent ∧
      (followStale env st e Path1).2.Path.Index = Path1.Index := by
  refine ⟨rfl, rfl, ?_⟩
  unfold followStale
  simp only
  split_ifs <;> exact (followTimers_core _ _ _).2.1

theorem followSteer_frame (env : FollowEnv) (st st1 : FollowLoopState) (e e1 : FSwarmEntity)
    (Path1 : FSwarmPathStateFragment) (h : followSteer env st e Path1 = some (st1, e1)) :
    e1.Location = e.Location ∧ e1.Agent = e.Agent ∧
      ∃ target0 Path2 target1, Path1.Point Path1.Index = some target0 ∧
        AdvanceWaypointIfClose env.Params Path1 e.Location target0 = some (Path2, target1) ∧
        e1.Path.Index = Path2.Index := by
  unfold followSteer at h
  simp only at h
  split at h
  · simp at h
  · rename_i target0 htarget
    split at h
    · simp at h
    · rename_i Path2 target1 hadv
      split at h
      · simp at h
      · rename_i target Path3 Window1 Prof1 bDirect hch
        obtain ⟨_, b, _⟩ := followChase_core env st.Prof e Path2 target1 _ hch
        simp only [Option.some.injEq, Prod.mk.injEq] at h
        obtain ⟨_, he⟩ := h
        rw [← he]
        refine ⟨rfl, rfl, target0, Path2, target1, htarget, hadv, ?_⟩
        exact ((followTimers_core (Clamp env.DeltaTimeSeconds 0 (1 / 20)) Prof1
          Path3).2.1).trans b

/-- Follow writes neither the transform nor the agent fragment, and it leaves the path index
alone on a stale path that finds no bucket result and on a fresh path whose current waypoint
is farther than the acceptance radius. -/
theorem FollowEntityStep_frame (env : FollowEnv) (st st1 : FollowLoopState)
    (e e1 : FSwarmEntity) (h : FollowEntityStep env st e = some (st1, e1)) :
    e1.Location = e.Location ∧ e1.Agent = e.Agent ∧
      ((IsPathFresh env.M env.Params e.Path e.Sense e.Location = false ∧
          mapFind (MakeBucketKey e.Location st.F.ReplanBucketCellSize) st.F.BucketResults_RT
            = none) ∨
        (IsPathFresh env.M env.Params e.Path e.Sense e.Location = true ∧
          ∀ target0, e.Path.Point e.Path.Index = some target0 →
            FVector.DistSquared2D e.Location target0
              > Square env.Params.WaypointAcceptanceRadius) →
        e1.Path.Index = e.Path.Index) := by
  unfold FollowEntityStep at h
  simp only at h
  split_ifs at h with hf
  · injection h with h
    obtain ⟨a, b, c⟩ := followStale_frame env st e (followPickup env st.F e).1
    rw [h] at a b c
    refine ⟨a, b, fun hidx => ?_⟩
    rcases hidx with ⟨hstale, hnone⟩ | ⟨hfresh, _⟩
    · have c2 : e1.Path.Index = (followPickup env st.F e).1.Index := c
      rw [c2, (followPickup_Index env st.F e (Or.inr hnone)).1]
      exact (followClearExhausted_Index e.Path).1
    · rw [(followPickup_Index env st.F e (Or.inl hfresh)).2, hfresh] at hf
      exact absurd hf (by simp)
  · obtain ⟨a, b, target0, Path2, target1, ht, hadv, c⟩ :=
      followSteer_frame env st st1 e e1 _ h
    refine ⟨a, b, fun hidx => ?_⟩
    rcases hidx with ⟨hstale, hnone⟩ | ⟨hfresh, hfar⟩
    · rw [(followPickup_Index env st.F e (Or.inr hnone)).2, hstale] at hf
      exact absurd rfl hf
    · have hp := (followPickup_Index env st.F e (Or.inl hfresh)).1
      rw [hp] at ht hadv
      have hpt : (followClearExhausted e.Path).Point (followClearExhausted e.Path).Index
          = e.Path.Point e.Path.Index := by
        unfold FSwarmPathStateFragment.Point
        rw [(followClearExhausted_Index e.Path).1, (followClearExhausted_Index e.Path).2]
      rw [hpt] at ht
      have hd := hfar target0 ht
      unfold AdvanceWaypointIfClose at hadv
      rw [if_pos hd] at hadv
      simp only [Option.some.injEq, Prod.mk.injEq] at hadv
      rw [c, ← hadv.1]
      exact (followClearExhausted_Index e.Path).1

theorem followTimers_PathAge (Dt : ℚ) (Prof : FSwarmProfilerSharedFragment)
    (Path : FSwarmPathStateFragment) :
    (followTimers Dt Prof Path).2.PathAge = Path.PathAge + Dt := by
  unfold followTimers
  simp only
  split_ifs <;> rfl

theorem followChase_PathAge (env : FollowEnv) (Prof : FSwarmProfilerSharedFragment)
    (e : FSwarmEntity) (Path2 : FSwarmPathStateFragment) (target1 : FVector)
    (r : (FVector × FSwarmPathStateFragment × FSwarmPathWindowFragment ×
      FSwarmProfilerSharedFragment) × Bool)
    (h : followChase env Prof e Path2 target1 = some r) :
    r.1.2.1.PathAge = Path2.PathAge := by
  unfold followChase at h
  simp only at h
  split_ifs at h
  · simp only [Option.some.injEq] at h
    rw [← h]
  · split at h
    · simp only [Option.some.injEq] at h
      rw [← h]
    · simp at h

theorem followStale_PathAge (env : FollowEnv) (st : FollowLoopState) (e : FSwarmEntity)
    (Path1 : FSwarmPathStateFragment) :
    (followStale env st e Path1).2.Path.PathAge
      = Path1.PathAge + Clamp env.DeltaTimeSeconds 0 (1 / 20) := by
  unfold followStale
  simp only
  split_ifs <;> exact followTimers_PathAge _ _ _

theorem followSteer_PathAge (env : FollowEnv) (st st1 : FollowLoopState) (e e1 : FSwarmEntity)
    (Path1 : FSwarmPathStateFragment) (h : followSteer env st e Path1 = some (st1, e1)) :
    ∃ target0 Path2 target1, Path1.Point Path1.Index = some target0 ∧
      AdvanceWaypointIfClose env.Params Path1 e.Location target0 = some (Path2, target1) ∧
      e1.Path.PathAge = Path2.PathAge + Clamp env.DeltaTimeSeconds 0 (1 / 20) := by
  unfold followSteer at h
  simp only at h
  split at h
  · simp at h
  · rename_i target0 htarget
    split at h
    · simp at h
    · rename_i Path2 target1 hadv
      split at h
      · simp at h
      · rename_i target Path3 Window1 Prof1 bDirect hch
        have b := followChase_PathAge env st.Prof e Path2 target1 _ hch
        simp only [Option.some.injEq, Prod.mk.injEq] at h
        obtain ⟨_, he⟩ := h
        rw [← he]
        refine ⟨target0, Path2, target1, htarget, hadv, ?_⟩
        have hb : Path3.PathAge = Path2.PathAge := b
        rw [← hb]
        exact followTimers_PathAge (Clamp env.DeltaTimeSeconds 0 (1 / 20)) Prof1 Path3

/-- On a stale path that finds no bucket result and on a fresh path whose current waypoint is
farther than the acceptance radius, Follow ages the path by its clamped `dt`. -/
theorem FollowEntityStep_PathAge (env : FollowEnv) (st st1 : FollowLoopState)
    (e e1 : FSwarmEntity) (h : FollowEntityStep env st e = some (st1, e1))
    (hidx : (IsPathFresh env.M env.Params e.Path e.Sense e.Location = false ∧
          mapFind (MakeBucketKey e.Location st.F.ReplanBucketCellSize) st.F.BucketResults_RT
            = none) ∨
        (IsPathFresh env.M env.Params e.Path e.Sense e.Location = true ∧
          ∀ target0, e.Path.Point e.Path.Index = some target0 →
            FVector.DistSquared2D e.Location target0
              > Square env.Params.WaypointAcceptanceRadius)) :
    e1.Path.PathAge = e.Path.PathAge + Clamp env.DeltaTimeSeconds 0 (1 / 20) := by
  have hclear : (followClearExhausted e.Path).PathAge = e.Path.PathAge := by
    unfold followClearExhausted
    split_ifs <;> rfl
  unfold FollowEntityStep at h
  simp only at h
  split_ifs at h with hf
  · injection h with h
    have c := followStale_PathAge env st e (followPickup env st.F e).1
    rw [h] at c
    have c2 : e1.Path.PathAge
        = (followPickup env st.F e).1.PathAge + Clamp env.DeltaTimeSeconds 0 (1 / 20) := c
    rcases hidx with ⟨hstale, hnone⟩ | ⟨hfresh, _⟩
    · rw [c2, (followPickup_Index env st.F e (Or.inr hnone)).1, hclear]
    · rw [(followPickup_Index env st.F e (Or.inl hfresh)).2, hfresh] at hf
      exact absurd hf (by simp)
  · obtain ⟨target0, Path2, target1, ht, hadv, c⟩ := followSteer_PathAge env st st1 e e1 _ h
    rcases hidx with ⟨hstale, hnone⟩ | ⟨hfresh, hfar⟩
    · rw [(followPickup_Index env st.F e (Or.inr hnone)).2, hstale] at hf
      exact absurd rfl hf
    · have hp := (followPickup_Index env st.F e (Or.inl hfresh)).1
      rw [hp] at ht hadv
      have hpt : (followClearExhausted e.Path).Point (followClearExhausted e.Path).Index
          = e.Path.Point e.Path.Index := by
        unfold FSwarmPathStateFragment.Point
        rw [(followClearExhausted_Index e.Path).1, (followClearExhausted_Index e.Path).2]
      rw [hpt] at ht
      have hd := hfar target0 ht
      unfold AdvanceWaypointIfClose at hadv
      rw [if_pos hd] at hadv
      simp only [Option.some.injEq, Prod.mk.injEq] at hadv
      rw [c, ← hadv.1, hclear]

theorem Clamp_zero_dt : Clamp (0 : ℚ) 0 (1 / 20) = 0 := by
  unfold Clamp
  norm_num

theorem FVector.scale_zero (c : ℚ) : FVector.ZeroVector.scale c = FVector.ZeroVector := by
  unfold FVector.scale FVector.ZeroVector
  simp

theorem integrateYielding_frame (env : IntegrateEnv) (e : FSwarmEntity) (fwd2D : FVector) :
    (integrateYielding env e fwd2D).Location = e.Location ∧
      (integrateYielding env e fwd2D).Path = e.Path ∧
      (integrateYielding env e fwd2D).Agent.bYielding = e.Agent.bYielding := by
  have hz : (zeroSteering e).Agent.bYielding = e.Agent.bYielding := by
    unfold zeroSteering
    simp only
    split_ifs <;> rfl
  unfold integrateYielding
  simp only
  split <;> exact ⟨rfl, rfl, hz⟩

/-- At `dt = 0` the loop body of Integrate leaves through the freeze, the yield or a damping
exit: it completes, keeps the location and the path state, publishes the location as move
target unless the agent is yielding, and zeroes the velocity, keeps it or scales it by 0.9. -/
theorem IntegrateEntityStep_Dt_zero (env : IntegrateEnv) (HCache : Nat) (e : FSwarmEntity)
    (hdt : env.Dt = 0) :
    ∃ e2, IntegrateEntityStep env HCache e = some (HCache, e2) ∧
      e2.Location = e.Location ∧ e2.Path = e.Path ∧
      (e2.Agent.bYielding = false → e2.Move.Center = e.Location) ∧
      (e2.Agent.Velocity = FVector.ZeroVector ∨ e2.Agent.Velocity = e.Agent.Velocity ∨
        e2.Agent.Velocity = e.Agent.Velocity.scale (9 / 10)) := by
  have hsm : ∀ x, smallDesired env x = true := by
    intro x
    unfold smallDesired
    rw [hdt]
    simp
  have hv : (yieldGate env (afterProgress env e)).Velocity = e.Agent.Velocity :=
    yieldGate_Velocity env (afterProgress env e)
  unfold IntegrateEntityStep
  simp only
  by_cases hfresh : IsPathFresh env.M env.Params (afterProgress env e).Path
      (afterProgress env e).Sense e.Location = false
  · rw [if_pos hfresh]
    refine ⟨_, rfl, rfl, rfl, fun _ => rfl, ?_⟩
    rcases zeroSteering_Velocity (afterProgress env e) with hz | hz
    · exact Or.inr (Or.inl hz)
    · exact Or.inl hz
  · rw [if_neg hfresh]
    by_cases hy : (afterGate env e).Agent.bYielding = true
    · rw [if_pos hy]
      obtain ⟨a, b, c⟩ := integrateYielding_frame env (afterGate env e)
        (FVector.GetSafeNormal2D env.M (afterProgress env e).Forward)
      refine ⟨_, rfl, a, b, fun hn => ?_, ?_⟩
      · rw [c, hy] at hn
        exact absurd hn (by simp)
      · rw [integrateYielding_Velocity]
        rcases zeroSteering_Velocity (afterGate env e) with hz | hz
        · exact Or.inr (Or.inl (hz.trans hv))
        · exact Or.inl hz
    · rw [if_neg hy]
      by_cases hd : bDecimate env (afterGate env e) = true
      · rw [if_pos hd]
        refine ⟨_, rfl, rfl, rfl, fun _ => rfl, Or.inr (Or.inr ?_)⟩
        show (yieldGate env (afterProgress env e)).Velocity.scale (9 / 10) = _
        rw [hv]
      · rw [if_neg hd, if_pos (hsm _)]
        refine ⟨_, rfl, rfl, rfl, fun _ => rfl, Or.inr (Or.inr ?_)⟩
        show (yieldGate env (afterProgress env e)).Velocity.scale (9 / 10) = _
        rw [hv]

/-- C13, amended: with `dt = 0` one pass of Follow and Integrate over an agent completes and
leaves the agent's location unchanged, with the published move target at that location unless
the agent is yielding after the pass; the velocity after the pass is zero (freeze, yield), the
velocity before, or 0.9 times the velocity before (damping), so a zero velocity is unchanged;
and the path index and the path age are unchanged when the path is stale and no bucket result
waits for the agent's bucket, or the path is fresh and the current waypoint is farther than
the waypoint acceptance radius. -/
theorem FollowIntegrate_dt_zero (fenv : FollowEnv) (ienv : IntegrateEnv)
    (st : FollowLoopState) (HCache : Nat) (e : FSwarmEntity)
    (hf : fenv.DeltaTimeSeconds = 0) (hi : ienv.DeltaTimeSeconds = 0) :
    ∃ e2, FollowThenIntegrateEntity fenv ienv st HCache e = some e2 ∧
      e2.Location = e.Location ∧
      (e2.Agent.bYielding = false → e2.Move.Center = e.Location) ∧
      (e2.Agent.Velocity = FVector.ZeroVector ∨ e2.Agent.Velocity = e.Agent.Velocity ∨
        e2.Agent.Velocity = e.Agent.Velocity.scale (9 / 10)) ∧
      (e.Agent.Velocity = FVector.ZeroVector → e2.Agent.Velocity = e.Agent.Velocity) ∧
      ((IsPathFresh fenv.M fenv.Params e.Path e.Sense e.Location = false ∧
          mapFind (MakeBucketKey e.Location st.F.ReplanBucketCellSize) st.F.BucketResults_RT
            = none) ∨
        (IsPathFresh fenv.M fenv.Params e.Path e.Sense e.Location = true ∧
          ∀ target0, e.Path.Point e.Path.Index = some target0 →
            FVector.DistSquared2D e.Location target0
              > Square fenv.Params.WaypointAcceptanceRadius) →
        e2.Path.Index = e.Path.Index ∧ e2.Path.PathAge = e.Path.PathAge) := by
  obtain ⟨⟨st1, e1⟩, hfollow⟩ := FollowEntityStep_isSome fenv st e
  obtain ⟨hloc1, hagent1, hidx1⟩ := FollowEntityStep_frame fenv st st1 e e1 hfollow
  have hdt : ienv.Dt = 0 := by
    unfold IntegrateEnv.Dt
    rw [hi]
    exact Clamp_zero_dt
  obtain ⟨e2, hint, hloc2, hpath2, hcenter, hvel⟩ :=
    IntegrateEntityStep_Dt_zero ienv HCache e1 hdt
  refine ⟨e2, ?_, hloc2.trans hloc1, ?_, ?_, ?_, ?_⟩
  · unfold FollowThenIntegrateEntity
    rw [hfollow]
    simp only
    rw [hint]
  · intro hy
    rw [hcenter hy, hloc1]
  · rw [hagent1] at hvel
    exact hvel
  · intro hz
    rw [hagent1] at hvel
    rcases hvel with h | h | h
    · rw [h, hz]
    · exact h
    · rw [h, hz]
      exact FVector.scale_zero _
  · intro hidx
    constructor
    · rw [hpath2]
      exact hidx1 hidx
    · rw [hpath2, FollowEntityStep_PathAge fenv st st1 e e1 hfollow hidx, hf, Clamp_zero_dt,
        add_zero]

/-- At the input of C13: a resting agent on a fresh path, 1000 units from its waypoint. -/
theorem FollowIntegrate_dt_zero_witness :
    sampleFollowEnvDtZero.DeltaTimeSeconds = 0 ∧
    sampleIntegrateEnvDtZero.DeltaTimeSeconds = 0 ∧
    ∃ e2, FollowThenIntegrateEntity sampleFollowEnvDtZero sampleIntegrateEnvDtZero
        { Prof := sampleProf, F := FollowState.init } 0 sampleRestingEntity = some e2 ∧
      e2.Location = sampleRestingEntity.Location ∧
      (e2.Agent.bYielding = false → e2.Move.Center = sampleRestingEntity.Location) ∧
      (e2.Agent.Velocity = FVector.ZeroVector ∨
        e2.Agent.Velocity = sampleRestingEntity.Agent.Velocity ∨
        e2.Agent.Velocity = sampleRestingEntity.Agent.Velocity.scale (9 / 10)) ∧
      (sampleRestingEntity.Agent.Velocity = FVector.ZeroVector →
        e2.Agent.Velocity = sampleRestingEntity.Agent.Velocity) ∧
      ((IsPathFresh sampleFollowEnvDtZero.M sampleFollowEnvDtZero.Params
            sampleRestingEntity.Path sampleRestingEntity.Sense sampleRestingEntity.Location
            = false ∧
          mapFind (MakeBucketKey sampleRestingEntity.Location
              FollowState.init.ReplanBucketCellSize) FollowState.init.BucketResults_RT
            = none) ∨
        (IsPathFresh sampleFollowEnvDtZero.M sampleFollowEnvDtZero.Params
            sampleRestingEntity.Path sampleRestingEntity.Sense sampleRestingEntity.Location
            = true ∧
          ∀ target0, sampleRestingEntity.Path.Point sampleRestingEntity.Path.Index
              = some target0 →
            FVector.DistSquared2D sampleRestingEntity.Location target0
              > Square sampleFollowEnvDtZero.Params.WaypointAcceptanceRadius) →
        e2.Path.Index = sampleRestingEntity.Path.Index ∧
        e2.Path.PathAge = sampleRestingEntity.Path.PathAge) :=
  ⟨rfl, rfl,
   FollowIntegrate_dt_zero sampleFollowEnvDtZero sampleIntegrateEnvDtZero
     { Prof := sampleProf, F := FollowState.init } 0 sampleRestingEntity rfl rfl⟩

/-- The resting agent of the sample is on a fresh path with its waypoint out of reach, and one
pass at `dt = 0` leaves its index, velocity and position as they were. -/
theorem FollowIntegrate_dt_zero_example :
    IsPathFresh sampleFollowEnvDtZero.M sampleFollowEnvDtZero.Params sampleRestingEntity.Path
      sampleRestingEntity.Sense sampleRestingEntity.Location = true ∧
    FVector.DistSquared2D sampleRestingEntity.Location { X := 1000, Y := 0, Z := 0 }
      > Square sampleFollowEnvDtZero.Params.WaypointAcceptanceRadius ∧
    (FollowThenIntegrateEntity sampleFollowEnvDtZero sampleIntegrateEnvDtZero
        { Prof := sampleProf, F := FollowState.init } 0 sampleRestingEntity).map
        (fun e => (e.Path.Index, e.Agent.Velocity, e.Move.Center, e.Location))
      = some (1, { X := 0, Y := 0, Z := 0 }, { X := 0, Y := 0, Z := 0 },
          { X := 0, Y := 0, Z := 0 }) := by
  decide!

/-- At a sample input of C18: 24 entities in the count area of a cell of 4 square metres give
a density of 6, and the target is 5000 units away: the masks written are 0x3, 0x3 and 0x7. -/
theorem Policy_mask_example :
    (PolicyEntityStep samplePolicyEnv FStencil.init
        (FSwarmEntity.spawn 0 { X := 0, Y := 0, Z := 0 } { X := 1, Y := 0, Z := 0 } 55)).2.Policy
      = { DistToPlayer2D_Sq := 25000000, EstimatedDensity := 6, CooldownScale := 3,
          SeparationMask := 0x3, FollowMask := 0x3, SenseMask := 0x7 } := by
  decide!

/-! ## The bucket gate of Follow

The gate works for a bucket that is registered; the registration itself happens only when a
queued task runs. -/

/-- The gate of `TryRequestReplanBudgeted` does hold back a bucket that is pending or in
flight: nothing is queued and no slot is used. -/
theorem TryRequestReplanBudgeted_gate (F : FollowState) (From Goal : FVector) (BucketKey : Int)
    (bUseHierarchical : Bool)
    (h : (mapFind BucketKey F.PendingBucketResults_GT).isSome ∨
      BucketKey ∈ F.InFlightBuckets_GT) :
    TryRequestReplanBudgeted F From Goal BucketKey bUseHierarchical = (true, F) := by
  unfold TryRequestReplanBudgeted
  rw [if_pos h]

/-- A queued task whose bucket is already in flight when it runs issues no path query. -/
theorem FollowRunTask_in_flight (NavSys : Option NavService) (hasNavData : Bool)
    (F : FollowState) (task : FReplanTask) (h : task.BucketKey ∈ F.InFlightBuckets_GT) :
    FollowRunTask NavSys hasNavData F task = (F, false) := by
  unfold FollowRunTask
  cases NavSys with
  | none => rfl
  | some nav =>
    simp only
    split_ifs
    · rfl
    · rfl

/-! ## TargetCache: claim C24 -/

/-- A run that reads a pawn, visits a chunk and finds the fragment stamped with another world
time stores the raw location, the projection pair and the world time. -/
theorem CachePlayerExecute_stores (RawLoc : FVector) (Nav : Option NavService) (Now : ℚ)
    (n : Nat) (Shared : FPlayerSharedFragment) (hn : 0 < n)
    (hnew : Shared.LastUpdateSeconds ≠ Now) :
    CachePlayerExecute (some RawLoc) Nav Now n Shared
      = { PlayerLocation := RawLoc,
          PlayerLocation2D := { X := RawLoc.X, Y := RawLoc.Y },
          PlayerNavLocation := (CachePlayerProject Nav RawLoc).1,
          bIsOnNavMesh := (CachePlayerProject Nav RawLoc).2,
          LastUpdateSeconds := Now } := by
  cases n with
  | zero => omega
  | succ m =>
    simp only [CachePlayerExecute, CachePlayerChunks]
    rw [CachePlayerChunks_of_eq _ _ _ _ _ _ (CachePlayerChunk_time _ _ _ _ _)]
    unfold CachePlayerChunk
    rw [if_neg hnew]

/-- C23 as stated fails: the target cache holds `bIsOnNavMesh = false` with a navmesh
projection 60 units below the target, so `bHaveProjectedGoal` is true through its distance
clause, and PathReplan groups both agents, queries a path and publishes it. -/
theorem PathReplan_plans_to_projection_off_mesh :
    samplePlayerOffMesh.bIsOnNavMesh = false ∧
    sampleWorld.Chunks.map (fun c => c.map (fun e => (e.Path.bHasPath, e.Path.PointsRef)))
      = [[(false, none), (false, none)]] ∧
    (PathReplanWorld (some sampleNavStraight) sampleMath (fun _ => 0) 0 0 (1 / 60)
        FSwarmMovementParamsFragment.default samplePlayerOffMesh (fun _ => 0)
        sampleWorld).Chunks.map (fun c => c.map (fun e => (e.Path.bHasPath, e.Path.PointsRef)))
      = [[(true, some [{ X := 10, Y := 0, Z := 0 }, { X := 5000, Y := 0, Z := 0 }]),
          (true, some [{ X := 10, Y := 0, Z := 0 }, { X := 5000, Y := 0, Z := 0 }])]] ∧
    (PathReplanWorld (some sampleNavStraight) sampleMath (fun _ => 0) 0 0 (1 / 60)
        FSwarmMovementParamsFragment.default samplePlayerOffMesh (fun _ => 0)
        sampleWorld).Prof.RepathsUsed = 1 := by
  decide!

theorem ReplanGatherStep_skip (env : PathReplanEnv) (i : Nat) (e : FSwarmEntity)
    (Groups : List (FPathKey × List FPendingEntity))
    (h : bHaveProjectedGoal env.Player = false) :
    ReplanGatherStep env i e Groups = (replanTimers env.Dt e, Groups) := by
  unfold ReplanGatherStep
  simp only
  rw [if_pos (Or.inr h)]
  rfl

theorem ReplanGatherLoop_skip (env : PathReplanEnv) (chunk : List FSwarmEntity) (i : Nat)
    (Groups : List (FPathKey × List FPendingEntity))
    (h : bHaveProjectedGoal env.Player = false) :
    ReplanGatherLoop env i chunk Groups = (chunk.map (replanTimers env.Dt), Groups) := by
  induction chunk generalizing i Groups with
  | nil => rfl
  | cons e rest ih =>
    simp only [ReplanGatherLoop, ReplanGatherStep_skip env i e Groups h, ih, List.map_cons]

theorem PathReplanChunk_skip (env : PathReplanEnv) (Now : ℚ) (st : PathReplanState)
    (chunk : List FSwarmEntity) (h : bHaveProjectedGoal env.Player = false) :
    (PathReplanChunk env Now st chunk).2
      = (if ShouldProcessChunkThisFrame env.GFrameNumber env.GetTypeHash chunk 8 = false
          then chunk else chunk.map (replanTimers env.Dt)) ∧
    (PathReplanChunk env Now st chunk).1.G = st.G ∧
    ((PathReplanChunk env Now st chunk).1.Prof = st.Prof ∨
      (PathReplanChunk env Now st chunk).1.Prof = { st.Prof with RepathsUsed := 0 }) := by
  unfold PathReplanChunk
  simp only [ReplanGatherLoop_skip env chunk 0 [] h, List.length_nil, true_or, ↓reduceIte]
  split_ifs <;> simp

theorem PathReplanChunks_skip (env : PathReplanEnv) (clock : Nat → ℚ)
    (chunks : List (List FSwarmEntity)) (i : Nat) (st : PathReplanState)
    (h : bHaveProjectedGoal env.Player = false) :
    (PathReplanChunks env clock i st chunks).2
      = chunks.map (fun chunk =>
          if ShouldProcessChunkThisFrame env.GFrameNumber env.GetTypeHash chunk 8 = false
            then chunk else chunk.map (replanTimers env.Dt)) ∧
    (PathReplanChunks env clock i st chunks).1.G = st.G ∧
    ((PathReplanChunks env clock i st chunks).1.Prof = st.Prof ∨
      (PathReplanChunks env clock i st chunks).1.Prof = { st.Prof with RepathsUsed := 0 }) := by
  induction chunks generalizing i st with
  | nil => exact ⟨rfl, rfl, Or.inl rfl⟩
  | cons chunk rest ih =>
    obtain ⟨a, b, c⟩ := PathReplanChunk_skip env (clock i) st chunk h
    obtain ⟨a2, b2, c2⟩ := ih (i + 1) (PathReplanChunk env (clock i) st chunk).1
    simp only [PathReplanChunks, List.map_cons]
    refine ⟨?_, ?_, ?_⟩
    · rw [a, a2]
    · rw [b2, b]
    · rcases c with c | c <;> rcases c2 with c2 | c2
      · left; rw [c2, c]
      · right; rw [c2, c]
      · right; rw [c2, c]
      · right; rw [c2, c]

theorem PathReplanChunk_nav_skip (env : PathReplanEnv) (nav2 : NavService) (Now : ℚ)
    (st : PathReplanState) (chunk : List FSwarmEntity)
    (h : bHaveProjectedGoal env.Player = false) :
    PathReplanChunk { env with NavSys := nav2 } Now st chunk
      = PathReplanChunk env Now st chunk := by
  have h2 : bHaveProjectedGoal ({ env with NavSys := nav2 } : PathReplanEnv).Player = false := h
  unfold PathReplanChunk
  simp only [ReplanGatherLoop_skip env chunk 0 [] h,
    ReplanGatherLoop_skip { env with NavSys := nav2 } chunk 0 [] h2, List.length_nil, true_or,
    ↓reduceIte]

theorem PathReplanChunks_nav_skip (env : PathReplanEnv) (nav2 : NavService)
    (clock : Nat → ℚ) (chunks : List (List FSwarmEntity)) (i : Nat) (st : PathReplanState)
    (h : bHaveProjectedGoal env.Player = false) :
    PathReplanChunks { env with NavSys := nav2 } clock i st chunks
      = PathReplanChunks env clock i st chunks := by
  induction chunks generalizing i st with
  | nil => rfl
  | cons chunk rest ih =>
    simp only [PathReplanChunks]
    rw [PathReplanChunk_nav_skip env nav2 (clock i) st chunk h, ih]

/-- C23, amended: when the target cache has `bIsOnNavMesh = false` and its navmesh location is
within 1 unit of the target position (squared distance at most 1, as TargetCache stores it when
the projection fails), PathReplan records no agent into a group, its result does not depend on
the navigation system (no query), the path cache and the solve stamps stay as they are, and
in every processed chunk each agent only has `PathAge` advanced by `Dt` and `RepathCooldown`
run down by `Dt`: `PointsRef`, `Index`, `bHasPath` and `LastGoal` are unchanged. -/
theorem PathReplan_skips_without_projected_goal (nav : NavService) (M : FMathOps)
    (GetTypeHash : Nat → Nat) (FrameIdx GFrameNumber : Nat) (Dt : ℚ)
    (Params : FSwarmMovementParamsFragment) (Player : FPlayerSharedFragment) (clock : Nat → ℚ)
    (Prof : FSwarmProfilerSharedFragment) (G : PathGlobals) (chunks : List (List FSwarmEntity))
    (hmesh : Player.bIsOnNavMesh = false)
    (hnear : FVector.DistSquared Player.PlayerNavLocation Player.PlayerLocation ≤ 1) :
    (∀ (i : Nat) (chunk : List FSwarmEntity) (Groups : List (FPathKey × List FPendingEntity)),
      (ReplanGatherLoop
        { NavSys := nav, M := M, GetTypeHash := GetTypeHash, FrameIdx := FrameIdx,
          GFrameNumber := GFrameNumber, Dt := Dt, Params := Params, Player := Player }
        i chunk Groups).2 = Groups) ∧
    (∀ nav2 : NavService,
      PathReplanExecute (some nav2) M GetTypeHash FrameIdx GFrameNumber Dt Params Player clock
          Prof G chunks
        = PathReplanExecute (some nav) M GetTypeHash FrameIdx GFrameNumber Dt Params Player
          clock Prof G chunks) ∧
    (PathReplanExecute (some nav) M GetTypeHash FrameIdx GFrameNumber Dt Params Player clock
        Prof G chunks).2.1 = G ∧
    (PathReplanExecute (some nav) M GetTypeHash FrameIdx GFrameNumber Dt Params Player clock
        Prof G chunks).2.2
      = chunks.map (fun chunk =>
          if ShouldProcessChunkThisFrame GFrameNumber GetTypeHash chunk 8 = false
            then chunk else chunk.map (replanTimers Dt)) ∧
    (∀ e : FSwarmEntity,
      (replanTimers Dt e).Path.PointsRef = e.Path.PointsRef ∧
      (replanTimers Dt e).Path.Index = e.Path.Index ∧
      (replanTimers Dt e).Path.bHasPath = e.Path.bHasPath ∧
      (replanTimers Dt e).Path.LastGoal = e.Path.LastGoal) := by
  have hgoal : ∀ n : NavService, bHaveProjectedGoal
      ({ NavSys := n, M := M, GetTypeHash := GetTypeHash, FrameIdx := FrameIdx,
         GFrameNumber := GFrameNumber, Dt := Dt, Params := Params,
         Player := Player } : PathReplanEnv).Player = false := by
    intro n
    unfold bHaveProjectedGoal
    simp only [hmesh, Bool.false_or, decide_eq_false_iff_not, not_lt]
    exact hnear
  have hrun : ∀ n : NavService,
      PathReplanExecute (some n) M GetTypeHash FrameIdx GFrameNumber Dt Params Player clock
          Prof G chunks
        = ((PathReplanChunks
            { NavSys := n, M := M, GetTypeHash := GetTypeHash, FrameIdx := FrameIdx,
              GFrameNumber := GFrameNumber, Dt := Dt, Params := Params, Player := Player }
            clock 0 { Prof := Prof, G := G, bRepathBudgetReset := false } chunks).1.Prof,
           (PathReplanChunks
            { NavSys := n, M := M, GetTypeHash := GetTypeHash, FrameIdx := FrameIdx,
              GFrameNumber := GFrameNumber, Dt := Dt, Params := Params, Player := Player }
            clock 0 { Prof := Prof, G := G, bRepathBudgetReset := false } chunks).1.G,
           (PathReplanChunks
            { NavSys := n, M := M, GetTypeHash := GetTypeHash, FrameIdx := FrameIdx,
              GFrameNumber := GFrameNumber, Dt := Dt, Params := Params, Player := Player }
            clock 0 { Prof := Prof, G := G, bRepathBudgetReset := false } chunks).2) := by
    intro n
    rfl
  have hsk := fun n : NavService => PathReplanChunks_skip
    { NavSys := n, M := M, GetTypeHash := GetTypeHash, FrameIdx := FrameIdx,
      GFrameNumber := GFrameNumber, Dt := Dt, Params := Params, Player := Player }
    clock chunks 0 { Prof := Prof, G := G, bRepathBudgetReset := false } (hgoal n)
  refine ⟨?_, ?_, ?_, ?_, fun e => ⟨rfl, rfl, rfl, rfl⟩⟩
  · intro i chunk Groups
    rw [ReplanGatherLoop_skip _ chunk i Groups (hgoal nav)]
  · intro nav2
    rw [hrun nav2, hrun nav]
    have := PathReplanChunks_nav_skip
      { NavSys := nav, M := M, GetTypeHash := GetTypeHash, FrameIdx := FrameIdx,
        GFrameNumber := GFrameNumber, Dt := Dt, Params := Params, Player := Player }
      nav2 clock chunks 0 { Prof := Prof, G := G, bRepathBudgetReset := false } (hgoal nav)
    rw [← this]
  · rw [hrun nav]
    exact (hsk nav).2.1
  · rw [hrun nav]
    exact (hsk nav).1

/-- At the input of C23: the target cache stored without a navigation system, where the
navmesh location is the raw target position. -/
theorem PathReplan_skips_without_projected_goal_witness :
    samplePlayerNoNav.bIsOnNavMesh = false ∧
    FVector.DistSquared samplePlayerNoNav.PlayerNavLocation samplePlayerNoNav.PlayerLocation
      ≤ 1 ∧
    (PathReplanExecute (some sampleNavStraight) sampleMath (fun _ => 0) 0 0 (1 / 60)
        FSwarmMovementParamsFragment.default samplePlayerNoNav (fun _ => 0) sampleProf
        PathGlobals.init sampleWorld.Chunks).2.1 = PathGlobals.init ∧
    (PathReplanExecute (some sampleNavStraight) sampleMath (fun _ => 0) 0 0 (1 / 60)
        FSwarmMovementParamsFragment.default samplePlayerNoNav (fun _ => 0) sampleProf
        PathGlobals.init sampleWorld.Chunks).2.2
      = sampleWorld.Chunks.map (fun chunk =>
          if ShouldProcessChunkThisFrame 0 (fun _ => 0) chunk 8 = false
            then chunk else chunk.map (replanTimers (1 / 60))) :=
  ⟨by decide!, by decide!,
   (PathReplan_skips_without_projected_goal sampleNavStraight sampleMath (fun _ => 0) 0 0
      (1 / 60) FSwarmMovementParamsFragment.default samplePlayerNoNav (fun _ => 0) sampleProf
      PathGlobals.init sampleWorld.Chunks (by decide!) (by decide!)).2.2.1,
   (PathReplan_skips_without_projected_goal sampleNavStraight sampleMath (fun _ => 0) 0 0
      (1 / 60) FSwarmMovementParamsFragment.default samplePlayerNoNav (fun _ => 0) sampleProf
      PathGlobals.init sampleWorld.Chunks (by decide!) (by decide!)).2.2.2.1⟩

/-! ## Follow: claim C21 -/

theorem followTimers_LastGoal (Dt : ℚ) (Prof : FSwarmProfilerSharedFragment)
    (Path : FSwarmPathStateFragment) :
    (followTimers Dt Prof Path).2.LastGoal = Path.LastGoal := by
  unfold followTimers
  simp only
  split_ifs <;> rfl

theorem followTimers_DirectChaseCount (Dt : ℚ) (Prof : FSwarmProfilerSharedFragment)
    (Path : FSwarmPathStateFragment) :
    (followTimers Dt Prof Path).1.DirectChaseCount = Prof.DirectChaseCount := rfl

/-- The direct-chase test on the path state after the waypoint advance. -/
theorem followChase_direct (env : FollowEnv) (Prof : FSwarmProfilerSharedFragment)
    (e : FSwarmEntity) (Path2 : FSwarmPathStateFragment) (target1 : FVector)
    (h : e.Sense.bLOS = true ∧
      (Path2.NumPoints ≤ 2 ∨ Path2.Index ≥ max 1 (Path2.NumPoints - 2)) ∧
      FVector.DistSquared2D e.Location e.Sense.TargetLocation
        ≤ Square env.Params.DirectChaseRange) :
    followChase env Prof e Path2 target1
      = some ((e.Sense.TargetLocation, { Path2 with LastGoal := e.Sense.TargetLocation },
          { e.Window with bValid := false },
          { Prof with DirectChaseCount := Prof.DirectChaseCount + 1 }), true) := by
  have hb : (e.Sense.bLOS && (decide (Path2.NumPoints ≤ 2) ||
      decide (Path2.Index ≥ max 1 (Path2.NumPoints - 2))) &&
      decide (FVector.DistSquared2D e.Location e.Sense.TargetLocation
        ≤ Square env.Params.DirectChaseRange)) = true := by
    simp only [Bool.and_eq_true, Bool.or_eq_true, decide_eq_true_eq]
    exact ⟨⟨h.1, h.2.1⟩, h.2.2⟩
  unfold followChase
  simp only [hb, ↓reduceIte]

theorem followChase_window (env : FollowEnv) (Prof : FSwarmProfilerSharedFragment)
    (e : FSwarmEntity) (Path2 : FSwarmPathStateFragment) (target1 : FVector)
    (hnum : 1 ≤ Path2.NumPoints)
    (h : ¬ (e.Sense.bLOS = true ∧
      (Path2.NumPoints ≤ 2 ∨ Path2.Index ≥ max 1 (Path2.NumPoints - 2)) ∧
      FVector.DistSquared2D e.Location e.Sense.TargetLocation
        ≤ Square env.Params.DirectChaseRange)) :
    ∃ W, BuildSmallWindowIfAllowed env.M env.FrameIdx e.Policy Path2 e.Window = some W ∧
      followChase env Prof e Path2 target1 = some ((target1, Path2, W, Prof), false) := by
  have hb : (e.Sense.bLOS && (decide (Path2.NumPoints ≤ 2) ||
      decide (Path2.Index ≥ max 1 (Path2.NumPoints - 2))) &&
      decide (FVector.DistSquared2D e.Location e.Sense.TargetLocation
        ≤ Square env.Params.DirectChaseRange)) = false := by
    rw [Bool.eq_false_iff]
    intro hc
    simp only [Bool.and_eq_true, Bool.or_eq_true, decide_eq_true_eq] at hc
    exact h ⟨hc.1.1, hc.1.2, hc.2⟩
  obtain ⟨W, hW⟩ := BuildSmallWindowIfAllowed_isSome env.M env.FrameIdx e.Policy Path2
    e.Window hnum
  refine ⟨W, hW, ?_⟩
  unfold followChase
  simp only [hb, Bool.false_eq_true, ↓reduceIte, hW]

/-- C21: for an agent whose path is fresh, after the waypoint advance Follow takes the
direct-chase branch if and only if `bLOS` is true, the agent is on the last segment
(`NumPoints <= 2` or `Index >= max(1, NumPoints - 2)`) and its squared 2D distance to the target
is at most `DirectChaseRange^2`; on that branch the steering target is the target position
(the path direction points at it), the window is invalidated and `DirectChaseCount` grows by
exactly 1; on the other branch `DirectChaseCount` is unchanged. -/
theorem Follow_direct_chase (env : FollowEnv) (st : FollowLoopState) (e : FSwarmEntity)
    (hfresh : (followPickup env st.F e).2 = true) :
    ∃ target0 Path2 target1 chase st1 e1,
      (followPickup env st.F e).1.Point (followPickup env st.F e).1.Index = some target0 ∧
      AdvanceWaypointIfClose env.Params (followPickup env st.F e).1 e.Location target0
        = some (Path2, target1) ∧
      followChase env st.Prof e Path2 target1 = some chase ∧
      FollowEntityStep env st e = some (st1, e1) ∧
      (chase.2 = true ↔
        (e.Sense.bLOS = true ∧
          (Path2.NumPoints ≤ 2 ∨ Path2.Index ≥ max 1 (Path2.NumPoints - 2)) ∧
          FVector.DistSquared2D e.Location e.Sense.TargetLocation
            ≤ Square env.Params.DirectChaseRange)) ∧
      (chase.2 = true →
        chase.1.1 = e.Sense.TargetLocation ∧
        e1.Separation.PathDir
          = FVector.GetSafeNormal2D env.M (e.Sense.TargetLocation.sub e.Location) ∧
        e1.Path.LastGoal = e.Sense.TargetLocation ∧
        e1.Window.bValid = false ∧
        st1.Prof.DirectChaseCount = st.Prof.DirectChaseCount + 1) ∧
      (chase.2 = false →
        chase.1.1 = target1 ∧
        st1.Prof.DirectChaseCount = st.Prof.DirectChaseCount) := by
  obtain ⟨h0, h1⟩ := followPickup_fresh_range env st.F e hfresh
  obtain ⟨target0, ht⟩ := Point_isSome (followPickup env st.F e).1 _ h0 h1
  obtain ⟨⟨Path2, target1⟩, ha, ha0, ha1⟩ := AdvanceWaypointIfClose_isSome env.Params
    (followPickup env st.F e).1 e.Location target0 h0 h1
  have hnum : 1 ≤ Path2.NumPoints := by
    simp only at ha0 ha1
    omega
  have hstep : FollowEntityStep env st e = followSteer env st e (followPickup env st.F e).1 := by
    unfold FollowEntityStep
    simp only [hfresh, Bool.true_eq_false, ↓reduceIte]
  obtain ⟨⟨st1, e1⟩, hs⟩ := followSteer_isSome env st e _ h0 h1
  have hs2 := hs
  unfold followSteer at hs2
  by_cases hc : e.Sense.bLOS = true ∧
      (Path2.NumPoints ≤ 2 ∨ Path2.Index ≥ max 1 (Path2.NumPoints - 2)) ∧
      FVector.DistSquared2D e.Location e.Sense.TargetLocation
        ≤ Square env.Params.DirectChaseRange
  · have hch := followChase_direct env st.Prof e Path2 target1 hc
    simp only [ht, ha, hch, Option.some.injEq, Prod.mk.injEq] at hs2
    obtain ⟨hst, he⟩ := hs2
    refine ⟨target0, Path2, target1, _, st1, e1, ht, ha, hch, hstep.trans hs, ?_, ?_, ?_⟩
    · exact ⟨fun _ => hc, fun _ => rfl⟩
    · intro _
      rw [← hst, ← he]
      refine ⟨rfl, ?_, ?_, rfl, ?_⟩
      · show followPathDir env e e.Sense.TargetLocation true = _
        unfold followPathDir
        simp only [Bool.true_eq_false, false_and, ↓reduceIte]
      · exact followTimers_LastGoal (Clamp env.DeltaTimeSeconds 0 (1 / 20))
          { st.Prof with DirectChaseCount := st.Prof.DirectChaseCount + 1 }
          { Path2 with LastGoal := e.Sense.TargetLocation }
      · rfl
    · intro hf
      exact absurd hf (by simp)
  · obtain ⟨W, hW, hch⟩ := followChase_window env st.Prof e Path2 target1 hnum hc
    simp only [ht, ha, hch, Option.some.injEq, Prod.mk.injEq] at hs2
    obtain ⟨hst, he⟩ := hs2
    refine ⟨target0, Path2, target1, _, st1, e1, ht, ha, hch, hstep.trans hs, ?_, ?_, ?_⟩
    · exact ⟨fun hf => absurd hf (by simp), fun h => absurd h hc⟩
    · intro hf
      exact absurd hf (by simp)
    · intro _
      rw [← hst]
      exact ⟨rfl, rfl⟩

/-- At the input of C21: the agent 100 units from the target with line of sight, on a fresh
path of three points. -/
theorem Follow_direct_chase_witness :
    (followPickup sampleFollowEnv FollowState.init sampleChasingEntity).2 = true ∧
    ∃ st1 e1, FollowEntityStep sampleFollowEnv { Prof := sampleProf, F := FollowState.init }
      sampleChasingEntity = some (st1, e1) :=
  ⟨by decide!,
   match Follow_direct_chase sampleFollowEnv { Prof := sampleProf, F := FollowState.init }
     sampleChasingEntity (by decide!) with
   | ⟨_, _, _, _, st1, e1, _, _, _, h, _⟩ => ⟨st1, e1, h⟩⟩

/-- The agent with line of sight takes the direct-chase branch: the count goes from 0 to 1, the
window is invalid and the path direction points along the x axis at the target; the same agent
without line of sight leaves the count at 0 and gets a valid window. -/
theorem Follow_direct_chase_example :
    (FollowEntityStep sampleFollowEnv { Prof := sampleProf, F := FollowState.init }
        sampleChasingEntity).map
        (fun r => (r.1.Prof.DirectChaseCount, r.2.Window.bValid, r.2.Separation.PathDir.Y,
          r.2.Path.Index))
      = some (1, false, 0, 2) ∧
    (FollowEntityStep sampleFollowEnv { Prof := sampleProf, F := FollowState.init }
        samplePressedEntity).map
        (fun r => (r.1.Prof.DirectChaseCount, r.2.Window.bValid, r.2.Path.Index))
      = some (0, true, 2) := by
  decide!

/-! ## The path window: claim C22 -/

/-- The three clamped window indices are ordered and inside the list. -/
theorem window_indices (Index num : Int) (hnum : 1 ≤ num) :
    0 ≤ Clamp Index 0 (max 0 (num - 1)) ∧
    Clamp Index 0 (max 0 (num - 1)) ≤ Clamp (Clamp Index 0 (max 0 (num - 1)) + 1) 0
      (max 0 (num - 1)) ∧
    Clamp (Clamp Index 0 (max 0 (num - 1)) + 1) 0 (max 0 (num - 1))
      ≤ Clamp (Clamp (Clamp Index 0 (max 0 (num - 1)) + 1) 0 (max 0 (num - 1)) + 1) 0
        (max 0 (num - 1)) ∧
    Clamp (Clamp (Clamp Index 0 (max 0 (num - 1)) + 1) 0 (max 0 (num - 1)) + 1) 0
        (max 0 (num - 1)) ≤ num - 1 := by
  have hmax : max 0 (num - 1) = num - 1 := by
    apply max_eq_right; omega
  rw [hmax]
  unfold Clamp
  omega

/-- Lagrange's identity bounds the cross product of two plane vectors by the product of their
lengths. -/
theorem abs_cross_le (ax ay bx b_y L1 L2 : ℚ) (h1 : 0 < L1) (h2 : 0 < L2)
    (hL1 : L1 ^ 2 = ax * ax + ay * ay) (hL2 : L2 ^ 2 = bx * bx + b_y * b_y) :
    |ax * b_y - ay * bx| ≤ L1 * L2 := by
  have hpos : 0 ≤ L1 * L2 := by positivity
  apply abs_le_of_sq_le_sq _ hpos
  have : (L1 * L2) ^ 2 - (ax * b_y - ay * bx) ^ 2 = (ax * bx + ay * b_y) ^ 2 := by
    rw [mul_pow, hL1, hL2]
    ring
  nlinarith [sq_nonneg (ax * bx + ay * b_y)]

/-- The stored curvature against the closed form, for any values `a`, `b` of the inverse
square roots of the two squared lengths. -/
theorem curvature_facts (ax ay bx b_y a b : ℚ) :
    (ax * b_y - ay * bx = 0 →
      (if ax * ax + ay * ay > 1 / 1000000 ∧ bx * bx + b_y * b_y > 1 / 1000000 then
        |ax * b_y - ay * bx| * a * b * a else 0) = 0) ∧
    (0 ≤ b →
      0 ≤ (if ax * ax + ay * ay > 1 / 1000000 ∧ bx * bx + b_y * b_y > 1 / 1000000 then
        |ax * b_y - ay * bx| * a * b * a else 0)) ∧
    (ax * ax + ay * ay > 1 / 1000000 ∧ bx * bx + b_y * b_y > 1 / 1000000 →
      (if ax * ax + ay * ay > 1 / 1000000 ∧ bx * bx + b_y * b_y > 1 / 1000000 then
        |ax * b_y - ay * bx| * a * b * a else 0) ^ 2
          * (ax * ax + ay * ay) ^ 2 * (bx * bx + b_y * b_y)
        = (ax * b_y - ay * bx) ^ 2 * (a * a * (ax * ax + ay * ay)) ^ 2
          * (b * b * (bx * bx + b_y * b_y))) ∧
    (if ax * ax + ay * ay > 1 / 1000000 ∧ bx * bx + b_y * b_y > 1 / 1000000 then
        |ax * b_y - ay * bx| * a * b * a else 0) ^ 2 * (ax * ax + ay * ay)
      ≤ (a * a * (ax * ax + ay * ay)) ^ 2 * (b * b * (bx * bx + b_y * b_y)) := by
  have hl1 : 0 ≤ ax * ax + ay * ay := by nlinarith [mul_self_nonneg ax, mul_self_nonneg ay]
  have hl2 : 0 ≤ bx * bx + b_y * b_y := by nlinarith [mul_self_nonneg bx, mul_self_nonneg b_y]
  have hq2 : 0 ≤ b * b * (bx * bx + b_y * b_y) := mul_nonneg (mul_self_nonneg b) hl2
  have hlag : (ax * b_y - ay * bx) ^ 2 ≤ (ax * ax + ay * ay) * (bx * bx + b_y * b_y) := by
    nlinarith [sq_nonneg (ax * bx + ay * b_y)]
  refine ⟨?_, ?_, ?_, ?_⟩
  · intro hc
    rw [hc]
    simp
  · intro hb
    split_ifs
    · have := abs_nonneg (ax * b_y - ay * bx)
      have h1 : 0 ≤ |ax * b_y - ay * bx| * a * a := by
        rw [mul_assoc]
        exact mul_nonneg this (mul_self_nonneg a)
      nlinarith
    · exact le_refl _
  · intro h
    rw [if_pos h]
    have : (|ax * b_y - ay * bx| * a * b * a) ^ 2
        = (ax * b_y - ay * bx) ^ 2 * (a * a) ^ 2 * (b * b) := by
      rw [mul_pow, mul_pow, mul_pow, sq_abs]
      ring
    rw [this]
    ring
  · split_ifs
    · have : (|ax * b_y - ay * bx| * a * b * a) ^ 2
          = (ax * b_y - ay * bx) ^ 2 * (a * a) ^ 2 * (b * b) := by
        rw [mul_pow, mul_pow, mul_pow, sq_abs]
        ring
      rw [this]
      have hnn : 0 ≤ (a * a) ^ 2 * (b * b) * (ax * ax + ay * ay) :=
        mul_nonneg (mul_nonneg (sq_nonneg _) (mul_self_nonneg b)) hl1
      calc (ax * b_y - ay * bx) ^ 2 * (a * a) ^ 2 * (b * b) * (ax * ax + ay * ay)
          = (ax * b_y - ay * bx) ^ 2 * ((a * a) ^ 2 * (b * b) * (ax * ax + ay * ay)) := by ring
        _ ≤ ((ax * ax + ay * ay) * (bx * bx + b_y * b_y))
              * ((a * a) ^ 2 * (b * b) * (ax * ax + ay * ay)) :=
            mul_le_mul_of_nonneg_right hlag hnn
        _ = (a * a * (ax * ax + ay * ay)) ^ 2 * (b * b * (bx * bx + b_y * b_y)) := by ring
    · have : (0 : ℚ) ^ 2 * (ax * ax + ay * ay) = 0 := by ring
      rw [this]
      exact mul_nonneg (sq_nonneg _) hq2

/-- With at least 1 point, in a frame the follow mask lets through, the window is built from
three in-bounds points and stores the curvature computed with the inverse square root. -/
theorem BuildSmallWindowIfAllowed_window (M : FMathOps) (FrameIdx : Nat)
    (Policy : FSwarmUpdatePolicyFragment) (Path : FSwarmPathStateFragment)
    (Window : FSwarmPathWindowFragment) (hnum : 1 ≤ Path.NumPoints)
    (hgate : FrameIdx &&& Policy.FollowMask = 0) :
    ∃ W : FSwarmPathWindowFragment,
      Path.Point (Clamp Path.Index 0 (max 0 (Path.NumPoints - 1))) = some W.P0 ∧
      Path.Point (Clamp (Clamp Path.Index 0 (max 0 (Path.NumPoints - 1)) + 1) 0
        (max 0 (Path.NumPoints - 1))) = some W.P1 ∧
      Path.Point (Clamp (Clamp (Clamp Path.Index 0 (max 0 (Path.NumPoints - 1)) + 1) 0
        (max 0 (Path.NumPoints - 1)) + 1) 0 (max 0 (Path.NumPoints - 1))) = some W.P2 ∧
      BuildSmallWindowIfAllowed M FrameIdx Policy Path Window = some W ∧
      W.bValid = true ∧
      W.Curvature
        = (if windowL01Sq W > 1 / 1000000 ∧ windowL12Sq W > 1 / 1000000 then
            |windowCross W| * M.InvSqrt (windowL01Sq W) * M.InvSqrt (windowL12Sq W)
              * M.InvSqrt (windowL01Sq W)
          else 0) := by
  have hidx := window_indices Path.Index Path.NumPoints hnum
  obtain ⟨h0, h01, h12, h2⟩ := hidx
  obtain ⟨p0, hp0⟩ := Point_isSome Path _ h0 (by omega)
  obtain ⟨p1, hp1⟩ := Point_isSome Path _ (le_trans h0 h01) (by omega)
  obtain ⟨p2, hp2⟩ := Point_isSome Path _ (le_trans (le_trans h0 h01) h12) (by omega)
  have hbuild : BuildSmallWindowIfAllowed M FrameIdx Policy Path Window
      = some { P0 := p0, P1 := p1, P2 := p2,
               Tangent2D :=
                 { X := (if (p1.X - p0.X) * (p1.X - p0.X) + (p1.Y - p0.Y) * (p1.Y - p0.Y)
                      > 1 / 1000000 then
                     ({ X := (p1.X - p0.X) * M.InvSqrt ((p1.X - p0.X) * (p1.X - p0.X)
                            + (p1.Y - p0.Y) * (p1.Y - p0.Y)),
                        Y := (p1.Y - p0.Y) * M.InvSqrt ((p1.X - p0.X) * (p1.X - p0.X)
                            + (p1.Y - p0.Y) * (p1.Y - p0.Y)) } : FVector2D)
                     else { X := 0, Y := 0 }).X,
                   Y := (if (p1.X - p0.X) * (p1.X - p0.X) + (p1.Y - p0.Y) * (p1.Y - p0.Y)
                      > 1 / 1000000 then
                     ({ X := (p1.X - p0.X) * M.InvSqrt ((p1.X - p0.X) * (p1.X - p0.X)
                            + (p1.Y - p0.Y) * (p1.Y - p0.Y)),
                        Y := (p1.Y - p0.Y) * M.InvSqrt ((p1.X - p0.X) * (p1.X - p0.X)
                            + (p1.Y - p0.Y) * (p1.Y - p0.Y)) } : FVector2D)
                     else { X := 0, Y := 0 }).Y,
                   Z := 0 },
               Curvature :=
                 (if (p1.X - p0.X) * (p1.X - p0.X) + (p1.Y - p0.Y) * (p1.Y - p0.Y)
                       > 1 / 1000000 ∧
                     (p2.X - p1.X) * (p2.X - p1.X) + (p2.Y - p1.Y) * (p2.Y - p1.Y)
                       > 1 / 1000000 then
                   |(p1.X - p0.X) * (p2.Y - p1.Y) - (p1.Y - p0.Y) * (p2.X - p1.X)|
                     * M.InvSqrt ((p1.X - p0.X) * (p1.X - p0.X) + (p1.Y - p0.Y) * (p1.Y - p0.Y))
                     * M.InvSqrt ((p2.X - p1.X) * (p2.X - p1.X) + (p2.Y - p1.Y) * (p2.Y - p1.Y))
                     * M.InvSqrt ((p1.X - p0.X) * (p1.X - p0.X) + (p1.Y - p0.Y) * (p1.Y - p0.Y))
                  else 0),
               bValid := true } := by
    unfold BuildSmallWindowIfAllowed
    simp only [hgate, ne_eq, not_true_eq_false, ↓reduceIte, hp0, hp1, hp2]
  exact ⟨_, hp0, hp1, hp2, hbuild, rfl, rfl⟩

/-- What the stored curvature of a window satisfies, for any inverse square root. -/
theorem windowCurvature_facts (M : FMathOps) (W : FSwarmPathWindowFragment)
    (hc : W.Curvature
        = (if windowL01Sq W > 1 / 1000000 ∧ windowL12Sq W > 1 / 1000000 then
            |windowCross W| * M.InvSqrt (windowL01Sq W) * M.InvSqrt (windowL12Sq W)
              * M.InvSqrt (windowL01Sq W)
          else 0)) :
    (windowCross W = 0 → W.Curvature = 0) ∧
    (0 ≤ M.InvSqrt (windowL12Sq W) → 0 ≤ W.Curvature) ∧
    (windowL01Sq W > 1 / 1000000 ∧ windowL12Sq W > 1 / 1000000 →
      W.Curvature ^ 2 * windowL01Sq W ^ 2 * windowL12Sq W
        = windowCross W ^ 2 * invSqrtFactor M (windowL01Sq W) ^ 2
          * invSqrtFactor M (windowL12Sq W)) ∧
    W.Curvature ^ 2 * windowL01Sq W
      ≤ invSqrtFactor M (windowL01Sq W) ^ 2 * invSqrtFactor M (windowL12Sq W) ∧
    (invSqrtFactor M (windowL01Sq W) ≤ 1 → invSqrtFactor M (windowL12Sq W) ≤ 1 →
      W.Curvature ^ 2 * windowL01Sq W ≤ 1) ∧
    (∀ L01 L12 : ℚ, 0 < L01 → 0 < L12 →
      L01 ^ 2 = windowL01Sq W → L12 ^ 2 = windowL12Sq W →
      M.InvSqrt (windowL01Sq W) = 1 / L01 → M.InvSqrt (windowL12Sq W) = 1 / L12 →
      W.Curvature
        = (if L01 ^ 2 > 1 / 1000000 ∧ L12 ^ 2 > 1 / 1000000 then
            |windowCross W| / (L01 ^ 2 * L12)
          else 0) ∧
      0 ≤ W.Curvature ∧ W.Curvature * L01 ≤ 1) := by
  have hl1 : 0 ≤ windowL01Sq W := by
    unfold windowL01Sq
    nlinarith [mul_self_nonneg (W.P1.X - W.P0.X), mul_self_nonneg (W.P1.Y - W.P0.Y)]
  have hl2 : 0 ≤ windowL12Sq W := by
    unfold windowL12Sq
    nlinarith [mul_self_nonneg (W.P2.X - W.P1.X), mul_self_nonneg (W.P2.Y - W.P1.Y)]
  have hq1 : 0 ≤ invSqrtFactor M (windowL01Sq W) := mul_nonneg (mul_self_nonneg _) hl1
  have hq2 : 0 ≤ invSqrtFactor M (windowL12Sq W) := mul_nonneg (mul_self_nonneg _) hl2
  have hfacts : (windowCross W = 0 → W.Curvature = 0) ∧
      (0 ≤ M.InvSqrt (windowL12Sq W) → 0 ≤ W.Curvature) ∧
      (windowL01Sq W > 1 / 1000000 ∧ windowL12Sq W > 1 / 1000000 →
        W.Curvature ^ 2 * windowL01Sq W ^ 2 * windowL12Sq W
          = windowCross W ^ 2 * invSqrtFactor M (windowL01Sq W) ^ 2
            * invSqrtFactor M (windowL12Sq W)) ∧
      W.Curvature ^ 2 * windowL01Sq W
        ≤ invSqrtFactor M (windowL01Sq W) ^ 2 * invSqrtFactor M (windowL12Sq W) := by
    rw [hc]
    simp only [windowL01Sq, windowL12Sq, windowCross, invSqrtFactor]
    exact curvature_facts (W.P1.X - W.P0.X) (W.P1.Y - W.P0.Y) (W.P2.X - W.P1.X)
      (W.P2.Y - W.P1.Y) _ _
  obtain ⟨g1, g2, g3, g4⟩ := hfacts
  refine ⟨g1, g2, g3, g4, ?_, ?_⟩
  · intro hr1 hr2
    refine le_trans g4 ?_
    calc _ ≤ 1 * 1 := mul_le_mul (pow_le_one₀ hq1 hr1) hr2 hq2 (by norm_num)
      _ = 1 := by norm_num
  · intro L01 L12 hL01 hL12 hsq01 hsq12 hinv01 hinv12
    have hcr : |windowCross W| ≤ L01 * L12 := by
      unfold windowL01Sq at hsq01
      unfold windowL12Sq at hsq12
      unfold windowCross
      exact abs_cross_le (W.P1.X - W.P0.X) (W.P1.Y - W.P0.Y) (W.P2.X - W.P1.X)
        (W.P2.Y - W.P1.Y) L01 L12 hL01 hL12 hsq01 hsq12
    have hcurv : W.Curvature
        = (if L01 ^ 2 > 1 / 1000000 ∧ L12 ^ 2 > 1 / 1000000 then
            |windowCross W| / (L01 ^ 2 * L12)
          else 0) := by
      rw [hc, hinv01, hinv12, ← hsq01, ← hsq12]
      split_ifs
      · simp only [one_div]
        rw [div_eq_mul_inv, mul_inv]
        ring
      · rfl
    refine ⟨hcurv, ?_, ?_⟩
    · rw [hcurv]
      split_ifs
      · positivity
      · exact le_refl _
    · rw [hcurv]
      split_ifs
      · rw [div_mul_eq_mul_div, div_le_one (by positivity)]
        nlinarith [abs_nonneg (windowCross W)]
      · simp

/-- On the bent path the window holds the three points, the tangent (3/5, 4/5) and the
curvature 7/125. -/
theorem PathWindow_example :
    BuildSmallWindowIfAllowed sampleMathExact25 60 sampleYieldingEntity.Policy sampleBentPath
        sampleYieldingEntity.Window = some sampleBentWindow := by
  decide!

/-! ## Integrate and Perception without a navigation system: claim C25 -/

/-- C25: the safety the claim states does not hold in the code.  Without a navigation system,
an agent on the steering exit that needs a reprojection in a frame where the round-robin slot
fires makes Integrate dereference the null `NavSys`: the entity step, and with it the whole
pass, has no result.  The yielding exit of the same loop body guards the same calls and
completes, leaving `LastProjectedLocation` alone; a steering agent whose slot does not fire
completes too. -/
theorem Integrate_reprojects_through_null_NavSys :
    sampleIntegrateEnvNoNav.NavSys.isSome = false ∧
    onSteeringBranch sampleIntegrateEnvNoNav sampleUnprojectedEntity ∧
    IntegrateEntityStep sampleIntegrateEnvNoNav 0 sampleUnprojectedEntity = none ∧
    IntegrateExecute sampleIntegrateEnvNoNav 0 [[sampleUnprojectedEntity]] = none ∧
    (IntegrateEntityStep sampleIntegrateEnvNoNav 1 sampleUnprojectedEntity).isSome = true ∧
    (IntegrateEntityStep sampleIntegrateEnvNoNav 0 sampleYieldingEntity).map
        (fun out => out.2.Agent.LastProjectedLocation)
      = some sampleYieldingEntity.Agent.LastProjectedLocation := by
  decide!

/-- While the target cache says the target is off the navmesh, `ComputeLOS` does not touch
`NavSys`. -/
theorem ComputeLOS_isSome_off_mesh (env : PerceptionEnv) (From : FVector)
    (hoff : env.Player.bIsOnNavMesh = false) : (ComputeLOS env From).isSome = true := by
  unfold ComputeLOS
  simp [hoff]

theorem PerceptionEntityStep_isSome_off_mesh (env : PerceptionEnv)
    (Prof : FSwarmProfilerSharedFragment) (a : FSwarmEntity)
    (hoff : env.Player.bIsOnNavMesh = false) :
    (PerceptionEntityStep env Prof a).isSome = true := by
  unfold PerceptionEntityStep
  simp only
  split_ifs
  · simp
  · have hc := ComputeLOS_isSome_off_mesh env a.Location hoff
    cases hcl : ComputeLOS env a.Location with
    | none => simp [hcl] at hc
    | some b => simp
  · simp

theorem PerceptionEntityLoop_isSome_off_mesh (env : PerceptionEnv) (chunk : List FSwarmEntity)
    (Prof : FSwarmProfilerSharedFragment) (hoff : env.Player.bIsOnNavMesh = false) :
    (PerceptionEntityLoop env chunk Prof).isSome = true := by
  induction chunk generalizing Prof with
  | nil => simp [PerceptionEntityLoop]
  | cons a rest ih =>
    obtain ⟨⟨Prof1, a1⟩, hs⟩ := Option.isSome_iff_exists.mp
      (PerceptionEntityStep_isSome_off_mesh env Prof a hoff)
    obtain ⟨⟨Prof2, rest1⟩, hl⟩ := Option.isSome_iff_exists.mp (ih Prof1)
    simp [PerceptionEntityLoop, hs, hl]

/-- Perception completes without a navigation system as long as the target cache has
`bIsOnNavMesh = false`, which is what TargetCache stores without one. -/
theorem PerceptionExecute_isSome_off_mesh (env : PerceptionEnv)
    (chunks : List (List FSwarmEntity)) (st : PerceptionState)
    (hoff : env.Player.bIsOnNavMesh = false) :
    (PerceptionExecute env st chunks).isSome = true := by
  induction chunks generalizing st with
  | nil => simp [PerceptionExecute]
  | cons chunk rest ih =>
    obtain ⟨⟨Prof1, chunk1⟩, hl⟩ := Option.isSome_iff_exists.mp
      (PerceptionEntityLoop_isSome_off_mesh env chunk (st.resetIfNewFrame env.FrameIdx).Prof
        hoff)
    obtain ⟨r2, he⟩ := Option.isSome_iff_exists.mp
      (ih { st.resetIfNewFrame env.FrameIdx with Prof := Prof1 })
    simp [PerceptionExecute, PerceptionChunk, hl, he]

/-- The target cache written without a navigation system is off the navmesh. -/
theorem CachePlayerExecute_no_nav_off_mesh (RawLoc : FVector) (Now : ℚ) (n : Nat)
    (Shared : FPlayerSharedFragment) (hn : 0 < n) (hnew : Shared.LastUpdateSeconds ≠ Now) :
    (CachePlayerExecute (some RawLoc) none Now n Shared).bIsOnNavMesh = false := by
  rw [CachePlayerExecute_stores RawLoc none Now n Shared hn hnew]
  rfl

/-- Without a navigation system no exit of the Integrate loop body that returns reprojects
the agent. -/
theorem IntegrateEntityStep_no_nav_keeps_projection (env : IntegrateEnv) (HCache HCache1 : Nat)
    (e e1 : FSwarmEntity) (hnav : env.NavSys = none)
    (h : IntegrateEntityStep env HCache e = some (HCache1, e1)) :
    e1.Agent.LastProjectedLocation = e.Agent.LastProjectedLocation := by
  unfold IntegrateEntityStep at h
  simp only at h
  split_ifs at h with h1 h2 h3 h4
  · injection h with h
    injection h with _ h
    rw [← h]
    unfold Freeze zeroSteering
    simp only
    split_ifs <;> rfl
  · injection h with h
    injection h with _ h
    rw [← h]
    unfold integrateYielding zeroSteering
    simp only [hnav]
    have hg : (afterGate env e).Agent.LastProjectedLocation = e.Agent.LastProjectedLocation := by
      unfold afterGate yieldGate
      simp only
      split_ifs <;> rfl
    split_ifs <;> exact hg
  · injection h with h
    injection h with _ h
    rw [← h]
    unfold integrateDamp
    simp only
    unfold afterGate yieldGate
    simp only
    split_ifs <;> rfl
  · injection h with h
    injection h with _ h
    rw [← h]
    unfold integrateDamp
    simp only
    unfold afterGate yieldGate
    simp only
    split_ifs <;> rfl
  · unfold integrateSteer at h
    simp only [hnav] at h
    split_ifs at h
    injection h with h
    injection h with _ h
    rw [← h]
    unfold steerFinish
    simp only
    unfold afterGate yieldGate
    simp only
    split_ifs <;> rfl

/-! ## Yield hysteresis: claim C29 -/

/-- The enter radius of the yield gate lies inside its exit radius. -/
theorem nearPlayer_enter_exit (env : IntegrateEnv) (selfPos : FVector)
    (h : nearPlayer env selfPos 2 = true) : nearPlayer env selfPos (24 / 10) = true := by
  unfold nearPlayer at h ⊢
  simp only [Bool.and_eq_true, decide_eq_true_eq] at h ⊢
  refine ⟨le_trans h.1 ?_, h.2⟩
  have hr : (100 : ℚ) ≤ max 100 env.Params.AgentRadius := le_max_left _ _
  unfold Square
  nlinarith

/-- The exit density threshold is not above the enter threshold. -/
theorem yield_thresholds (m : Int) (hm : 1 ≤ m) :
    ⌈(4 / 10 : ℚ) * (m : ℚ)⌉ ≤ ⌈(6 / 10 : ℚ) * (m : ℚ)⌉ := by
  apply Int.ceil_mono
  have : (1 : ℚ) ≤ (m : ℚ) := by exact_mod_cast hm
  nlinarith

/-- C29: whenever the enter conditions of the yield gate hold (near the target within the
enter radius and `NeighborCount >= ceil(0.6 * max(1, MaxNeighbors))`), the exit condition
(`NeighborCount < ceil(0.4 * max(1, MaxNeighbors))` or not within the exit radius) is false;
so an agent that satisfies `enterYield` and is yielding stays yielding through the gate whatever
its remaining hold, and a yielding agent that the gate releases does not satisfy `enterYield`
on the same inputs. -/
theorem Yield_hysteresis (env : IntegrateEnv) (e : FSwarmEntity) :
    (nearPlayer env e.Location 2 = true ∧
        e.Separation.NeighborCount
          ≥ ⌈(6 / 10 : ℚ) * (((max 1 env.Params.MaxNeighbors : Int)) : ℚ)⌉ →
      exitYield env e = false) ∧
    (enterYield env e = true → exitYield env e = false) ∧
    (enterYield env e = true → e.Agent.bYielding = true →
      (yieldGate env e).bYielding = true) ∧
    (e.Agent.bYielding = true → (yieldGate env e).bYielding = false →
      enterYield env e = false) := by
  have key : nearPlayer env e.Location 2 = true ∧
        e.Separation.NeighborCount
          ≥ ⌈(6 / 10 : ℚ) * (((max 1 env.Params.MaxNeighbors : Int)) : ℚ)⌉ →
      exitYield env e = false := by
    rintro ⟨hnear, hdense⟩
    unfold exitYield
    simp only [Bool.or_eq_false_iff, decide_eq_false_iff_not, not_lt, Bool.not_eq_false_eq_eq_true,
      Bool.not_eq_eq_eq_not, Bool.not_false]
    exact ⟨le_trans (yield_thresholds _ (le_max_left _ _)) hdense,
      nearPlayer_enter_exit env e.Location hnear⟩
  have henter : enterYield env e = true → exitYield env e = false := by
    intro h
    unfold enterYield at h
    simp only [Bool.and_eq_true, decide_eq_true_eq] at h
    exact key ⟨h.1.1, h.1.2⟩
  have hstay : enterYield env e = true → e.Agent.bYielding = true →
      (yieldGate env e).bYielding = true := by
    intro h hy
    have hx := henter h
    unfold yieldGate
    simp only [hy, hx, Bool.true_eq_false, false_and, ↓reduceIte, Bool.false_eq_true, and_false]
  refine ⟨key, henter, hstay, ?_⟩
  intro hy hg
  by_contra hne
  have h : enterYield env e = true := by
    cases hv : enterYield env e with
    | true => rfl
    | false => exact absurd hv hne
  rw [hstay h hy] at hg
  exact Bool.noConfusion hg

/-- A crowded agent 100 units from the target whose hold has run out: the enter condition
holds, the exit condition does not, and the gate keeps it yielding; with no neighbours the
gate releases it and the enter condition fails. -/
theorem Yield_hysteresis_example :
    enterYield sampleIntegrateEnv sampleCrowdedEntity = true ∧
    exitYield sampleIntegrateEnv sampleCrowdedEntity = false ∧
    (yieldGate sampleIntegrateEnv sampleCrowdedEntity).bYielding = true ∧
    (yieldGate sampleIntegrateEnv sampleCrowdedEntity).YieldTimeRemaining = 0 ∧
    (yieldGate sampleIntegrateEnv
      { sampleCrowdedEntity with
        Separation := sampleYieldingEntity.Separation }).bYielding = false ∧
    enterYield sampleIntegrateEnv
      { sampleCrowdedEntity with Separation := sampleYieldingEntity.Separation } = false := by
  decide!

/-! ## The frame swap of Follow: claim C30 -/

theorem FollowPathCallback_RT (F : FollowState) (BucketKey : Int)
    (Result : Option (List FVector)) :
    (FollowPathCallback F BucketKey Result).BucketResults_RT = F.BucketResults_RT ∧
      (FollowPathCallback F BucketKey Result).LastResultsFrame = F.LastResultsFrame := by
  unfold FollowPathCallback
  simp only
  split_ifs <;> exact ⟨rfl, rfl⟩

theorem FollowPathCallback_UniqueKeys (F : FollowState) (BucketKey : Int)
    (Result : Option (List FVector)) (h : UniqueKeys F.PendingBucketResults_GT) :
    UniqueKeys (FollowPathCallback F BucketKey Result).PendingBucketResults_GT := by
  unfold FollowPathCallback
  simp only
  split_ifs
  · exact mapSet_UniqueKeys _ _ _ h
  · exact h

theorem FollowPathCallback_find_other (F : FollowState) (BucketKey key : Int)
    (Result : Option (List FVector)) (hne : BucketKey ≠ key) :
    mapFind key (FollowPathCallback F BucketKey Result).PendingBucketResults_GT
      = mapFind key F.PendingBucketResults_GT := by
  unfold FollowPathCallback
  simp only
  split_ifs
  · exact mapFind_mapSet_other _ _ _ _ (fun e => hne e.symm)
  · rfl

/-- A delivered path of at least two points is the pending result of its bucket. -/
theorem FollowPathCallback_find_self (F : FollowState) (key : Int) (pts : List FVector)
    (hlen : 2 ≤ pts.length) :
    mapFind key (FollowPathCallback F key (some pts)).PendingBucketResults_GT = some pts := by
  have h1 : (pts.length : Int) ≥ 2 := by exact_mod_cast hlen
  have h2 : (pts.length : Int) > 1 := by omega
  unfold FollowPathCallback
  simp only [h1, ↓reduceIte, h2]
  exact mapFind_mapSet_self _ _ _

theorem FollowDeliver_RT (F : FollowState) (ds : List (Int × Option (List FVector))) :
    (FollowDeliver F ds).BucketResults_RT = F.BucketResults_RT ∧
      (FollowDeliver F ds).LastResultsFrame = F.LastResultsFrame := by
  induction ds generalizing F with
  | nil => exact ⟨rfl, rfl⟩
  | cons d rest ih =>
    unfold FollowDeliver
    rw [(ih _).1, (ih _).2]
    exact FollowPathCallback_RT F d.1 d.2

theorem FollowDeliver_UniqueKeys (F : FollowState) (ds : List (Int × Option (List FVector)))
    (h : UniqueKeys F.PendingBucketResults_GT) :
    UniqueKeys (FollowDeliver F ds).PendingBucketResults_GT := by
  induction ds generalizing F with
  | nil => exact h
  | cons d rest ih =>
    unfold FollowDeliver
    exact ih _ (FollowPathCallback_UniqueKeys F d.1 d.2 h)

theorem FollowDeliver_find_other (F : FollowState) (key : Int)
    (ds : List (Int × Option (List FVector))) (hne : ∀ d ∈ ds, d.1 ≠ key) :
    mapFind key (FollowDeliver F ds).PendingBucketResults_GT
      = mapFind key F.PendingBucketResults_GT := by
  induction ds generalizing F with
  | nil => rfl
  | cons d rest ih =>
    unfold FollowDeliver
    rw [ih _ (fun x hx => hne x (List.mem_cons_of_mem _ hx))]
    exact FollowPathCallback_find_other F d.1 key d.2 (hne d (List.mem_cons_self _ _))

theorem FollowDeliver_append (F : FollowState) (ds1 ds2 : List (Int × Option (List FVector))) :
    FollowDeliver F (ds1 ++ ds2) = FollowDeliver (FollowDeliver F ds1) ds2 := by
  induction ds1 generalizing F with
  | nil => rfl
  | cons d rest ih =>
    simp only [List.cons_append, FollowDeliver]
    exact ih _

/-- The swap of a new frame index: the read snapshot is the pending map, the pending map is
empty. -/
theorem FollowFrameSwap_new (F : FollowState) (FrameIdx : Nat)
    (hU : UniqueKeys F.PendingBucketResults_GT) (hne : F.LastResultsFrame ≠ FrameIdx) :
    (FollowFrameSwap F FrameIdx).BucketResults_RT = F.PendingBucketResults_GT ∧
      (FollowFrameSwap F FrameIdx).PendingBucketResults_GT = [] ∧
      (FollowFrameSwap F FrameIdx).LastResultsFrame = FrameIdx := by
  unfold FollowFrameSwap
  rw [if_pos hne]
  refine ⟨?_, rfl, rfl⟩
  show F.PendingBucketResults_GT.foldl (fun RT Pair => mapSet Pair.1 Pair.2 RT) [] = _
  rw [foldl_mapSet_append _ _ (by simpa using hU)]
  rfl

/-- The swap within one frame index changes nothing. -/
theorem FollowFrameSwap_same (F : FollowState) (FrameIdx : Nat)
    (h : F.LastResultsFrame = FrameIdx) : FollowFrameSwap F FrameIdx = F := by
  unfold FollowFrameSwap
  rw [if_neg (not_not.mpr h)]

/-- C30: in the frame swap of Follow, when the frame index differs from `LastResultsFrame` the read
snapshot `BucketResults_RT` becomes exactly the previous pending map and the pending map becomes
empty; when the frame index is unchanged neither map changes.  Hence a result pending for a
bucket at the swap of frame `FrameIdx` is what Follow finds for that bucket during that frame
index, whatever is delivered meanwhile and however often `Execute` runs in it; after the swap
of the next frame index the bucket has no result if nothing was delivered for it in between,
and the newly delivered path if its last delivery was a path of at least two points. -/
theorem Follow_bucket_result_lifetime (F : FollowState) (FrameIdx : Nat)
    (hU : UniqueKeys F.PendingBucketResults_GT) :
    (F.LastResultsFrame ≠ FrameIdx →
      (FollowFrameSwap F FrameIdx).BucketResults_RT = F.PendingBucketResults_GT ∧
      (FollowFrameSwap F FrameIdx).PendingBucketResults_GT = [] ∧
      (FollowFrameSwap F FrameIdx).LastResultsFrame = FrameIdx) ∧
    (F.LastResultsFrame = FrameIdx → FollowFrameSwap F FrameIdx = F) ∧
    (∀ (key : Int) (ds : List (Int × Option (List FVector))) (Frame2 : Nat),
      F.LastResultsFrame ≠ FrameIdx → Frame2 ≠ FrameIdx →
      mapFind key
          (FollowFrameSwap (FollowDeliver (FollowFrameSwap F FrameIdx) ds)
            FrameIdx).BucketResults_RT
        = mapFind key F.PendingBucketResults_GT ∧
      ((∀ d ∈ ds, d.1 ≠ key) →
        mapFind key
            (FollowFrameSwap (FollowDeliver (FollowFrameSwap F FrameIdx) ds)
              Frame2).BucketResults_RT
          = none) ∧
      (∀ (pts : List FVector) (ds2 : List (Int × Option (List FVector))),
        2 ≤ pts.length → (∀ d ∈ ds2, d.1 ≠ key) →
        mapFind key
            (FollowFrameSwap
              (FollowDeliver (FollowFrameSwap F FrameIdx) (ds ++ (key, some pts) :: ds2))
              Frame2).BucketResults_RT
          = some pts)) := by
  refine ⟨FollowFrameSwap_new F FrameIdx hU, FollowFrameSwap_same F FrameIdx, ?_⟩
  · intro key ds Frame2 hne hne2
    obtain ⟨hRT, hP, hL⟩ := FollowFrameSwap_new F FrameIdx hU hne
    have hU0 : UniqueKeys (FollowFrameSwap F FrameIdx).PendingBucketResults_GT := by
      rw [hP]
      exact List.nodup_nil
    refine ⟨?_, ?_, ?_⟩
    · have hsame : (FollowDeliver (FollowFrameSwap F FrameIdx) ds).LastResultsFrame
          = FrameIdx := by
        rw [(FollowDeliver_RT _ ds).2, hL]
      rw [FollowFrameSwap_same _ _ hsame, (FollowDeliver_RT _ ds).1]
      exact congrArg (mapFind key) hRT
    · intro hno
      have hfr : (FollowDeliver (FollowFrameSwap F FrameIdx) ds).LastResultsFrame ≠ Frame2 := by
        rw [(FollowDeliver_RT _ ds).2, hL]
        exact fun e => hne2 e.symm
      rw [(FollowFrameSwap_new _ Frame2 (FollowDeliver_UniqueKeys _ ds hU0) hfr).1,
        FollowDeliver_find_other _ key ds hno, hP]
      rfl
    · intro pts ds2 hlen hno
      have hfr : (FollowDeliver (FollowFrameSwap F FrameIdx)
          (ds ++ (key, some pts) :: ds2)).LastResultsFrame ≠ Frame2 := by
        rw [(FollowDeliver_RT _ _).2, hL]
        exact fun e => hne2 e.symm
      rw [(FollowFrameSwap_new _ Frame2 (FollowDeliver_UniqueKeys _ _ hU0) hfr).1,
        FollowDeliver_append]
      show mapFind key (FollowDeliver (FollowPathCallback _ key (some pts))
        ds2).PendingBucketResults_GT = some pts
      rw [FollowDeliver_find_other _ key ds2 hno]
      exact FollowPathCallback_find_self _ key pts hlen

/-- The path delivered for bucket 7 is pending; the swap of frame 1 moves it into the read
snapshot and empties the pending map; after a delivery for bucket 8 and the swap of frame 2
bucket 7 has no result. -/
theorem Follow_bucket_result_lifetime_witness :
    UniqueKeys sampleFollowDelivered.PendingBucketResults_GT ∧
    sampleFollowDelivered.PendingBucketResults_GT = [(7, sampleCachedPoints)] ∧
    ((FollowFrameSwap sampleFollowDelivered 1).BucketResults_RT
        = sampleFollowDelivered.PendingBucketResults_GT ∧
      (FollowFrameSwap sampleFollowDelivered 1).PendingBucketResults_GT = [] ∧
      (FollowFrameSwap sampleFollowDelivered 1).LastResultsFrame = 1) ∧
    mapFind 7
        (FollowFrameSwap
          (FollowDeliver (FollowFrameSwap sampleFollowDelivered 1)
            [(8, some sampleCachedPoints)]) 2).BucketResults_RT
      = none :=
  ⟨by decide!, by decide!,
    (Follow_bucket_result_lifetime sampleFollowDelivered 1 (by decide!)).1 (by decide!),
    ((Follow_bucket_result_lifetime sampleFollowDelivered 1 (by decide!)).2.2 7
      [(8, some sampleCachedPoints)] 2 (by decide!) (by decide!)).2.1 (by decide!)⟩

/-! ## Path cache eviction: claim C26 -/

/-- The eviction loop on a cache followed by further entries. -/
theorem findOldest_append (l1 l2 : List (FPathKey × FCachedPathEntry))
    (best : Option (ℚ × FPathKey)) :
    findOldest (l1 ++ l2) best = findOldest l2 (findOldest l1 best) := by
  induction l1 generalizing best with
  | nil => rfl
  | cons It rest ih =>
    cases best with
    | none =>
      simp only [List.cons_append, findOldest]
      exact ih _
    | some b =>
      obtain ⟨MinTime, OldestKey⟩ := b
      simp only [List.cons_append, findOldest]
      split_ifs <;> exact ih _

/-- The time the eviction loop ends with is the time of the entry under the key it ends with
(or the accumulator), and no entry of the cache is older. -/
theorem findOldest_min (Cache : List (FPathKey × FCachedPathEntry))
    (best : Option (ℚ × FPathKey)) (t : ℚ) (k : FPathKey)
    (h : findOldest Cache best = some (t, k)) :
    (best = some (t, k) ∨ ∃ p ∈ Cache, p.1 = k ∧ p.2.Time = t) ∧
      (∀ p ∈ Cache, t ≤ p.2.Time) ∧ (∀ b, best = some b → t ≤ b.1) := by
  induction Cache generalizing best with
  | nil =>
    simp only [findOldest] at h
    refine ⟨Or.inl h, fun p hp => absurd hp (List.not_mem_nil _), ?_⟩
    intro b hb
    rw [hb] at h
    injection h with h
    rw [h]
  | cons It rest ih =>
    cases best with
    | none =>
      simp only [findOldest] at h
      obtain ⟨h1, h2, h3⟩ := ih _ h
      refine ⟨Or.inr ?_, ?_, fun b hb => Option.noConfusion hb⟩
      · rcases h1 with h1 | ⟨p, hp, hk⟩
        · injection h1 with h1
          injection h1 with ht hk
          exact ⟨It, List.mem_cons_self _ _, hk, ht⟩
        · exact ⟨p, List.mem_cons_of_mem _ hp, hk⟩
      · intro p hp
        rcases List.mem_cons.mp hp with hp | hp
        · rw [hp]
          exact h3 _ rfl
        · exact h2 p hp
    | some b =>
      obtain ⟨MinTime, OldestKey⟩ := b
      simp only [findOldest] at h
      split_ifs at h with hlt
      · obtain ⟨h1, h2, h3⟩ := ih _ h
        have hle : t ≤ It.2.Time := h3 _ rfl
        refine ⟨Or.inr ?_, ?_, ?_⟩
        · rcases h1 with h1 | ⟨p, hp, hk⟩
          · injection h1 with h1
            injection h1 with ht hk
            exact ⟨It, List.mem_cons_self _ _, hk, ht⟩
          · exact ⟨p, List.mem_cons_of_mem _ hp, hk⟩
        · intro p hp
          rcases List.mem_cons.mp hp with hp | hp
          · rw [hp]
            exact hle
          · exact h2 p hp
        · intro b hb
          injection hb with hb
          rw [← hb]
          exact le_of_lt (lt_of_le_of_lt hle hlt)
      · obtain ⟨h1, h2, h3⟩ := ih _ h
        have hle : t ≤ MinTime := h3 _ rfl
        refine ⟨?_, ?_, ?_⟩
        · rcases h1 with h1 | ⟨p, hp, hk⟩
          · exact Or.inl h1
          · exact Or.inr ⟨p, List.mem_cons_of_mem _ hp, hk⟩
        · intro p hp
          rcases List.mem_cons.mp hp with hp | hp
          · rw [hp]
            exact le_trans hle (not_lt.mp hlt)
          · exact h2 p hp
        · intro b hb
          injection hb with hb
          rw [← hb]
          exact hle

/-- C26 as stated fails.  With a bound of 2 the solves of four keys at the same clock reading
leave the path cache with the second and the third key: the insert of the third key evicts
the first, the fourth key takes the slot freed by that and so comes first in the iteration,
and among the equal timestamps the eviction removes it, the entry just inserted.  With
`GPathCacheMaxEntries = 0` the entry inserted into the empty cache is evicted at once. -/
theorem GPathCache_evicts_entry_just_inserted :
    (tmapPairs sampleFullCache).map Prod.fst = [sampleCacheKeyB, sampleCacheKeyC] ∧
    (tmapPairs (GPathCache_RefreshOrInsert sampleFullCache sampleCacheKeyD
        (some sampleCachedPoints) 1)).map (fun p => (p.1, p.2.Time))
      = [(sampleCacheKeyD, 1), (sampleCacheKeyB, 1), (sampleCacheKeyC, 1)] ∧
    tmapFind sampleCacheKeyD
        (GPathCache_EvictOldestIfNeeded 2
          (GPathCache_RefreshOrInsert sampleFullCache sampleCacheKeyD
            (some sampleCachedPoints) 1)) = none ∧
    (tmapPairs (GPathCache_EvictOldestIfNeeded 2
        (GPathCache_RefreshOrInsert sampleFullCache sampleCacheKeyD
          (some sampleCachedPoints) 1))).map Prod.fst = [sampleCacheKeyB, sampleCacheKeyC] ∧
    tmapPairs (GPathCache_EvictOldestIfNeeded 0
        (GPathCache_RefreshOrInsert [] sampleCacheKey (some sampleCachedPoints) 1)) = [] := by
  decide!

theorem mapSet_mem_other {κ ν : Type} [DecidableEq κ] (Key : κ) (Value : ν)
    (m : List (κ × ν)) (q : κ × ν) (hq : q ∈ m) (hne : q.1 ≠ Key) :
    q ∈ mapSet Key Value m := by
  induction m with
  | nil => exact absurd hq (List.not_mem_nil _)
  | cons p rest ih =>
    obtain ⟨k, v⟩ := p
    unfold mapSet
    rcases List.mem_cons.mp hq with hq | hq
    · subst hq
      have hk : ¬ k = Key := hne
      simp only [hk, ↓reduceIte]
      exact List.mem_cons_self _ _
    · by_cases hk : k = Key
      · simp only [hk, ↓reduceIte]
        exact List.mem_cons_of_mem _ hq
      · simp only [hk, ↓reduceIte]
        exact List.mem_cons_of_mem _ (ih hq)

/-- A pair under another key stays in the map through `FindOrAdd(Key) = Value`. -/
theorem tmapSet_mem_other {κ ν : Type} [DecidableEq κ] (Key : κ) (Value : ν)
    (m : List (TSlot κ ν)) (q : κ × ν) (hq : q ∈ tmapPairs m) (hne : q.1 ≠ Key) :
    q ∈ tmapPairs (tmapSet Key Value m) := by
  rcases tmapSet_pairs Key Value m with ⟨_, h⟩ | ⟨_, l1, l2, h1, h2⟩
  · rw [h]
    exact mapSet_mem_other Key Value _ q hq hne
  · rw [h2]
    rw [h1] at hq
    rcases List.mem_append.mp hq with hq | hq
    · exact List.mem_append_left _ hq
    · exact List.mem_append_right _ (List.mem_cons_of_mem _ hq)

/-- `FindOrAdd(Key) = Value` keeps each key once. -/
theorem tmapSet_UniqueKeys {κ ν : Type} [DecidableEq κ] (Key : κ) (Value : ν)
    (m : List (TSlot κ ν)) (h : UniqueKeys (tmapPairs m)) :
    UniqueKeys (tmapPairs (tmapSet Key Value m)) := by
  rcases tmapSet_pairs Key Value m with ⟨_, h2⟩ | ⟨hn, l1, l2, h1, h2⟩
  · rw [h2]
    exact mapSet_UniqueKeys Key Value _ h
  · unfold tmapFind at hn
    rw [mapFind_eq_none_iff, h1] at hn
    rw [h1] at h
    rw [h2]
    unfold UniqueKeys at h ⊢
    simp only [List.map_append, List.map_cons, List.mem_append, not_or] at hn h ⊢
    rw [List.nodup_append] at h ⊢
    refine ⟨h.1, ?_, ?_⟩
    · rw [List.nodup_cons]
      exact ⟨hn.2, h.2.1⟩
    · intro a ha hb
      rcases List.mem_cons.mp hb with hb | hb
      · exact hn.1 (hb ▸ ha)
      · exact h.2.2 ha hb

theorem tmapRemove_UniqueKeys {κ ν : Type} [DecidableEq κ] (Key : κ)
    (m : List (TSlot κ ν)) (h : UniqueKeys (tmapPairs m)) :
    UniqueKeys (tmapPairs (tmapRemove Key m)) := by
  rw [tmapRemove_pairs]
  unfold UniqueKeys mapRemove at *
  exact h.sublist ((List.filter_sublist _).map _)

theorem UniqueKeys_value {κ ν : Type} [DecidableEq κ] (m : List (κ × ν)) (k : κ) (v w : ν)
    (h : UniqueKeys m) (hv : (k, v) ∈ m) (hw : (k, w) ∈ m) : v = w := by
  induction m with
  | nil => exact absurd hv (List.not_mem_nil _)
  | cons p rest ih =>
    unfold UniqueKeys at h ih
    rw [List.map_cons, List.nodup_cons] at h
    rcases List.mem_cons.mp hv with hv | hv <;> rcases List.mem_cons.mp hw with hw | hw
    · rw [← hv] at hw
      exact (Prod.mk.inj hw).2.symm
    · exfalso
      apply h.1
      rw [← hv]
      exact List.mem_map.mpr ⟨(k, w), hw, rfl⟩
    · exfalso
      apply h.1
      rw [← hw]
      exact List.mem_map.mpr ⟨(k, v), hv, rfl⟩
    · exact ih h.2 hv hw

/-- Whenever the eviction changes the cache, it removes the key of a pair whose time is the
minimum of all entry times. -/
theorem GPathCache_EvictOldestIfNeeded_min (M : Int)
    (C : List (TSlot FPathKey FCachedPathEntry))
    (h : GPathCache_EvictOldestIfNeeded M C ≠ C) :
    ∃ p ∈ tmapPairs C, GPathCache_EvictOldestIfNeeded M C = tmapRemove p.1 C ∧
      ∀ q ∈ tmapPairs C, p.2.Time ≤ q.2.Time := by
  unfold GPathCache_EvictOldestIfNeeded at h ⊢
  by_cases hle : tmapNum C ≤ M
  · rw [if_pos hle] at h
    exact absurd rfl h
  · rw [if_neg hle] at h ⊢
    cases hf : findOldest (tmapPairs C) none with
    | none =>
      rw [hf] at h
      exact absurd rfl h
    | some b =>
      obtain ⟨t, k⟩ := b
      obtain ⟨h1, h2, _⟩ := findOldest_min (tmapPairs C) none t k hf
      rcases h1 with h1 | ⟨p, hp, hk, ht⟩
      · exact Option.noConfusion h1
      · refine ⟨p, hp, ?_, ?_⟩
        · rw [hk]
        · intro q hq
          rw [ht]
          exact h2 q hq

/-- C26, amended: whenever `GPathCache_EvictOldestIfNeeded` removes an entry, for every cache
content, timestamps and bound, the removed entry has the minimum time of all entries; and when
the cache holds an entry under another key that is stamped before the current time, the
eviction that follows `GPathCache_RefreshOrInsert` either removes nothing or removes an entry
under another key that is stamped before the current time, so the entry just inserted is
still in the cache, wherever its slot lies in the iteration. -/
theorem GPathCache_eviction_keeps_inserted (MaxEntries : Int)
    (Cache : List (TSlot FPathKey FCachedPathEntry)) (Key : FPathKey)
    (Points : Option (List FVector)) (Now : ℚ)
    (hU : UniqueKeys (tmapPairs Cache))
    (hold : ∃ q ∈ tmapPairs Cache, q.1 ≠ Key ∧ q.2.Time < Now) :
    (∀ (M : Int) (C : List (TSlot FPathKey FCachedPathEntry)),
      GPathCache_EvictOldestIfNeeded M C ≠ C →
      ∃ p ∈ tmapPairs C, GPathCache_EvictOldestIfNeeded M C = tmapRemove p.1 C ∧
        ∀ q ∈ tmapPairs C, p.2.Time ≤ q.2.Time) ∧
    (GPathCache_EvictOldestIfNeeded MaxEntries (GPathCache_RefreshOrInsert Cache Key Points Now)
        = GPathCache_RefreshOrInsert Cache Key Points Now ∨
      ∃ p ∈ tmapPairs (GPathCache_RefreshOrInsert Cache Key Points Now),
        p.1 ≠ Key ∧ p.2.Time < Now ∧
        (∀ q ∈ tmapPairs (GPathCache_RefreshOrInsert Cache Key Points Now),
          p.2.Time ≤ q.2.Time) ∧
        GPathCache_EvictOldestIfNeeded MaxEntries
            (GPathCache_RefreshOrInsert Cache Key Points Now)
          = tmapRemove p.1 (GPathCache_RefreshOrInsert Cache Key Points Now)) ∧
    tmapFind Key
        (GPathCache_EvictOldestIfNeeded MaxEntries
          (GPathCache_RefreshOrInsert Cache Key Points Now))
      = some { Points := Points, Time := Now } := by
  refine ⟨GPathCache_EvictOldestIfNeeded_min, ?_⟩
  have hself : tmapFind Key (GPathCache_RefreshOrInsert Cache Key Points Now)
      = some { Points := Points, Time := Now } := tmapFind_tmapSet_self _ _ _
  by_cases hsame : GPathCache_EvictOldestIfNeeded MaxEntries
      (GPathCache_RefreshOrInsert Cache Key Points Now)
        = GPathCache_RefreshOrInsert Cache Key Points Now
  · exact ⟨Or.inl hsame, by rw [hsame]; exact hself⟩
  · obtain ⟨p, hp, hrem, hminp⟩ := GPathCache_EvictOldestIfNeeded_min _ _ hsame
    obtain ⟨q, hq, hqk, hqt⟩ := hold
    have hq2 : q ∈ tmapPairs (GPathCache_RefreshOrInsert Cache Key Points Now) :=
      tmapSet_mem_other Key _ Cache q hq hqk
    have hpt : p.2.Time < Now := lt_of_le_of_lt (hminp q hq2) hqt
    have hU2 : UniqueKeys (tmapPairs (GPathCache_RefreshOrInsert Cache Key Points Now)) :=
      tmapSet_UniqueKeys Key _ Cache hU
    have hne : p.1 ≠ Key := by
      intro e
      have hp2 : (Key, p.2) ∈ tmapPairs (GPathCache_RefreshOrInsert Cache Key Points Now) := by
        have hpe : p = (Key, p.2) := Prod.ext e rfl
        rw [← hpe]
        exact hp
      have hv := UniqueKeys_value _ Key p.2 { Points := Points, Time := Now } hU2 hp2
        (mapFind_mem Key _ _ hself)
      rw [hv] at hpt
      exact lt_irrefl _ hpt
    refine ⟨Or.inr ⟨p, hp, hne, hpt, hminp, hrem⟩, ?_⟩
    rw [hrem, tmapFind_tmapRemove_other _ _ _ (fun e => hne e.symm)]
    exact hself

/-- A full cache of one entry stamped 0: the insert of a second key at clock reading 1 evicts
the older entry and keeps the entry just inserted. -/
theorem GPathCache_eviction_keeps_inserted_witness :
    UniqueKeys (tmapPairs
      ([TSlot.pair sampleCacheKey { Points := none, Time := 0 }] :
        List (TSlot FPathKey FCachedPathEntry))) ∧
    (∃ q ∈ tmapPairs ([TSlot.pair sampleCacheKey { Points := none, Time := 0 }] :
        List (TSlot FPathKey FCachedPathEntry)), q.1 ≠ sampleCacheKeyB ∧ q.2.Time < 1) ∧
    tmapFind sampleCacheKeyB
        (GPathCache_EvictOldestIfNeeded 1
          (GPathCache_RefreshOrInsert [TSlot.pair sampleCacheKey { Points := none, Time := 0 }]
            sampleCacheKeyB (some sampleCachedPoints) 1))
      = some { Points := some sampleCachedPoints, Time := 1 } ∧
    tmapPairs (GPathCache_EvictOldestIfNeeded 1
        (GPathCache_RefreshOrInsert [TSlot.pair sampleCacheKey { Points := none, Time := 0 }]
          sampleCacheKeyB (some sampleCachedPoints) 1))
      = [(sampleCacheKeyB, { Points := some sampleCachedPoints, Time := 1 })] :=
  ⟨by decide!, by decide!,
    (GPathCache_eviction_keeps_inserted 1
      [TSlot.pair sampleCacheKey { Points := none, Time := 0 }]
      sampleCacheKeyB (some sampleCachedPoints) 1 (by decide!) (by decide!)).2.2,
    by decide!⟩

/-! ## The bucket key: claim C27 -/

/-- The xor of a word with zero low bits and a word below `2^n` is their sum. -/
theorem xor_high_low (n x y : Nat) (hy : y < 2 ^ n) :
    (2 ^ n * x) ^^^ y = 2 ^ n * x + y := by
  apply Nat.eq_of_testBit_eq
  intro i
  have h0 := Nat.testBit_mul_pow_two_add x (Nat.two_pow_pos n) i
  have h1 := Nat.testBit_mul_pow_two_add x hy i
  rw [Nat.add_zero] at h0
  rw [Nat.testBit_xor, h0, h1]
  by_cases hi : i < n
  · simp [hi]
  · have hle : 2 ^ n ≤ 2 ^ i := Nat.pow_le_pow_right (by decide) (not_lt.mp hi)
    simp [hi, Nat.testBit_lt_two_pow (lt_of_lt_of_le hy hle)]

/-- The xor of a word with all low bits set and a word below `2^n` complements the low
bits. -/
theorem xor_high_ones_low (n x y : Nat) (hy : y < 2 ^ n) :
    (2 ^ n * x + (2 ^ n - 1)) ^^^ y = 2 ^ n * x + (2 ^ n - (y + 1)) := by
  apply Nat.eq_of_testBit_eq
  intro i
  have hpos := Nat.two_pow_pos n
  have h0 := Nat.testBit_mul_pow_two_add x (show 2 ^ n - 1 < 2 ^ n by omega) i
  have h1 := Nat.testBit_mul_pow_two_add x (show 2 ^ n - (y + 1) < 2 ^ n by omega) i
  rw [Nat.testBit_xor, h0, h1]
  by_cases hi : i < n
  · simp [hi, Nat.testBit_two_pow_sub_succ hy]
  · have hle : 2 ^ n ≤ 2 ^ i := Nat.pow_le_pow_right (by decide) (not_lt.mp hi)
    simp [hi, Nat.testBit_lt_two_pow (lt_of_lt_of_le hy hle)]

/-- The value of `(int64(X) << 32) ^ int64(Y)` for a 32-bit `Y`: the sign extension of a
negative `Y` complements the high word. -/
theorem shift_xor_value (X Y : Int) (hY1 : -(2 ^ 31) ≤ Y) (hY2 : Y < 2 ^ 31) :
    Int.xor (X * 2 ^ 32) Y = (if 0 ≤ Y then X else -X) * 2 ^ 32 + Y := by
  cases X with
  | ofNat x =>
    have hX : Int.ofNat x * 2 ^ 32 = ((2 ^ 32 * x : ℕ) : ℤ) := by
      push_cast
      simp only [Int.ofNat_eq_coe]
      ring
    rw [hX]
    cases Y with
    | ofNat y =>
      have hy : y < 2 ^ 32 := by
        have : (y : ℤ) < 2 ^ 31 := hY2
        omega
      show (((2 ^ 32 * x) ^^^ y : ℕ) : ℤ) = _
      rw [xor_high_low 32 x y hy]
      have hnn : (0 : ℤ) ≤ Int.ofNat y := Int.ofNat_nonneg y
      rw [if_pos hnn]
      push_cast
      simp only [Int.ofNat_eq_coe]
      ring
    | negSucc y =>
      have hy : y < 2 ^ 32 := by
        have : -(2 ^ 31 : ℤ) ≤ Int.negSucc y := hY1
        rw [Int.negSucc_eq] at this
        omega
      show Int.negSucc ((2 ^ 32 * x) ^^^ y) = _
      rw [xor_high_low 32 x y hy]
      have hneg : ¬ (0 : ℤ) ≤ Int.negSucc y := by
        rw [Int.negSucc_eq]
        omega
      rw [if_neg hneg, Int.negSucc_eq, Int.negSucc_eq]
      push_cast
      simp only [Int.ofNat_eq_coe]
      ring
  | negSucc x =>
    have hX : Int.negSucc x * 2 ^ 32 = Int.negSucc (2 ^ 32 * x + (2 ^ 32 - 1)) := by
      rw [Int.negSucc_eq, Int.negSucc_eq]
      push_cast
      ring
    rw [hX]
    cases Y with
    | ofNat y =>
      have hy : y < 2 ^ 32 := by
        have : (y : ℤ) < 2 ^ 31 := hY2
        omega
      show Int.negSucc ((2 ^ 32 * x + (2 ^ 32 - 1)) ^^^ y) = _
      rw [xor_high_ones_low 32 x y hy]
      have hnn : (0 : ℤ) ≤ Int.ofNat y := Int.ofNat_nonneg y
      rw [if_pos hnn, Int.negSucc_eq, Int.negSucc_eq]
      simp only [Int.ofNat_eq_coe]
      have hsub : ((2 ^ 32 - (y + 1) : ℕ) : ℤ) = 2 ^ 32 - ((y : ℤ) + 1) := by
        rw [Nat.cast_sub (by omega)]
        push_cast
        rfl
      rw [Nat.cast_add, hsub]
      push_cast
      ring
    | negSucc y =>
      have hy : y < 2 ^ 32 := by
        have : -(2 ^ 31 : ℤ) ≤ Int.negSucc y := hY1
        rw [Int.negSucc_eq] at this
        omega
      show (((2 ^ 32 * x + (2 ^ 32 - 1)) ^^^ y : ℕ) : ℤ) = _
      rw [xor_high_ones_low 32 x y hy]
      have hneg : ¬ (0 : ℤ) ≤ Int.negSucc y := by
        rw [Int.negSucc_eq]
        omega
      rw [if_neg hneg, Int.negSucc_eq, Int.negSucc_eq]
      have hsub : ((2 ^ 32 - (y + 1) : ℕ) : ℤ) = 2 ^ 32 - ((y : ℤ) + 1) := by
        rw [Nat.cast_sub (by omega)]
        push_cast
        rfl
      rw [Nat.cast_add, hsub]
      push_cast
      ring

/-- The shift and xor is injective on pairs of 32-bit words. -/
theorem shift_xor_injective (X Y X2 Y2 : Int)
    (hY1 : -(2 ^ 31) ≤ Y) (hY2 : Y < 2 ^ 31) (hZ1 : -(2 ^ 31) ≤ Y2) (hZ2 : Y2 < 2 ^ 31)
    (h : Int.xor (X * 2 ^ 32) Y = Int.xor (X2 * 2 ^ 32) Y2) : X = X2 ∧ Y = Y2 := by
  rw [shift_xor_value X Y hY1 hY2, shift_xor_value X2 Y2 hZ1 hZ2] at h
  split_ifs at h <;> constructor <;> omega

/-- C27: `MakeBucketKey` is injective on bucket cells.  For 32-bit signed cell coordinates
(negative ones included) the value `(int64(X) << 32) ^ int64(Y)` fits a 64-bit signed word, and
equal values force `X = X'` and `Y = Y'`; so two positions have the same bucket key exactly when
`floor(x / Cell)` and `floor(y / Cell)` agree. -/
theorem MakeBucketKey_injective (P Q : FVector) (Cell : ℚ)
    (hPX : -(2 ^ 31) ≤ ⌊P.X / Cell⌋ ∧ ⌊P.X / Cell⌋ < 2 ^ 31)
    (hPY : -(2 ^ 31) ≤ ⌊P.Y / Cell⌋ ∧ ⌊P.Y / Cell⌋ < 2 ^ 31)
    (hQX : -(2 ^ 31) ≤ ⌊Q.X / Cell⌋ ∧ ⌊Q.X / Cell⌋ < 2 ^ 31)
    (hQY : -(2 ^ 31) ≤ ⌊Q.Y / Cell⌋ ∧ ⌊Q.Y / Cell⌋ < 2 ^ 31) :
    (∀ X Y X2 Y2 : Int, -(2 ^ 31) ≤ X → X < 2 ^ 31 → -(2 ^ 31) ≤ Y → Y < 2 ^ 31 →
      -(2 ^ 31) ≤ X2 → X2 < 2 ^ 31 → -(2 ^ 31) ≤ Y2 → Y2 < 2 ^ 31 →
      (-(2 ^ 63) ≤ Int.xor (X * 2 ^ 32) Y ∧ Int.xor (X * 2 ^ 32) Y < 2 ^ 63) ∧
      (Int.xor (X * 2 ^ 32) Y = Int.xor (X2 * 2 ^ 32) Y2 → X = X2 ∧ Y = Y2)) ∧
    (-(2 ^ 63) ≤ MakeBucketKey P Cell ∧ MakeBucketKey P Cell < 2 ^ 63) ∧
    (-(2 ^ 63) ≤ MakeBucketKey Q Cell ∧ MakeBucketKey Q Cell < 2 ^ 63) ∧
    (MakeBucketKey P Cell = MakeBucketKey Q Cell ↔
      ⌊P.X / Cell⌋ = ⌊Q.X / Cell⌋ ∧ ⌊P.Y / Cell⌋ = ⌊Q.Y / Cell⌋) := by
  have hrange : ∀ X Y : Int, -(2 ^ 31) ≤ X → X < 2 ^ 31 → -(2 ^ 31) ≤ Y → Y < 2 ^ 31 →
      -(2 ^ 63) ≤ Int.xor (X * 2 ^ 32) Y ∧ Int.xor (X * 2 ^ 32) Y < 2 ^ 63 := by
    intro X Y hX1 hX2 hY1 hY2
    rw [shift_xor_value X Y hY1 hY2]
    split_ifs <;> constructor <;> omega
  refine ⟨?_, hrange _ _ hPX.1 hPX.2 hPY.1 hPY.2, hrange _ _ hQX.1 hQX.2 hQY.1 hQY.2, ?_⟩
  · intro X Y X2 Y2 hX1 hX2 hY1 hY2 _ _ hZ1 hZ2
    exact ⟨hrange X Y hX1 hX2 hY1 hY2, shift_xor_injective X Y X2 Y2 hY1 hY2 hZ1 hZ2⟩
  · constructor
    · intro h
      exact shift_xor_injective _ _ _ _ hPY.1 hPY.2 hQY.1 hQY.2 h
    · rintro ⟨hx, hy⟩
      unfold MakeBucketKey
      simp only [hx, hy]

/-- The positions (-100, 3000) and (-2400, 2600) lie in the bucket cell (-1, 1) of size 2500
and have the same key; (100, 3000) lies in the cell (0, 1) and has another key. -/
theorem MakeBucketKey_injective_witness :
    ((-(2 ^ 31) ≤ ⌊(-100 : ℚ) / 2500⌋ ∧ ⌊(-100 : ℚ) / 2500⌋ < 2 ^ 31) ∧
      (-(2 ^ 31) ≤ ⌊(3000 : ℚ) / 2500⌋ ∧ ⌊(3000 : ℚ) / 2500⌋ < 2 ^ 31) ∧
      (-(2 ^ 31) ≤ ⌊(-2400 : ℚ) / 2500⌋ ∧ ⌊(-2400 : ℚ) / 2500⌋ < 2 ^ 31) ∧
      (-(2 ^ 31) ≤ ⌊(2600 : ℚ) / 2500⌋ ∧ ⌊(2600 : ℚ) / 2500⌋ < 2 ^ 31)) ∧
    MakeBucketKey { X := -100, Y := 3000, Z := 0 } 2500
      = MakeBucketKey { X := -2400, Y := 2600, Z := 0 } 2500 ∧
    MakeBucketKey { X := -100, Y := 3000, Z := 0 } 2500 = -4294967295 ∧
    MakeBucketKey { X := 100, Y := 3000, Z := 0 } 2500 = 1 :=
  ⟨⟨by decide!, by decide!, by decide!, by decide!⟩,
    (MakeBucketKey_injective { X := -100, Y := 3000, Z := 0 } { X := -2400, Y := 2600, Z := 0 }
      2500 (by decide!) (by decide!) (by decide!) (by decide!)).2.2.2.mpr
      ⟨by decide!, by decide!⟩,
    by decide!, by decide!⟩

/-! ## The path cache and the solve stamps: claim C28 -/

theorem GPathCache_EvictOldestIfNeeded_subset (MaxEntries : Int)
    (Cache : List (TSlot FPathKey FCachedPathEntry)) :
    ∀ p ∈ tmapPairs (GPathCache_EvictOldestIfNeeded MaxEntries Cache), p ∈ tmapPairs Cache := by
  intro p hp
  unfold GPathCache_EvictOldestIfNeeded at hp
  split_ifs at hp
  · exact hp
  · cases hf : findOldest (tmapPairs Cache) none with
    | none =>
      rw [hf] at hp
      exact hp
    | some b =>
      rw [hf] at hp
      dsimp only at hp
      rw [tmapRemove_pairs] at hp
      exact mapRemove_subset _ _ p hp

theorem GPathCache_EvictOldestIfNeeded_find (MaxEntries : Int)
    (Cache : List (TSlot FPathKey FCachedPathEntry)) (Key : FPathKey)
    (entry : FCachedPathEntry)
    (h : tmapFind Key (GPathCache_EvictOldestIfNeeded MaxEntries Cache) = some entry) :
    tmapFind Key Cache = some entry := by
  unfold GPathCache_EvictOldestIfNeeded at h
  split_ifs at h
  · exact h
  · cases hf : findOldest (tmapPairs Cache) none with
    | none =>
      rw [hf] at h
      exact h
    | some b =>
      rw [hf] at h
      dsimp only at h
      unfold tmapFind at h ⊢
      rw [tmapRemove_pairs] at h
      exact mapFind_mapRemove_some _ _ _ _ h

theorem CacheInv_init (T : ℚ) (MaxEntries : Int) :
    CacheInv T { PathGlobals.init with GPathCacheMaxEntries := MaxEntries } := by
  refine ⟨?_, ?_, ?_⟩
  · intro Key LastT h
    exact Option.noConfusion h
  · intro p hp
    exact absurd hp (List.not_mem_nil _)
  · intro Key entry LastT h
    exact Option.noConfusion h

theorem CacheInv_later (T T2 : ℚ) (G : PathGlobals) (h : CacheInv T G) (hT : T ≤ T2) :
    CacheInv T2 G := by
  obtain ⟨h1, h2, h3⟩ := h
  refine ⟨fun Key LastT hf => le_trans (h1 Key LastT hf) hT, ?_, h3⟩
  intro p hp
  exact ⟨le_trans (h2 p hp).1 hT, (h2 p hp).2⟩

/-- What a group iteration can do to the globals: nothing, refresh the time of the entry it
reuses, or insert a solved path, evict and stamp the key. -/
theorem ReplanGroupStep_G (env : PathReplanEnv) (Now : ℚ) (st : ReplanLoopState)
    (Pair : FPathKey × List FPendingEntity) :
    (ReplanGroupStep env Now st Pair).G = st.G ∨
    ((∃ S, (cacheLookup Now Pair.1 st.G.GPathCache).1 = some S) ∧
      (ReplanGroupStep env Now st Pair).G
        = { st.G with GPathCache := (cacheLookup Now Pair.1 st.G.GPathCache).2 }) ∨
    ((cacheLookup Now Pair.1 st.G.GPathCache).1 = none ∧
      ∃ pts : List FVector, 2 ≤ pts.length ∧
        (ReplanGroupStep env Now st Pair).G
          = { st.G with
              GPathCache := GPathCache_EvictOldestIfNeeded st.G.GPathCacheMaxEntries
                (GPathCache_RefreshOrInsert st.G.GPathCache Pair.1 (some pts) Now),
              GLastSolveTime := mapSet Pair.1 Now st.G.GLastSolveTime }) := by
  unfold ReplanGroupStep
  simp only
  cases hl : (cacheLookup Now Pair.1 st.G.GPathCache).1 with
  | some S =>
    right; left
    exact ⟨⟨S, rfl⟩, rfl⟩
  | none =>
    dsimp only
    split_ifs with hcd
    · left; rfl
    · cases hm : MinElementBy Pair.2 with
      | none => left; rfl
      | some Rep =>
        dsimp only
        cases hg : st.Entities.get? Rep.Index with
        | none => left; rfl
        | some RepEntity =>
          dsimp only
          cases hp : env.NavSys.FindPathToLocationSynchronously RepEntity.Location
              (FinalGoal env.Player) with
          | none => left; rfl
          | some PathPoints =>
            dsimp only
            split_ifs with hok
            · right; right
              refine ⟨rfl, PathPoints, ?_, rfl⟩
              have := hok.1
              exact_mod_cast this
            · left; rfl

theorem cacheLookup_some (Now : ℚ) (Key : FPathKey)
    (Cache : List (TSlot FPathKey FCachedPathEntry)) (S : List FVector)
    (h : (cacheLookup Now Key Cache).1 = some S) :
    ∃ Found, tmapFind Key Cache = some Found ∧ Found.Points = some S ∧ 2 ≤ S.length ∧
      Now - Found.Time ≤ GPathCacheTTL ∧
      (cacheLookup Now Key Cache).2 = tmapSet Key { Found with Time := Now } Cache := by
  unfold cacheLookup at h ⊢
  cases hf : tmapFind Key Cache with
  | none =>
    rw [hf] at h
    exact Option.noConfusion h
  | some Found =>
    rw [hf] at h
    dsimp only at h ⊢
    cases hp : Found.Points with
    | none =>
      rw [hp] at h
      exact Option.noConfusion h
    | some Points =>
      rw [hp] at h
      dsimp only at h ⊢
      split_ifs at h ⊢ with hc
      injection h with h
      subst h
      refine ⟨Found, rfl, hp, ?_, hc.1, ?_⟩
      · have := hc.2
        exact_mod_cast this
      · rw [hp]
        exact tmapAssign_eq_tmapSet Key _ Found Cache hf

theorem CacheInv_hit (T Now : ℚ) (G : PathGlobals) (Key : FPathKey) (S : List FVector)
    (h : CacheInv T G) (hT : T ≤ Now) (hl : (cacheLookup Now Key G.GPathCache).1 = some S) :
    CacheInv Now { G with GPathCache := (cacheLookup Now Key G.GPathCache).2 } := by
  obtain ⟨Found, hf, hp, hlen, _, h2eq⟩ := cacheLookup_some Now Key G.GPathCache S hl
  obtain ⟨h1, h2, h3⟩ := CacheInv_later T Now G h hT
  rw [h2eq]
  refine ⟨h1, ?_, ?_⟩
  · exact tmapSet_forall
      (fun e : FCachedPathEntry => e.Time ≤ Now ∧ ∃ pts, e.Points = some pts ∧ 2 ≤ pts.length)
      Key _ G.GPathCache h2 ⟨le_refl _, S, hp, hlen⟩
  · intro k entry LastT hc hs
    by_cases hk : k = Key
    · subst hk
      rw [tmapFind_tmapSet_self] at hc
      injection hc with hc
      rw [← hc]
      exact h1 k LastT hs
    · rw [tmapFind_tmapSet_other _ _ _ _ hk] at hc
      exact h3 k entry LastT hc hs

theorem CacheInv_solve (T Now : ℚ) (G : PathGlobals) (Key : FPathKey) (pts : List FVector)
    (h : CacheInv T G) (hT : T ≤ Now) (hlen : 2 ≤ pts.length) :
    CacheInv Now
      { G with
        GPathCache := GPathCache_EvictOldestIfNeeded G.GPathCacheMaxEntries
          (GPathCache_RefreshOrInsert G.GPathCache Key (some pts) Now),
        GLastSolveTime := mapSet Key Now G.GLastSolveTime } := by
  obtain ⟨h1, h2, h3⟩ := CacheInv_later T Now G h hT
  refine ⟨?_, ?_, ?_⟩
  · intro k LastT hs
    by_cases hk : k = Key
    · subst hk
      rw [mapFind_mapSet_self] at hs
      injection hs with hs
      rw [← hs]
    · rw [mapFind_mapSet_other _ _ _ _ hk] at hs
      exact h1 k LastT hs
  · intro p hp
    have hp2 := GPathCache_EvictOldestIfNeeded_subset _ _ p hp
    exact tmapSet_forall
      (fun e : FCachedPathEntry => e.Time ≤ Now ∧ ∃ pts, e.Points = some pts ∧ 2 ≤ pts.length)
      Key _ G.GPathCache h2 ⟨le_refl _, pts, rfl, hlen⟩ p hp2
  · intro k entry LastT hc hs
    have hc2 := GPathCache_EvictOldestIfNeeded_find _ _ k entry hc
    unfold GPathCache_RefreshOrInsert at hc2
    by_cases hk : k = Key
    · subst hk
      rw [tmapFind_tmapSet_self] at hc2
      rw [mapFind_mapSet_self] at hs
      injection hc2 with hc2
      injection hs with hs
      rw [← hc2, ← hs]
    · rw [tmapFind_tmapSet_other _ _ _ _ hk] at hc2
      rw [mapFind_mapSet_other _ _ _ _ hk] at hs
      exact h3 k entry LastT hc2 hs

/-- A group iteration at a clock reading not before `T` keeps the invariant. -/
theorem CacheInv_step (T Now : ℚ) (env : PathReplanEnv) (st : ReplanLoopState)
    (Pair : FPathKey × List FPendingEntity) (h : CacheInv T st.G) (hT : T ≤ Now) :
    CacheInv Now (ReplanGroupStep env Now st Pair).G := by
  rcases ReplanGroupStep_G env Now st Pair with hG | ⟨⟨S, hS⟩, hG⟩ | ⟨_, pts, hlen, hG⟩
  · rw [hG]
    exact CacheInv_later T Now _ h hT
  · rw [hG]
    exact CacheInv_hit T Now st.G Pair.1 S h hT hS
  · rw [hG]
    exact CacheInv_solve T Now st.G Pair.1 pts h hT hlen

theorem ReplanReach_invariant (T : ℚ) (G : PathGlobals) (h : ReplanReach T G) :
    CacheInv T G := by
  induction h with
  | init T MaxEntries => exact CacheInv_init T MaxEntries
  | later T T2 G _ hT ih => exact CacheInv_later T T2 G ih hT
  | step T env Now st Pair _ hT ih => exact CacheInv_step T Now env st Pair ih hT

theorem ReplanGroupLoop_reach (env : PathReplanEnv) (T Now : ℚ)
    (Groups : List (FPathKey × List FPendingEntity)) (st : ReplanLoopState)
    (h : ReplanReach T st.G) (hT : T ≤ Now) :
    ReplanReach Now (ReplanGroupLoop env Now Groups st).G := by
  induction Groups generalizing st T with
  | nil => exact ReplanReach.later T Now _ h hT
  | cons Pair rest ih =>
    unfold ReplanGroupLoop
    split_ifs
    · exact ReplanReach.later T Now _ h hT
    · exact ih Now _ (ReplanReach.step T env Now st Pair h hT) (le_refl _)

theorem PathReplanChunk_reach (env : PathReplanEnv) (T Now : ℚ) (st : PathReplanState)
    (chunk : List FSwarmEntity) (h : ReplanReach T st.G) (hT : T ≤ Now) :
    ReplanReach Now (PathReplanChunk env Now st chunk).1.G := by
  unfold PathReplanChunk
  simp only
  split_ifs
  · exact ReplanReach.later T Now _ h hT
  · exact ReplanReach.later T Now _ h hT
  · exact ReplanGroupLoop_reach env T Now _ _ h hT
  · exact ReplanReach.later T Now _ h hT
  · exact ReplanGroupLoop_reach env T Now _ _ h hT

theorem PathReplanChunks_reach (env : PathReplanEnv) (clock : Nat → ℚ)
    (hmono : ∀ j k, j ≤ k → clock j ≤ clock k) (T2 : ℚ) (hT2 : ∀ j, clock j ≤ T2)
    (chunks : List (List FSwarmEntity)) (i : Nat) (T : ℚ) (st : PathReplanState)
    (h : ReplanReach T st.G) (hT : T ≤ clock i) :
    ReplanReach T2 (PathReplanChunks env clock i st chunks).1.G := by
  induction chunks generalizing i T st with
  | nil => exact ReplanReach.later T T2 _ h (le_trans hT (hT2 i))
  | cons chunk rest ih =>
    simp only [PathReplanChunks]
    exact ih (i + 1) (clock i) _ (PathReplanChunk_reach env T (clock i) st chunk h hT)
      (hmono i (i + 1) (Nat.le_succ i))

/-- A PathReplan pass whose clock readings start at or after `T` and never decrease takes a
reached state of the globals to a reached state. -/
theorem PathReplanExecute_reach (NavSys : Option NavService) (M : FMathOps)
    (GetTypeHash : Nat → Nat) (FrameIdx GFrameNumber : Nat) (Dt : ℚ)
    (Params : FSwarmMovementParamsFragment) (Player : FPlayerSharedFragment)
    (clock : Nat → ℚ) (Prof : FSwarmProfilerSharedFragment) (G : PathGlobals)
    (chunks : List (List FSwarmEntity)) (T T2 : ℚ) (h : ReplanReach T G)
    (hT : T ≤ clock 0) (hmono : ∀ j k, j ≤ k → clock j ≤ clock k) (hT2 : ∀ j, clock j ≤ T2) :
    ReplanReach T2 (PathReplanExecute NavSys M GetTypeHash FrameIdx GFrameNumber Dt Params
      Player clock Prof G chunks).2.1 := by
  unfold PathReplanExecute
  cases NavSys with
  | none => exact ReplanReach.later T T2 _ h (le_trans hT (hT2 0))
  | some nav => exact PathReplanChunks_reach _ clock hmono T2 hT2 chunks 0 T _ h hT

/-- Under the invariant a group whose key is in the cache is not skipped by the cooldown. -/
theorem CacheInv_cooldown_skip (T Now : ℚ) (G : PathGlobals) (Key : FPathKey)
    (h : CacheInv T G) (hs : skippedByCooldown Now G Key) :
    tmapFind Key G.GPathCache = none := by
  obtain ⟨_, h2, h3⟩ := h
  obtain ⟨hl, LastT, hst, hcd⟩ := hs
  cases hf : tmapFind Key G.GPathCache with
  | none => rfl
  | some entry =>
    exfalso
    obtain ⟨_, pts, hp, hlen⟩ := h2 _ (mapFind_mem Key (tmapPairs G.GPathCache) entry hf)
    have hle := h3 Key entry LastT hf hst
    have hlen2 : (pts.length : Int) ≥ 2 := by exact_mod_cast hlen
    have httl : Now - entry.Time ≤ GPathCacheTTL := by
      unfold GKeySolveCooldown at hcd
      unfold GPathCacheTTL
      linarith
    unfold cacheLookup at hl
    rw [hf] at hl
    dsimp only at hl
    rw [hp] at hl
    dsimp only at hl
    rw [if_pos ⟨httl, hlen2⟩] at hl
    exact Option.noConfusion hl

/-- A group in the state `skippedByCooldown` is left alone by its iteration. -/
theorem ReplanGroupStep_skipped (env : PathReplanEnv) (Now : ℚ) (st : ReplanLoopState)
    (Pair : FPathKey × List FPendingEntity) (hs : skippedByCooldown Now st.G Pair.1) :
    ReplanGroupStep env Now st Pair = st := by
  obtain ⟨hl, LastT, hst, hcd⟩ := hs
  unfold ReplanGroupStep
  simp only [hl, hst, hcd, decide_True, ↓reduceIte]

/-- C28: with clock readings that never decrease, in every reached state of the path cache
and the solve stamps a key present in both has a cache time not before its stamp and a list of
at least two points; hence a group is skipped by the 0.20 s per-key solve cooldown only when
the path cache holds no entry for its key, and such a group is left as it is. -/
theorem PathReplan_cooldown_skip_only_uncached (T : ℚ) (G : PathGlobals)
    (h : ReplanReach T G) :
    (∀ Key entry LastT, tmapFind Key G.GPathCache = some entry →
      mapFind Key G.GLastSolveTime = some LastT →
      LastT ≤ entry.Time ∧ ∃ pts, entry.Points = some pts ∧ 2 ≤ pts.length) ∧
    (∀ Now Key, skippedByCooldown Now G Key → tmapFind Key G.GPathCache = none) ∧
    (∀ (env : PathReplanEnv) (Now : ℚ) (st : ReplanLoopState)
      (Pair : FPathKey × List FPendingEntity), st.G = G →
      skippedByCooldown Now G Pair.1 → ReplanGroupStep env Now st Pair = st) := by
  have hinv := ReplanReach_invariant T G h
  refine ⟨?_, ?_, ?_⟩
  · intro Key entry LastT hc hs
    exact ⟨hinv.2.2 Key entry LastT hc hs,
      (hinv.2.1 _ (mapFind_mem Key (tmapPairs G.GPathCache) entry hc)).2⟩
  · intro Now Key hs
    exact CacheInv_cooldown_skip T Now G Key hinv hs
  · intro env Now st Pair hG hs
    rw [← hG] at hs
    exact ReplanGroupStep_skipped env Now st Pair hs

/-- After the solve at clock reading 1 the key has the stamp 1 and a cache entry of time 1
with two points, and at clock reading 1.1 its group is not skipped by the cooldown. -/
theorem PathReplan_cooldown_skip_only_uncached_witness :
    ReplanReach 1 sampleSolvedGlobals ∧
    tmapFind sampleCacheKey sampleSolvedGlobals.GPathCache
      = some { Points := some sampleCachedPoints, Time := 1 } ∧
    mapFind sampleCacheKey sampleSolvedGlobals.GLastSolveTime = some 1 ∧
    ¬ skippedByCooldown (11 / 10) sampleSolvedGlobals sampleCacheKey :=
  ⟨ReplanReach.step 0 sampleReplanEnv 1 sampleReplanStart sampleReplanGroup
      (ReplanReach.init 0 8192) (by norm_num),
    by decide!, by decide!,
    fun hs => Option.noConfusion
      (((PathReplan_cooldown_skip_only_uncached 1 sampleSolvedGlobals
        (ReplanReach.step 0 sampleReplanEnv 1 sampleReplanStart sampleReplanGroup
          (ReplanReach.init 0 8192) (by norm_num))).2.1 (11 / 10) sampleCacheKey hs).symm.trans
        (show tmapFind sampleCacheKey sampleSolvedGlobals.GPathCache
          = some { Points := some sampleCachedPoints, Time := 1 } by decide!))⟩

/-- With a cache bound of 1 the second solve evicts the entry of the first key; at clock
reading 1.1 the first key has its stamp 1 and no cache entry, and its group is skipped. -/
theorem PathReplan_cooldown_skip_example :
    tmapFind sampleCacheKey sampleEvictedState.G.GPathCache = none ∧
    mapFind sampleCacheKey sampleEvictedState.G.GLastSolveTime = some 1 ∧
    (tmapPairs sampleEvictedState.G.GPathCache).map Prod.fst = [sampleReplanGroupB.1] ∧
    ReplanGroupStep sampleReplanEnv (11 / 10) sampleEvictedState sampleReplanGroup
      = sampleEvictedState := by
  decide!

end Swarm
